import Mathlib

/-!
# kio_ftps: a shallow embedding of `ftp.cpp`

The FTPS worker of `src/ftp.cpp` is embedded as state-passing Lean functions.
Byte strings (`QByteArray`, `QString`, C strings) are lists of characters, the
sockets and the host process are scripted by a `World` that is part of the
state, and every observable action (bytes written to the control connection,
connection attempts, TLS handshakes, upcalls to the host) is appended to a
trace.  Functions whose source can recurse without bound take a fuel argument.
-/

namespace KioFtps

/-- Byte strings: `QByteArray`, `QString` (through the identity remote encoding)
and C strings. -/
abbrev Bytes := List Char

/-! ## libc helpers used by the source -/

/-- C `isspace` in the "C" locale. -/
def isspace (c : Char) : Bool :=
  c == ' ' || c == '\t' || c == '\n' || c == '\x0b' || c == '\x0c' || c == '\r'

/-- C `isdigit`. -/
def isdigit (c : Char) : Bool := decide ('0' ≤ c) && decide (c ≤ '9')

/-- Value of a decimal digit character. -/
def digitVal (c : Char) : Nat := c.toNat - 48

/-- Reads the longest run of decimal digits, accumulating onto `acc`; returns the
value and the unread rest. -/
def scanDigits : Bytes → Nat → Nat × Bytes
  | [], acc => (acc, [])
  | c :: cs, acc => if isdigit c then scanDigits cs (acc * 10 + digitVal c) else (acc, c :: cs)

/-- Optional sign followed by digits, as `strtol` reads them once white space
has been skipped: the number that is written, as a mathematical integer.  The
callers reduce it to the range of their C type. -/
def scanSigned : Bytes → Int
  | '-' :: cs => - ((scanDigits cs 0).1 : Int)
  | '+' :: cs => ((scanDigits cs 0).1 : Int)
  | cs => ((scanDigits cs 0).1 : Int)

/-- C `strtol(s, 0, 10)` where `long` has 64 bits: white space is skipped, and
a number outside the range of `long` gives `LONG_MIN` or `LONG_MAX`. -/
def strtol (s : Bytes) : Int :=
  max (-(2 ^ 63)) (min (2 ^ 63 - 1) (scanSigned (s.dropWhile isspace)))

/-- Conversion of a `long` to a C `int` of 32 bits: the value modulo 2^32, in
the range -2^31 .. 2^31 - 1. -/
def toCInt (x : Int) : Int := (x + 2 ^ 31) % 2 ^ 32 - 2 ^ 31

/-- C `atoi`, which the C library defines as `(int) strtol(s, 0, 10)`: skip
white space, optional sign, digits; 0 when there is no number; a number that
does not fit an `int` is cut to its low 32 bits (`4294967516` gives 220). -/
def atoi (s : Bytes) : Int := toCInt (strtol s)

/-- The macro `charToLongLong(a)`, i.e. `strtoll(a, 0, 10)`: the value is
clamped to the range of `long long`. -/
def charToLongLong (s : Bytes) : Int :=
  max (-(2 ^ 63)) (min (2 ^ 63 - 1) (scanSigned (s.dropWhile isspace)))

/-- The C string held in a byte buffer: the bytes before the first NUL. -/
def cstr (b : Bytes) : Bytes := b.takeWhile (fun c => c != '\x00')

/-- The byte `p[i]` of a NUL-terminated buffer (`'\0'` at and past the end). -/
def byteAt (b : Bytes) (i : Nat) : Char := b.getD i '\x00'

/-- C `strchr(s, c)`: the suffix starting at the first occurrence of `c`. -/
def strchr : Bytes → Char → Option Bytes
  | [], _ => none
  | x :: xs, c => if x == c then some (x :: xs) else strchr xs c

/-- C `strrchr`: the rest of the string from the last occurrence of `c` on. -/
def strrchr : Bytes → Char → Option Bytes
  | [], _ => none
  | x :: xs, c =>
    match strrchr xs c with
    | some r => some r
    | none => if x == c then some (x :: xs) else none

/-! ## The response reader (`Ftp::ftpResponse`, lines 220-268) -/

/-- One pass of the `do ... while(iMore != 0)` body of `ftpResponse` after
`readLine`: the new `iMore` for a line, given the old one. -/
def respMore (line : Bytes) (iMore : Int) : Int :=
  let nBytes := line.length
  let iCode := atoi line
  if iMore != 0 && byteAt line 0 == ' ' then iMore
  else if decide (nBytes < 4) || decide (iCode < 100) then 0
  else if iMore == 0 && byteAt line 3 == '-' then iCode
  else if iMore != 0 && (iMore != iCode || byteAt line 3 != '-') then 0
  else iMore

/-- The new `m_iRespCode` after a line: `if(iCode > 0) m_iRespCode = iCode`. -/
def respCode (line : Bytes) (code : Int) : Int :=
  if atoi line > 0 then atoi line else code

/-- The read loop of `ftpResponse(-1)` over the lines `readLine` will deliver
(an exhausted stream delivers the empty byte array).  Returns the last line
read, the response code and the lines left unread. -/
def ftpResponseLoop : List Bytes → Int → Int → Bytes × Int × List Bytes
  | [], _, code => ([], respCode [] code, [])
  | line :: rest, iMore, code =>
    if respMore line iMore != 0 then ftpResponseLoop rest (respMore line iMore) (respCode line code)
    else (line, respCode line code, rest)

/-- `m_iRespType = (m_iRespCode > 0) ? m_iRespCode / 100 : 0`. -/
def respType (code : Int) : Int := if code > 0 then code / 100 else 0

/-! ## Qt string helpers -/

/-- `QByteArray::startsWith`. -/
def startsWith (s pre : Bytes) : Bool := pre.isPrefixOf s

/-- `QString::split(sep)` before empty parts are dropped: `cur` is the part being read. -/
def splitAux (sep : Char) : Bytes → Bytes → List Bytes
  | [], cur => [cur]
  | c :: cs, cur => if c == sep then cur :: splitAux sep cs [] else splitAux sep cs (cur ++ [c])

/-- `QString::split(sep, QString::SkipEmptyParts)`. -/
def splitSkipEmpty (sep : Char) (s : Bytes) : List Bytes :=
  (splitAux sep s []).filter (fun part => !part.isEmpty)

/-- Drops trailing white space. -/
def trimRight (s : Bytes) : Bytes := (s.reverse.dropWhile isspace).reverse

/-- `QByteArray::trimmed` / `QString::trimmed`: white space removed at both ends. -/
def trimmed (s : Bytes) : Bytes := trimRight (s.dropWhile isspace)

/-- `indexOf(c)`: position of the first `c`, or -1. -/
def indexOfChar (s : Bytes) (c : Char) : Int :=
  if s.contains c then (s.indexOf c : Int) else -1

/-- `lastIndexOf(c)`: position of the last `c`, or -1. -/
def lastIndexOfChar (s : Bytes) (c : Char) : Int :=
  if s.contains c then (s.length : Int) - 1 - (s.reverse.indexOf c : Int) else -1

/-- `QString::mid(pos, n)`. -/
def mid (s : Bytes) (pos n : Nat) : Bytes := (s.drop pos).take n

/-- `strncmp(a, b, n) == 0` on the C strings held in `a` and `b`. -/
def strncmpEq (a b : Bytes) (n : Nat) : Bool := (cstr a).take n == (cstr b).take n

/-- `QByteArray::toLower`. -/
def toLower (s : Bytes) : Bytes := s.map Char.toLower

/-- `QString::number(n)`. -/
def number (n : Nat) : Bytes := (Nat.repr n).toList

/-- `QString::number(n, 8)`. -/
def octal (n : Nat) : Bytes := Nat.toDigits 8 n

/-- `QString::left(n)`: the whole string if `n` is negative or not less than
its length. -/
def left (s : Bytes) (n : Int) : Bytes :=
  if n < 0 ∨ n ≥ (s.length : Int) then s else s.take n.toNat

/-- `QString::toLongLong()`: white space at both ends is ignored, the rest must
be an optional sign and decimal digits that fit in a `long long`; anything else
gives 0. -/
def toLongLong (s : Bytes) : Int :=
  let t := trimmed s
  let digits : Bytes := match t with
    | '-' :: r => r
    | '+' :: r => r
    | r => r
  let value := scanSigned t
  if !digits.isEmpty && digits.all isdigit && decide (-(2 ^ 63) ≤ value) && decide (value ≤ 2 ^ 63 - 1)
  then value else 0

/-! ## The LIST parser (`Ftp::ftpReadDir`, lines 1612-1818) -/

/-- C `struct tm`. -/
structure Tm where
  tm_sec : Int
  tm_min : Int
  tm_hour : Int
  tm_mday : Int
  tm_mon : Int
  tm_year : Int
  tm_wday : Int
  tm_yday : Int
  tm_isdst : Int
  deriving DecidableEq, Repr

/-- `struct FtpEntry` as `ftpReadDir` fills it.  `date` holds the `struct tm`
handed to `mktime`; the conversion to `time_t` itself (libc, in the local time
zone) is not modelled. -/
structure FtpEntry where
  name : Bytes
  owner : Bytes
  group : Bytes
  link : Bytes
  size : Nat
  type : Nat
  access : Nat
  date : Tm
  deriving DecidableEq, Repr

/-- File type bits of `<sys/stat.h>` (Linux values). -/
def S_IFREG : Nat := 0o100000
/-- Directory. -/
def S_IFDIR : Nat := 0o040000
/-- Socket. -/
def S_IFSOCK : Nat := 0o140000
/-- Block device. -/
def S_IFBLK : Nat := 0o060000
/-- Character device. -/
def S_IFCHR : Nat := 0o020000

/-- Permission bits of `<sys/stat.h>`. -/
def S_IRUSR : Nat := 0o400
/-- Write, owner. -/
def S_IWUSR : Nat := 0o200
/-- Execute, owner. -/
def S_IXUSR : Nat := 0o100
/-- Read, group. -/
def S_IRGRP : Nat := 0o040
/-- Write, group. -/
def S_IWGRP : Nat := 0o020
/-- Execute, group. -/
def S_IXGRP : Nat := 0o010
/-- Read, others. -/
def S_IROTH : Nat := 0o004
/-- Write, others. -/
def S_IWOTH : Nat := 0o002
/-- Execute, others. -/
def S_IXOTH : Nat := 0o001
/-- Set-user-id. -/
def S_ISUID : Nat := 0o4000
/-- Set-group-id. -/
def S_ISGID : Nat := 0o2000
/-- Sticky bit. -/
def S_ISVTX : Nat := 0o1000
/-- `S_IRWXU | S_IRWXG | S_IRWXO`. -/
def S_IRWXUGO : Nat := 0o777

/-- The state `strtok` works on: the buffer as modified so far and the saved
position at which `strtok(NULL, ...)` resumes. -/
structure StrtokState where
  buf : Bytes
  save : Nat
  deriving DecidableEq, Repr

/-- Length of the longest prefix whose bytes satisfy `p`. -/
def spanLen (p : Char → Bool) : Bytes → Nat
  | [] => 0
  | c :: cs => if p c then spanLen p cs + 1 else 0

/-- A delimiter byte of `strtok` (the terminating NUL is not one). -/
def isDelim (delim : Bytes) (c : Char) : Bool := c != '\x00' && delim.contains c

/-- A byte that belongs to a token. -/
def isTokChar (delim : Bytes) (c : Char) : Bool := c != '\x00' && !delim.contains c

/-- C `strtok`: skips delimiters from the saved position, and if a token starts
there returns its offset, overwrites the delimiter that ends it with NUL and
saves the position after it.  `none` is the NULL result. -/
def strtok (st : StrtokState) (delim : Bytes) : Option (Nat × StrtokState) :=
  let p := st.save + spanLen (isDelim delim) (st.buf.drop st.save)
  if byteAt st.buf p == '\x00' then none
  else
    let q := p + spanLen (isTokChar delim) (st.buf.drop p)
    if byteAt st.buf q == '\x00' then some (p, ⟨st.buf, q⟩)
    else some (p, ⟨st.buf.set q '\x00', q + 1⟩)

/-- The C string that starts at offset `off` of the buffer. -/
def cstrAt (buf : Bytes) (off : Nat) : Bytes := cstr (buf.drop off)

/-- `QByteArray::lastIndexOf(sub)`: offset of the last occurrence, `none` for -1. -/
def lastIndexOfSub (sub : Bytes) : Bytes → Option Nat
  | [] => if sub.isEmpty then some 0 else none
  | c :: cs =>
    match lastIndexOfSub sub cs with
    | some i => some (i + 1)
    | none => if sub.isPrefixOf (c :: cs) then some 0 else none

/-- The table `s_months`. -/
def s_months : List Bytes :=
  ["Jan", "Feb", "Mar", "Apr", "May", "Jun", "Jul", "Aug", "Sep", "Oct", "Nov", "Dec"].map
    String.toList

/-- The `switch ( p_access[0] )` of lines 1707-1727. -/
def entryType (c : Char) : Nat :=
  if c == 'd' then S_IFDIR
  else if c == 's' then S_IFSOCK
  else if c == 'b' then S_IFBLK
  else if c == 'c' then S_IFCHR
  else S_IFREG

/-- `if (cond) de.access |= bit`. -/
def orIf (cond : Bool) (bit acc : Nat) : Nat := if cond then acc ||| bit else acc

/-- Lines 1729-1752: the permission bits read from `p_access[1..9]`, which are
the bytes `a 1 .. a 9`, or-ed onto `access0`. -/
def entryAccess (a : Nat → Char) (access0 : Nat) : Nat :=
  orIf (a 9 == 't' || a 9 == 'T') S_ISVTX <|
  orIf (a 6 == 's' || a 6 == 'S') S_ISGID <|
  orIf (a 3 == 's' || a 3 == 'S') S_ISUID <|
  orIf (a 9 == 'x' || a 9 == 't') S_IXOTH <|
  orIf (a 8 == 'w') S_IWOTH <|
  orIf (a 7 == 'r') S_IROTH <|
  orIf (a 6 == 'x' || a 6 == 's') S_IXGRP <|
  orIf (a 5 == 'w') S_IWGRP <|
  orIf (a 4 == 'r') S_IRGRP <|
  orIf (a 3 == 'x' || a 3 == 's') S_IXUSR <|
  orIf (a 2 == 'w') S_IWUSR <|
  orIf (a 1 == 'r') S_IRUSR access0

/-- Lines 1762-1813: the `struct tm` built from the three date tokens; `now` is
`gmtime(time(0))`. -/
def entryDate (now : Tm) (date1 date2 date3 : Bytes) : Tm :=
  let currentMonth := now.tm_mon
  let t0 : Tm := { now with tm_sec := 0, tm_min := 0, tm_hour := 0, tm_mday := atoi date2 }
  let t1 : Tm := if s_months.contains date1 then { t0 with tm_mon := (s_months.indexOf date1 : Int) } else t0
  if date3.length == 4 then { t1 with tm_year := atoi date3 - 1900 }
  else
    let t2 : Tm := if t1.tm_mon > currentMonth + 1 then { t1 with tm_year := t1.tm_year - 1 } else t1
    match strchr date3 ':' with
    | some semicolon => { t2 with tm_min := atoi (semicolon.drop 1), tm_hour := atoi (date3.takeWhile (fun c => c != ':')) }
    | none => t2

/-- Conversion of a `long long` to `KIO::filesize_t`. -/
def toFilesize (x : Int) : Nat := (x % 2 ^ 64).toNat

/-- Lines 1682-1704: the name and the link target cut from the name token of a
line whose access string does (`isLink`) or does not start with `l`; `none`
when a `/` is left in the name (`continue`). -/
def ftpReadDirName (isLink : Bool) (name0 : Bytes) : Option (Bytes × Bytes) :=
  let arrow : Option Nat := if isLink then lastIndexOfSub " -> ".toList name0 else none
  let link : Bytes := match arrow with
    | some i => name0.drop (i + 4)
    | none => []
  let tmp0 : Bytes := match arrow with
    | some i => name0.take i
    | none => name0
  let tmp : Bytes := if byteAt tmp0 0 == '/' then tmp0.drop 1 else tmp0
  if tmp.contains '/' then none else some (trimmed tmp, link)

/-- Lines 1675-1817 of `ftpReadDir`: the entry filled from the tokens that
`strtok` has cut in the buffer `buf`, given by their offsets (`p_group` is
`none` for the NULL pointer); `access0` is `de.access` as set before. -/
def ftpReadDirEntry (now : Tm) (buf : Bytes) (access0 : Nat) (p_access p_owner : Nat)
    (p_group : Option Nat) (p_size p_date_1 p_date_2 p_date_3 p_name : Nat) : Option FtpEntry :=
  match ftpReadDirName (byteAt buf p_access == 'l') (cstrAt buf p_name) with
  | none => none
  | some nl =>
    some {
      name := nl.1
      owner := cstrAt buf p_owner
      group := match p_group with
        | some g => cstrAt buf g
        | none => []
      link := nl.2
      size := toFilesize (charToLongLong (cstrAt buf p_size))
      type := entryType (byteAt buf p_access)
      access := entryAccess (fun i => byteAt buf (p_access + i)) access0
      date := entryDate now (cstrAt buf p_date_1) (cstrAt buf p_date_2) (cstrAt buf p_date_3) }

/-- The body of the `while( true )` loop of `ftpReadDir` for one line read from
the data connection: the entry when the line yields one (`return true`), `none`
when the loop goes on to the next line. -/
def ftpReadDirLine (now : Tm) (data : Bytes) : Option FtpEntry :=
  let sp : Bytes := [' ']
  match strtok ⟨data, 0⟩ sp with
  | none => none
  | some (p_access, st1) =>
  match strtok st1 sp with
  | none => none
  | some (p_junk, st2) =>
  match strtok st2 sp with
  | none => none
  | some (p_owner, st3) =>
  match strtok st3 sp with
  | none => none
  | some (p_group, st4) =>
  match strtok st4 sp with
  | none => none
  | some (p_size0, st5) =>
  let access0 : Nat :=
    if (cstrAt st5.buf p_access).length == 1 && byteAt st5.buf p_junk == '[' then S_IRWXUGO else 0
  -- the hack for "/dev"
  match (if (cstrAt st5.buf p_size0).contains ',' then strtok st5 sp else some (p_size0, st5)) with
  | none => none
  | some (p_size1, st6) =>
  -- size or month
  let sizeIsDigit := isdigit (byteAt st6.buf p_size1)
  match (if sizeIsDigit then strtok st6 sp else some (p_size1, st6)) with
  | none => none
  | some (p_date_1, st7) =>
  match strtok st7 sp with
  | none => none
  | some (p_date_2, st8) =>
  match strtok st8 sp with
  | none => none
  | some (p_date_3, st9) =>
  match strtok st9 ['\r', '\n'] with
  | none => none
  | some (p_name, st10) =>
    ftpReadDirEntry now st10.buf access0 p_access p_owner
      (if sizeIsDigit then some p_group else none)
      (if sizeIsDigit then p_size1 else p_group) p_date_1 p_date_2 p_date_3 p_name

/-- The loop of `ftpReadDir` over the lines `readLine` delivers: the first
entry found and the lines left unread; an empty read ends the loop. -/
def ftpReadDirLoop (now : Tm) : List Bytes → Option FtpEntry × List Bytes
  | [] => (none, [])
  | data :: rest =>
    if data.isEmpty then (none, rest)
    else
      match ftpReadDirLine now data with
      | some de => (some de, rest)
      | none => ftpReadDirLoop now rest

/-! ## Data model -/

/-- Ways a run of the embedding can stop without a result. -/
inductive Fault
  | outOfFuel
  | assertFailed
  | nullDeref
  deriving DecidableEq, Repr

/-- The KIO error codes handed to `error()`. -/
inductive KioError
  | ERR_UNKNOWN_HOST | ERR_COULD_NOT_CONNECT | ERR_USER_CANCELED | ERR_COULD_NOT_LOGIN
  | ERR_SLAVE_DEFINED | ERR_INTERNAL | ERR_CANNOT_RESUME | ERR_IS_DIRECTORY | ERR_IS_FILE
  | ERR_DOES_NOT_EXIST | ERR_CANNOT_ENTER_DIRECTORY | ERR_DIR_ALREADY_EXIST
  | ERR_COULD_NOT_MKDIR | ERR_CANNOT_RENAME | ERR_CANNOT_DELETE | ERR_CANNOT_CHMOD
  | ERR_CANNOT_OPEN_FOR_READING | ERR_CANNOT_OPEN_FOR_WRITING | ERR_COULD_NOT_READ
  | ERR_COULD_NOT_WRITE | ERR_DISK_FULL | ERR_CONNECTION_BROKEN | ERR_CYCLIC_LINK
  | ERR_FILE_ALREADY_EXIST | ERR_CANNOT_DELETE_PARTIAL | ERR_CANNOT_RENAME_PARTIAL
  | ERR_UNSUPPORTED_ACTION | ERR_WRITE_ACCESS_DENIED | ERR_COULD_NOT_LISTEN
  deriving DecidableEq, Repr

/-- `QAbstractSocket::NetworkLayerProtocol`. -/
inductive Protocol
  | IPv4 | IPv6 | unknown
  deriving DecidableEq, Repr

/-- A `QHostAddress`: its protocol, its text form, and (for IPv4) its four bytes. -/
structure HostAddress where
  protocol : Protocol
  text : Bytes
  ip4 : List Nat
  deriving DecidableEq, Repr

/-- Modelled from the spec: the enum of capability bits in `ftp.h`, which is not
among the sources; spec section 3 gives `ext_caps` as a bit-set of these five
flags.  `m_extControl = 0` is the record of all flags clear and
`m_extControl |= flag` sets one field. -/
structure ExtControl where
  pasvUnknown : Bool
  epsvUnknown : Bool
  epsvAllSent : Bool
  eprtUnknown : Bool
  chmodUnknown : Bool
  deriving DecidableEq, Repr

/-- `m_extControl = 0`. -/
def ExtControl.zero : ExtControl := ⟨false, false, false, false, false⟩

/-- The control `QSslSocket`: what the peer will deliver and how the socket
answers, consumed as the code uses it. -/
structure ControlSocket where
  /-- `state() == ConnectedState` after `waitForConnected`. -/
  connected : Bool
  /-- `error() == HostNotFoundError`. -/
  hostNotFound : Bool
  errorString : Bytes
  peerAddress : HostAddress
  localAddress : HostAddress
  /-- the byte arrays successive `readLine()` calls return; none left: empty array. -/
  lines : List Bytes
  /-- whether successive `write()` calls fail; none left: the write succeeds. -/
  writeFails : List Bool
  /-- `waitForEncrypted` when certificate errors are not ignored. -/
  encrypts : Bool
  /-- `waitForEncrypted` after `ignoreSslErrors()`. -/
  encryptsIgnoring : Bool
  /-- `errorString()` of each entry of `sslErrors()` after a failed handshake. -/
  sslErrors : List Bytes
  deriving DecidableEq, Repr

/-- The data `QSslSocket`. -/
structure DataSocket where
  /-- `state() == ConnectedState` after `waitForConnected`. -/
  connected : Bool
  /-- `isOpen()` after `waitForConnected`. -/
  isOpen : Bool
  /-- the byte arrays successive `readLine()` calls return. -/
  lines : List Bytes
  /-- the blocks successive `read()` calls return (`none`: a negative result). -/
  reads : List (Option Bytes)
  /-- `waitForEncrypted` on this socket. -/
  encrypts : Bool
  deriving DecidableEq, Repr

/-- What `server->listen()` and the accept that follows do in active mode. -/
structure ListenScript where
  isListening : Bool
  serverPort : Nat
  /-- what `server->socket()` returns after `waitForNewConnection`. -/
  accepted : Option DataSocket
  deriving DecidableEq, Repr

/-- The configuration and metadata keys the code reads. -/
structure Config where
  textmode : Bool
  EnableAutoLogin : Bool
  autoLoginUser : Bytes
  autoLoginPass : Bytes
  DisablePassDlg : Bool
  DisablePassiveMode : Bool
  DisableEPSV : Bool
  EnableAutoLoginMacro : Bool
  autoLoginMacroText : Bytes
  MarkPartial : Bool
  MinimumKeepSize : Int
  statSide : Bytes
  details : Bytes
  resume : Bytes
  deriving DecidableEq, Repr

/-- The collaborators outside the core: the network, the user and the
configuration, as scripts consumed in order. -/
structure World where
  /-- the sockets successive control `connectToHost` calls produce (none left:
  an unconnected socket). -/
  controls : List ControlSocket
  /-- the sockets successive passive data connects produce. -/
  datas : List DataSocket
  /-- the outcome of successive `listen()` calls in active mode. -/
  listens : List ListenScript
  /-- answers to `messageBox` (`true`: Cancel). -/
  messageBoxes : List Bool
  /-- answers to `openPasswordDialog` (`none`: cancelled; else user and password). -/
  passwordDialogs : List (Option (Bytes × Bytes))
  config : Config
  /-- `gmtime(time(0))`. -/
  now : Tm
  /-- answers of the host to `canResume(offset)` (none left: no). -/
  canResumes : List Bool
  /-- what successive `readData(buffer)` calls deliver (`none`: a negative
  result; none left: the empty buffer that ends the data). -/
  uploads : List (Option Bytes)
  /-- the blocks successive `::read` calls on the local file return. -/
  fileReads : List (Option Bytes)
  /-- the results of successive `WriteToFile` calls (`none`: 0, success). -/
  fileWrites : List (Option KioError)
  /-- whether successive `KDE_lseek` calls fail. -/
  lseekFails : List Bool
  deriving DecidableEq, Repr

/-- Everything the worker does that its surroundings can observe, in order:
upcalls to the host process and actions on the two sockets. -/
inductive Event
  | infoMessage (msg : Bytes)
  | error (code : KioError) (msg : Bytes)
  | connected
  | finished
  | messageBox (text : Bytes)
  | openPasswordDialog (username : Bytes) (readOnly : Bool) (errorMsg : Bytes)
  | cacheAuthentication (username password : Bytes)
  | canResume
  /-- the question `canResume(offset)` put to the host -/
  | canResumeFrom (offset : Nat)
  /-- `mimeType(...)`: the bytes handed to the MIME database -/
  | mimeType (sniffed : Bytes)
  | totalSize (bytes : Nat)
  | processedSize (bytes : Nat)
  /-- `data(array)` -/
  | data (array : Bytes)
  | dataReq
  | redirection (path : Bytes)
  | listEntry (name : Bytes)
  | statEntry (name : Bytes)
  /-- `m_control->connectToHost(host, port)` -/
  | controlConnect (host : Bytes) (port : Int)
  /-- `m_control->write(buf)` that succeeded -/
  | controlSend (buf : Bytes)
  /-- a reply read by `ftpResponse(-1)`: its code and the retained line -/
  | controlReply (code : Int) (line : Bytes)
  /-- `m_control->startClientEncryption()`, after `ignoreSslErrors()` or not -/
  | controlEncrypt (ignoreSslErrors : Bool)
  | controlClose
  /-- `m_data->connectToHost(addr, port)` in a passive mode -/
  | dataConnect (addr : HostAddress) (port : Int)
  /-- `server->listen()` in active mode -/
  | dataListen
  /-- `m_data->startClientEncryption()` (`true`) or `startServerEncryption()` -/
  | dataEncrypt (client : Bool)
  | dataClose
  /-- `m_data->read(...)` that returned the bytes `block` (at least one) -/
  | dataRecv (block : Bytes)
  /-- `m_data->write(buffer)` -/
  | dataWrite (buffer : Bytes)
  /-- `WriteToFile(fd, buf, len)` on the local file -/
  | fileWrite (fd : Int) (buf : Bytes)
  /-- `KDE_lseek(fd, offset, SEEK_SET)` -/
  | fileSeek (fd : Int) (offset : Int)
  deriving DecidableEq, Repr

/-- `KIO::filesize_t Ftp::UnknownSize = (KIO::filesize_t)-1`. -/
def UnknownSize : Nat := 2 ^ 64 - 1

/-- The members of class `Ftp`, with the world it talks to and the trace of what
it has done. -/
structure Ftp where
  m_host : Bytes
  m_port : Nat
  m_user : Bytes
  m_pass : Bytes
  m_bUseProxy : Bool
  proxyHost : Bytes
  proxyPort : Int
  m_control : Option ControlSocket
  m_data : Option DataSocket
  m_extControl : ExtControl
  m_cDataMode : Char
  m_bLoggedOn : Bool
  m_bTextMode : Bool
  m_bBusy : Bool
  m_bPasv : Bool
  m_bIgnoreSslErrors : Bool
  m_iRespCode : Int
  m_iRespType : Int
  m_lastControlLine : Bytes
  m_initialPath : Bytes
  m_currentPath : Bytes
  m_size : Nat
  world : World
  trace : List Event
  deriving DecidableEq, Repr

/-- `LoginMode` of `ftp.h`, as used by `ftpOpenConnection`. -/
inductive LoginMode
  | loginDefered | loginExplicit | loginImplicit
  deriving DecidableEq, Repr

/-- The socket a control `connectToHost` produces when the world has none left:
unconnected. -/
def ControlSocket.unconnected : ControlSocket :=
  { connected := false, hostNotFound := false, errorString := [],
    peerAddress := ⟨Protocol.unknown, [], []⟩, localAddress := ⟨Protocol.unknown, [], []⟩,
    lines := [], writeFails := [], encrypts := false, encryptsIgnoring := false,
    sslErrors := [] }

/-- The socket a passive data connect produces when the world has none left. -/
def DataSocket.unconnected : DataSocket :=
  { connected := false, isOpen := false, lines := [], reads := [], encrypts := false }

/-- The elementary state changes of the embedding; every function below changes
the state only through these. -/
inductive Prim
  /-- an upcall or socket action is recorded -/
  | emit (e : Event)
  /-- `ftpCloseDataConnection`: `delete m_data; m_data = NULL` -/
  | closeData
  /-- `ftpCloseControlConnection` -/
  | closeControl
  /-- the read loop of `ftpResponse(-1)` -/
  | readResponse
  /-- `m_iRespType = m_iRespCode = 0` -/
  | clearResponse
  /-- `m_control->write(buf)` -/
  | controlWrite (buf : Bytes)
  | setIgnoreSslErrors (b : Bool)
  /-- `m_control = new QSslSocket(); connectToHost; waitForConnected` -/
  | newControl (host : Bytes) (port : Int)
  /-- one `messageBox` question is answered -/
  | popMessageBox
  /-- one `openPasswordDialog` is answered -/
  | popPasswordDialog
  | setLoggedOn (b : Bool)
  | setTextMode (b : Bool)
  | setInitialPath (p : Bytes)
  | setCurrentPath (p : Bytes)
  | setChmodUnknown
  | setPasvUnknown
  | setEpsvUnknown
  | setPasv (b : Bool)
  /-- `m_data = new QSslSocket(); connectToHost(addr, port); waitForConnected` -/
  | newData (addr : HostAddress) (port : Int)
  /-- `server->listen()` -/
  | listen
  /-- `m_data = server->socket()` -/
  | acceptData (d : Option DataSocket)
  | setBusy (b : Bool)
  | setDataMode (c : Char)
  | setSize (n : Nat)
  /-- the read loop of `ftpReadDir` takes lines from the data socket -/
  | readDirLines
  /-- `m_data->read(buf, maxlen)` -/
  | dataRead (maxlen : Int)
  /-- one `canResume(offset)` question is answered -/
  | popCanResume
  /-- one `readData(buffer)` request is answered -/
  | popUpload
  /-- `::read(fd, buf, maxlen)` on the local file -/
  | fileRead (maxlen : Int)
  /-- one `WriteToFile` call has returned -/
  | popFileWrite
  /-- one `KDE_lseek` call has returned -/
  | popLseek

/-- What `read(buf, maxlen)` returns on a socket or file that is going to
deliver `reads`: `none` for a negative result, else the bytes read, at most
`maxlen` of the block that is there (none left: no byte, the end of the
stream). -/
def readBlock (reads : List (Option Bytes)) (maxlen : Int) : Option Bytes :=
  if maxlen < 0 then none
  else
    match reads with
    | [] => some []
    | none :: _ => none
    | some b :: _ => some (b.take maxlen.toNat)

/-- What is left to deliver after that `read`: the bytes of the block that did
not fit stay in the stream. -/
def readRest (reads : List (Option Bytes)) (maxlen : Int) : List (Option Bytes) :=
  if maxlen < 0 then reads
  else
    match reads with
    | [] => []
    | none :: rest => rest
    | some b :: rest => if b.length ≤ maxlen.toNat then rest else some (b.drop maxlen.toNat) :: rest

/-- Appends an event to the trace. -/
def Ftp.log (s : Ftp) (e : Event) : Ftp := { s with trace := s.trace ++ [e] }

/-- What each elementary state change does. -/
def Prim.apply : Prim → Ftp → Ftp
  | .emit e, s => s.log e
  | .closeData, s =>
    match s.m_data with
    | none => s
    | some _ => { s with m_data := none, trace := s.trace ++ [Event.dataClose] }
  | .closeControl, s =>
    { s with
      m_extControl := ExtControl.zero
      m_control := none
      m_cDataMode := '\x00'
      m_bLoggedOn := false
      m_bTextMode := false
      m_bBusy := false
      trace := match s.m_control with
        | none => s.trace
        | some _ => s.trace ++ [Event.controlClose] }
  | .readResponse, s =>
    match s.m_control with
    | none => s
    | some c =>
      let r := ftpResponseLoop c.lines 0 0
      { s with
        m_control := some { c with lines := r.2.2 }
        m_lastControlLine := r.1
        m_iRespCode := r.2.1
        m_iRespType := respType r.2.1
        trace := s.trace ++ [Event.controlReply r.2.1 r.1] }
  | .clearResponse, s => { s with m_iRespType := 0, m_iRespCode := 0 }
  | .controlWrite buf, s =>
    match s.m_control with
    | none => s
    | some c =>
      { s with
        m_control := some { c with writeFails := c.writeFails.tail }
        trace := if c.writeFails.headD false then s.trace else s.trace ++ [Event.controlSend buf] }
  | .setIgnoreSslErrors b, s => { s with m_bIgnoreSslErrors := b }
  | .newControl host port, s =>
    { s with
      m_control := some (s.world.controls.headD ControlSocket.unconnected)
      world := { s.world with controls := s.world.controls.tail }
      trace := s.trace ++ [Event.controlConnect host port] }
  | .popMessageBox, s =>
    { s with world := { s.world with messageBoxes := s.world.messageBoxes.tail } }
  | .popPasswordDialog, s =>
    { s with world := { s.world with passwordDialogs := s.world.passwordDialogs.tail } }
  | .setLoggedOn b, s => { s with m_bLoggedOn := b }
  | .setTextMode b, s => { s with m_bTextMode := b }
  | .setInitialPath p, s => { s with m_initialPath := p }
  | .setCurrentPath p, s => { s with m_currentPath := p }
  | .setChmodUnknown, s => { s with m_extControl := { s.m_extControl with chmodUnknown := true } }
  | .setPasvUnknown, s => { s with m_extControl := { s.m_extControl with pasvUnknown := true } }
  | .setEpsvUnknown, s => { s with m_extControl := { s.m_extControl with epsvUnknown := true } }
  | .setPasv b, s => { s with m_bPasv := b }
  | .newData addr port, s =>
    { s with
      m_data := some (s.world.datas.headD DataSocket.unconnected)
      world := { s.world with datas := s.world.datas.tail }
      trace := s.trace ++ [Event.dataConnect addr port] }
  | .listen, s =>
    { s with
      world := { s.world with listens := s.world.listens.tail }
      trace := s.trace ++ [Event.dataListen] }
  | .acceptData d, s => { s with m_data := d }
  | .setBusy b, s => { s with m_bBusy := b }
  | .setDataMode c, s => { s with m_cDataMode := c }
  | .setSize n, s => { s with m_size := n }
  | .readDirLines, s =>
    match s.m_data with
    | none => s
    | some d => { s with m_data := some { d with lines := (ftpReadDirLoop s.world.now d.lines).2 } }
  | .dataRead maxlen, s =>
    match s.m_data with
    | none => s
    | some d =>
      { s with
        m_data := some { d with reads := readRest d.reads maxlen }
        trace := match readBlock d.reads maxlen with
          | some (c :: cs) => s.trace ++ [Event.dataRecv (c :: cs)]
          | _ => s.trace }
  | .popCanResume, s =>
    { s with world := { s.world with canResumes := s.world.canResumes.tail } }
  | .popUpload, s =>
    { s with world := { s.world with uploads := s.world.uploads.tail } }
  | .fileRead maxlen, s =>
    { s with world := { s.world with fileReads := readRest s.world.fileReads maxlen } }
  | .popFileWrite, s =>
    { s with world := { s.world with fileWrites := s.world.fileWrites.tail } }
  | .popLseek, s =>
    { s with world := { s.world with lseekFails := s.world.lseekFails.tail } }

/-- Results of runs can be compared. -/
instance {α : Type} [DecidableEq α] : DecidableEq (Except Fault α)
  | Except.ok a, Except.ok b =>
    if h : a = b then isTrue (by rw [h]) else isFalse (fun h1 => h (Except.ok.inj h1))
  | Except.error a, Except.error b =>
    if h : a = b then isTrue (by rw [h]) else isFalse (fun h1 => h (Except.error.inj h1))
  | Except.ok _, Except.error _ => isFalse (fun h => nomatch h)
  | Except.error _, Except.ok _ => isFalse (fun h => nomatch h)

/-- Computations of the embedding: they read and change the `Ftp` state and
either yield a value or stop with a `Fault`; the state reached is kept in both
cases, so the trace of a run that stops is still there. -/
def M (α : Type) : Type := Ftp → Except Fault α × Ftp

/-- Sequencing: a fault ends the computation. -/
def M.bind {α β : Type} (m : M α) (f : α → M β) : M β := fun s =>
  match m s with
  | (Except.ok a, s1) => f a s1
  | (Except.error e, s1) => (Except.error e, s1)

instance : Monad M where
  pure a := fun s => (Except.ok a, s)
  bind := M.bind

/-- Reads the current state. -/
def getFtp : M Ftp := fun s => (Except.ok s, s)

/-- Stops with a fault. -/
def fault {α : Type} (e : Fault) : M α := fun s => (Except.error e, s)

/-- Performs an elementary state change. -/
def prim (p : Prim) : M Unit := fun s => (Except.ok (), p.apply s)

/-- The upcall `error(code, msg)`. -/
def error (code : KioError) (msg : Bytes) : M Unit := prim (Prim.emit (Event.error code msg))

/-- The upcall `infoMessage(msg)`. -/
def infoMessage (msg : Bytes) : M Unit := prim (Prim.emit (Event.infoMessage msg))

/-! ## Constants and login data -/

/-- `#define FTP_LOGIN "anonymous"`. -/
def FTP_LOGIN : Bytes := "anonymous".toList

/-- `#define FTP_PASSWD "anonymous@"`. -/
def FTP_PASSWD : Bytes := "anonymous@".toList

/-- `DEFAULT_FTP_PORT` of `kio/ioslave_defaults.h`. -/
def DEFAULT_FTP_PORT : Nat := 21

/-- Modelled from the spec: the default value of the `maxretries` parameter of
`ftpSendCmd`, declared in `ftp.h` which is not among the sources; spec section 7
gives the retry budget as 1 by default. -/
def defaultRetries : Int := 1

/-- The part of `KIO::AuthInfo` the login loop reads and writes. -/
structure AuthInfo where
  username : Bytes
  password : Bytes
  readOnly : Bool
  deriving DecidableEq, Repr

/-! ## The control connection -/

/-- `Ftp::ftpResponse(iOffset)` (lines 220-268): reads a new reply when
`iOffset < 0`, and returns the C string of the last line with `iOffset`
characters skipped. -/
def ftpResponse (iOffset : Int) : M Bytes := do
  let s ← getFtp
  match s.m_control with
  | none => fault Fault.assertFailed
  | some c =>
    if iOffset < 0 then do
      prim Prim.readResponse
      pure (cstr (ftpResponseLoop c.lines 0 0).1)
    else pure ((cstr s.m_lastControlLine).drop iOffset.toNat)

/-- The `for` loop over `sslErrors()` in `ftpOpenControlConnection` (lines
439-445): one `messageBox` per error; the answer Cancel assigns `false` to
`doNotIgnore`.  Returns `doNotIgnore`. -/
def askSslErrors : List Bytes → Bool → M Bool
  | [], doNotIgnore => pure doNotIgnore
  | e :: es, doNotIgnore => do
    let s ← getFtp
    prim (Prim.emit (Event.messageBox e))
    prim Prim.popMessageBox
    if s.world.messageBoxes.headD true then askSslErrors es false
    else askSslErrors es doNotIgnore

mutual

/-- `Ftp::ftpSendCmd(cmd, maxretries)` (lines 684-774). -/
def ftpSendCmd : Nat → Bytes → Int → M Bool
  | 0, _, _ => fault Fault.outOfFuel
  | fuel + 1, cmd, maxretries => do
    let s ← getFtp
    match s.m_control with
    | none => fault Fault.assertFailed
    | some c =>
      if cmd.contains '\r' || cmd.contains '\n' then do
        error KioError.ERR_UNSUPPORTED_ACTION s.m_host
        pure false
      else do
        let isPassCmd := toLower (cmd.take 4) == "pass".toList
        let buf := cmd ++ "\r\n".toList
        -- int num = m_control->write(buf);  num > 0 iff the write succeeded
        prim (Prim.controlWrite buf)
        if c.writeFails.headD false then prim Prim.clearResponse
        else do
          let _ ← ftpResponse (-1)
          pure ()
        let s1 ← getFtp
        if decide (s1.m_iRespType ≤ 0) || s1.m_iRespCode == 421 then
          if !s1.m_bLoggedOn then do
            if decide (maxretries > 0) && !isPassCmd then do
              closeConnection fuel
              let opened ← ftpOpenConnection fuel LoginMode.loginDefered
              if opened then do
                let _ ← ftpSendCmd fuel cmd (maxretries - 1)
                pure ()
              else pure ()
            else pure ()
            pure false
          else
            if maxretries < 1 then pure false
            else do
              closeConnection fuel
              -- openConnection()
              let _ ← ftpOpenConnection fuel LoginMode.loginExplicit
              let s2 ← getFtp
              if !s2.m_bLoggedOn then do
                if s2.m_control.isSome then do
                  error KioError.ERR_COULD_NOT_LOGIN s2.m_host
                  closeConnection fuel
                else pure ()
                pure false
              else
                ftpSendCmd fuel cmd (if maxretries != 0 then maxretries - 1 else maxretries)
        else pure true

/-- `Ftp::closeConnection` (lines 271-291). -/
def closeConnection : Nat → M Unit
  | 0 => fault Fault.outOfFuel
  | fuel + 1 => do
    let s ← getFtp
    if s.m_bBusy then prim Prim.closeData else pure ()
    if s.m_bLoggedOn then do
      let _ ← ftpSendCmd fuel "quit".toList 0
      pure ()
    else pure ()
    prim Prim.closeData
    prim Prim.closeControl

/-- `Ftp::ftpOpenConnection(loginMode)` (lines 316-359). -/
def ftpOpenConnection : Nat → LoginMode → M Bool
  | 0, _ => fault Fault.outOfFuel
  | fuel + 1, loginMode => do
    let s ← getFtp
    if loginMode == LoginMode.loginImplicit && s.m_bLoggedOn then
      match s.m_control with
      | none => fault Fault.assertFailed
      | some _ => pure true
    else do
      infoMessage ("Opening connection to host ".toList ++ s.m_host)
      if s.m_host.isEmpty then do
        error KioError.ERR_UNKNOWN_HOST []
        pure false
      else if s.m_bLoggedOn then fault Fault.assertFailed
      else do
        prim (Prim.setInitialPath [])
        prim (Prim.setCurrentPath [])
        let host := if s.m_bUseProxy then s.proxyHost else s.m_host
        let port : Int := if s.m_bUseProxy then s.proxyPort else (s.m_port : Int)
        let opened ← ftpOpenControlConnection fuel host port false
        if !opened then pure false
        else do
          infoMessage ("Connected to host ".toList ++ s.m_host)
          let loggedOn ←
            if loginMode != LoginMode.loginDefered then do
              let ok ← ftpLogin fuel
              prim (Prim.setLoggedOn ok)
              pure ok
            else pure true
          if !loggedOn then pure false
          else do
            prim (Prim.setTextMode s.world.config.textmode)
            prim (Prim.emit Event.connected)
            pure true

/-- `Ftp::ftpOpenControlConnection(host, port, ignoreSslErrors)` (lines 366-466). -/
def ftpOpenControlConnection : Nat → Bytes → Int → Bool → M Bool
  | 0, _, _, _ => fault Fault.outOfFuel
  | fuel + 1, host, port0, ignoreSslErrors => do
    prim (Prim.setIgnoreSslErrors ignoreSslErrors)
    closeConnection fuel
    let port : Int := if port0 == 0 then 21 else port0
    prim (Prim.newControl host port)
    let s ← getFtp
    match s.m_control with
    | none => fault Fault.nullDeref
    | some c =>
      let greeting : Option KioError × Bytes ←
        if c.connected then do
          let psz ← ftpResponse (-1)
          let s1 ← getFtp
          if s1.m_iRespType != 2 then
            pure (some KioError.ERR_COULD_NOT_CONNECT,
              if psz.isEmpty then [] else host ++ ".\n\nReason: ".toList ++ psz)
          else pure (none, [])
        else
          pure (some (if c.hostNotFound then KioError.ERR_UNKNOWN_HOST
              else KioError.ERR_COULD_NOT_CONNECT),
            host ++ ": ".toList ++ c.errorString)
      let auth : Option KioError × Bytes ←
        if greeting.1 == none then do
          let ok ← ftpSendCmd fuel "AUTH TLS".toList defaultRetries
          let s2 ← getFtp
          if ok && s2.m_iRespCode == 234 then pure (none, [])
          else pure (some KioError.ERR_SLAVE_DEFINED,
            "The FTP server does not seem to support ftps-encryption.".toList)
        else pure greeting
      match auth.1 with
      | some code => do
        closeConnection fuel
        error code auth.2
        pure false
      | none => do
        let s3 ← getFtp
        match s3.m_control with
        | none => fault Fault.nullDeref
        | some c3 =>
          prim (Prim.emit (Event.controlEncrypt ignoreSslErrors))
          if (if ignoreSslErrors then c3.encryptsIgnoring else c3.encrypts) then pure true
          else do
            let doNotIgnore ← askSslErrors c3.sslErrors false
            if doNotIgnore then do
              closeConnection fuel
              error KioError.ERR_SLAVE_DEFINED "TLS Handshake Error.".toList
              pure false
            else do
              closeConnection fuel
              ftpOpenControlConnection fuel host port true

/-- `Ftp::ftpLogin` (lines 475-642): the credentials chosen before the loop, the
loop, and what follows it. -/
def ftpLogin : Nat → M Bool
  | 0 => fault Fault.outOfFuel
  | fuel + 1 => do
    infoMessage "Sending login information".toList
    let s ← getFtp
    if s.m_bLoggedOn then fault Fault.assertFailed
    else do
      let cfg := s.world.config
      let useAuto := cfg.EnableAutoLogin && !cfg.autoLoginUser.isEmpty
      let user1 := if useAuto then cfg.autoLoginUser else s.m_user
      let pass1 := if useAuto then cfg.autoLoginPass else s.m_pass
      let anon := user1.isEmpty && pass1.isEmpty
      let user := if anon then FTP_LOGIN else user1
      let pass := if anon then FTP_PASSWD else pass1
      let loggedIn ← ftpLoginLoop fuel user pass ⟨[], [], false⟩ 0
      if !loggedIn then pure false
      else do
        infoMessage "Login OK".toList
        let syst ← ftpSendCmd fuel "SYST".toList defaultRetries
        let s1 ← getFtp
        if syst && s1.m_iRespType == 2 then do
          let r ← ftpResponse 0
          if strncmpEq r "215 Windows_NT".toList 14 then do
            let _ ← ftpSendCmd fuel "site dirstyle".toList defaultRetries
            let r2 ← ftpResponse 0
            if strncmpEq r2 "200 MSDOS-like directory output is on".toList 37 then do
              let _ ← ftpSendCmd fuel "site dirstyle".toList defaultRetries
              pure ()
            else pure ()
            prim Prim.setChmodUnknown
          else pure ()
        else pure ()
        if cfg.EnableAutoLoginMacro then ftpAutoLoginMacro fuel else pure ()
        let pwd ← ftpSendCmd fuel "PWD".toList defaultRetries
        let s2 ← getFtp
        if !pwd || s2.m_iRespType != 2 then do
          error KioError.ERR_COULD_NOT_LOGIN
            ("Could not login to ".toList ++ s2.m_host ++ ".".toList)
          pure false
        else do
          let sTmp ← ftpResponse 3
          let iBeg := indexOfChar sTmp '"'
          let iEnd := lastIndexOfChar sTmp '"'
          if decide (iBeg > 0) && decide (iBeg < iEnd) then do
            let p0 := mid sTmp (iBeg + 1).toNat (iEnd - iBeg - 1).toNat
            let p1 := if p0.head? != some '/' then '/' :: p0 else p0
            prim (Prim.setInitialPath p1)
            prim (Prim.setCurrentPath p1)
          else pure ()
          pure true

/-- One pass of the `do ... while( ++failedAuth )` loop of `ftpLogin` (lines
512-594) up to the prompt; `true` when the loop ends logged in, `false` when
`ftpLogin` returns false from inside it. -/
def ftpLoginLoop : Nat → Bytes → Bytes → AuthInfo → Int → M Bool
  | 0, _, _, _, _ => fault Fault.outOfFuel
  | fuel + 1, user, pass, info, failedAuth => do
    let s ← getFtp
    if decide (failedAuth > 0) || (!user.isEmpty && pass.isEmpty) then do
      let errorMsg ←
        if failedAuth > 0 then do
          let r ← ftpResponse 0
          pure ("Message sent:\nLogin using username=".toList ++ user ++
            " and password=[hidden]\n\nServer replied:\n".toList ++ r ++ "\n\n".toList)
        else pure []
      let info1 : AuthInfo := if user != FTP_LOGIN then { info with username := user } else info
      let info2 : AuthInfo :=
        { info1 with readOnly := !s.m_user.isEmpty && s.m_user != FTP_LOGIN }
      if s.world.config.DisablePassDlg then do
        error KioError.ERR_USER_CANCELED s.m_host
        pure false
      else do
        prim (Prim.emit (Event.openPasswordDialog info2.username info2.readOnly errorMsg))
        prim Prim.popPasswordDialog
        match s.world.passwordDialogs.headD none with
        | none => do
          error KioError.ERR_USER_CANCELED s.m_host
          pure false
        | some (u, p) =>
          ftpLoginAttempt fuel u p { info2 with username := u, password := p } failedAuth
    else ftpLoginAttempt fuel user pass info failedAuth

/-- The rest of a pass of the login loop: `USER`, `pass`, and the loop
condition `++failedAuth`. -/
def ftpLoginAttempt : Nat → Bytes → Bytes → AuthInfo → Int → M Bool
  | 0, _, _, _, _ => fault Fault.outOfFuel
  | fuel + 1, user, pass, info, failedAuth => do
    let s ← getFtp
    let proxyPart : Bytes :=
      if s.m_bUseProxy then
        '@' :: s.m_host ++
          (if decide (s.m_port > 0) && s.m_port != DEFAULT_FTP_PORT then ':' :: number s.m_port
           else [])
      else []
    let sent ← ftpSendCmd fuel ("USER ".toList ++ user ++ proxyPart) defaultRetries
    let s1 ← getFtp
    let loggedIn := sent && s1.m_iRespCode == 230
    let needPass := s1.m_iRespCode == 331
    if !loggedIn && !needPass then
      -- ++failedAuth; continue;  and then the condition ++failedAuth
      if failedAuth + 1 + 1 != 0 then ftpLoginLoop fuel user pass info (failedAuth + 1 + 1)
      else pure true
    else do
      let loggedIn2 ←
        if needPass then do
          let sent2 ← ftpSendCmd fuel ("pass ".toList ++ pass) defaultRetries
          let s2 ← getFtp
          pure (sent2 && s2.m_iRespCode == 230)
        else pure loggedIn
      if loggedIn2 then do
        if user != FTP_LOGIN && pass != FTP_PASSWD then
          prim (Prim.emit (Event.cacheAuthentication info.username info.password))
        else pure ()
        -- failedAuth = -1, and the condition ++failedAuth is 0
        pure true
      else
        if failedAuth + 1 != 0 then ftpLoginLoop fuel user pass info (failedAuth + 1)
        else pure true

/-- `Ftp::ftpAutoLoginMacro` (lines 644-672). -/
def ftpAutoLoginMacro : Nat → M Unit
  | 0 => fault Fault.outOfFuel
  | fuel + 1 => do
    let s ← getFtp
    let text := s.world.config.autoLoginMacroText
    if text.isEmpty then pure ()
    else if (splitSkipEmpty '\n' text).any (fun line => startsWith line "init".toList) then
      ftpMacroCwd fuel ((splitSkipEmpty '\\' text).drop 1)
    else pure ()

/-- The inner loop of `ftpAutoLoginMacro` (lines 661-667) over the parts after
the name of the init block. -/
def ftpMacroCwd : Nat → List Bytes → M Unit
  | 0, _ => fault Fault.outOfFuel
  | fuel + 1, parts =>
    match parts with
    | [] => pure ()
    | it :: rest => do
      if startsWith it "cwd".toList then do
        let _ ← ftpFolder fuel (trimmed (it.drop 4)) false
        pure ()
      else pure ()
      ftpMacroCwd fuel rest

/-- `Ftp::ftpFolder(path, bReportError)` (lines 2279-2301). -/
def ftpFolder : Nat → Bytes → Bool → M Bool
  | 0, _, _ => fault Fault.outOfFuel
  | fuel + 1, path, bReportError => do
    let newPath := if decide (path.length > 1) && path.getLast? == some '/' then path.dropLast else path
    let s ← getFtp
    if s.m_currentPath == newPath then pure true
    else do
      let sent ← ftpSendCmd fuel ("cwd ".toList ++ newPath) defaultRetries
      if !sent then pure false
      else do
        let s1 ← getFtp
        if s1.m_iRespType != 2 then do
          if bReportError then error KioError.ERR_CANNOT_ENTER_DIRECTORY path else pure ()
          pure false
        else do
          prim (Prim.setCurrentPath newPath)
          pure true

end

/-! ## The data-channel negotiator -/

/-- `%d` of `sscanf`: white space is skipped, then an optional sign and at least
one digit are read. -/
def scanInt (s : Bytes) : Option (Int × Bytes) :=
  match s.dropWhile isspace with
  | '-' :: c :: cs =>
    if isdigit c then some (- ((scanDigits (c :: cs) 0).1 : Int), (scanDigits (c :: cs) 0).2)
    else none
  | '+' :: c :: cs =>
    if isdigit c then some (((scanDigits (c :: cs) 0).1 : Int), (scanDigits (c :: cs) 0).2)
    else none
  | c :: cs =>
    if isdigit c then some (((scanDigits (c :: cs) 0).1 : Int), (scanDigits (c :: cs) 0).2)
    else none
  | [] => none

/-- A literal character of a `sscanf` format: it must be the next input byte. -/
def scanLit (c : Char) : Bytes → Option Bytes
  | [] => none
  | x :: xs => if x == c then some xs else none

/-- The conversions `%d,%d,...,%d` (`n + 1` of them, separated by literal
commas): the values when all succeed. -/
def scanCommaInts : Nat → Bytes → Option (List Int)
  | 0, s =>
    match scanInt s with
    | none => none
    | some (i, _) => some [i]
  | n + 1, s =>
    match scanInt s with
    | none => none
    | some (i, r) =>
      match scanLit ',' r with
      | none => none
      | some r1 =>
        match scanCommaInts n r1 with
        | none => none
        | some is => some (i :: is)

/-- `sscanf(start, "L%d,%d,%d,%d,%d,%d", ...) == 6` for the leading literal `L`
(`'('` or `'='`; the closing `')'` of the first format comes after the sixth
conversion and does not change the count): the six values when all six
conversions succeed. -/
def sscanf6 (lead : Char) (start : Bytes) : Option (List Int) :=
  match scanLit lead start with
  | none => none
  | some r => scanCommaInts 5 r

/-- `sscanf(start, "|||%d|", &portnum) == 1`: the value read. -/
def sscanfEpsv (start : Bytes) : Option Int :=
  match scanLit '|' start with
  | none => none
  | some r1 =>
    match scanLit '|' r1 with
    | none => none
    | some r2 =>
      match scanLit '|' r2 with
      | none => none
      | some r3 =>
        match scanInt r3 with
        | none => none
        | some (n, _) => some n

/-- Conversion of an `int` to `quint16`. -/
def toQuint16 (x : Int) : Int := x % 65536

/-- Lines 813-830 of `ftpOpenPASVDataConnection`: from the text of the PASV
reply after its first three characters to `quint16 port = i[4] << 8 | i[5]`;
`none` when parsing fails. -/
def pasvPort (text : Bytes) : Option Int :=
  let start := match strchr text '(' with
    | some p => some p
    | none => strchr text '='
  match start with
  | none => none
  | some p =>
    match (match sscanf6 '(' p with
      | some i => some i
      | none => sscanf6 '=' p) with
    | none => none
    | some i => some (toQuint16 (Int.lor (i.getD 4 0 * 256) (i.getD 5 0)))

/-- `Ftp::ftpOpenPASVDataConnection` (lines 783-841); the `int` result 0 is `none`. -/
def ftpOpenPASVDataConnection (fuel : Nat) : M (Option KioError) := do
  let s ← getFtp
  match s.m_control with
  | none => fault Fault.assertFailed
  | some c =>
    if s.m_data.isSome then fault Fault.assertFailed
    else if c.peerAddress.protocol != Protocol.IPv4 then pure (some KioError.ERR_INTERNAL)
    else if s.m_extControl.pasvUnknown then pure (some KioError.ERR_INTERNAL)
    else do
      prim (Prim.setPasv true)
      let sent ← ftpSendCmd fuel "PASV".toList defaultRetries
      let s1 ← getFtp
      if !sent || s1.m_iRespType != 2 then do
        if s1.m_iRespType == 5 then prim Prim.setPasvUnknown else pure ()
        pure (some KioError.ERR_INTERNAL)
      else do
        let text ← ftpResponse 3
        match pasvPort text with
        | none => pure (some KioError.ERR_INTERNAL)
        | some port => do
          prim (Prim.newData c.peerAddress port)
          let s2 ← getFtp
          match s2.m_data with
          | none => fault Fault.nullDeref
          | some d => pure (if d.connected then none else some KioError.ERR_INTERNAL)

/-- `Ftp::ftpOpenEPSVDataConnection` (lines 846-880). -/
def ftpOpenEPSVDataConnection (fuel : Nat) : M (Option KioError) := do
  let s ← getFtp
  match s.m_control with
  | none => fault Fault.assertFailed
  | some c =>
    if s.m_data.isSome then fault Fault.assertFailed
    else if s.m_extControl.epsvUnknown then pure (some KioError.ERR_INTERNAL)
    else do
      prim (Prim.setPasv true)
      let sent ← ftpSendCmd fuel "EPSV".toList defaultRetries
      let s1 ← getFtp
      if !sent || s1.m_iRespType != 2 then do
        if s1.m_iRespType == 5 then prim Prim.setEpsvUnknown else pure ()
        pure (some KioError.ERR_INTERNAL)
      else do
        let text ← ftpResponse 3
        match (match strchr text '|' with
          | none => none
          | some start => sscanfEpsv start) with
        | none => pure (some KioError.ERR_INTERNAL)
        | some portnum => do
          prim (Prim.newData c.peerAddress (toQuint16 portnum))
          let s2 ← getFtp
          match s2.m_data with
          | none => fault Fault.nullDeref
          | some d => pure (if d.isOpen then none else some KioError.ERR_INTERNAL)

/-- `Ftp::encryptDataChannel` (lines 882-892). -/
def encryptDataChannel : M (Option KioError) := do
  let s ← getFtp
  match s.m_data with
  | none => fault Fault.nullDeref
  | some d => do
    prim (Prim.emit (Event.dataEncrypt s.m_bPasv))
    pure (if d.encrypts then none else some KioError.ERR_SLAVE_DEFINED)

/-- `Ftp::requestDataEncryption` (lines 894-913). -/
def requestDataEncryption (fuel : Nat) : M Bool := do
  let pbsz ← ftpSendCmd fuel "PBSZ 0".toList defaultRetries
  let s1 ← getFtp
  if !(pbsz && s1.m_iRespType == 2) then pure false
  else do
    let prot ← ftpSendCmd fuel "PROT P".toList defaultRetries
    let s2 ← getFtp
    if !(prot && s2.m_iRespType == 2) then do
      let _ ← ftpSendCmd fuel "PROT C".toList defaultRetries
      pure false
    else pure true

/-- The text `sprintf("PORT %d,%d,%d,%d,%d,%d", pData[0..5])` builds from the
bytes of `struct { quint32 ip4; quint16 port; }` on a little-endian host. -/
def portCommand (ip4 : List Nat) (port : Nat) : Bytes :=
  "PORT ".toList ++ number (ip4.getD 3 0) ++ ",".toList ++ number (ip4.getD 2 0) ++ ",".toList ++
    number (ip4.getD 1 0) ++ ",".toList ++ number (ip4.getD 0 0) ++ ",".toList ++
    number (port % 256) ++ ",".toList ++ number (port / 256 % 256)

/-- `Ftp::ftpOpenPortDataConnection` (lines 988-1042). -/
def ftpOpenPortDataConnection (fuel : Nat) : M (Option KioError) := do
  let s ← getFtp
  match s.m_control with
  | none => fault Fault.assertFailed
  | some c =>
    if s.m_data.isSome then fault Fault.assertFailed
    else do
      prim (Prim.setPasv false)
      if s.m_extControl.eprtUnknown then pure (some KioError.ERR_INTERNAL)
      else do
        let l := s.world.listens.headD ⟨false, 0, none⟩
        prim Prim.listen
        if !l.isListening then pure (some KioError.ERR_COULD_NOT_LISTEN)
        else do
          let command : Bytes :=
            if c.localAddress.protocol == Protocol.IPv4 then portCommand c.localAddress.ip4 l.serverPort
            else if c.localAddress.protocol == Protocol.IPv6 then
              "EPRT |2|".toList ++ c.localAddress.text ++ "|".toList ++ number l.serverPort ++ "|".toList
            else []
          let sent ← ftpSendCmd fuel command defaultRetries
          let s1 ← getFtp
          if sent && s1.m_iRespType == 2 then pure none
          else do
            prim (Prim.acceptData l.accepted)
            pure (if l.accepted.isSome then none else some KioError.ERR_COULD_NOT_CONNECT)

/-- The passive block of `ftpOpenDataConnection` (lines 937-965).  `Sum.inl r`:
the function returns `r` from inside the block; `Sum.inr e`: control leaves the
block with `iErrCodePASV = e`. -/
def ftpOpenPassiveModes (fuel : Nat) : M (Sum (Option KioError) (Option KioError)) := do
  let s ← getFtp
  let iErrCodePASV ← ftpOpenPASVDataConnection fuel
  if iErrCodePASV == none then do
    let _ ← requestDataEncryption fuel
    pure (Sum.inl none)
  else do
    prim Prim.closeData
    let epsv : Sum Unit (Option KioError) ←
      if !s.world.config.DisableEPSV then do
        let iErrCode ← ftpOpenEPSVDataConnection fuel
        if iErrCode == none then do
          let _ ← requestDataEncryption fuel
          pure (Sum.inl ())
        else do
          prim Prim.closeData
          pure (Sum.inr iErrCode)
      else pure (Sum.inr iErrCodePASV)
    match epsv with
    | Sum.inl _ => pure (Sum.inl none)
    | Sum.inr iErrCode => do
      let s1 ← getFtp
      if s1.m_extControl.epsvAllSent then pure (Sum.inl (iErrCodePASV.orElse fun _ => iErrCode))
      else pure (Sum.inr iErrCodePASV)

/-- The fallback to port mode of `ftpOpenDataConnection` (lines 967-979), with
the error code `iErrCodePASV` remembered from the passive block;
`iErrCodePASV ? iErrCodePASV : iErrCode` is `orElse` on the optional codes. -/
def ftpOpenPortFallback (fuel : Nat) (iErrCodePASV : Option KioError) : M (Option KioError) := do
  let iErrCode ← ftpOpenPortDataConnection fuel
  if iErrCode == none then do
    let _ ← requestDataEncryption fuel
    pure none
  else do
    prim Prim.closeData
    pure (iErrCodePASV.orElse fun _ => iErrCode)

/-- `Ftp::ftpOpenDataConnection` (lines 927-980). -/
def ftpOpenDataConnection (fuel : Nat) : M (Option KioError) := do
  let s ← getFtp
  if !s.m_bLoggedOn then fault Fault.assertFailed
  else do
    prim Prim.closeData
    let passive ←
      if !s.world.config.DisablePassiveMode then ftpOpenPassiveModes fuel
      else pure (Sum.inr none)
    match passive with
    | Sum.inl r => pure r
    | Sum.inr iErrCodePASV => ftpOpenPortFallback fuel iErrCodePASV

/-! ## Transfer commands and directory listing -/

/-- `Ftp::ftpDataMode(cMode)` (lines 2260-2276). -/
def ftpDataMode (fuel : Nat) (cMode0 : Char) : M Bool := do
  let s ← getFtp
  let cMode : Char :=
    if cMode0 == '?' then (if s.m_bTextMode then 'A' else 'I')
    else if cMode0 == 'a' then 'A'
    else if cMode0 != 'A' then 'I'
    else cMode0
  if s.m_cDataMode == cMode then pure true
  else do
    let sent ← ftpSendCmd fuel ("TYPE ".toList ++ [cMode]) defaultRetries
    let s1 ← getFtp
    if !sent || s1.m_iRespType != 2 then pure false
    else do
      prim (Prim.setDataMode cMode)
      pure true

/-- The REST block of `ftpOpenCommand` (lines 1061-1072), entered if
`_offset > 0`: `some false` when the function returns `false` from inside the
block, `none` when control leaves the block. -/
def ftpOpenCommandRest (fuel : Nat) (path : Bytes) (offset : Int) : M (Option Bool) := do
  if offset > 0 then do
    let sent ← ftpSendCmd fuel ("rest ".toList ++ number offset.toNat) defaultRetries
    if !sent then pure (some false)
    else do
      let s1 ← getFtp
      if s1.m_iRespType != 3 then do
        error KioError.ERR_CANNOT_RESUME path
        pure (some false)
      else pure none
  else pure none

/-- The `else` branch of `ftpOpenCommand` (lines 1089-1108), entered when the
transfer command got its 1xx reply: `canResume()`, `m_bBusy = true` and, if
`useDataEnc`, the handshake on the data connection. -/
def ftpOpenCommandAccepted (command : Bytes) (offset : Int) (useDataEnc : Bool) : M Bool := do
  if decide (offset > 0) && command == "retr".toList then prim (Prim.emit Event.canResume)
  else pure ()
  prim (Prim.setBusy true)
  if useDataEnc then do
    let result ← encryptDataChannel
    match result with
    | some code => do
      error code "TLS Negotiation failed on the data channel.".toList
      pure false
    | none => pure true
  else pure true

/-- The transfer command of `ftpOpenCommand` and what follows it (lines
1074-1112). -/
def ftpOpenCommandSend (fuel : Nat) (command path : Bytes) (errorcode : KioError)
    (offset : Int) (useDataEnc : Bool) : M Bool := do
  let tmp : Bytes := if !path.isEmpty then command ++ [' '] ++ path else command
  let sent ← ftpSendCmd fuel tmp defaultRetries
  let s2 ← getFtp
  if !sent || s2.m_iRespType != 1 then do
    let errorcode1 :=
      if decide (offset > 0) && command == "retr".toList && s2.m_iRespType == 4 then
        KioError.ERR_CANNOT_RESUME
      else errorcode
    error errorcode1 path
    pure false
  else ftpOpenCommandAccepted command offset useDataEnc

/-- `Ftp::ftpOpenCommand(_command, _path, _mode, errorcode, _offset)` (lines
1044-1113). -/
def ftpOpenCommand (fuel : Nat) (command path : Bytes) (mode : Char) (errorcode : KioError)
    (offset : Int) : M Bool := do
  let modeOk ← ftpDataMode fuel mode
  let errCode ←
    if !modeOk then pure (some KioError.ERR_COULD_NOT_CONNECT)
    else ftpOpenDataConnection fuel
  let s ← getFtp
  match errCode with
  | some code => do
    error code s.m_host
    pure false
  | none => do
    let useDataEnc ← requestDataEncryption fuel
    let rest ← ftpOpenCommandRest fuel path offset
    match rest with
    | some r => pure r
    | none => ftpOpenCommandSend fuel command path errorcode offset useDataEnc

/-- `Ftp::ftpCloseCommand` (lines 1116-1137). -/
def ftpCloseCommand : M Bool := do
  prim Prim.closeData
  let s ← getFtp
  if !s.m_bBusy then pure true
  else do
    prim (Prim.setBusy false)
    let _ ← ftpResponse (-1)
    let s1 ← getFtp
    if s1.m_iRespType != 2 then pure false else pure true

/-- `Ftp::ftpSize(path, mode)` (lines 2232-2251). -/
def ftpSize (fuel : Nat) (path : Bytes) (mode : Char) : M Bool := do
  prim (Prim.setSize UnknownSize)
  let modeOk ← ftpDataMode fuel mode
  if !modeOk then pure false
  else do
    let sent ← ftpSendCmd fuel ("SIZE ".toList ++ path) defaultRetries
    let s1 ← getFtp
    if !sent || s1.m_iRespType != 2 then pure false
    else do
      let psz ← ftpResponse 4
      let size := toFilesize (charToLongLong psz)
      prim (Prim.setSize (if size == 0 then UnknownSize else size))
      pure true

/-- `Ftp::ftpReadDir(de)` (lines 1612-1818): `some de` for `return true` with
the entry filled in, `none` for `return false`. -/
def ftpReadDir : M (Option FtpEntry) := do
  let s ← getFtp
  match s.m_data with
  | none => fault Fault.assertFailed
  | some d => do
    prim Prim.readDirLines
    pure (ftpReadDirLoop s.world.now d.lines).1

/-- `Ftp::ftpOpenDir(path)` (lines 1582-1610). -/
def ftpOpenDir (fuel : Nat) (path : Bytes) : M Bool := do
  let tmp : Bytes := if path.isEmpty then ['/'] else path
  let isDir ← ftpFolder fuel tmp false
  if !isDir then pure false
  else do
    let opened ← ftpOpenCommand fuel "list -la".toList [] 'I' KioError.ERR_CANNOT_ENTER_DIRECTORY 0
    if !opened then do
      let opened2 ← ftpOpenCommand fuel "list".toList [] 'I' KioError.ERR_CANNOT_ENTER_DIRECTORY 0
      if !opened2 then pure false else pure true
    else pure true

/-- The `while( ftpReadDir(ftpEnt) )` loop of `listDir` (lines 1556-1570). -/
def listDirLoop : Nat → M Unit
  | 0 => fault Fault.outOfFuel
  | fuel + 1 => do
    let de ← ftpReadDir
    match de with
    | none => pure ()
    | some ftpEnt => do
      if !ftpEnt.name.isEmpty then prim (Prim.emit (Event.listEntry ftpEnt.name)) else pure ()
      listDirLoop fuel

/-- `Ftp::listDir(url)` (lines 1510-1574) for `url.path() = path`. -/
def listDir (fuel : Nat) (path : Bytes) : M Unit := do
  let opened ← ftpOpenConnection fuel LoginMode.loginImplicit
  if !opened then pure ()
  else if path.isEmpty then do
    let s ← getFtp
    if s.m_initialPath.isEmpty then prim (Prim.setInitialPath ['/']) else pure ()
    let s1 ← getFtp
    prim (Prim.emit (Event.redirection s1.m_initialPath))
    prim (Prim.emit Event.finished)
  else do
    let dirOpened ← ftpOpenDir fuel path
    if !dirOpened then do
      let isFile ← ftpSize fuel path 'I'
      if isFile then error KioError.ERR_IS_FILE path
      else error KioError.ERR_CANNOT_ENTER_DIRECTORY path
    else do
      listDirLoop fuel
      let _ ← ftpCloseCommand
      prim (Prim.emit Event.finished)

/-! ## Renaming and permissions -/

/-- `Ftp::ftpRename(src, dst, flags)` (lines 1187-1207); the flags are not read. -/
def ftpRename (fuel : Nat) (src dst : Bytes) : M Bool := do
  let s ← getFtp
  if !s.m_bLoggedOn then fault Fault.assertFailed
  else do
    let pos := lastIndexOfChar src '/'
    let inFolder ← ftpFolder fuel (left src (pos + 1)) false
    if !inFolder then pure false
    else do
      let sent ← ftpSendCmd fuel ("RNFR ".toList ++ src.drop (pos + 1).toNat) defaultRetries
      let s1 ← getFtp
      if !sent || s1.m_iRespType != 3 then pure false
      else do
        let sent2 ← ftpSendCmd fuel ("RNTO ".toList ++ dst) defaultRetries
        let s2 ← getFtp
        if !sent2 || s2.m_iRespType != 2 then pure false else pure true

/-- `Ftp::ftpChmod(path, permissions)` (lines 1228-1250). -/
def ftpChmod (fuel : Nat) (path : Bytes) (permissions : Int) : M Bool := do
  let s ← getFtp
  if !s.m_bLoggedOn then fault Fault.assertFailed
  else if s.m_extControl.chmodUnknown then pure false
  else do
    let cmd : Bytes := "SITE CHMOD ".toList ++ octal (permissions % 512).toNat ++ [' '] ++ path
    let _ ← ftpSendCmd fuel cmd defaultRetries
    let s1 ← getFtp
    if s1.m_iRespType == 2 then pure true
    else if s1.m_iRespCode == 500 then do
      prim Prim.setChmodUnknown
      pure false
    else pure false

/-! ## Download (`get` and `ftpGet`, lines 1824-1959) -/

/-- `KIO::buffersizes::maximumIpcSize` (line 101). -/
def maximumIpcSize : Int := 32 * 1024

/-- `KIO::buffersizes::initialIpcSize` (line 106). -/
def initialIpcSize : Int := 2 * 1024

/-- `KIO::buffersizes::mimimumMimeSize` (line 110). -/
def mimimumMimeSize : Int := 1024

/-- `Ftp::StatusCode`. -/
inductive StatusCode
  | statusSuccess | statusClientError | statusServerError
  deriving DecidableEq, Repr

/-- Conversion of a `KIO::filesize_t` to the signed `KIO::fileoffset_t`. -/
def toFileoffset (n : Nat) : Int :=
  if n % 2 ^ 64 < 2 ^ 63 then ((n % 2 ^ 64 : Nat) : Int) else ((n % 2 ^ 64 : Nat) : Int) - 2 ^ 64

/-- The local variables of the read loop of `ftpGet` that live across its
passes; `buffer` holds `buffer[0 .. iBufferCur)`. -/
structure GetLoop where
  processed_size : Int
  bytesLeft : Nat
  iBlockSize : Int
  buffer : Bytes
  mimetypeEmitted : Bool
  deriving DecidableEq, Repr

/-- Lines 1893-1898: the length asked of `read` in a pass of the loop. -/
def ftpGetBlockSize (v : GetLoop) (llOffset : Int) : Int :=
  let iBlockSize : Int := if v.processed_size - llOffset > 1024 * 64 then maximumIpcSize else v.iBlockSize
  if iBlockSize + (v.buffer.length : Int) > maximumIpcSize then maximumIpcSize - (v.buffer.length : Int)
  else iBlockSize

/-- Lines 1867-1873: the size is read from the reply to `retr` when `SIZE` did
not give it. -/
def ftpGetSize : M Unit := do
  let s ← getFtp
  if s.m_size == UnknownSize then do
    let text ← ftpResponse 4
    match strrchr text '(' with
    | some psz =>
      prim (Prim.setSize
        (if toFilesize (charToLongLong (psz.drop 1)) == 0 then UnknownSize
         else toFilesize (charToLongLong (psz.drop 1))))
    | none => pure ()
  else pure ()

/-- Lines 1926-1936: before the first chunk, `mimeType` and, if the size is
known, `totalSize`. -/
def ftpGetMime (mimetypeEmitted : Bool) (chunk : Bytes) : M Unit := do
  if mimetypeEmitted then pure ()
  else do
    let s ← getFtp
    prim (Prim.emit (Event.mimeType chunk))
    if s.m_size != UnknownSize then prim (Prim.emit (Event.totalSize s.m_size)) else pure ()

/-- Lines 1938-1948: the chunk goes to the data pump or to the local file, then
`processedSize`.  `some e`: `WriteToFile` returned `e` and `ftpGet` returns
`statusClientError`. -/
def ftpGetDeliver (iCopyFile : Int) (chunk : Bytes) (processed_size : Int) : M (Option KioError) := do
  let s ← getFtp
  if iCopyFile == -1 then do
    prim (Prim.emit (Event.data chunk))
    prim (Prim.emit (Event.processedSize (toFilesize processed_size)))
    pure none
  else do
    prim (Prim.emit (Event.fileWrite iCopyFile chunk))
    prim Prim.popFileWrite
    match s.world.fileWrites.headD none with
    | some e => pure (some e)
    | none => do
      prim (Prim.emit (Event.processedSize (toFilesize processed_size)))
      pure none

/-- The body of the loop of `ftpGet` after a `read` that returned the bytes
`block` (at least one), lines 1910-1948.  `Sum.inl`: `ftpGet` returns from
inside the loop; `Sum.inr v1`: the pass ends with the variables `v1`. -/
def ftpGetStep (iCopyFile : Int) (v : GetLoop) (iBlockSize : Int) (block : Bytes) :
    M (Sum (StatusCode × KioError) GetLoop) := do
  let s ← getFtp
  let processed_size : Int := v.processed_size + (block.length : Int)
  if s.m_size != UnknownSize then
    let bytesLeft : Nat := toFilesize ((v.bytesLeft : Int) - (block.length : Int))
    let buffer : Bytes := v.buffer ++ block
    if decide ((buffer.length : Int) < mimimumMimeSize) && decide (bytesLeft > 0) then do
      prim (Prim.emit (Event.processedSize (toFilesize processed_size)))
      pure (Sum.inr ⟨processed_size, bytesLeft, iBlockSize, buffer, v.mimetypeEmitted⟩)
    else do
      ftpGetMime v.mimetypeEmitted buffer
      let failed ← ftpGetDeliver iCopyFile buffer processed_size
      match failed with
      | some e => pure (Sum.inl (StatusCode.statusClientError, e))
      | none => pure (Sum.inr ⟨processed_size, bytesLeft, iBlockSize, [], true⟩)
  else do
    ftpGetMime v.mimetypeEmitted ((v.buffer ++ block).take block.length)
    let failed ← ftpGetDeliver iCopyFile ((v.buffer ++ block).take block.length) processed_size
    match failed with
    | some e => pure (Sum.inl (StatusCode.statusClientError, e))
    | none => pure (Sum.inr ⟨processed_size, v.bytesLeft, iBlockSize, v.buffer, true⟩)

/-- The `while(m_size == UnknownSize || bytesLeft > 0)` loop of `ftpGet` (lines
1891-1950).  `Sum.inl`: `ftpGet` returns from inside the loop with that status
and `iError`; `Sum.inr processed_size`: the loop has ended. -/
def ftpGetLoop (iCopyFile : Int) (llOffset : Int) : Nat → GetLoop → M (Sum (StatusCode × KioError) Int)
  | 0, _ => fault Fault.outOfFuel
  | fuel + 1, v => do
    let s ← getFtp
    if !(s.m_size == UnknownSize || decide (v.bytesLeft > 0)) then pure (Sum.inr v.processed_size)
    else
      match s.m_data with
      | none => fault Fault.nullDeref
      | some d => do
        prim (Prim.dataRead (ftpGetBlockSize v llOffset))
        match readBlock d.reads (ftpGetBlockSize v llOffset) with
        | none => pure (Sum.inl (StatusCode.statusServerError, KioError.ERR_COULD_NOT_READ))
        | some [] =>
          if s.m_size == UnknownSize then pure (Sum.inr v.processed_size)
          else pure (Sum.inl (StatusCode.statusServerError, KioError.ERR_COULD_NOT_READ))
        | some (c :: cs) => do
          let r ← ftpGetStep iCopyFile v (ftpGetBlockSize v llOffset) (c :: cs)
          match r with
          | Sum.inl e => pure (Sum.inl e)
          | Sum.inr v1 => ftpGetLoop iCopyFile llOffset fuel v1

/-- Lines 1952-1958: the end of `ftpGet` after the loop. -/
def ftpGetDone (iCopyFile : Int) (processed_size : Int) : M (StatusCode × Option KioError) := do
  (if iCopyFile == -1 then prim (Prim.emit (Event.data [])) else pure ())
  let s ← getFtp
  prim (Prim.emit (Event.processedSize
    (if s.m_size == UnknownSize then toFilesize processed_size else s.m_size)))
  prim (Prim.emit Event.finished)
  pure (StatusCode.statusSuccess, none)

/-- Lines 1866-1958 of `ftpGet`: what follows the accepted `retr`. -/
def ftpGetTransfer (fuel : Nat) (iCopyFile : Int) (llOffset : Int) : M (StatusCode × Option KioError) := do
  ftpGetSize
  let s ← getFtp
  let bytesLeft : Nat :=
    if s.m_size != UnknownSize then toFilesize ((s.m_size : Int) - llOffset) else 0
  let r ← ftpGetLoop iCopyFile llOffset fuel ⟨llOffset, bytesLeft, initialIpcSize, [], false⟩
  match r with
  | Sum.inl e => pure (e.1, some e.2)
  | Sum.inr processed_size => ftpGetDone iCopyFile processed_size

/-- `Ftp::ftpGet(iError, iCopyFile, url, llOffset)` (lines 1834-1959) for
`url.path() = path`: the status returned and the value assigned to `iError`
(`none`: `iError` is left as it was). -/
def ftpGet (fuel : Nat) (iCopyFile : Int) (path : Bytes) (llOffset0 : Int) :
    M (StatusCode × Option KioError) := do
  let opened ← ftpOpenConnection fuel LoginMode.loginImplicit
  if !opened then pure (StatusCode.statusServerError, none)
  else do
    let sized ← ftpSize fuel path '?'
    let s1 ← getFtp
    let isDir ← (if !sized && s1.m_iRespCode == 550 then ftpFolder fuel path false else pure false)
    if isDir then pure (StatusCode.statusServerError, some KioError.ERR_IS_DIRECTORY)
    else do
      let s2 ← getFtp
      let llOffset : Int :=
        if !s2.world.config.resume.isEmpty then toLongLong s2.world.config.resume else llOffset0
      let cmdOk ← ftpOpenCommand fuel "retr".toList path '?' KioError.ERR_CANNOT_OPEN_FOR_READING llOffset
      if !cmdOk then pure (StatusCode.statusServerError, none)
      else ftpGetTransfer fuel iCopyFile llOffset

/-- `Ftp::get(url)` (lines 1824-1832) for `url.path() = path`. -/
def get (fuel : Nat) (path : Bytes) : M Unit := do
  let r ← ftpGet fuel (-1) path 0
  (match r.2 with
    | some iError => error iError path
    | none => pure ())
  let _ ← ftpCloseCommand
  pure ()

/-! ## Upload (`put` and `ftpPut`, lines 2030-2227) -/

/-- The two bits of `KIO::JobFlags` that `ftpPut` tests. -/
structure JobFlags where
  Overwrite : Bool
  Resume : Bool
  deriving DecidableEq, Repr

/-- The `DELE` of a file of size zero (lines 2062-2069 and 2088-2095): whether
the command was sent and answered 2xx. -/
def ftpPutDelete (fuel : Nat) (path : Bytes) : M Bool := do
  let sent ← ftpSendCmd fuel ("DELE ".toList ++ path) defaultRetries
  let s ← getFtp
  pure (sent && s.m_iRespType == 2)

/-- Lines 2058-2107 of `ftpPut`: what is done when the destination or its
`.part` file exists.  `Sum.inl e`: `ftpPut` returns `statusServerError` with
`iError = e`; `Sum.inr (permissions, flags)`: it goes on with these values. -/
def ftpPutExisting (fuel : Nat) (dest_orig dest_part : Bytes) (bMarkPartial : Bool)
    (permissions : Int) (flags : JobFlags) : M (Sum KioError (Int × JobFlags)) := do
  let found ← ftpSize fuel dest_orig 'I'
  if found then do
    let s ← getFtp
    if s.m_size == 0 then do
      let deleted ← ftpPutDelete fuel dest_orig
      if !deleted then pure (Sum.inl KioError.ERR_CANNOT_DELETE_PARTIAL)
      else pure (Sum.inr (-1, flags))
    else if !flags.Overwrite && !flags.Resume then pure (Sum.inl KioError.ERR_FILE_ALREADY_EXIST)
    else if bMarkPartial then do
      let renamed ← ftpRename fuel dest_orig dest_part
      if !renamed then pure (Sum.inl KioError.ERR_CANNOT_RENAME_PARTIAL)
      else pure (Sum.inr (-1, flags))
    else pure (Sum.inr (-1, flags))
  else do
    let partFound ← (if bMarkPartial then ftpSize fuel dest_part 'I' else pure false)
    if partFound then do
      let s ← getFtp
      if s.m_size == 0 then do
        let deleted ← ftpPutDelete fuel dest_part
        if !deleted then pure (Sum.inl KioError.ERR_CANNOT_DELETE_PARTIAL)
        else pure (Sum.inr (permissions, flags))
      else if !flags.Overwrite && !flags.Resume then do
        prim (Prim.emit (Event.canResumeFrom s.m_size))
        prim Prim.popCanResume
        if s.world.canResumes.headD false then pure (Sum.inr (permissions, { flags with Resume := true }))
        else pure (Sum.inl KioError.ERR_FILE_ALREADY_EXIST)
      else pure (Sum.inr (permissions, flags))
    else do
      prim (Prim.setSize 0)
      pure (Sum.inr (permissions, flags))

/-- What one pass of the upload loop obtains (lines 2148-2163): `result`, the
buffer, the block size and `iError`. -/
structure PutFetch where
  result : Int
  buffer : Bytes
  iBlockSize : Int
  iError : Option KioError
  deriving DecidableEq, Repr

/-- Lines 2148-2163: the data of one pass, asked of the host (`dataReq`,
`readData`) or read from the local file. -/
def ftpPutFetch (iCopyFile offset processed_size iBlockSize : Int) (iError : Option KioError) :
    M PutFetch := do
  let s ← getFtp
  if iCopyFile == -1 then do
    prim (Prim.emit Event.dataReq)
    prim Prim.popUpload
    match s.world.uploads.headD (some []) with
    | none => pure ⟨-1, [], iBlockSize, iError⟩
    | some b => pure ⟨(b.length : Int), b, iBlockSize, iError⟩
  else do
    prim (Prim.fileRead (if processed_size - offset > 1024 * 64 then maximumIpcSize else iBlockSize))
    match readBlock s.world.fileReads
        (if processed_size - offset > 1024 * 64 then maximumIpcSize else iBlockSize) with
    | none =>
      pure ⟨-1, [], if processed_size - offset > 1024 * 64 then maximumIpcSize else iBlockSize,
        some KioError.ERR_COULD_NOT_WRITE⟩
    | some b =>
      pure ⟨(b.length : Int), b,
        if processed_size - offset > 1024 * 64 then maximumIpcSize else iBlockSize, iError⟩

/-- The `do ... while ( result > 0 )` loop of `ftpPut` (lines 2146-2173): the
last `result`, `processed_size` and `iError`. -/
def ftpPutLoop (iCopyFile offset : Int) : Nat → Int → Int → Option KioError →
    M (Int × Int × Option KioError)
  | 0, _, _, _ => fault Fault.outOfFuel
  | fuel + 1, processed_size, iBlockSize, iError => do
    let f ← ftpPutFetch iCopyFile offset processed_size iBlockSize iError
    if f.result > 0 then do
      let s ← getFtp
      match s.m_data with
      | none => fault Fault.nullDeref
      | some _ => do
        prim (Prim.emit (Event.dataWrite f.buffer))
        prim (Prim.emit (Event.processedSize (toFilesize (processed_size + f.result))))
        ftpPutLoop iCopyFile offset fuel (processed_size + f.result) f.iBlockSize f.iError
    else pure (f.result, processed_size, f.iError)

/-- Lines 2175-2192 of `ftpPut`: the transfer ended with an error. -/
def ftpPutAbort (fuel : Nat) (dest : Bytes) (bMarkPartial : Bool) (processed_size : Int)
    (iError : Option KioError) : M (StatusCode × Option KioError) := do
  let _ ← ftpCloseCommand
  if bMarkPartial then do
    let found ← ftpSize fuel dest 'I'
    let s ← getFtp
    if found && decide (processed_size < s.world.config.MinimumKeepSize) then do
      let _ ← ftpSendCmd fuel ("DELE ".toList ++ dest) defaultRetries
      pure (StatusCode.statusServerError, iError)
    else pure (StatusCode.statusServerError, iError)
  else pure (StatusCode.statusServerError, iError)

/-- Lines 2194-2226 of `ftpPut`: the transfer ended normally. -/
def ftpPutFinish (fuel : Nat) (dest dest_orig : Bytes) (bMarkPartial : Bool) (permissions : Int)
    (iError : Option KioError) : M (StatusCode × Option KioError) := do
  let closed ← ftpCloseCommand
  if !closed then pure (StatusCode.statusServerError, some KioError.ERR_COULD_NOT_WRITE)
  else do
    let renamed ← (if bMarkPartial then ftpRename fuel dest dest_orig else pure true)
    if !renamed then pure (StatusCode.statusServerError, some KioError.ERR_CANNOT_RENAME_PARTIAL)
    else do
      let _ ← (if permissions != -1 then ftpChmod fuel dest_orig permissions else pure false)
      prim (Prim.emit Event.finished)
      pure (StatusCode.statusSuccess, iError)

/-- Lines 2122-2134 of `ftpPut`: the local file is positioned at `offset`;
whether `KDE_lseek` failed. -/
def ftpPutSeek (iCopyFile offset : Int) : M Bool := do
  let s ← getFtp
  prim (Prim.emit (Event.fileSeek iCopyFile offset))
  prim Prim.popLseek
  pure (s.world.lseekFails.headD false)

/-- Lines 2109-2226 of `ftpPut`: the transfer itself, once the checks on the
destination have passed. -/
def ftpPutTransfer (fuel : Nat) (iCopyFile : Int) (dest_orig dest_part : Bytes)
    (bMarkPartial : Bool) (permissions : Int) (flags : JobFlags) :
    M (StatusCode × Option KioError) := do
  let s ← getFtp
  let dest : Bytes := if bMarkPartial then dest_part else dest_orig
  let resuming : Bool := flags.Resume && decide (s.m_size > 0)
  let offset : Int := if resuming then toFileoffset s.m_size else 0
  let seekFailed ← (if resuming && iCopyFile != -1 then ftpPutSeek iCopyFile offset else pure false)
  if seekFailed then pure (StatusCode.statusClientError, some KioError.ERR_CANNOT_RESUME)
  else do
    let cmdOk ← ftpOpenCommand fuel "stor".toList dest '?' KioError.ERR_COULD_NOT_WRITE offset
    if !cmdOk then pure (StatusCode.statusServerError, none)
    else do
      let r ← ftpPutLoop iCopyFile offset fuel offset initialIpcSize none
      if r.1 != 0 then ftpPutAbort fuel dest bMarkPartial r.2.1 r.2.2
      else ftpPutFinish fuel dest dest_orig bMarkPartial permissions r.2.2

/-- `Ftp::ftpPut(iError, iCopyFile, dest_url, permissions, flags)` (lines
2040-2227) for `dest_url.path() = dest_orig`. -/
def ftpPut (fuel : Nat) (iCopyFile : Int) (dest_orig : Bytes) (permissions : Int)
    (flags : JobFlags) : M (StatusCode × Option KioError) := do
  let opened ← ftpOpenConnection fuel LoginMode.loginImplicit
  if !opened then pure (StatusCode.statusServerError, none)
  else do
    let s ← getFtp
    let bMarkPartial : Bool :=
      if s.m_user.isEmpty || s.m_user == FTP_LOGIN then false else s.world.config.MarkPartial
    let checked ← ftpPutExisting fuel dest_orig (dest_orig ++ ".part".toList) bMarkPartial
      permissions flags
    match checked with
    | Sum.inl e => pure (StatusCode.statusServerError, some e)
    | Sum.inr pf =>
      ftpPutTransfer fuel iCopyFile dest_orig (dest_orig ++ ".part".toList) bMarkPartial pf.1 pf.2

/-- `Ftp::put(url, permissions, flags)` (lines 2030-2038) for `url.path() = path`. -/
def put (fuel : Nat) (path : Bytes) (permissions : Int) (flags : JobFlags) : M Unit := do
  let r ← ftpPut fuel (-1) path permissions flags
  (match r.2 with
    | some iError => error iError path
    | none => pure ())
  let _ ← ftpCloseCommand
  pure ()

/-! ## Concrete sessions used to run the embedding -/

/-- A configuration with every key at the default the code passes to `readEntry`. -/
def exampleConfig : Config :=
  { textmode := false, EnableAutoLogin := false, autoLoginUser := [], autoLoginPass := [],
    DisablePassDlg := false, DisablePassiveMode := false, DisableEPSV := false,
    EnableAutoLoginMacro := false, autoLoginMacroText := [], MarkPartial := true,
    MinimumKeepSize := 5000, statSide := [], details := [], resume := [] }

/-- The server `192.0.2.7`. -/
def exampleServer : HostAddress := ⟨Protocol.IPv4, "192.0.2.7".toList, [192, 0, 2, 7]⟩

/-- The client `192.0.2.1`. -/
def exampleClient : HostAddress := ⟨Protocol.IPv4, "192.0.2.1".toList, [192, 0, 2, 1]⟩

/-- November 15th 2020, 07:06:05 UTC, as `gmtime` returns it. -/
def exampleNow : Tm := ⟨5, 6, 7, 15, 10, 120, 0, 319, 0⟩

/-- A connected control socket on which the server will send `replies`, one
line each, and on which writes and the TLS handshake succeed. -/
def exampleControl (replies : List String) : ControlSocket :=
  { connected := true, hostNotFound := false, errorString := [],
    peerAddress := exampleServer, localAddress := exampleClient,
    lines := replies.map String.toList, writeFails := [],
    encrypts := true, encryptsIgnoring := true, sslErrors := [] }

/-- A connected data socket delivering `lines`. -/
def exampleData (lines : List String) : DataSocket :=
  { connected := true, isOpen := true, lines := lines.map String.toList, reads := [],
    encrypts := true }

/-- A world in which the control connections `controls` and the data
connections `datas` can be made. -/
def exampleWorld (controls : List ControlSocket) (datas : List DataSocket) : World :=
  { controls := controls, datas := datas, listens := [], messageBoxes := [],
    passwordDialogs := [], config := exampleConfig, now := exampleNow,
    canResumes := [], uploads := [], fileReads := [], fileWrites := [], lseekFails := [] }

/-- The worker after its constructor and `setHost("ftp.example", 0, "", "")`. -/
def exampleFresh (w : World) : Ftp :=
  { m_host := "ftp.example".toList, m_port := 0, m_user := [], m_pass := [],
    m_bUseProxy := false, proxyHost := [], proxyPort := 0,
    m_control := none, m_data := none, m_extControl := ExtControl.zero,
    m_cDataMode := '\x00', m_bLoggedOn := false, m_bTextMode := false, m_bBusy := false,
    m_bPasv := false, m_bIgnoreSslErrors := false, m_iRespCode := 0, m_iRespType := 0,
    m_lastControlLine := [], m_initialPath := [], m_currentPath := [], m_size := 0,
    world := w, trace := [] }

/-- A session that is logged on over the control socket `c`, in directory `/`. -/
def exampleLoggedOn (c : ControlSocket) (w : World) : Ftp :=
  { exampleFresh w with
    m_control := some c, m_bLoggedOn := true,
    m_initialPath := ['/'], m_currentPath := ['/'] }

/-! ## Vocabulary of the statements -/

/-- The number the three digits of a reply code stand for. -/
def codeOf (d1 d2 d3 : Char) : Nat := digitVal d1 * 100 + digitVal d2 * 10 + digitVal d3

/-- A line the response reader passes over inside a multi-line reply opened with
the code `d1 d2 d3`: a line that starts with a space, or a line `NNN-text` with
the same code. -/
def isContinuation (d1 d2 d3 : Char) (line : Bytes) : Bool :=
  byteAt line 0 == ' ' || [d1, d2, d3, '-'].isPrefixOf line

/-- An elementary state change among those `Q` allows. -/
def StepIn (Q : Prim → Prop) (s s1 : Ftp) : Prop := ∃ p : Prim, Q p ∧ s1 = p.apply s

/-- A finite sequence of elementary state changes that `Q` allows. -/
def StepsIn (Q : Prim → Prop) : Ftp → Ftp → Prop := Relation.ReflTransGen (StepIn Q)

/-- The footprint of a computation: from every state, whatever it returns and
however it ends, the state it ends in is reached by elementary state changes
that `Q` allows. -/
structure Within {α : Type} (Q : Prim → Prop) (m : M α) : Prop where
  run : ∀ s, StepsIn Q s (m s).2

/-- The line terminator `ftpSendCmd` appends to a command. -/
def crlf : Bytes := ['\r', '\n']

/-- The commands the functions of the control connection send on their own
account (closing, opening, logging in, changing directory), as written to the
socket. -/
def ownCommand (buf : Bytes) : Bool :=
  buf == "quit\r\n".toList || buf == "AUTH TLS\r\n".toList || startsWith buf "USER ".toList ||
  startsWith buf "pass ".toList || buf == "SYST\r\n".toList ||
  buf == "site dirstyle\r\n".toList || buf == "PWD\r\n".toList || startsWith buf "cwd ".toList

/-- The events of the control connection and of its upcalls. -/
def controlEvent : Event → Prop
  | Event.infoMessage _ => True
  | Event.error _ _ => True
  | Event.connected => True
  | Event.messageBox _ => True
  | Event.openPasswordDialog _ _ _ => True
  | Event.cacheAuthentication _ _ => True
  | Event.controlEncrypt _ => True
  | _ => False

/-- The elementary state changes of the functions of the control connection
(`ftpSendCmd`, `closeConnection`, `ftpOpenConnection`, `ftpOpenControlConnection`,
`ftpLogin`, `ftpFolder`), when the commands written besides their own are among
`cmds`. -/
def controlPrim (cmds : Bytes → Prop) : Prim → Prop
  | Prim.emit e => controlEvent e
  | Prim.closeData => True
  | Prim.closeControl => True
  | Prim.readResponse => True
  | Prim.clearResponse => True
  | Prim.controlWrite buf => ownCommand buf = true ∨ cmds buf
  | Prim.setIgnoreSslErrors _ => True
  | Prim.newControl _ _ => True
  | Prim.popMessageBox => True
  | Prim.popPasswordDialog => True
  | Prim.setLoggedOn _ => True
  | Prim.setTextMode _ => True
  | Prim.setInitialPath _ => True
  | Prim.setCurrentPath _ => True
  | Prim.setChmodUnknown => True
  | _ => False

/-- The number a string of decimal digits stands for. -/
def decimalValue (ds : Bytes) : Nat := ds.foldl (fun acc c => acc * 10 + digitVal c) 0

/-- A non-empty string of decimal digits. -/
def isDigits (ds : Bytes) : Bool := !ds.isEmpty && ds.all isdigit

/-- The six comma-separated integers of a PASV reply, after the opening `(` or `=`. -/
def pasvGroup (h1 h2 h3 h4 p1 p2 : Bytes) : Bytes :=
  h1 ++ [','] ++ h2 ++ [','] ++ h3 ++ [','] ++ h4 ++ [','] ++ p1 ++ [','] ++ p2

/-- The port the code computes from the last two integers of a PASV reply:
`quint16 port = i[4] << 8 | i[5]`. -/
def pasvPortOf (p1 p2 : Bytes) : Int :=
  toQuint16 (Int.lor ((decimalValue p1 : Int) * 256) (decimalValue p2 : Int))

/-- The state after the command `cmd` has been written to the control
connection and its reply read. -/
def afterCommand (cmd : Bytes) (s : Ftp) : Ftp :=
  Prim.readResponse.apply ((Prim.controlWrite (cmd ++ "\r\n".toList)).apply s)

/-- The state in which `ftpOpenPASVDataConnection` parses the reply to PASV:
`m_bPasv` is set, PASV has been written and its reply read. -/
def afterPasv (s : Ftp) : Ftp := afterCommand "PASV".toList ((Prim.setPasv true).apply s)

/-- A single-line reply with a 2xx code, as `readLine` delivers it. -/
def reply2xx (d2 d3 : Char) (text : Bytes) : Bytes := '2' :: d2 :: d3 :: ' ' :: text

/-- The text of a PASV reply after the code and the space: `pre`, the opening
character `lead` (`(` in the canonical form, `=` in the anonftpd form), the six
integers, and `tail`. -/
def pasvText (lead : Char) (pre h1 h2 h3 h4 p1 p2 tail : Bytes) : Bytes :=
  pre ++ lead :: (pasvGroup h1 h2 h3 h4 p1 p2 ++ tail)

/-- The opening character is where the code looks for it: `lead` is `(` and is
the first `(` of the text, or `lead` is `=`, the text has no `(` and `lead` is
its first `=`. -/
def pasvLeadFound (lead : Char) (pre tail : Bytes) : Prop :=
  (lead = '(' ∧ '(' ∉ pre) ∨ (lead = '=' ∧ '=' ∉ pre ∧ '(' ∉ pre ∧ '(' ∉ tail)

/-- The session `s` with the control socket `c` on which the line `line` and
then the lines `rest` are about to arrive. -/
def withReply (s : Ftp) (c : ControlSocket) (line : Bytes) (rest : List Bytes) : Ftp :=
  { s with m_control := some { c with lines := line :: rest } }

/-- The first byte of `s` is not a decimal digit (or `s` is empty). -/
def noDigitAhead (s : Bytes) : Bool := !isdigit (byteAt s 0)

/-- The events an elementary state change appends to the trace. -/
def Prim.events : Prim → Ftp → List Event
  | Prim.emit e, _ => [e]
  | Prim.closeData, s => if s.m_data.isSome then [Event.dataClose] else []
  | Prim.closeControl, s => if s.m_control.isSome then [Event.controlClose] else []
  | Prim.readResponse, s =>
    match s.m_control with
    | none => []
    | some c => [Event.controlReply (ftpResponseLoop c.lines 0 0).2.1 (ftpResponseLoop c.lines 0 0).1]
  | Prim.controlWrite buf, s =>
    match s.m_control with
    | none => []
    | some c => if c.writeFails.headD false then [] else [Event.controlSend buf]
  | Prim.newControl host port, _ => [Event.controlConnect host port]
  | Prim.newData addr port, _ => [Event.dataConnect addr port]
  | Prim.listen, _ => [Event.dataListen]
  | Prim.dataRead maxlen, s =>
    match s.m_data with
    | none => []
    | some d =>
      match readBlock d.reads maxlen with
      | some (c :: cs) => [Event.dataRecv (c :: cs)]
      | _ => []
  | _, _ => []

/-- From `s` to `s1` the trace has only grown, by events that satisfy `P`. -/
def Emits (P : Event → Prop) (s s1 : Ftp) : Prop :=
  ∃ added : List Event, s1.trace = s.trace ++ added ∧ ∀ e ∈ added, P e

end KioFtps

namespace KioFtps

/-! ## Example sessions over IPv6 and in active mode -/

/-- The server `2001:db8::7`. -/
def exampleServer6 : HostAddress := ⟨Protocol.IPv6, "2001:db8::7".toList, []⟩

/-- The client `2001:db8::1`. -/
def exampleClient6 : HostAddress := ⟨Protocol.IPv6, "2001:db8::1".toList, []⟩

/-- The control socket of `exampleControl` between the IPv6 addresses. -/
def exampleControl6 (replies : List String) : ControlSocket :=
  { exampleControl replies with peerAddress := exampleServer6, localAddress := exampleClient6 }

/-- A world in which successive `listen()` calls succeed on the ports `ports`
and no peer ever connects to them. -/
def exampleListening (ports : List Nat) : World :=
  { exampleWorld [] [] with listens := ports.map fun p => ⟨true, p, none⟩ }

end KioFtps

namespace KioFtps

/-! ## Vocabulary for the choice between passive and active mode -/

/-- An event of active mode: the listening socket is opened, or a PORT or EPRT
command is written to the control connection. -/
def activeEvent : Event → Bool
  | Event.dataListen => true
  | Event.controlSend buf => startsWith buf "PORT ".toList || startsWith buf "EPRT ".toList
  | _ => false

/-- The commands of the passive modes and of the request for data encryption,
as written to the socket. -/
def passiveCommand (buf : Bytes) : Prop :=
  buf = "PASV\r\n".toList ∨ buf = "EPSV\r\n".toList ∨ buf = "PBSZ 0\r\n".toList ∨
    buf = "PROT P\r\n".toList ∨ buf = "PROT C\r\n".toList

/-- The elementary state changes of the functions that open a data connection:
those of the control connection, those of the passive modes and, if `active`,
those of active mode. -/
def openPrim (cmds : Bytes → Prop) (active : Prop) : Prim → Prop
  | Prim.setPasv _ => True
  | Prim.setPasvUnknown => True
  | Prim.setEpsvUnknown => True
  | Prim.newData _ _ => True
  | Prim.listen => active
  | Prim.acceptData _ => active
  | p => controlPrim cmds p

/-- A single-line reply with the code digits `d1 d2 d3`, as `readLine` delivers it. -/
def replyLine (d1 d2 d3 : Char) (text : Bytes) : Bytes := d1 :: d2 :: d3 :: ' ' :: text

/-- The digits of a reply code that refuses a command without ending the
session: a code from 100 on that is neither 2xx nor 421. -/
def refusal (d1 d2 d3 : Char) : Prop :=
  isdigit d1 = true ∧ isdigit d2 = true ∧ isdigit d3 = true ∧ d1 ≠ '0' ∧
    ¬ (200 ≤ codeOf d1 d2 d3 ∧ codeOf d1 d2 d3 < 300) ∧ codeOf d1 d2 d3 ≠ 421

/-- The state in which `ftpOpenEPSVDataConnection` looks at the reply to EPSV. -/
def afterEpsv (s : Ftp) : Ftp := afterCommand "EPSV".toList ((Prim.setPasv true).apply s)

/-- The state `ftpOpenPASVDataConnection` leaves when the reply to PASV is not
2xx: `pasvUnknown` is set if the reply is 5xx. -/
def afterPasvRefused (s : Ftp) : Ftp :=
  if (afterPasv s).m_iRespType == 5 then Prim.setPasvUnknown.apply (afterPasv s) else afterPasv s

/-- The state `ftpOpenEPSVDataConnection` leaves when the reply to EPSV is not
2xx: `epsvUnknown` is set if the reply is 5xx. -/
def afterEpsvRefused (s : Ftp) : Ftp :=
  if (afterEpsv s).m_iRespType == 5 then Prim.setEpsvUnknown.apply (afterEpsv s) else afterEpsv s

/-- What a computation can return: whenever it returns `a`, `P a` holds. -/
structure Returns {α : Type} (P : α → Prop) (m : M α) : Prop where
  run : ∀ s a, (m s).1 = Except.ok a → P a

/-- What holds after a computation has returned: whenever it returns `a`,
`P a` holds of the state reached. -/
structure Post {α : Type} (P : α → Ftp → Prop) (m : M α) : Prop where
  run : ∀ s a, (m s).1 = Except.ok a → P a (m s).2

end KioFtps

namespace KioFtps

/-! ## Vocabulary for the data-channel handshake -/

/-- An event of the data connection. -/
def dataEvent : Event → Bool
  | Event.dataConnect _ _ => true
  | Event.dataListen => true
  | Event.dataEncrypt _ => true
  | Event.dataClose => true
  | _ => false

/-- A session that is logged on, with a server that accepts TYPE, PASV, the
requests for data encryption and a transfer command. -/
def exampleTransfer : Ftp :=
  exampleLoggedOn
    (exampleControl ["200 Type set to I\r\n", "227 Entering Passive Mode (192,0,2,7,6,245)\r\n",
      "200 PBSZ=0\r\n", "200 PROT P ok\r\n", "200 PBSZ=0\r\n", "200 PROT P ok\r\n",
      "150 Opening data connection\r\n"])
    (exampleWorld [] [exampleData []])

/-- The start of the TLS handshake on the data connection. -/
def handshake : Event → Bool
  | Event.dataEncrypt _ => true
  | _ => false

/-- What an event does to the origin of the data connection: a passive
connect makes it `some true`, a listen `some false`, a close `none`. -/
def originStep (o : Option Bool) : Event → Option Bool
  | Event.dataConnect _ _ => some true
  | Event.dataListen => some false
  | Event.dataClose => none
  | _ => o

/-- How the data connection that the events `tr` leave behind was made:
`some true` if the last event among connect, listen and close is a passive
connect, `some false` if it is a listen (active mode), `none` if it is a close
or there is none. -/
def dataOrigin (tr : List Event) : Option Bool := tr.foldl originStep none

/-- The elementary state changes of `ftpOpenCommand` before the handshake,
besides the upcall `canResume`. -/
def transferPrim : Prim → Prop
  | Prim.setDataMode _ => True
  | Prim.setBusy _ => True
  | p => openPrim (fun _ => True) True p

/-- Partial correctness: from a state that satisfies `P`, whenever the
computation returns `a`, `Q a` holds of the state reached. -/
structure Hoare {α : Type} (P : Ftp → Prop) (m : M α) (Q : α → Ftp → Prop) : Prop where
  run : ∀ s, P s → ∀ a, (m s).1 = Except.ok a → Q a (m s).2

/-- What the functions of the control connection do to the data connection
between `s` and `s1`: they leave it alone, adding no event of the data
connection to the trace, or they close it; `m_bPasv` is not changed. -/
def CtlRel (s s1 : Ftp) : Prop :=
  s1.m_bPasv = s.m_bPasv ∧ ∃ added, s1.trace = s.trace ++ added ∧
    ((s1.m_data = s.m_data ∧ ∀ e ∈ added, dataEvent e = false) ∨
      (s.m_data.isSome = true ∧ s1.m_data = none))

/-- The trace of `s` extends `t0`. -/
def TraceExt (t0 : List Event) (s : Ftp) : Prop := ∃ added, s.trace = t0 ++ added

/-- Since the trace was `t0` the data connection of `s`, if there is one, was
made in the mode that `m_bPasv` tells. -/
def Opened (t0 : List Event) (s : Ftp) : Prop :=
  ∃ added, s.trace = t0 ++ added ∧ (s.m_data.isSome = true → dataOrigin added = some s.m_bPasv)

/-- There is no data connection, and the trace extends `t0`. -/
def NoData (t0 : List Event) (s : Ftp) : Prop := TraceExt t0 s ∧ s.m_data = none

/-- A passive mode is being tried: no data connection yet, `m_bPasv` set. -/
def PassiveReady (t0 : List Event) (s : Ftp) : Prop :=
  TraceExt t0 s ∧ s.m_data = none ∧ s.m_bPasv = true

/-- Active mode is being tried: the listening socket is open, no data
connection yet, `m_bPasv` clear. -/
def Listening (t0 : List Event) (s : Ftp) : Prop :=
  ∃ added, s.trace = t0 ++ added ∧ dataOrigin added = some false ∧ s.m_data = none ∧
    s.m_bPasv = false

/-- Between `s` and `s1` the command `cmd` was written and its reply read, and
nothing else happened to the trace, the data connection and `m_bPasv`. -/
def Sent (cmd : Bytes) (s s1 : Ftp) : Prop :=
  s1.trace = s.trace ++ [Event.controlSend (cmd ++ "\r\n".toList),
    Event.controlReply s1.m_iRespCode s1.m_lastControlLine] ∧
  s1.m_iRespType = respType s1.m_iRespCode ∧ s1.m_data = s.m_data ∧ s1.m_bPasv = s.m_bPasv

/-- The events a run of `ftpOpenCommand` that starts the handshake has added to
the trace: `before`, in which the data connection was made in the mode `role`;
PBSZ 0 and PROT P, each with a 2xx reply; `resume`, the REST command and its
reply if there is one; the transfer command `cmd` with a 1xx reply; `after`,
the upcall `canResume` if there is one; the handshake in the role `role`; and
`post`, the error report if the handshake fails.  No event of the data
connection lies between `before` and the handshake, or after it. -/
def HandshakeTrace (cmd : Bytes) (role : Bool) (added : List Event) : Prop :=
  ∃ (before resume after post : List Event) (c1 c2 c3 : Int) (l1 l2 l3 : Bytes),
    added = before ++ [Event.controlSend "PBSZ 0\r\n".toList, Event.controlReply c1 l1,
        Event.controlSend "PROT P\r\n".toList, Event.controlReply c2 l2] ++ resume ++
      [Event.controlSend cmd, Event.controlReply c3 l3] ++ after ++
      Event.dataEncrypt role :: post ∧
    respType c1 = 2 ∧ respType c2 = 2 ∧ respType c3 = 1 ∧
    dataOrigin before = some role ∧
    (∀ e ∈ before, handshake e = false) ∧
    (∀ e ∈ resume ++ after ++ post, dataEvent e = false)

end KioFtps

namespace KioFtps

/-! ## The line format of directory listings

The specification describes the lines `ftpReadDir` parses as
`<access> <n> <owner> <group> <size> <Mon> <dd> <yyyy|HH:MM> <name>[ -> <target>]`.
The definitions of this section follow that description; they render an entry
as such a line.  Numbers are kept as the decimal strings that appear in the
line. -/

/-- The types of entries the specification lists. -/
inductive EntryKind
  | file | dir | symlink | socket | block | char
  deriving DecidableEq, Repr

/-- The first character of the access string. -/
def EntryKind.accessChar : EntryKind → Char
  | EntryKind.file => '-'
  | EntryKind.dir => 'd'
  | EntryKind.symlink => 'l'
  | EntryKind.socket => 's'
  | EntryKind.block => 'b'
  | EntryKind.char => 'c'

/-- The type bits of `<sys/stat.h>` for an entry; a symlink is given those of a
regular file, its link target tells that it is one. -/
def EntryKind.typeBits : EntryKind → Nat
  | EntryKind.dir => S_IFDIR
  | EntryKind.socket => S_IFSOCK
  | EntryKind.block => S_IFBLK
  | EntryKind.char => S_IFCHR
  | _ => S_IFREG

/-- The three characters `ls -l` shows for the permissions `r w x` of one class
and the special bit that shares the last position: `lower` when both the
special bit and `x` are set, `upper` when only the special bit is. -/
def tripleChars (r w x special : Bool) (lower upper : Char) : Bytes :=
  [if r then 'r' else '-', if w then 'w' else '-',
    if special then (if x then lower else upper) else (if x then 'x' else '-')]

/-- The nine permission characters of a mode in 0..07777. -/
def modeChars (mode : Nat) : Bytes :=
  tripleChars (mode.testBit 8) (mode.testBit 7) (mode.testBit 6) (mode.testBit 11) 's' 'S' ++
  tripleChars (mode.testBit 5) (mode.testBit 4) (mode.testBit 3) (mode.testBit 10) 's' 'S' ++
  tripleChars (mode.testBit 2) (mode.testBit 1) (mode.testBit 0) (mode.testBit 9) 't' 'T'

/-- The 10-character access string. -/
def accessString (kind : EntryKind) (mode : Nat) : Bytes := kind.accessChar :: modeChars mode

/-- The third field of the date: a year, or hours and minutes. -/
inductive DateTail
  | year (yyyy : Bytes)
  | clock (hh mm : Bytes)
  deriving DecidableEq, Repr

/-- The text of the third date field. -/
def DateTail.text : DateTail → Bytes
  | DateTail.year yyyy => yyyy
  | DateTail.clock hh mm => hh ++ ':' :: mm

/-- A directory entry as a listing shows it. -/
structure Listed where
  kind : EntryKind
  mode : Nat
  /-- the field `<n>` -/
  links : Bytes
  owner : Bytes
  group : Bytes
  size : Bytes
  /-- the month, 0 for January -/
  month : Nat
  day : Bytes
  tail : DateTail
  name : Bytes
  /-- the link target, shown for symlinks -/
  target : Bytes
  deriving DecidableEq, Repr

/-- The name field: the name and, for a symlink, ` -> ` and the target. -/
def Listed.nameField (e : Listed) : Bytes :=
  if e.kind = EntryKind.symlink then e.name ++ (" -> ".toList ++ e.target) else e.name

/-- A run of `k` spaces. -/
def spaces (k : Nat) : Bytes := List.replicate k ' '

/-- A line made of the fields `ts` and of what follows them, `last`: one space
stands after each field, and `gap i` more spaces after the field number `i`
(counted from `i0`) unless it is the last of `ts`. -/
def fieldsLine : List Bytes → (Nat → Nat) → Nat → Bytes → Bytes
  | [], _, _, last => last
  | [t], _, _, last => t ++ ' ' :: last
  | t :: t2 :: ts, gap, i0, last =>
    t ++ ' ' :: (spaces (gap i0) ++ fieldsLine (t2 :: ts) gap (i0 + 1) last)

/-- What ends a line read from the data connection: nothing, or bytes that
start with CR or LF. -/
def isEol (eol : Bytes) : Prop := eol = [] ∨ ∃ rest, eol = '\r' :: rest ∨ eol = '\n' :: rest

/-- The eight fields before the name. -/
def Listed.fields (e : Listed) : List Bytes :=
  [accessString e.kind e.mode, e.links, e.owner, e.group, e.size, s_months.getD e.month [],
    e.day, e.tail.text]

/-- The line that shows the entry: its fields with the spacing `gap`, the name
field and the line end `eol`. -/
def Listed.line (e : Listed) (gap : Nat → Nat) (eol : Bytes) : Bytes :=
  fieldsLine e.fields gap 0 (e.nameField ++ eol)

/-- The line that shows a device in the style of `/dev`: the field `major`
(the major number with its comma) stands before the size field, which holds
the minor number. -/
def Listed.deviceLine (e : Listed) (major : Bytes) (gap : Nat → Nat) (eol : Bytes) : Bytes :=
  fieldsLine [accessString e.kind e.mode, e.links, e.owner, e.group, major, e.size,
    s_months.getD e.month [], e.day, e.tail.text] gap 0 (e.nameField ++ eol)

/-- The line end after `strtok(NULL, "\r\n")` has cut the name: its first
byte, if there is one, has become NUL. -/
def cutEol : Bytes → Bytes
  | [] => []
  | _ :: rest => '\x00' :: rest

/-- The buffer `A` holds the C string `t` at the offset `off`. -/
def holdsAt (A : Bytes) (off : Nat) (t : Bytes) : Prop :=
  ∃ X Y, A = X ++ (t ++ '\x00' :: Y) ∧ X.length = off ∧ '\x00' ∉ t

/-- A field that `strtok` reads as one token: not empty, no space, no NUL. -/
def isToken (t : Bytes) : Prop := t ≠ [] ∧ ' ' ∉ t ∧ '\x00' ∉ t

instance (t : Bytes) : Decidable (isToken t) :=
  inferInstanceAs (Decidable (t ≠ [] ∧ ' ' ∉ t ∧ '\x00' ∉ t))

/-- The text `sub` occurs in `s`. -/
def occursIn (sub s : Bytes) : Bool := s.tails.any (fun t => sub.isPrefixOf t)

/-- The text ends the C string and the last token of the line: no NUL, CR or LF. -/
def isText (t : Bytes) : Prop := '\x00' ∉ t ∧ '\r' ∉ t ∧ '\n' ∉ t

instance (t : Bytes) : Decidable (isText t) :=
  inferInstanceAs (Decidable ('\x00' ∉ t ∧ '\r' ∉ t ∧ '\n' ∉ t))

/-- The fields of the entry are fields of a line: tokens and decimal numbers
where the grammar asks for them, a month, a date that is a four-digit year or
hours and minutes in digits, and a name and a target without NUL, CR and LF. -/
structure Listed.Fields (e : Listed) : Prop where
  mode_lt : e.mode < 4096
  links_token : isToken e.links
  owner_token : isToken e.owner
  group_token : isToken e.group
  size_digits : isDigits e.size = true
  size_lt : decimalValue e.size < 2 ^ 63
  month_lt : e.month < 12
  day_digits : isDigits e.day = true
  tail_ok : match e.tail with
    | DateTail.year yyyy => isDigits yyyy = true ∧ yyyy.length = 4
    | DateTail.clock hh mm => isDigits hh = true ∧ isDigits mm = true
  name_ne : e.name ≠ []
  name_text : isText e.name
  target_text : isText e.target

/-- The time of day is written with four characters, as in `9:05`. -/
def DateTail.shortClock : DateTail → Bool
  | DateTail.year _ => false
  | DateTail.clock hh mm => hh.length + 1 + mm.length == 4

/-- The name with one leading `/` removed. -/
def Listed.bareName (e : Listed) : Bytes :=
  match e.name with
  | '/' :: rest => rest
  | name => name

/-- The numbers of a time of day are below 2^31, so that `atoi` returns them
as they are written. -/
def DateTail.fitsInt : DateTail → Prop
  | DateTail.year _ => True
  | DateTail.clock hh mm => decimalValue hh < 2 ^ 31 ∧ decimalValue mm < 2 ^ 31

/-- The documented grammar of the fields, made precise where `ftpReadDir`
depends on it: besides `Fields`, the name holds no `/`, it starts and ends
with a character that is not white space, the time of day is not written with
four characters, the arrow that separates the name of a symlink from its
target is the last one in the line, and the day, the hours and the minutes are
numbers below 2^31 (a C `int` holds them). -/
structure Listed.WellFormed (e : Listed) extends e.Fields : Prop where
  name_slash : '/' ∉ e.name
  name_first : isspace (e.name.headD ' ') = false
  name_last : isspace (e.name.getLastD ' ') = false
  clock_long : e.tail.shortClock = false
  target_arrow : e.kind = EntryKind.symlink →
    occursIn " -> ".toList ("-> ".toList ++ e.target) = false
  day_int : decimalValue e.day < 2 ^ 31
  clock_int : e.tail.fitsInt

/-- The `struct tm` a date field stands for at the time `now`: the fields of
the line, no seconds, and for a date without year the year `ls` implies: the
current one unless the month is more than one ahead of the current month. -/
def Listed.date (now : Tm) (e : Listed) : Tm :=
  match e.tail with
  | DateTail.year yyyy =>
    { now with
      tm_sec := 0, tm_min := 0, tm_hour := 0, tm_mday := decimalValue e.day,
      tm_mon := e.month, tm_year := (decimalValue yyyy : Int) - 1900 }
  | DateTail.clock hh mm =>
    { now with
      tm_sec := 0, tm_min := decimalValue mm, tm_hour := decimalValue hh,
      tm_mday := decimalValue e.day, tm_mon := e.month,
      tm_year := if (e.month : Int) > now.tm_mon + 1 then now.tm_year - 1 else now.tm_year }

/-- The entry the line stands for. -/
def Listed.entry (now : Tm) (e : Listed) : FtpEntry :=
  { name := e.name
    owner := e.owner
    group := e.group
    link := if e.kind = EntryKind.symlink then e.target else []
    size := decimalValue e.size
    type := e.kind.typeBits
    access := e.mode
    date := e.date now }

/-- The single spacing: no space more than the one after each field. -/
def single : Nat → Nat := fun _ => 0

/-- The symlink `a` with target `b -> c`, as
`lrwxrwxrwx 1 u g 4 Jan 2 2020 a -> b -> c`. -/
def exampleArrowLink : Listed :=
  { kind := EntryKind.symlink, mode := 0o777, links := "1".toList, owner := "u".toList,
    group := "g".toList, size := "4".toList, month := 0, day := "2".toList,
    tail := DateTail.year "2020".toList, name := "a".toList, target := "b -> c".toList }

/-- The file `log` of the specification, as
`-rw-r--r-- 1 root root 102 Nov 9 12:30 log`. -/
def exampleLog : Listed :=
  { kind := EntryKind.file, mode := 0o644, links := "1".toList, owner := "root".toList,
    group := "root".toList, size := "102".toList, month := 10, day := "9".toList,
    tail := DateTail.clock "12".toList "30".toList, name := "log".toList, target := [] }

/-- The symlink `link` of the specification, as
`lrwxrwxrwx 1 u g 4 Jan 2 2020 link -> /tmp/x`. -/
def exampleLink : Listed :=
  { kind := EntryKind.symlink, mode := 0o777, links := "1".toList, owner := "u".toList,
    group := "g".toList, size := "4".toList, month := 0, day := "2".toList,
    tail := DateTail.year "2020".toList, name := "link".toList, target := "/tmp/x".toList }

/-- The spacing of the line
`-rw-r--r--   1 root     root       102 Nov  9 12:30 log`. -/
def exampleLogGap : Nat → Nat := fun i => [2, 0, 4, 6, 0, 1, 0].getD i 0

/-- The device `zero`, as in
`crw-rw-rw-   1 root     root       1,   5 Jun 29  1997 zero`. -/
def exampleZero : Listed :=
  { kind := EntryKind.char, mode := 0o666, links := "1".toList, owner := "root".toList,
    group := "root".toList, size := "5".toList, month := 5, day := "29".toList,
    tail := DateTail.year "1997".toList, name := "zero".toList, target := [] }

/-- The spacing of that line. -/
def exampleZeroGap : Nat → Nat := fun i => [2, 0, 4, 6, 2, 0, 0, 1].getD i 0

/-- The file `log` with the name `etc/passwd` instead. -/
def exampleSlash : Listed := { exampleLog with name := "etc/passwd".toList }

/-- The file `log` with the time written as `9:05`. -/
def exampleShortClock : Listed := { exampleLog with tail := DateTail.clock "9".toList "05".toList }

end KioFtps

namespace KioFtps

/-! ## Example sessions for active mode and for transfers -/

/-- A world in which successive `listen()` calls succeed on the ports `ports`
and a peer connects to each of them. -/
def exampleAccepting (ports : List Nat) : World :=
  { exampleWorld [] [] with listens := ports.map fun p => ⟨true, p, some (exampleData [])⟩ }

/-- A session of the user `bob`, logged on over `c`, with the transfer type
already set to binary. -/
def exampleUser (c : ControlSocket) (w : World) : Ftp :=
  { exampleLoggedOn c w with m_user := "bob".toList, m_pass := "secret".toList, m_cDataMode := 'I' }

end KioFtps

namespace KioFtps

/-! ## Vocabulary for the upcalls of a download -/

/-- The events of a download: the upcalls by which it reports to the host,
and the blocks read from the data connection. -/
def downloadEvent : Event → Bool
  | Event.mimeType _ => true
  | Event.totalSize _ => true
  | Event.processedSize _ => true
  | Event.data _ => true
  | Event.finished => true
  | Event.dataRecv _ => true
  | _ => false

/-- How far a download has come: no byte has been read (`start`); bytes have
been read and `mimeType` is due (`pending`); `mimeType` has just been emitted
and the total size is due (`typed`); data chunks are passing (`streaming`); the
empty chunk that ends the data has been emitted (`ended`); `finished` has been
emitted (`done`); the order was broken (`bad`). -/
inductive GetPhase
  | start | pending | typed | streaming | ended | done | bad
  deriving DecidableEq, Repr

/-- The order of the events of a download, one event at a time; the state is
the phase and the last argument of `processedSize`.  `mimeType` comes once,
after the first bytes were read and before any chunk of data, and not at all
when no byte is read; `totalSize` comes directly after it, if and only if the
size is known (`size`); the arguments of `processedSize` do not decrease; the
empty chunk comes once, after all other chunks, and `finished` follows it.
Events that are no events of the download are passed over. -/
def getStep (size : Option Nat) (st : GetPhase × Nat) (e : Event) : GetPhase × Nat :=
  match e with
  | Event.dataRecv [] => st
  | Event.dataRecv (_ :: _) =>
    if st.1 = GetPhase.start ∨ st.1 = GetPhase.pending then (GetPhase.pending, st.2)
    else if st.1 = GetPhase.streaming then (GetPhase.streaming, st.2)
    else (GetPhase.bad, st.2)
  | Event.processedSize n =>
    if (st.1 = GetPhase.start ∨ st.1 = GetPhase.pending ∨ st.1 = GetPhase.streaming ∨
        st.1 = GetPhase.ended) ∧ st.2 ≤ n
    then (st.1, n) else (GetPhase.bad, st.2)
  | Event.mimeType _ =>
    if st.1 = GetPhase.pending then
      (if size.isSome then GetPhase.typed else GetPhase.streaming, st.2)
    else (GetPhase.bad, st.2)
  | Event.totalSize t =>
    if st.1 = GetPhase.typed ∧ size = some t then (GetPhase.streaming, st.2)
    else (GetPhase.bad, st.2)
  | Event.data [] =>
    if st.1 = GetPhase.start ∨ st.1 = GetPhase.streaming then (GetPhase.ended, st.2)
    else (GetPhase.bad, st.2)
  | Event.data (_ :: _) =>
    if st.1 = GetPhase.streaming then (GetPhase.streaming, st.2) else (GetPhase.bad, st.2)
  | Event.finished =>
    if st.1 = GetPhase.ended then (GetPhase.done, st.2) else (GetPhase.bad, st.2)
  | _ => st

/-- The number of bytes the events tell to have been read from the data
connection. -/
def recvBytes : List Event → Nat
  | [] => 0
  | Event.dataRecv block :: es => block.length + recvBytes es
  | _ :: es => recvBytes es

/-- The size of the file as the upcalls know it: `none` for `UnknownSize`. -/
def knownSize (m_size : Nat) : Option Nat := if m_size = UnknownSize then none else some m_size

/-- The offset at which `ftpGet` starts: the metadata `resume` if it is there,
else the argument `llOffset`. -/
def resumeOffset (c : Config) (llOffset : Int) : Int :=
  if !c.resume.isEmpty then toLongLong c.resume else llOffset

/-- The elementary state changes of the functions that `ftpGet` and `ftpPut`
call before and after the transfer of the data: those of `ftpOpenCommand`
before the handshake, the handshake and the upcall `canResume`, and the
assignments to `m_size`. -/
def commandPrim (p : Prim) : Prop :=
  transferPrim p ∨ p = Prim.emit Event.canResume ∨ (∃ pasv, p = Prim.emit (Event.dataEncrypt pasv)) ∨
    ∃ n, p = Prim.setSize n

/-- The phases in which a pass of the read loop can start, given its local
variables: `streaming` once `mimeType` has been emitted; before that `start`,
or `pending` while a known size tells that bytes are left to come. -/
def GetLoop.inPhase (v : GetLoop) (m_size : Nat) (ph : GetPhase) : Prop :=
  if v.mimetypeEmitted then ph = GetPhase.streaming
  else ph = GetPhase.start ∨ (ph = GetPhase.pending ∧ m_size ≠ UnknownSize ∧ 0 < v.bytesLeft)

/-- The upcalls that precede the first chunk of data: `mimeType` and, if the
size is known, `totalSize`; none once they have been emitted. -/
def mimeUpcalls (mimetypeEmitted : Bool) (m_size : Nat) (chunk : Bytes) : List Event :=
  if mimetypeEmitted then []
  else Event.mimeType chunk :: (if m_size != UnknownSize then [Event.totalSize m_size] else [])

/-- A data socket on which successive `read` calls deliver `reads`. -/
def exampleReads (reads : List String) : DataSocket :=
  { exampleData [] with reads := reads.map fun r => some r.toList }

/-- A session of the user `bob` inside the read loop of a download of a file
of `size` bytes, on a data connection that will deliver `reads`. -/
def exampleReading (size : Nat) (reads : List String) : Ftp :=
  { exampleUser (exampleControl ["226 done\r\n"]) (exampleWorld [] []) with
    m_data := some (exampleReads reads), m_size := size, m_bBusy := true }

/-- The replies of a server to a download of a file whose size it does not
tell: `SIZE` and `cwd` refused, passive mode, data encryption, `retr` accepted,
and the final reply. -/
def exampleRetrReplies : List String :=
  ["550 no size\r\n", "550 not a directory\r\n", "227 (192,0,2,7,6,245)\r\n", "200 PBSZ=0\r\n",
    "200 PROT P ok\r\n", "200 PBSZ=0\r\n", "200 PROT P ok\r\n", "150 Opening\r\n", "226 done\r\n"]

/-- The replies of a server to a download of a file of five bytes. -/
def exampleRetrSized : List String :=
  ["213 5\r\n", "227 (192,0,2,7,6,245)\r\n", "200 PBSZ=0\r\n", "200 PROT P ok\r\n",
    "200 PBSZ=0\r\n", "200 PROT P ok\r\n", "150 Opening\r\n", "226 done\r\n"]

end KioFtps

namespace KioFtps

/-! ## Vocabulary for the commands of an upload -/

/-- The commands written to the control connection, in their order. -/
def sentCommands : List Event → List Bytes
  | [] => []
  | Event.controlSend buf :: es => buf :: sentCommands es
  | _ :: es => sentCommands es

end KioFtps

namespace KioFtps

/-! ## Example sessions for the TLS handshake on the control connection -/

/-- A control socket that connects, greets with 220 and accepts `AUTH TLS`, and
whose handshake fails with the certificate errors `errors` unless they are
ignored (`ignoring`: whether it succeeds when they are). -/
def exampleUntrusted (errors : List String) (ignoring : Bool) : ControlSocket :=
  { exampleControl ["220 hi\r\n", "234 go on\r\n"] with
    encrypts := false, encryptsIgnoring := ignoring, sslErrors := errors.map String.toList }

/-- A fresh worker in a world whose successive control connections are
`controls` and in which the user answers the message boxes with `answers`
(`true`: Cancel). -/
def exampleDeclining (controls : List ControlSocket) (answers : List Bool) : Ftp :=
  exampleFresh { exampleWorld controls [] with messageBoxes := answers }

/-- The connection attempts among the events. -/
def connectAttempts : List Event → Nat
  | [] => 0
  | Event.controlConnect _ _ :: es => connectAttempts es + 1
  | _ :: es => connectAttempts es

/-! ## Login: the credentials and the cache -/

/-- The part of `ftpLogin` after the login loop (lines 597-641), given the
configuration read before the loop and whether the loop ended logged in:
`SYST` and the `site dirstyle` exchange, the auto-login macro, and `PWD`. -/
def ftpLoginRest (fuel : Nat) (cfg : Config) (loggedIn : Bool) : M Bool :=
  if !loggedIn then pure false
  else do
    infoMessage "Login OK".toList
    let syst ← ftpSendCmd fuel "SYST".toList defaultRetries
    let s1 ← getFtp
    if syst && s1.m_iRespType == 2 then do
      let r ← ftpResponse 0
      if strncmpEq r "215 Windows_NT".toList 14 then do
        let _ ← ftpSendCmd fuel "site dirstyle".toList defaultRetries
        let r2 ← ftpResponse 0
        if strncmpEq r2 "200 MSDOS-like directory output is on".toList 37 then do
          let _ ← ftpSendCmd fuel "site dirstyle".toList defaultRetries
          pure ()
        else pure ()
        prim Prim.setChmodUnknown
      else pure ()
    else pure ()
    if cfg.EnableAutoLoginMacro then ftpAutoLoginMacro fuel else pure ()
    let pwd ← ftpSendCmd fuel "PWD".toList defaultRetries
    let s2 ← getFtp
    if !pwd || s2.m_iRespType != 2 then do
      error KioError.ERR_COULD_NOT_LOGIN
        ("Could not login to ".toList ++ s2.m_host ++ ".".toList)
      pure false
    else do
      let sTmp ← ftpResponse 3
      let iBeg := indexOfChar sTmp '"'
      let iEnd := lastIndexOfChar sTmp '"'
      if decide (iBeg > 0) && decide (iBeg < iEnd) then do
        let p0 := mid sTmp (iBeg + 1).toNat (iEnd - iBeg - 1).toNat
        let p1 := if p0.head? != some '/' then '/' :: p0 else p0
        prim (Prim.setInitialPath p1)
        prim (Prim.setCurrentPath p1)
      else pure ()
      pure true

/-- The credentials a login starts with, by precedence: the configured
auto-login user and password when auto-login is enabled and its user is not
empty; otherwise anonymous when the user and the password given by `setHost`
are both empty; otherwise the user and the password given by `setHost`. -/
def startCredentials (cfg : Config) (user pass : Bytes) : Bytes × Bytes :=
  if cfg.EnableAutoLogin = true ∧ cfg.autoLoginUser ≠ [] then
    (cfg.autoLoginUser, cfg.autoLoginPass)
  else if user = [] ∧ pass = [] then (FTP_LOGIN, FTP_PASSWD)
  else (user, pass)

/-- What `ftpLoginAttempt` appends to `USER <user>` behind a proxy (lines
554-563): `@host`, and `:port` for a port other than the default. -/
def proxyPart (s : Ftp) : Bytes :=
  if s.m_bUseProxy then
    '@' :: s.m_host ++
      (if decide (s.m_port > 0) && s.m_port != DEFAULT_FTP_PORT then ':' :: number s.m_port
       else [])
  else []

/-- A session connected over `c` that is about to log in as `user` with
`pass`, under the configuration `cfg`. -/
def exampleLogin (c : ControlSocket) (cfg : Config) (user pass : String) : Ftp :=
  { exampleFresh { exampleWorld [] [] with config := cfg } with
    m_control := some c, m_user := user.toList, m_pass := pass.toList }

/-- The configuration with auto-login as `user` with `pass`. -/
def exampleAutoLogin (user pass : String) : Config :=
  { exampleConfig with
    EnableAutoLogin := true, autoLoginUser := user.toList, autoLoginPass := pass.toList }

/-- The replies of a server to a login with a password and to `SYST` and `PWD`. -/
def exampleLoginReplies : List String :=
  ["331 password?\r\n", "230 welcome\r\n", "215 UNIX\r\n", "257 \"/\" is current\r\n"]

/-- The credentials handed to `cacheAuthentication`, in order. -/
def cached : List Event → List (Bytes × Bytes)
  | [] => []
  | Event.cacheAuthentication u p :: es => (u, p) :: cached es
  | _ :: es => cached es

/-! ## The transfer type -/

/-- The transfer type a requested mode stands for: `?` is ASCII in text mode
and binary otherwise, `a` and `A` are ASCII, any other character is binary. -/
def dataModeOf (textMode : Bool) (c : Char) : Char :=
  if c = '?' then (if textMode then 'A' else 'I')
  else if c = 'a' ∨ c = 'A' then 'A'
  else 'I'

/-! ## Permissions -/

/-- `Ftp::chmod(url, permissions)` (lines 1252-1261) for `url.path() = path`. -/
def chmod (fuel : Nat) (path : Bytes) (permissions : Int) : M Unit := do
  let opened ← ftpOpenConnection fuel LoginMode.loginImplicit
  if !opened then pure ()
  else do
    let changed ← ftpChmod fuel path permissions
    if !changed then error KioError.ERR_CANNOT_CHMOD path
    else prim (Prim.emit Event.finished)

/-- The state changes that keep the control connection: all but the one made
by `ftpCloseControlConnection`. -/
def keepsControl (p : Prim) : Prop := p ≠ Prim.closeControl

/-- The `SITE CHMOD` command of `ftpChmod` for `path` and `permissions`. -/
def siteChmod (path : Bytes) (permissions : Int) : Bytes :=
  "SITE CHMOD ".toList ++ octal (permissions % 512).toNat ++ [' '] ++ path

/-- The upcalls `error` and `finished` among the events, in order. -/
def outcomes : List Event → List Event
  | [] => []
  | Event.error code msg :: es => Event.error code msg :: outcomes es
  | Event.finished :: es => Event.finished :: outcomes es
  | _ :: es => outcomes es

/-- The replies of a server up to the end of an anonymous login: greeting,
`AUTH TLS`, `USER`, `pass`, `SYST`, `PWD`. -/
def exampleSessionReplies : List String :=
  ["220 hi\r\n", "234 go on\r\n", "331 password?\r\n", "230 welcome\r\n", "215 UNIX\r\n",
    "257 \"/\" is current\r\n"]

/-! ## The read loop of a download: the buffer and the byte stream -/

/-- One pass of the read loop of `ftpGet` (lines 1891-1948) that is followed
by another: from the loop variables and the session in `a`, the loop condition
holds, the `read` returns at least one byte, and the body of the loop ends with
the variables and the session in `b`. -/
def ftpGetPass (iCopyFile llOffset : Int) (a b : GetLoop × Ftp) : Prop :=
  ∃ d c cs, (a.2.m_size == UnknownSize || decide (a.1.bytesLeft > 0)) = true ∧
    a.2.m_data = some d ∧
    readBlock d.reads (ftpGetBlockSize a.1 llOffset) = some (c :: cs) ∧
    ftpGetStep iCopyFile a.1 (ftpGetBlockSize a.1 llOffset) (c :: cs)
      ((Prim.dataRead (ftpGetBlockSize a.1 llOffset)).apply a.2) = (Except.ok (Sum.inr b.1), b.2)

/-- The bounds the loop variables keep: fewer than `mimimumMimeSize` bytes are
held back in the buffer, the block size is positive and at most the size of the
buffer, and it is `initialIpcSize` as long as no more than 64 KiB have been
processed. -/
def GetLoop.inBounds (v : GetLoop) (llOffset : Int) : Prop :=
  (v.buffer.length : Int) < mimimumMimeSize ∧ 0 < v.iBlockSize ∧ v.iBlockSize ≤ maximumIpcSize ∧
    (v.processed_size - llOffset ≤ 1024 * 64 → v.iBlockSize = initialIpcSize)

/-- The bytes read from the data connection, in order. -/
def received : List Event → Bytes
  | [] => []
  | Event.dataRecv block :: es => block ++ received es
  | _ :: es => received es

/-- The bytes handed on, in order: the chunks of the `data` upcalls and of the
writes to the local file. -/
def delivered : List Event → Bytes
  | [] => []
  | Event.data chunk :: es => chunk ++ delivered es
  | Event.fileWrite _ chunk :: es => chunk ++ delivered es
  | _ :: es => delivered es

/-- The events that carry bytes of the stream. -/
def streamEvent : Event → Bool
  | Event.dataRecv _ => true
  | Event.data _ => true
  | Event.fileWrite _ _ => true
  | _ => false

/-- The session of `exampleReading 5 ["he", "llo"]` after the first pass of
the read loop, in which `he` was read and held back. -/
def exampleSecondPass : Ftp :=
  (ftpGetStep (-1) ⟨0, 5, initialIpcSize, [], false⟩ 2048 "he".toList
    ((Prim.dataRead 2048).apply (exampleReading 5 ["he", "llo"]))).2

/-- A session of the user `bob` on a server that will answer a download of a
file of five bytes and deliver them as `he` and `llo`. -/
def exampleHello : Ftp :=
  exampleUser (exampleControl exampleRetrSized) (exampleWorld [] [exampleReads ["he", "llo"]])

/-! ## `stat` (lines 1299-1507) -/

/-- `QUrl::fileName()` of a URL with the path `path`: what follows the last
`/`, the whole path if it has none. -/
def fileName (path : Bytes) : Bytes := (path.reverse.takeWhile (fun c => c != '/')).reverse

/-- `adjusted(QUrl::RemoveFilename).path()`: the path up to and including its
last `/`. -/
def removeFilename (path : Bytes) : Bytes := (path.reverse.dropWhile (fun c => c != '/')).reverse

/-- `QString::toInt()`: as `toLongLong`, and 0 when the value is not in the
range of `int`. -/
def toInt (s : Bytes) : Int :=
  if -(2 ^ 31) ≤ toLongLong s ∧ toLongLong s ≤ 2 ^ 31 - 1 then toLongLong s else 0

/-- `Ftp::ftpShortStatAnswer(filename, isDir)` (lines 1299-1311): an entry with
the name, the type and fixed permissions, then `finished`. -/
def ftpShortStatAnswer (filename : Bytes) (_isDir : Bool) : M Unit := do
  prim (Prim.emit (Event.statEntry filename))
  prim (Prim.emit Event.finished)

/-- `Ftp::ftpStatAnswerNotFound(path, filename)` (lines 1313-1333). -/
def ftpStatAnswerNotFound (path filename : Bytes) : M Unit := do
  let s ← getFtp
  if s.world.config.statSide == "source".toList then ftpShortStatAnswer filename false
  else error KioError.ERR_DOES_NOT_EXIST path

/-- The `while( ftpReadDir(ftpEnt) )` loop of `stat` (lines 1441-1481), from
the value `bFound` has before a pass to the value it has after the loop.  The
entry handed to `statEntry` is the one `ftpCreateUDSEntry` fills in, with
`UDS_NAME = filename`.  The branch that assigns `linkURL` is inside `#if 0`. -/
def statLoop : Nat → Bytes → Bytes → Bool → M Bool
  | 0, _, _, _ => fault Fault.outOfFuel
  | fuel + 1, search, filename, bFound => do
    let de ← ftpReadDir
    match de with
    | none => pure bFound
    | some ftpEnt =>
      if !bFound then
        if search == ftpEnt.name || filename == ftpEnt.name then
          if !filename.isEmpty then do
            prim (Prim.emit (Event.statEntry filename))
            statLoop fuel search filename true
          else statLoop fuel search filename bFound
        else statLoop fuel search filename bFound
      else statLoop fuel search filename bFound

/-- `Ftp::stat(url)` (lines 1334-1507) for `url.path() = url`; URLs of the
session are told apart by their paths.  `cleanPath` is `QDir::cleanPath`, a
function of Qt.  The two `Q_ASSERT`s expand to nothing in a release build.
`linkURL` is declared empty at line 1439 and not assigned afterwards. -/
def stat (cleanPath : Bytes → Bytes) : Nat → Bytes → M Unit
  | 0, _ => fault Fault.outOfFuel
  | fuel + 1, url => do
    let opened ← ftpOpenConnection fuel LoginMode.loginImplicit
    if !opened then pure ()
    else
      let path := cleanPath url
      if path.isEmpty || path == "/".toList then do
        prim (Prim.emit (Event.statEntry ".".toList))
        prim (Prim.emit Event.finished)
      else do
        let filename := fileName path
        let search := filename
        let isDir ← ftpFolder fuel path false
        let s ← getFtp
        let sDetails := s.world.config.details
        let details : Int := if sDetails.isEmpty then 2 else toInt sDetails
        if details == 0 then
          if !isDir then do
            let sized ← ftpSize fuel path 'I'
            if !sized then ftpStatAnswerNotFound path filename
            else ftpShortStatAnswer filename isDir
          else ftpShortStatAnswer filename isDir
        else if isDir then do
          prim (Prim.emit (Event.statEntry filename))
          prim (Prim.emit Event.finished)
        else do
          let parentDir := removeFilename path
          let listarg := filename
          let inParent ← ftpFolder fuel parentDir true
          if !inParent then pure ()
          else do
            let listed ← ftpOpenCommand fuel "list".toList listarg 'I' KioError.ERR_DOES_NOT_EXIST 0
            if !listed then pure ()
            else do
              let linkURL : Bytes := []
              let bFound ← statLoop fuel search filename false
              let _ ← ftpCloseCommand
              if !bFound then ftpStatAnswerNotFound path filename
              else if !linkURL.isEmpty then
                if linkURL == url || linkURL == path then
                  error KioError.ERR_CYCLIC_LINK linkURL
                else stat cleanPath fuel linkURL
              else prim (Prim.emit Event.finished)

/-- The elementary state changes other than the upcall
`error(ERR_CYCLIC_LINK, ...)`. -/
@[reducible] def noCyclicLink (p : Prim) : Prop :=
  ∀ msg, p ≠ Prim.emit (Event.error KioError.ERR_CYCLIC_LINK msg)

/-- The results of the functions that return an error code or 0: all but
`ERR_CYCLIC_LINK`. -/
@[reducible] def otherCode (r : Option KioError) : Prop := r ≠ some KioError.ERR_CYCLIC_LINK

/-- The replies of a server to `stat` of a file in `/pub`: `cwd` to the path
refused, `cwd /pub/` accepted, passive mode, data encryption, `list` accepted,
and the final reply. -/
def exampleStatReplies : List String :=
  ["550 not a directory\r\n", "250 ok\r\n", "227 (192,0,2,7,6,245)\r\n", "200 PBSZ=0\r\n",
    "200 PROT P ok\r\n", "200 PBSZ=0\r\n", "200 PROT P ok\r\n", "150 Opening\r\n", "226 done\r\n"]

/-- A session of the user `bob` on a server whose listing of `loop` in `/pub`
is a symbolic link `loop` that points to `/pub/loop`, the URL listed. -/
def exampleCyclic : Ftp :=
  exampleUser (exampleControl exampleStatReplies)
    (exampleWorld [] [exampleData ["lrwxrwxrwx 1 root root 9 Nov 9 12:30 loop -> /pub/loop\r\n"]])

end KioFtps

namespace KioFtps

/-! ## Facts about the libc helpers -/

theorem isspace_of_isdigit {c : Char} (h : isdigit c = true) : isspace c = false := by
  cases hs : isspace c with
  | false => rfl
  | true =>
    exfalso
    simp only [isspace, Bool.or_eq_true, beq_iff_eq] at hs
    rcases hs with ((((hs | hs) | hs) | hs) | hs) | hs <;> subst hs <;> revert h <;> decide

theorem ne_of_isdigit {c d : Char} (h : isdigit c = true) (hd : isdigit d = false) : c ≠ d := by
  intro hcd
  subst hcd
  rw [h] at hd
  cases hd

theorem scanSigned_of_isdigit {c : Char} (cs : Bytes) (h : isdigit c = true) :
    scanSigned (c :: cs) = ((scanDigits (c :: cs) 0).1 : Int) := by
  have h1 : c ≠ '-' := ne_of_isdigit h (by decide)
  have h2 : c ≠ '+' := ne_of_isdigit h (by decide)
  unfold scanSigned
  split
  · rename_i heq
    cases heq
    exact absurd rfl h1
  · rename_i heq
    cases heq
    exact absurd rfl h2
  · rfl

theorem digitVal_le {c : Char} (h : isdigit c = true) : digitVal c ≤ 9 := by
  simp only [isdigit, Bool.and_eq_true, decide_eq_true_eq] at h
  have h2 : c.toNat ≤ 57 := h.2
  unfold digitVal
  omega

theorem strtol_of_isdigit {c : Char} (cs : Bytes) (h : isdigit c = true) :
    strtol (c :: cs) = max (-(2 ^ 63)) (min (2 ^ 63 - 1) ((scanDigits (c :: cs) 0).1 : Int)) := by
  unfold strtol
  rw [List.dropWhile_cons_of_neg (by simp [isspace_of_isdigit h]), scanSigned_of_isdigit cs h]

/-- A number from 0 to 2^31 - 1 is kept by `strtol` and by the conversion to
`int`. -/
theorem toCInt_clamp (v : Int) (h0 : 0 ≤ v) (h : v < 2 ^ 31) :
    toCInt (max (-(2 ^ 63)) (min (2 ^ 63 - 1) v)) = v := by
  have hmin : min (2 ^ 63 - 1) v = v := by omega
  have hmax : max (-(2 ^ 63)) v = v := by omega
  rw [hmin, hmax]
  unfold toCInt
  omega

theorem atoi_of_isdigit {c : Char} (cs : Bytes) (h : isdigit c = true)
    (hlt : (scanDigits (c :: cs) 0).1 < 2 ^ 31) :
    atoi (c :: cs) = ((scanDigits (c :: cs) 0).1 : Int) := by
  unfold atoi
  rw [strtol_of_isdigit cs h]
  exact toCInt_clamp _ (Int.natCast_nonneg _) (by exact_mod_cast hlt)

theorem scanDigits_three {d1 d2 d3 c : Char} (t : Bytes) (h1 : isdigit d1 = true)
    (h2 : isdigit d2 = true) (h3 : isdigit d3 = true) (hc : isdigit c = false) :
    scanDigits (d1 :: d2 :: d3 :: c :: t) 0 =
      (digitVal d1 * 100 + digitVal d2 * 10 + digitVal d3, c :: t) := by
  simp only [scanDigits, h1, h2, h3, hc, if_true, Bool.false_eq_true, if_false, Prod.mk.injEq,
    and_true]
  ring

/-- The number a three-digit reply code stands for. -/
theorem atoi_three {d1 d2 d3 c : Char} (t : Bytes) (h1 : isdigit d1 = true)
    (h2 : isdigit d2 = true) (h3 : isdigit d3 = true) (hc : isdigit c = false) :
    atoi (d1 :: d2 :: d3 :: c :: t) =
      ((digitVal d1 * 100 + digitVal d2 * 10 + digitVal d3 : Nat) : Int) := by
  have hv1 := digitVal_le h1
  have hv2 := digitVal_le h2
  have hv3 := digitVal_le h3
  rw [atoi_of_isdigit _ h1 (by rw [scanDigits_three t h1 h2 h3 hc]; show _ < 2 ^ 31; omega),
    scanDigits_three t h1 h2 h3 hc]

theorem digitVal_pos {c : Char} (h : isdigit c = true) (h0 : c ≠ '0') : 1 ≤ digitVal c := by
  simp only [isdigit, Bool.and_eq_true, decide_eq_true_eq] at h
  have h1 : (48 : Nat) ≤ c.toNat := h.1
  unfold digitVal
  have h2 : c.toNat ≠ 48 := by
    intro h48
    apply h0
    apply Char.ext
    apply UInt32.ext
    exact h48
  omega

/-! ## The response reader -/

theorem codeOf_ge (d1 d2 d3 : Char) (h1 : isdigit d1 = true) (h0 : d1 ≠ '0') :
    100 ≤ codeOf d1 d2 d3 := by
  have := digitVal_pos h1 h0
  unfold codeOf
  omega

theorem atoi_code {d1 d2 d3 c : Char} (t : Bytes) (h1 : isdigit d1 = true)
    (h2 : isdigit d2 = true) (h3 : isdigit d3 = true) (hc : isdigit c = false) :
    atoi (d1 :: d2 :: d3 :: c :: t) = (codeOf d1 d2 d3 : Int) :=
  atoi_three t h1 h2 h3 hc

theorem respMore_opening {d1 d2 d3 : Char} (t : Bytes) (h1 : isdigit d1 = true)
    (h2 : isdigit d2 = true) (h3 : isdigit d3 = true) (h0 : d1 ≠ '0') :
    respMore (d1 :: d2 :: d3 :: '-' :: t) 0 = (codeOf d1 d2 d3 : Int) := by
  have hge : (100 : Int) ≤ (codeOf d1 d2 d3 : Int) := by
    exact_mod_cast codeOf_ge d1 d2 d3 h1 h0
  have hat := atoi_code (c := '-') t h1 h2 h3 (by decide)
  generalize (codeOf d1 d2 d3 : Int) = n at hat hge
  have hlt : ¬ n < 100 := by omega
  unfold respMore
  simp [hat, byteAt, hlt]

theorem respMore_continuation {d1 d2 d3 : Char} (l : Bytes) (h1 : isdigit d1 = true)
    (h2 : isdigit d2 = true) (h3 : isdigit d3 = true) (h0 : d1 ≠ '0')
    (hl : isContinuation d1 d2 d3 l = true) :
    respMore l (codeOf d1 d2 d3 : Int) = (codeOf d1 d2 d3 : Int) := by
  have hge : (100 : Int) ≤ (codeOf d1 d2 d3 : Int) := by
    exact_mod_cast codeOf_ge d1 d2 d3 h1 h0
  simp only [isContinuation, Bool.or_eq_true, beq_iff_eq] at hl
  rcases hl with hl | hl
  · generalize (codeOf d1 d2 d3 : Int) = n at hge
    have hne : n ≠ 0 := by omega
    unfold respMore
    simp [hl, hne]
  · obtain ⟨t, rfl⟩ := List.isPrefixOf_iff_prefix.mp hl
    have hat := atoi_code (c := '-') t h1 h2 h3 (by decide)
    have hsp : d1 ≠ ' ' := ne_of_isdigit h1 (by decide)
    generalize (codeOf d1 d2 d3 : Int) = n at hat hge
    have hne : n ≠ 0 := by omega
    have hlt : ¬ n < 100 := by omega
    unfold respMore
    simp only [List.cons_append, List.nil_append, hat]
    simp [byteAt, hlt, hne, hsp]

theorem respMore_terminator {d1 d2 d3 : Char} (t : Bytes) (h1 : isdigit d1 = true)
    (h2 : isdigit d2 = true) (h3 : isdigit d3 = true) (h0 : d1 ≠ '0') :
    respMore (d1 :: d2 :: d3 :: ' ' :: t) (codeOf d1 d2 d3 : Int) = 0 := by
  have hge : (100 : Int) ≤ (codeOf d1 d2 d3 : Int) := by
    exact_mod_cast codeOf_ge d1 d2 d3 h1 h0
  have hat := atoi_code t h1 h2 h3 (c := ' ') (by decide)
  have hsp : d1 ≠ ' ' := ne_of_isdigit h1 (by decide)
  generalize (codeOf d1 d2 d3 : Int) = n at hat hge
  have hne : n ≠ 0 := by omega
  have hlt : ¬ n < 100 := by omega
  unfold respMore
  simp only [hat]
  simp [byteAt, hlt, hne, hsp]

theorem respCode_terminator {d1 d2 d3 : Char} (t : Bytes) (code : Int) (h1 : isdigit d1 = true)
    (h2 : isdigit d2 = true) (h3 : isdigit d3 = true) (h0 : d1 ≠ '0') :
    respCode (d1 :: d2 :: d3 :: ' ' :: t) code = (codeOf d1 d2 d3 : Int) := by
  have hge : (100 : Int) ≤ (codeOf d1 d2 d3 : Int) := by
    exact_mod_cast codeOf_ge d1 d2 d3 h1 h0
  have hat := atoi_code t h1 h2 h3 (c := ' ') (by decide)
  generalize (codeOf d1 d2 d3 : Int) = n at hat hge
  have hpos : n > 0 := by omega
  unfold respCode
  rw [hat, if_pos hpos]

/-- Inside a multi-line reply the loop passes over continuation lines and stops
at the terminator. -/
theorem ftpResponseLoop_continuations {d1 d2 d3 : Char} (h1 : isdigit d1 = true)
    (h2 : isdigit d2 = true) (h3 : isdigit d3 = true) (h0 : d1 ≠ '0') (t : Bytes)
    (rest : List Bytes) (conts : List Bytes)
    (hconts : ∀ l ∈ conts, isContinuation d1 d2 d3 l = true) (code : Int) :
    ftpResponseLoop (conts ++ (d1 :: d2 :: d3 :: ' ' :: t) :: rest) (codeOf d1 d2 d3 : Int) code =
      (d1 :: d2 :: d3 :: ' ' :: t, (codeOf d1 d2 d3 : Int), rest) := by
  have hge := codeOf_ge d1 d2 d3 h1 h0
  have hne : ((codeOf d1 d2 d3 : Nat) : Int) ≠ 0 := by omega
  induction conts generalizing code with
  | nil =>
    simp only [List.nil_append, ftpResponseLoop, respMore_terminator t h1 h2 h3 h0,
      respCode_terminator t code h1 h2 h3 h0]
    simp
  | cons l ls ih =>
    have hl := respMore_continuation l h1 h2 h3 h0 (hconts l (List.mem_cons_self _ _))
    simp only [List.cons_append, ftpResponseLoop, hl]
    rw [if_pos (by simpa using hne)]
    exact ih (fun l' hl' => hconts l' (List.mem_cons_of_mem _ hl')) _

/-- The read loop on a whole multi-line reply. -/
theorem ftpResponseLoop_multiline {d1 d2 d3 : Char} (h1 : isdigit d1 = true)
    (h2 : isdigit d2 = true) (h3 : isdigit d3 = true) (h0 : d1 ≠ '0') (text t : Bytes)
    (rest : List Bytes) (conts : List Bytes)
    (hconts : ∀ l ∈ conts, isContinuation d1 d2 d3 l = true) :
    ftpResponseLoop ((d1 :: d2 :: d3 :: '-' :: text) ::
        (conts ++ (d1 :: d2 :: d3 :: ' ' :: t) :: rest)) 0 0 =
      (d1 :: d2 :: d3 :: ' ' :: t, (codeOf d1 d2 d3 : Int), rest) := by
  have hge := codeOf_ge d1 d2 d3 h1 h0
  have hne : ((codeOf d1 d2 d3 : Nat) : Int) ≠ 0 := by omega
  simp only [ftpResponseLoop, respMore_opening text h1 h2 h3 h0]
  rw [if_pos (by simpa using hne)]
  exact ftpResponseLoop_continuations h1 h2 h3 h0 t rest conts hconts _

/-! ## Running computations -/

@[simp] theorem run_pure {α : Type} (a : α) (s : Ftp) : (pure a : M α) s = (Except.ok a, s) := rfl

theorem run_bind {α β : Type} (m : M α) (f : α → M β) (s : Ftp) :
    (m >>= f) s = match m s with
      | (Except.ok a, s1) => f a s1
      | (Except.error e, s1) => (Except.error e, s1) := rfl

theorem run_bind_ok {α β : Type} {m : M α} {f : α → M β} {s s1 : Ftp} {a : α}
    (h : m s = (Except.ok a, s1)) : (m >>= f) s = f a s1 := by
  rw [run_bind, h]

theorem run_bind_error {α β : Type} {m : M α} {f : α → M β} {s s1 : Ftp} {e : Fault}
    (h : m s = (Except.error e, s1)) : (m >>= f) s = (Except.error e, s1) := by
  rw [run_bind, h]

@[simp] theorem run_getFtp (s : Ftp) : getFtp s = (Except.ok s, s) := rfl

@[simp] theorem run_fault {α : Type} (e : Fault) (s : Ftp) :
    (fault e : M α) s = (Except.error e, s) := rfl

@[simp] theorem run_prim (p : Prim) (s : Ftp) : prim p s = (Except.ok (), p.apply s) := rfl

@[simp] theorem run_getFtp_bind {β : Type} (f : Ftp → M β) (s : Ftp) :
    (getFtp >>= f) s = f s s := rfl

@[simp] theorem run_prim_bind {β : Type} (p : Prim) (f : Unit → M β) (s : Ftp) :
    (prim p >>= f) s = f () (p.apply s) := rfl

@[simp] theorem run_pure_bind {α β : Type} (a : α) (f : α → M β) (s : Ftp) :
    ((pure a : M α) >>= f) s = f a s := rfl

@[simp] theorem run_fault_bind {α β : Type} (e : Fault) (f : α → M β) (s : Ftp) :
    ((fault e : M α) >>= f) s = (Except.error e, s) := rfl

/-- What `ftpResponse(-1)` does on a session with a control connection. -/
theorem ftpResponse_read (s : Ftp) (c : ControlSocket) (hs : s.m_control = some c) :
    ftpResponse (-1) s =
      (Except.ok (cstr (ftpResponseLoop c.lines 0 0).1),
        { s with
          m_control := some { c with lines := (ftpResponseLoop c.lines 0 0).2.2 }
          m_lastControlLine := (ftpResponseLoop c.lines 0 0).1
          m_iRespCode := (ftpResponseLoop c.lines 0 0).2.1
          m_iRespType := respType (ftpResponseLoop c.lines 0 0).2.1
          trace := s.trace ++ [Event.controlReply (ftpResponseLoop c.lines 0 0).2.1
            (ftpResponseLoop c.lines 0 0).1] }) := by
  simp only [ftpResponse, run_getFtp_bind, hs]
  simp [Prim.apply, hs]

/-- C2 (amended): for a multi-line reply made of an opening line `NNN-text`
(NNN a three-digit code from 100 on), any number of continuation lines that
start with a space or are again of the form `NNN-text`, and a terminator line
`NNN text`, `ftpResponse(-1)` consumes exactly these lines, sets the response
code to NNN and the type to NNN/100, and retains the terminator line, as read,
as the last-response text. -/
theorem ftpResponse_multiline_reply (d1 d2 d3 : Char) (text termText : Bytes)
    (conts rest : List Bytes) (s : Ftp) (c : ControlSocket)
    (h1 : isdigit d1 = true) (h2 : isdigit d2 = true) (h3 : isdigit d3 = true) (h0 : d1 ≠ '0')
    (hconts : ∀ l ∈ conts, isContinuation d1 d2 d3 l = true)
    (hs : s.m_control = some c)
    (hlines : c.lines = (d1 :: d2 :: d3 :: '-' :: text) ::
      (conts ++ (d1 :: d2 :: d3 :: ' ' :: termText) :: rest)) :
    (ftpResponse (-1) s).1 = Except.ok (cstr (d1 :: d2 :: d3 :: ' ' :: termText)) ∧
    (ftpResponse (-1) s).2.m_control = some { c with lines := rest } ∧
    (ftpResponse (-1) s).2.m_iRespCode = (codeOf d1 d2 d3 : Int) ∧
    (ftpResponse (-1) s).2.m_iRespType = (codeOf d1 d2 d3 : Int) / 100 ∧
    (ftpResponse (-1) s).2.m_lastControlLine = d1 :: d2 :: d3 :: ' ' :: termText := by
  have hloop := ftpResponseLoop_multiline h1 h2 h3 h0 text termText rest conts hconts
  have hge : (100 : Int) ≤ (codeOf d1 d2 d3 : Int) := by
    exact_mod_cast codeOf_ge d1 d2 d3 h1 h0
  have hpos : (codeOf d1 d2 d3 : Int) > 0 := by omega
  rw [ftpResponse_read s c hs, hlines, hloop]
  refine ⟨rfl, rfl, rfl, ?_, rfl⟩
  simp only [respType, if_pos hpos]

/-- C2, the spec's example: the greeting `220-hello`, ` text`, `220 ready` gives
code 220, type 2, and the terminator line as the retained text. -/
theorem ftpResponse_multiline_reply_witness :
    (ftpResponse (-1) (exampleLoggedOn
        (exampleControl ["220-hello\r\n", " text\r\n", "220 ready\r\n"]) (exampleWorld [] []))).2.m_iRespCode
      = 220 ∧
    (ftpResponse (-1) (exampleLoggedOn
        (exampleControl ["220-hello\r\n", " text\r\n", "220 ready\r\n"]) (exampleWorld [] []))).2.m_iRespType
      = 2 ∧
    (ftpResponse (-1) (exampleLoggedOn
        (exampleControl ["220-hello\r\n", " text\r\n", "220 ready\r\n"]) (exampleWorld [] []))).2.m_lastControlLine
      = "220 ready\r\n".toList :=
  have h := ftpResponse_multiline_reply '2' '2' '0' "hello\r\n".toList "ready\r\n".toList
    [" text\r\n".toList] []
    (exampleLoggedOn (exampleControl ["220-hello\r\n", " text\r\n", "220 ready\r\n"])
      (exampleWorld [] []))
    (exampleControl ["220-hello\r\n", " text\r\n", "220 ready\r\n"])
    (by decide) (by decide) (by decide) (by decide) (by decide) rfl rfl
  ⟨h.2.2.1, h.2.2.2.1, h.2.2.2.2⟩

/-- C2 as stated fails: a continuation line that starts with ordinary text ends
the read loop, so `ftpResponse(-1)` returns with that line as the retained text
and leaves the terminator line unread on the control connection. -/
theorem ftpResponse_text_continuation_stops :
    (ftpResponse (-1) (exampleLoggedOn
        (exampleControl ["220-hello\r\n", "more text\r\n", "220 ready\r\n"])
        (exampleWorld [] []))).2.m_lastControlLine = "more text\r\n".toList ∧
    ((ftpResponse (-1) (exampleLoggedOn
        (exampleControl ["220-hello\r\n", "more text\r\n", "220 ready\r\n"])
        (exampleWorld [] []))).2.m_control.map fun c => c.lines) = some ["220 ready\r\n".toList] ∧
    (ftpResponse (-1) (exampleLoggedOn
        (exampleControl ["220-hello\r\n", "more text\r\n", "220 ready\r\n"])
        (exampleWorld [] []))).2.m_lastControlLine ≠ "220 ready\r\n".toList := by
  decide!

end KioFtps

namespace KioFtps

/-! ## The command channel -/

/-- C4: a command that contains a CR or an LF byte is refused by `ftpSendCmd`:
the result is `false`, exactly one error, `ERR_UNSUPPORTED_ACTION`, is
reported, and nothing else changes: no byte is written to the control
connection, no reply is read from it, and every member of the session keeps
its value. -/
theorem ftpSendCmd_refuses_CR_LF (fuel : Nat) (cmd : Bytes) (maxretries : Int) (s : Ftp)
    (c : ControlSocket) (hs : s.m_control = some c)
    (hcmd : cmd.contains '\r' = true ∨ cmd.contains '\n' = true) :
    ftpSendCmd (fuel + 1) cmd maxretries s =
      (Except.ok false, s.log (Event.error KioError.ERR_UNSUPPORTED_ACTION s.m_host)) := by
  have h : (cmd.contains '\r' || cmd.contains '\n') = true := by
    rcases hcmd with h | h <;> rw [h] <;> simp
  simp only [ftpSendCmd, run_getFtp_bind, hs, h, if_true]
  rfl

/-- C4 on the command `cwd a`, LF, `DELE b`: refused, with the one error. -/
theorem ftpSendCmd_refuses_CR_LF_witness :
    ftpSendCmd 1 "cwd a\nDELE b".toList 1
        (exampleLoggedOn (exampleControl ["250 ok\r\n"]) (exampleWorld [] [])) =
      (Except.ok false,
        (exampleLoggedOn (exampleControl ["250 ok\r\n"]) (exampleWorld [] [])).log
          (Event.error KioError.ERR_UNSUPPORTED_ACTION "ftp.example".toList)) :=
  ftpSendCmd_refuses_CR_LF 0 "cwd a\nDELE b".toList 1
    (exampleLoggedOn (exampleControl ["250 ok\r\n"]) (exampleWorld [] []))
    (exampleControl ["250 ok\r\n"]) rfl (Or.inr (by decide))

/-- C3: on a session that is not yet logged on, `USER bob` gets no reply (the
server has dropped the connection), the control connection is re-opened in
deferred mode, and the re-issued `USER bob` receives the reply `331`: the code
reads that reply and still returns `false`. -/
theorem ftpSendCmd_reissue_result_discarded :
    (ftpSendCmd 10 "USER bob".toList 1
      { exampleFresh (exampleWorld
          [exampleControl ["220 hi\r\n", "234 go\r\n", "331 password?\r\n"]] []) with
        m_control := some (exampleControl []) }).1 = Except.ok false ∧
    (ftpSendCmd 10 "USER bob".toList 1
      { exampleFresh (exampleWorld
          [exampleControl ["220 hi\r\n", "234 go\r\n", "331 password?\r\n"]] []) with
        m_control := some (exampleControl []) }).2.m_iRespCode = 331 ∧
    (ftpSendCmd 10 "USER bob".toList 1
      { exampleFresh (exampleWorld
          [exampleControl ["220 hi\r\n", "234 go\r\n", "331 password?\r\n"]] []) with
        m_control := some (exampleControl []) }).2.trace.reverse.take 2 =
      [Event.controlReply 331 "331 password?\r\n".toList, Event.controlSend "USER bob\r\n".toList] := by
  decide!

/-! ## The busy flag and the data connection -/

/-- C5: `listDir("/pub")` on a logged-on session whose server accepts `cwd`,
`TYPE I`, `PASV`, `PBSZ 0` and `PROT P` but rejects `list -la` and `list` with
550: the operation ends with an error and returns with the busy flag clear
while the data connection opened for the second `list` still exists. -/
theorem listDir_rejected_list_keeps_data_connection :
    (listDir 10 "/pub".toList
      (exampleLoggedOn
        (exampleControl ["250 ok\r\n", "200 type\r\n", "227 ok (192,0,2,7,5,6)\r\n", "200 pbsz\r\n",
          "200 prot\r\n", "200 pbsz\r\n", "200 prot\r\n", "550 no\r\n",
          "227 ok (192,0,2,7,5,7)\r\n", "200 pbsz\r\n", "200 prot\r\n", "200 pbsz\r\n",
          "200 prot\r\n", "550 no\r\n", "550 not a plain file\r\n"])
        (exampleWorld [] [exampleData [], exampleData []]))).1 = Except.ok () ∧
    (listDir 10 "/pub".toList
      (exampleLoggedOn
        (exampleControl ["250 ok\r\n", "200 type\r\n", "227 ok (192,0,2,7,5,6)\r\n", "200 pbsz\r\n",
          "200 prot\r\n", "200 pbsz\r\n", "200 prot\r\n", "550 no\r\n",
          "227 ok (192,0,2,7,5,7)\r\n", "200 pbsz\r\n", "200 prot\r\n", "200 pbsz\r\n",
          "200 prot\r\n", "550 no\r\n", "550 not a plain file\r\n"])
        (exampleWorld [] [exampleData [], exampleData []]))).2.m_bBusy = false ∧
    (listDir 10 "/pub".toList
      (exampleLoggedOn
        (exampleControl ["250 ok\r\n", "200 type\r\n", "227 ok (192,0,2,7,5,6)\r\n", "200 pbsz\r\n",
          "200 prot\r\n", "200 pbsz\r\n", "200 prot\r\n", "550 no\r\n",
          "227 ok (192,0,2,7,5,7)\r\n", "200 pbsz\r\n", "200 prot\r\n", "200 pbsz\r\n",
          "200 prot\r\n", "550 no\r\n", "550 not a plain file\r\n"])
        (exampleWorld [] [exampleData [], exampleData []]))).2.m_data = some (exampleData []) ∧
    (listDir 10 "/pub".toList
      (exampleLoggedOn
        (exampleControl ["250 ok\r\n", "200 type\r\n", "227 ok (192,0,2,7,5,6)\r\n", "200 pbsz\r\n",
          "200 prot\r\n", "200 pbsz\r\n", "200 prot\r\n", "550 no\r\n",
          "227 ok (192,0,2,7,5,7)\r\n", "200 pbsz\r\n", "200 prot\r\n", "200 pbsz\r\n",
          "200 prot\r\n", "550 no\r\n", "550 not a plain file\r\n"])
        (exampleWorld [] [exampleData [], exampleData []]))).2.trace.getLast? =
      some (Event.error KioError.ERR_CANNOT_ENTER_DIRECTORY "/pub".toList) := by
  decide!

/-- The same operation when both `list` commands are accepted with 150 and the
TLS handshake on the data connection fails: `listDir` returns with the busy
flag still set. -/
theorem listDir_failed_data_handshake_stays_busy :
    (listDir 10 "/pub".toList
      (exampleLoggedOn
        (exampleControl ["250 ok\r\n", "200 type\r\n", "227 ok (192,0,2,7,5,6)\r\n", "200 pbsz\r\n",
          "200 prot\r\n", "200 pbsz\r\n", "200 prot\r\n", "150 here\r\n",
          "227 ok (192,0,2,7,5,7)\r\n", "200 pbsz\r\n", "200 prot\r\n", "200 pbsz\r\n",
          "200 prot\r\n", "150 here\r\n", "550 not a plain file\r\n"])
        (exampleWorld [] [{ exampleData [] with encrypts := false },
          { exampleData [] with encrypts := false }]))).1 = Except.ok () ∧
    (listDir 10 "/pub".toList
      (exampleLoggedOn
        (exampleControl ["250 ok\r\n", "200 type\r\n", "227 ok (192,0,2,7,5,6)\r\n", "200 pbsz\r\n",
          "200 prot\r\n", "200 pbsz\r\n", "200 prot\r\n", "150 here\r\n",
          "227 ok (192,0,2,7,5,7)\r\n", "200 pbsz\r\n", "200 prot\r\n", "200 pbsz\r\n",
          "200 prot\r\n", "150 here\r\n", "550 not a plain file\r\n"])
        (exampleWorld [] [{ exampleData [] with encrypts := false },
          { exampleData [] with encrypts := false }]))).2.m_bBusy = true := by
  decide!

/-- In active mode the transfer command is answered 150 after `PORT` was
answered 200: `ftpOpenCommand` returns `true` with the busy flag set and no
data connection. -/
theorem ftpOpenCommand_active_busy_without_data :
    (ftpOpenCommand 10 "list".toList [] 'I' KioError.ERR_DOES_NOT_EXIST 0
      (exampleLoggedOn
        (exampleControl ["200 type\r\n", "500 pasv?\r\n", "500 epsv?\r\n", "200 port ok\r\n",
          "200 pbsz\r\n", "200 prot\r\n", "500 pbsz\r\n", "150 here\r\n"])
        { exampleWorld [] [] with listens := [⟨true, 1025, none⟩] })).1 = Except.ok true ∧
    (ftpOpenCommand 10 "list".toList [] 'I' KioError.ERR_DOES_NOT_EXIST 0
      (exampleLoggedOn
        (exampleControl ["200 type\r\n", "500 pasv?\r\n", "500 epsv?\r\n", "200 port ok\r\n",
          "200 pbsz\r\n", "200 prot\r\n", "500 pbsz\r\n", "150 here\r\n"])
        { exampleWorld [] [] with listens := [⟨true, 1025, none⟩] })).2.m_bBusy = true ∧
    (ftpOpenCommand 10 "list".toList [] 'I' KioError.ERR_DOES_NOT_EXIST 0
      (exampleLoggedOn
        (exampleControl ["200 type\r\n", "500 pasv?\r\n", "500 epsv?\r\n", "200 port ok\r\n",
          "200 pbsz\r\n", "200 prot\r\n", "500 pbsz\r\n", "150 here\r\n"])
        { exampleWorld [] [] with listens := [⟨true, 1025, none⟩] })).2.m_data = none := by
  decide!

end KioFtps

namespace KioFtps

/-! ## The footprint of a computation

Every function of the embedding changes the state only by elementary state
changes (`Prim.apply`), whatever it reads and however it ends; which ones a
function can perform is its footprint. -/

theorem StepsIn.steps_refl {Q : Prim → Prop} (s : Ftp) : StepsIn Q s s := Relation.ReflTransGen.refl

theorem StepsIn.steps_trans {Q : Prim → Prop} {a b c : Ftp} (h1 : StepsIn Q a b) (h2 : StepsIn Q b c) :
    StepsIn Q a c :=
  Relation.ReflTransGen.trans h1 h2

theorem StepsIn.steps_prim {Q : Prim → Prop} (p : Prim) (h : Q p) (s : Ftp) : StepsIn Q s (p.apply s) :=
  Relation.ReflTransGen.single ⟨p, h, rfl⟩

theorem StepsIn.steps_mono {Q Q1 : Prim → Prop} (h : ∀ p, Q p → Q1 p) {s s1 : Ftp}
    (hs : StepsIn Q s s1) : StepsIn Q1 s s1 := by
  induction hs with
  | refl => exact StepsIn.steps_refl s
  | tail _ hstep ih =>
    obtain ⟨p, hp, rfl⟩ := hstep
    exact StepsIn.steps_trans ih (StepsIn.steps_prim p (h p hp) _)

/-- A relation that is reflexive, transitive and holds across each elementary
state change of a footprint holds across every sequence of them. -/
theorem StepsIn.induct {Q : Prim → Prop} {R : Ftp → Ftp → Prop} (hrefl : ∀ s, R s s)
    (htrans : ∀ a b c, R a b → R b c → R a c)
    (hprim : ∀ (p : Prim) (s : Ftp), Q p → R s (p.apply s))
    {s s1 : Ftp} (h : StepsIn Q s s1) : R s s1 := by
  induction h with
  | refl => exact hrefl s
  | tail _ hstep ih =>
    obtain ⟨p, hp, rfl⟩ := hstep
    exact htrans _ _ _ ih (hprim p _ hp)

theorem Within.within_pure {α : Type} {Q : Prim → Prop} (a : α) : Within Q (pure a : M α) :=
  ⟨fun s => StepsIn.steps_refl s⟩

theorem Within.within_getFtp {Q : Prim → Prop} : Within Q getFtp := ⟨fun s => StepsIn.steps_refl s⟩

theorem Within.within_fault {α : Type} {Q : Prim → Prop} (e : Fault) : Within Q (fault e : M α) :=
  ⟨fun s => StepsIn.steps_refl s⟩

theorem Within.within_prim {Q : Prim → Prop} (p : Prim) (h : Q p) : Within Q (prim p) :=
  ⟨fun s => StepsIn.steps_prim p h s⟩

theorem Within.within_mono {α : Type} {Q Q1 : Prim → Prop} {m : M α} (hm : Within Q m)
    (h : ∀ p, Q p → Q1 p) : Within Q1 m :=
  ⟨fun s => StepsIn.steps_mono h (hm.run s)⟩

theorem Within.within_bind {α β : Type} {Q : Prim → Prop} {m : M α} {f : α → M β} (hm : Within Q m)
    (hf : ∀ a, Within Q (f a)) : Within Q (m >>= f) := by
  constructor
  intro s
  rw [run_bind]
  have h1 := hm.run s
  cases hms : m s with
  | mk r s1 =>
    rw [hms] at h1
    cases r with
    | ok a => exact StepsIn.steps_trans h1 ((hf a).run s1)
    | error e => exact h1

theorem Within.error {cmds : Bytes → Prop} (code : KioError) (msg : Bytes) :
    Within (controlPrim cmds) (error code msg) := Within.within_prim _ trivial

theorem Within.infoMessage {cmds : Bytes → Prop} (msg : Bytes) :
    Within (controlPrim cmds) (infoMessage msg) := Within.within_prim _ trivial

theorem Within.ftpResponse {cmds : Bytes → Prop} (iOffset : Int) :
    Within (controlPrim cmds) (ftpResponse iOffset) := by
  unfold KioFtps.ftpResponse
  repeat' first
    | with_reducible exact Within.within_pure _
    | with_reducible exact Within.within_fault _
    | with_reducible exact Within.within_getFtp
    | ((with_reducible refine Within.within_prim _ ?_); exact trivial)
    | with_reducible apply Within.within_bind
    | intro _
    | split

theorem Within.askSslErrors {cmds : Bytes → Prop} (errors : List Bytes) (doNotIgnore : Bool) :
    Within (controlPrim cmds) (askSslErrors errors doNotIgnore) := by
  induction errors generalizing doNotIgnore with
  | nil => exact Within.within_pure _
  | cons e es ih =>
    unfold KioFtps.askSslErrors
    repeat' first
      | with_reducible exact Within.within_pure _
      | with_reducible exact Within.within_getFtp
      | ((with_reducible refine Within.within_prim _ ?_); exact trivial)
      | with_reducible exact ih _
      | with_reducible apply Within.within_bind
      | intro _
      | split

theorem ownCommand_USER (a b c : Bytes) : ownCommand ("USER ".toList ++ a ++ b ++ c) = true := by
  simp [ownCommand, startsWith]

theorem ownCommand_pass (a b : Bytes) : ownCommand ("pass ".toList ++ a ++ b) = true := by
  simp [ownCommand, startsWith]

theorem ownCommand_cwd (a b : Bytes) : ownCommand ("cwd ".toList ++ a ++ b) = true := by
  simp [ownCommand, startsWith]

theorem ownCommand_quit : ownCommand ("quit".toList ++ "\r\n".toList) = true := by decide

theorem ownCommand_AUTH : ownCommand ("AUTH TLS".toList ++ "\r\n".toList) = true := by decide

theorem ownCommand_SYST : ownCommand ("SYST".toList ++ "\r\n".toList) = true := by decide

theorem ownCommand_dirstyle : ownCommand ("site dirstyle".toList ++ "\r\n".toList) = true := by
  decide

theorem ownCommand_PWD : ownCommand ("PWD".toList ++ "\r\n".toList) = true := by decide

set_option maxHeartbeats 4000000 in
/-- One more unit of fuel keeps `ftpSendCmd` within the footprint of the control
connection. -/
theorem within_ftpSendCmd_succ (cmds : Bytes → Prop) (n : Nat)
    (ihSend : ∀ cmd maxretries, (ownCommand (cmd ++ "\r\n".toList) = true ∨ cmds (cmd ++ "\r\n".toList)) →
      Within (controlPrim cmds) (ftpSendCmd n cmd maxretries))
    (ihClose : Within (controlPrim cmds) (closeConnection n))
    (ihOpen : ∀ loginMode, Within (controlPrim cmds) (ftpOpenConnection n loginMode)) (cmd : Bytes) (maxretries : Int)
    (hcmd : ownCommand (cmd ++ "\r\n".toList) = true ∨ cmds (cmd ++ "\r\n".toList)) :
    Within (controlPrim cmds) (ftpSendCmd (n + 1) cmd maxretries) := by
  unfold KioFtps.ftpSendCmd
  repeat' first
    | with_reducible exact Within.within_pure _
    | with_reducible exact Within.within_fault _
    | with_reducible exact Within.within_getFtp
    | ((with_reducible refine Within.within_prim _ ?_); first | exact trivial | exact hcmd)
    | with_reducible exact Within.error _ _
    | with_reducible exact Within.infoMessage _
    | with_reducible exact Within.ftpResponse _
    | with_reducible exact Within.askSslErrors _ _
    | ((with_reducible refine ihSend _ _ ?_); first
        | exact hcmd
        | exact Or.inl (by simp [ownCommand, startsWith])
        | exact Or.inl (by decide))
    | with_reducible exact ihClose
    | with_reducible exact ihOpen _
    | with_reducible apply Within.within_bind
    | intro _
    | split
    | dsimp only

set_option maxHeartbeats 4000000 in
/-- One more unit of fuel keeps `closeConnection` within the footprint of the control
connection. -/
theorem within_closeConnection_succ (cmds : Bytes → Prop) (n : Nat)
    (ihSend : ∀ cmd maxretries, (ownCommand (cmd ++ "\r\n".toList) = true ∨ cmds (cmd ++ "\r\n".toList)) →
      Within (controlPrim cmds) (ftpSendCmd n cmd maxretries))  :
    Within (controlPrim cmds) (closeConnection (n + 1)) := by
  unfold KioFtps.closeConnection
  repeat' first
    | with_reducible exact Within.within_pure _
    | with_reducible exact Within.within_fault _
    | with_reducible exact Within.within_getFtp
    | ((with_reducible refine Within.within_prim _ ?_); exact trivial)
    | with_reducible exact Within.error _ _
    | with_reducible exact Within.infoMessage _
    | with_reducible exact Within.ftpResponse _
    | with_reducible exact Within.askSslErrors _ _
    | ((with_reducible refine ihSend _ _ ?_); first
        | exact Or.inl (by simp [ownCommand, startsWith])
        | exact Or.inl (by decide))
    | with_reducible apply Within.within_bind
    | intro _
    | split
    | dsimp only

set_option maxHeartbeats 4000000 in
/-- One more unit of fuel keeps `ftpOpenConnection` within the footprint of the control
connection. -/
theorem within_ftpOpenConnection_succ (cmds : Bytes → Prop) (n : Nat)
    (ihControl : ∀ host port ignoreSslErrors,
      Within (controlPrim cmds) (ftpOpenControlConnection n host port ignoreSslErrors))
    (ihLogin : Within (controlPrim cmds) (ftpLogin n)) (loginMode : LoginMode) :
    Within (controlPrim cmds) (ftpOpenConnection (n + 1) loginMode) := by
  unfold KioFtps.ftpOpenConnection
  repeat' first
    | with_reducible exact Within.within_pure _
    | with_reducible exact Within.within_fault _
    | with_reducible exact Within.within_getFtp
    | ((with_reducible refine Within.within_prim _ ?_); exact trivial)
    | with_reducible exact Within.error _ _
    | with_reducible exact Within.infoMessage _
    | with_reducible exact Within.ftpResponse _
    | with_reducible exact Within.askSslErrors _ _
    | with_reducible exact ihControl _ _ _
    | with_reducible exact ihLogin
    | with_reducible apply Within.within_bind
    | intro _
    | split
    | dsimp only

set_option maxHeartbeats 4000000 in
/-- One more unit of fuel keeps `ftpOpenControlConnection` within the footprint of the control
connection. -/
theorem within_ftpOpenControlConnection_succ (cmds : Bytes → Prop) (n : Nat)
    (ihSend : ∀ cmd maxretries, (ownCommand (cmd ++ "\r\n".toList) = true ∨ cmds (cmd ++ "\r\n".toList)) →
      Within (controlPrim cmds) (ftpSendCmd n cmd maxretries))
    (ihClose : Within (controlPrim cmds) (closeConnection n))
    (ihControl : ∀ host port ignoreSslErrors,
      Within (controlPrim cmds) (ftpOpenControlConnection n host port ignoreSslErrors)) (host : Bytes) (port : Int) (ignoreSslErrors : Bool) :
    Within (controlPrim cmds) (ftpOpenControlConnection (n + 1) host port ignoreSslErrors) := by
  unfold KioFtps.ftpOpenControlConnection
  repeat' first
    | with_reducible exact Within.within_pure _
    | with_reducible exact Within.within_fault _
    | with_reducible exact Within.within_getFtp
    | ((with_reducible refine Within.within_prim _ ?_); exact trivial)
    | with_reducible exact Within.error _ _
    | with_reducible exact Within.infoMessage _
    | with_reducible exact Within.ftpResponse _
    | with_reducible exact Within.askSslErrors _ _
    | ((with_reducible refine ihSend _ _ ?_); first
        | exact Or.inl (by simp [ownCommand, startsWith])
        | exact Or.inl (by decide))
    | with_reducible exact ihClose
    | with_reducible exact ihControl _ _ _
    | with_reducible apply Within.within_bind
    | intro _
    | split
    | dsimp only

set_option maxHeartbeats 4000000 in
/-- One more unit of fuel keeps `ftpLogin` within the footprint of the control
connection. -/
theorem within_ftpLogin_succ (cmds : Bytes → Prop) (n : Nat)
    (ihSend : ∀ cmd maxretries, (ownCommand (cmd ++ "\r\n".toList) = true ∨ cmds (cmd ++ "\r\n".toList)) →
      Within (controlPrim cmds) (ftpSendCmd n cmd maxretries))
    (ihLoop : ∀ user pass info failedAuth,
      Within (controlPrim cmds) (ftpLoginLoop n user pass info failedAuth))
    (ihAuto : Within (controlPrim cmds) (ftpAutoLoginMacro n))  :
    Within (controlPrim cmds) (ftpLogin (n + 1)) := by
  unfold KioFtps.ftpLogin
  repeat' first
    | with_reducible exact Within.within_pure _
    | with_reducible exact Within.within_fault _
    | with_reducible exact Within.within_getFtp
    | ((with_reducible refine Within.within_prim _ ?_); exact trivial)
    | with_reducible exact Within.error _ _
    | with_reducible exact Within.infoMessage _
    | with_reducible exact Within.ftpResponse _
    | with_reducible exact Within.askSslErrors _ _
    | ((with_reducible refine ihSend _ _ ?_); first
        | exact Or.inl (by simp [ownCommand, startsWith])
        | exact Or.inl (by decide))
    | with_reducible exact ihLoop _ _ _ _
    | with_reducible exact ihAuto
    | with_reducible apply Within.within_bind
    | intro _
    | split
    | dsimp only

set_option maxHeartbeats 4000000 in
/-- One more unit of fuel keeps `ftpLoginLoop` within the footprint of the control
connection. -/
theorem within_ftpLoginLoop_succ (cmds : Bytes → Prop) (n : Nat)
    (ihAttempt : ∀ user pass info failedAuth,
      Within (controlPrim cmds) (ftpLoginAttempt n user pass info failedAuth)) (user pass : Bytes) (info : AuthInfo) (failedAuth : Int) :
    Within (controlPrim cmds) (ftpLoginLoop (n + 1) user pass info failedAuth) := by
  unfold KioFtps.ftpLoginLoop
  repeat' first
    | with_reducible exact Within.within_pure _
    | with_reducible exact Within.within_fault _
    | with_reducible exact Within.within_getFtp
    | ((with_reducible refine Within.within_prim _ ?_); exact trivial)
    | with_reducible exact Within.error _ _
    | with_reducible exact Within.infoMessage _
    | with_reducible exact Within.ftpResponse _
    | with_reducible exact Within.askSslErrors _ _
    | with_reducible exact ihAttempt _ _ _ _
    | with_reducible apply Within.within_bind
    | intro _
    | split
    | dsimp only

set_option maxHeartbeats 4000000 in
/-- One more unit of fuel keeps `ftpLoginAttempt` within the footprint of the control
connection. -/
theorem within_ftpLoginAttempt_succ (cmds : Bytes → Prop) (n : Nat)
    (ihSend : ∀ cmd maxretries, (ownCommand (cmd ++ "\r\n".toList) = true ∨ cmds (cmd ++ "\r\n".toList)) →
      Within (controlPrim cmds) (ftpSendCmd n cmd maxretries))
    (ihLoop : ∀ user pass info failedAuth,
      Within (controlPrim cmds) (ftpLoginLoop n user pass info failedAuth)) (user pass : Bytes) (info : AuthInfo) (failedAuth : Int) :
    Within (controlPrim cmds) (ftpLoginAttempt (n + 1) user pass info failedAuth) := by
  unfold KioFtps.ftpLoginAttempt
  repeat' first
    | with_reducible exact Within.within_pure _
    | with_reducible exact Within.within_fault _
    | with_reducible exact Within.within_getFtp
    | ((with_reducible refine Within.within_prim _ ?_); exact trivial)
    | with_reducible exact Within.error _ _
    | with_reducible exact Within.infoMessage _
    | with_reducible exact Within.ftpResponse _
    | with_reducible exact Within.askSslErrors _ _
    | ((with_reducible refine ihSend _ _ ?_); first
        | exact Or.inl (by simp [ownCommand, startsWith])
        | exact Or.inl (by decide))
    | with_reducible exact ihLoop _ _ _ _
    | with_reducible apply Within.within_bind
    | intro _
    | split
    | dsimp only

set_option maxHeartbeats 4000000 in
/-- One more unit of fuel keeps `ftpAutoLoginMacro` within the footprint of the control
connection. -/
theorem within_ftpAutoLoginMacro_succ (cmds : Bytes → Prop) (n : Nat)
    (ihCwd : ∀ parts, Within (controlPrim cmds) (ftpMacroCwd n parts))  :
    Within (controlPrim cmds) (ftpAutoLoginMacro (n + 1)) := by
  unfold KioFtps.ftpAutoLoginMacro
  repeat' first
    | with_reducible exact Within.within_pure _
    | with_reducible exact Within.within_fault _
    | with_reducible exact Within.within_getFtp
    | ((with_reducible refine Within.within_prim _ ?_); exact trivial)
    | with_reducible exact Within.error _ _
    | with_reducible exact Within.infoMessage _
    | with_reducible exact Within.ftpResponse _
    | with_reducible exact Within.askSslErrors _ _
    | with_reducible exact ihCwd _
    | with_reducible apply Within.within_bind
    | intro _
    | split
    | dsimp only

set_option maxHeartbeats 4000000 in
/-- One more unit of fuel keeps `ftpMacroCwd` within the footprint of the control
connection. -/
theorem within_ftpMacroCwd_succ (cmds : Bytes → Prop) (n : Nat)
    (ihCwd : ∀ parts, Within (controlPrim cmds) (ftpMacroCwd n parts))
    (ihFolder : ∀ path bReportError, Within (controlPrim cmds) (ftpFolder n path bReportError)) (parts : List Bytes) :
    Within (controlPrim cmds) (ftpMacroCwd (n + 1) parts) := by
  unfold KioFtps.ftpMacroCwd
  repeat' first
    | with_reducible exact Within.within_pure _
    | with_reducible exact Within.within_fault _
    | with_reducible exact Within.within_getFtp
    | ((with_reducible refine Within.within_prim _ ?_); exact trivial)
    | with_reducible exact Within.error _ _
    | with_reducible exact Within.infoMessage _
    | with_reducible exact Within.ftpResponse _
    | with_reducible exact Within.askSslErrors _ _
    | with_reducible exact ihCwd _
    | with_reducible exact ihFolder _ _
    | with_reducible apply Within.within_bind
    | intro _
    | split
    | dsimp only

set_option maxHeartbeats 4000000 in
/-- One more unit of fuel keeps `ftpFolder` within the footprint of the control
connection. -/
theorem within_ftpFolder_succ (cmds : Bytes → Prop) (n : Nat)
    (ihSend : ∀ cmd maxretries, (ownCommand (cmd ++ "\r\n".toList) = true ∨ cmds (cmd ++ "\r\n".toList)) →
      Within (controlPrim cmds) (ftpSendCmd n cmd maxretries)) (path : Bytes) (bReportError : Bool) :
    Within (controlPrim cmds) (ftpFolder (n + 1) path bReportError) := by
  unfold KioFtps.ftpFolder
  repeat' first
    | with_reducible exact Within.within_pure _
    | with_reducible exact Within.within_fault _
    | with_reducible exact Within.within_getFtp
    | ((with_reducible refine Within.within_prim _ ?_); exact trivial)
    | with_reducible exact Within.error _ _
    | with_reducible exact Within.infoMessage _
    | with_reducible exact Within.ftpResponse _
    | with_reducible exact Within.askSslErrors _ _
    | ((with_reducible refine ihSend _ _ ?_); first
        | exact Or.inl (by simp [ownCommand, startsWith])
        | exact Or.inl (by decide))
    | with_reducible apply Within.within_bind
    | intro _
    | split
    | dsimp only

/-- The footprint of the functions of the control connection, for every fuel:
besides upcalls and changes to the members of the session they write only
their own commands and the command they are asked to send, and they never
open a data connection. -/
theorem Within.control (cmds : Bytes → Prop) (fuel : Nat) :
    (∀ cmd maxretries, (ownCommand (cmd ++ "\r\n".toList) = true ∨ cmds (cmd ++ "\r\n".toList)) →
      Within (controlPrim cmds) (ftpSendCmd fuel cmd maxretries)) ∧
    Within (controlPrim cmds) (closeConnection fuel) ∧
    (∀ loginMode, Within (controlPrim cmds) (ftpOpenConnection fuel loginMode)) ∧
    (∀ host port ignoreSslErrors,
      Within (controlPrim cmds) (ftpOpenControlConnection fuel host port ignoreSslErrors)) ∧
    Within (controlPrim cmds) (ftpLogin fuel) ∧
    (∀ user pass info failedAuth,
      Within (controlPrim cmds) (ftpLoginLoop fuel user pass info failedAuth)) ∧
    (∀ user pass info failedAuth,
      Within (controlPrim cmds) (ftpLoginAttempt fuel user pass info failedAuth)) ∧
    Within (controlPrim cmds) (ftpAutoLoginMacro fuel) ∧
    (∀ parts, Within (controlPrim cmds) (ftpMacroCwd fuel parts)) ∧
    (∀ path bReportError, Within (controlPrim cmds) (ftpFolder fuel path bReportError)) := by
  induction fuel with
  | zero =>
    refine ⟨fun _ _ _ => ?_, ?_, fun _ => ?_, fun _ _ _ => ?_, ?_, fun _ _ _ _ => ?_,
      fun _ _ _ _ => ?_, ?_, fun _ => ?_, fun _ _ => ?_⟩
    all_goals first
      | unfold ftpSendCmd
      | unfold closeConnection
      | unfold ftpOpenConnection
      | unfold ftpOpenControlConnection
      | unfold ftpLogin
      | unfold ftpLoginLoop
      | unfold ftpLoginAttempt
      | unfold ftpAutoLoginMacro
      | unfold ftpMacroCwd
      | unfold ftpFolder
    all_goals exact Within.within_fault _
  | succ n ih =>
    obtain ⟨ihSend, ihClose, ihOpen, ihControl, ihLogin, ihLoop, ihAttempt, ihAuto, ihCwd,
      ihFolder⟩ := ih
    exact ⟨fun cmd r hcmd => within_ftpSendCmd_succ cmds n ihSend ihClose ihOpen cmd r hcmd,
      within_closeConnection_succ cmds n ihSend,
      fun m => within_ftpOpenConnection_succ cmds n ihControl ihLogin m,
      fun h p i => within_ftpOpenControlConnection_succ cmds n ihSend ihClose ihControl h p i,
      within_ftpLogin_succ cmds n ihSend ihLoop ihAuto,
      fun u p i f => within_ftpLoginLoop_succ cmds n ihAttempt u p i f,
      fun u p i f => within_ftpLoginAttempt_succ cmds n ihSend ihLoop u p i f,
      within_ftpAutoLoginMacro_succ cmds n ihCwd,
      fun ps => within_ftpMacroCwd_succ cmds n ihCwd ihFolder ps,
      fun p b => within_ftpFolder_succ cmds n ihSend p b⟩

end KioFtps

namespace KioFtps

/-! ## Parsing decimal numbers -/

theorem scanDigits_append (ds rest : Bytes) (acc : Nat) (hds : ds.all isdigit = true)
    (hrest : noDigitAhead rest = true) :
    scanDigits (ds ++ rest) acc = (ds.foldl (fun a c => a * 10 + digitVal c) acc, rest) := by
  induction ds generalizing acc with
  | nil =>
    cases rest with
    | nil => rfl
    | cons c cs =>
      have hc : isdigit c = false := by
        simpa [noDigitAhead, byteAt] using hrest
      simp [scanDigits, hc]
  | cons d ds ih =>
    simp only [List.all_cons, Bool.and_eq_true] at hds
    simp only [List.cons_append, scanDigits, hds.1, if_true, List.foldl_cons]
    exact ih _ hds.2

theorem scanInt_of_isdigit (d : Char) (tl : Bytes) (hd : isdigit d = true) :
    scanInt (d :: tl) = some (((scanDigits (d :: tl) 0).1 : Int), (scanDigits (d :: tl) 0).2) := by
  have h1 : d ≠ '-' := ne_of_isdigit hd (by decide)
  have h2 : d ≠ '+' := ne_of_isdigit hd (by decide)
  unfold scanInt
  rw [List.dropWhile_cons_of_neg (by simp [isspace_of_isdigit hd])]
  split
  · rename_i heq
    exact absurd (List.cons.inj heq).1 h1
  · rename_i heq
    exact absurd (List.cons.inj heq).1 h2
  · rename_i c cs _ _ heq
    obtain ⟨hc, hcs⟩ := List.cons.inj heq
    subst hc
    subst hcs
    rw [if_pos hd]
  · rename_i heq
    cases heq

theorem scanInt_digits (ds rest : Bytes) (hds : isDigits ds = true)
    (hrest : noDigitAhead rest = true) :
    scanInt (ds ++ rest) = some ((decimalValue ds : Int), rest) := by
  cases ds with
  | nil => simp [isDigits] at hds
  | cons d ds =>
    simp only [isDigits, List.isEmpty_cons, Bool.not_false, Bool.true_and] at hds
    have hall := hds
    simp only [List.all_cons, Bool.and_eq_true] at hds
    have hscan := scanDigits_append (d :: ds) rest 0 hall hrest
    rw [List.cons_append, scanInt_of_isdigit d _ hds.1, ← List.cons_append, hscan]
    rfl

theorem noDigitAhead_comma (rest : Bytes) : noDigitAhead (',' :: rest) = true := by
  simp [noDigitAhead, byteAt]
  decide

/-- The six conversions of `sscanf` on six comma-separated decimal numbers. -/
theorem scanCommaInts_group (h1 h2 h3 h4 p1 p2 tail : Bytes)
    (d1 : isDigits h1 = true) (d2 : isDigits h2 = true) (d3 : isDigits h3 = true)
    (d4 : isDigits h4 = true) (d5 : isDigits p1 = true) (d6 : isDigits p2 = true)
    (htail : noDigitAhead tail = true) :
    scanCommaInts 5 (pasvGroup h1 h2 h3 h4 p1 p2 ++ tail) =
      some [(decimalValue h1 : Int), decimalValue h2, decimalValue h3, decimalValue h4,
        decimalValue p1, decimalValue p2] := by
  have e : pasvGroup h1 h2 h3 h4 p1 p2 ++ tail =
      h1 ++ (',' :: (h2 ++ (',' :: (h3 ++ (',' :: (h4 ++ (',' :: (p1 ++ (',' :: (p2 ++ tail)))))))))) := by
    simp [pasvGroup]
  rw [e]
  simp only [scanCommaInts, scanInt_digits _ _ d1 (noDigitAhead_comma _),
    scanInt_digits _ _ d2 (noDigitAhead_comma _), scanInt_digits _ _ d3 (noDigitAhead_comma _),
    scanInt_digits _ _ d4 (noDigitAhead_comma _), scanInt_digits _ _ d5 (noDigitAhead_comma _),
    scanInt_digits _ _ d6 htail, scanLit, beq_self_eq_true, if_true]

/-! ## The PASV reply -/

theorem strchr_none (s : Bytes) (c : Char) (h : c ∉ s) : strchr s c = none := by
  induction s with
  | nil => rfl
  | cons x xs ih =>
    have hx : x ≠ c := fun e => h (e ▸ List.mem_cons_self _ _)
    have hxs : c ∉ xs := fun e => h (List.mem_cons_of_mem _ e)
    simp [strchr, hx, ih hxs]

theorem strchr_first (pre rest : Bytes) (c : Char) (h : c ∉ pre) :
    strchr (pre ++ c :: rest) c = some (c :: rest) := by
  induction pre with
  | nil => simp [strchr]
  | cons x xs ih =>
    have hx : x ≠ c := fun e => h (e ▸ List.mem_cons_self _ _)
    have hxs : c ∉ xs := fun e => h (List.mem_cons_of_mem _ e)
    simp [strchr, hx, ih hxs]

/-- The port read from a PASV reply text in the canonical form. -/
theorem pasvPort_paren (pre h1 h2 h3 h4 p1 p2 tail : Bytes) (hpre : '(' ∉ pre)
    (d1 : isDigits h1 = true) (d2 : isDigits h2 = true) (d3 : isDigits h3 = true)
    (d4 : isDigits h4 = true) (d5 : isDigits p1 = true) (d6 : isDigits p2 = true)
    (htail : noDigitAhead tail = true) :
    pasvPort (pre ++ '(' :: (pasvGroup h1 h2 h3 h4 p1 p2 ++ tail)) = some (pasvPortOf p1 p2) := by
  unfold pasvPort
  rw [strchr_first pre _ '(' hpre]
  simp only [sscanf6, scanLit, beq_self_eq_true, if_true,
    scanCommaInts_group h1 h2 h3 h4 p1 p2 tail d1 d2 d3 d4 d5 d6 htail]
  rfl

/-- The port read from a PASV reply text in the anonftpd form. -/
theorem pasvPort_equals (pre h1 h2 h3 h4 p1 p2 tail : Bytes) (hpre : '=' ∉ pre)
    (hparen : '(' ∉ pre ++ '=' :: (pasvGroup h1 h2 h3 h4 p1 p2 ++ tail))
    (d1 : isDigits h1 = true) (d2 : isDigits h2 = true) (d3 : isDigits h3 = true)
    (d4 : isDigits h4 = true) (d5 : isDigits p1 = true) (d6 : isDigits p2 = true)
    (htail : noDigitAhead tail = true) :
    pasvPort (pre ++ '=' :: (pasvGroup h1 h2 h3 h4 p1 p2 ++ tail)) = some (pasvPortOf p1 p2) := by
  unfold pasvPort
  rw [strchr_none _ '(' hparen, strchr_first pre _ '=' hpre]
  have hne : ('=' == '(') = false := by decide
  simp only [sscanf6, scanLit, beq_self_eq_true, if_true, hne,
    scanCommaInts_group h1 h2 h3 h4 p1 p2 tail d1 d2 d3 d4 d5 d6 htail]
  rfl

/-- For two integers that fit a byte, `i[4] << 8 | i[5]` is `p1 * 256 + p2`. -/
theorem pasvPortOf_bytes (p1 p2 : Bytes) (h1 : decimalValue p1 ≤ 255) (h2 : decimalValue p2 ≤ 255) :
    pasvPortOf p1 p2 = ((decimalValue p1 * 256 + decimalValue p2 : Nat) : Int) := by
  unfold pasvPortOf toQuint16
  have hor : Int.lor ((decimalValue p1 : Int) * 256) (decimalValue p2 : Int) =
      ((decimalValue p1 * 256 ||| decimalValue p2 : Nat) : Int) := by
    have : ((decimalValue p1 : Int) * 256) = ((decimalValue p1 * 256 : Nat) : Int) := by
      push_cast
      rfl
    rw [this]
    rfl
  have hadd : decimalValue p1 * 256 ||| decimalValue p2 = decimalValue p1 * 256 + decimalValue p2 := by
    have h := Nat.mul_add_lt_is_or (i := 8) (b := decimalValue p2) (by omega) (decimalValue p1)
    rw [Nat.mul_comm] at h
    exact h.symm
  rw [hor, hadd]
  omega

end KioFtps

namespace KioFtps

/-! ## A command and its reply -/

/-- The read loop on a single-line reply `NNN text`. -/
theorem ftpResponseLoop_single {d1 d2 d3 : Char} (h1 : isdigit d1 = true)
    (h2 : isdigit d2 = true) (h3 : isdigit d3 = true) (h0 : d1 ≠ '0') (t : Bytes)
    (rest : List Bytes) :
    ftpResponseLoop ((d1 :: d2 :: d3 :: ' ' :: t) :: rest) 0 0 =
      (d1 :: d2 :: d3 :: ' ' :: t, (codeOf d1 d2 d3 : Int), rest) := by
  have hge : (100 : Int) ≤ (codeOf d1 d2 d3 : Int) := by
    exact_mod_cast codeOf_ge d1 d2 d3 h1 h0
  have hat := atoi_code (c := ' ') t h1 h2 h3 (by decide)
  have hsp : d1 ≠ ' ' := ne_of_isdigit h1 (by decide)
  have hmore : respMore (d1 :: d2 :: d3 :: ' ' :: t) 0 = 0 := by
    generalize (codeOf d1 d2 d3 : Int) = n at hat hge
    have hlt : ¬ n < 100 := by omega
    unfold respMore
    simp only [hat]
    simp [byteAt, hlt, hsp]
  have hcode : respCode (d1 :: d2 :: d3 :: ' ' :: t) 0 = (codeOf d1 d2 d3 : Int) :=
    respCode_terminator t 0 h1 h2 h3 h0
  simp only [ftpResponseLoop, hmore, hcode]
  simp

theorem controlWrite_control (buf : Bytes) (s : Ftp) (c : ControlSocket)
    (hs : s.m_control = some c) :
    ((Prim.controlWrite buf).apply s).m_control = some { c with writeFails := c.writeFails.tail } := by
  simp [Prim.apply, hs]

/-- Reading a reply after a command was written. -/
theorem ftpResponse_afterWrite (buf : Bytes) (s : Ftp) (c : ControlSocket)
    (hs : s.m_control = some c) :
    ftpResponse (-1) ((Prim.controlWrite buf).apply s) =
      (Except.ok (cstr (ftpResponseLoop c.lines 0 0).1),
        Prim.readResponse.apply ((Prim.controlWrite buf).apply s)) := by
  have hc1 := controlWrite_control buf s c hs
  simp only [ftpResponse, run_getFtp_bind, hc1]
  rfl

theorem afterCommand_resp (cmd : Bytes) (s : Ftp) (c : ControlSocket) (hs : s.m_control = some c) :
    (afterCommand cmd s).m_iRespCode = (ftpResponseLoop c.lines 0 0).2.1 ∧
    (afterCommand cmd s).m_iRespType = respType (ftpResponseLoop c.lines 0 0).2.1 ∧
    (afterCommand cmd s).m_lastControlLine = (ftpResponseLoop c.lines 0 0).1 ∧
    (afterCommand cmd s).m_bLoggedOn = s.m_bLoggedOn ∧
    (afterCommand cmd s).m_data = s.m_data ∧
    (afterCommand cmd s).m_extControl = s.m_extControl ∧
    (afterCommand cmd s).world = s.world ∧
    (afterCommand cmd s).m_bPasv = s.m_bPasv ∧
    (afterCommand cmd s).m_control =
      some { c with writeFails := c.writeFails.tail, lines := (ftpResponseLoop c.lines 0 0).2.2 } := by
  simp [afterCommand, Prim.apply, hs]

/-- A command without CR or LF that is written successfully and receives a
reply other than 421: `ftpSendCmd` returns `true` having written the command
and read that reply, and nothing else. -/
theorem ftpSendCmd_reply (fuel : Nat) (cmd : Bytes) (maxretries : Int) (s : Ftp)
    (c : ControlSocket) (hs : s.m_control = some c)
    (hcmd : (cmd.contains '\r' || cmd.contains '\n') = false)
    (hw : c.writeFails.headD false = false)
    (hty : 0 < respType (ftpResponseLoop c.lines 0 0).2.1)
    (h421 : (ftpResponseLoop c.lines 0 0).2.1 ≠ 421) :
    ftpSendCmd (fuel + 1) cmd maxretries s = (Except.ok true, afterCommand cmd s) := by
  have hread := ftpResponse_afterWrite (cmd ++ "\r\n".toList) s c hs
  have hresp := afterCommand_resp cmd s c hs
  have hfold : Prim.readResponse.apply ((Prim.controlWrite (cmd ++ "\r\n".toList)).apply s) =
      afterCommand cmd s := rfl
  rw [hfold] at hread
  have hcond : (decide ((afterCommand cmd s).m_iRespType ≤ 0) ||
      (afterCommand cmd s).m_iRespCode == 421) = false := by
    rw [hresp.1, hresp.2.1]
    simp [h421]
    omega
  simp only [ftpSendCmd, run_getFtp_bind, hs, hcmd, hw, Bool.false_eq_true, if_false,
    run_prim_bind]
  rw [run_bind, hread]
  simp only [run_pure_bind, run_getFtp_bind, hcond, Bool.false_eq_true, if_false, run_pure]

/-! ## The passive connection -/

theorem cstr_of_no_nul (l : Bytes) (h : '\x00' ∉ l) : cstr l = l := by
  unfold cstr
  rw [List.takeWhile_eq_self_iff]
  intro x hx
  have : x ≠ '\x00' := fun e => h (e ▸ hx)
  simpa using this

/-- The reply fields after PASV was answered with a single-line 2xx reply. -/
theorem afterPasv_resp (s : Ftp) (c : ControlSocket) (d2 d3 : Char) (text : Bytes)
    (rest : List Bytes) (hs : s.m_control = some c) (h2 : isdigit d2 = true)
    (h3 : isdigit d3 = true) (hlines : c.lines = reply2xx d2 d3 text :: rest) :
    (afterPasv s).m_iRespType = 2 ∧
    (afterPasv s).m_lastControlLine = reply2xx d2 d3 text ∧
    (afterPasv s).m_data = s.m_data ∧
    (afterPasv s).world = s.world ∧
    (afterPasv s).m_control =
      some { c with writeFails := c.writeFails.tail, lines := rest } ∧
    0 < respType (ftpResponseLoop c.lines 0 0).2.1 ∧
    (ftpResponseLoop c.lines 0 0).2.1 ≠ 421 := by
  have hs0 : ((Prim.setPasv true).apply s).m_control = some c := hs
  have hresp := afterCommand_resp "PASV".toList _ c hs0
  have hloop : ftpResponseLoop c.lines 0 0 =
      (reply2xx d2 d3 text, (codeOf '2' d2 d3 : Int), rest) := by
    rw [hlines]
    exact ftpResponseLoop_single (by decide) h2 h3 (by decide) text rest
  have hv2 := digitVal_le h2
  have hv3 := digitVal_le h3
  have hcode : (codeOf '2' d2 d3 : Int) = 200 + (digitVal d2 : Int) * 10 + (digitVal d3 : Int) := by
    have : digitVal '2' = 2 := by decide
    unfold codeOf
    rw [this]
    push_cast
    ring
  rw [hloop] at hresp
  have hty : respType (codeOf '2' d2 d3 : Int) = 2 := by
    unfold respType
    rw [hcode]
    rw [if_pos (by omega)]
    omega
  refine ⟨?_, hresp.2.2.1, hresp.2.2.2.2.1, hresp.2.2.2.2.2.2.1, hresp.2.2.2.2.2.2.2.2, ?_, ?_⟩
  · exact hresp.2.1.trans hty
  · rw [hloop]
    show 0 < respType (codeOf '2' d2 d3 : Int)
    rw [hty]
    decide
  · rw [hloop]
    show (codeOf '2' d2 d3 : Int) ≠ 421
    rw [hcode]
    omega

/-- What `ftpOpenPASVDataConnection` does when PASV can be sent and its reply
is a single 2xx line: it parses the text after the code and, when six integers
are found, connects to the peer of the control connection at the port parsed. -/
theorem ftpOpenPASVDataConnection_2xx (fuel : Nat) (s : Ftp) (c : ControlSocket) (d2 d3 : Char)
    (text : Bytes) (rest : List Bytes) (hs : s.m_control = some c) (hd : s.m_data = none)
    (hv4 : c.peerAddress.protocol = Protocol.IPv4) (hlatch : s.m_extControl.pasvUnknown = false)
    (hw : c.writeFails.headD false = false) (h2 : isdigit d2 = true) (h3 : isdigit d3 = true)
    (hnul : '\x00' ∉ text) (hlines : c.lines = reply2xx d2 d3 text :: rest) :
    ftpOpenPASVDataConnection (fuel + 1) s =
      match pasvPort (' ' :: text) with
      | none => (Except.ok (some KioError.ERR_INTERNAL), afterPasv s)
      | some port =>
        (Except.ok (if (s.world.datas.headD DataSocket.unconnected).connected then none
            else some KioError.ERR_INTERNAL),
          (Prim.newData c.peerAddress port).apply (afterPasv s)) := by
  have hs0 : ((Prim.setPasv true).apply s).m_control = some c := hs
  obtain ⟨hty, hline, _, hworld, hctl, hpos, h421⟩ := afterPasv_resp s c d2 d3 text rest hs h2 h3 hlines
  have hsend := ftpSendCmd_reply fuel "PASV".toList defaultRetries _ c hs0 (by decide) hw hpos h421
  have hcstr : (cstr (afterPasv s).m_lastControlLine).drop 3 = ' ' :: text := by
    rw [hline, cstr_of_no_nul]
    · rfl
    · intro hmem
      simp only [reply2xx, List.mem_cons] at hmem
      rcases hmem with h | h | h | h | h
      · exact absurd h (by decide)
      · exact absurd (h ▸ h2) (by decide)
      · exact absurd (h ▸ h3) (by decide)
      · exact absurd h (by decide)
      · exact hnul h
  have hresp3 : ftpResponse 3 (afterPasv s) = (Except.ok (' ' :: text), afterPasv s) := by
    simp only [ftpResponse, run_getFtp_bind, hctl]
    rw [if_neg (by decide)]
    rw [run_pure]
    exact congrArg (fun t => (Except.ok t, afterPasv s)) hcstr
  have hproto : (c.peerAddress.protocol != Protocol.IPv4) = false := by
    rw [hv4]
    decide
  simp only [ftpOpenPASVDataConnection, run_getFtp_bind, hs, hd, Option.isSome_none,
    Bool.false_eq_true, if_false, hproto, hlatch, run_prim_bind]
  rw [run_bind, hsend]
  simp only [run_getFtp_bind]
  have hcond : (!true || (afterCommand "PASV".toList ((Prim.setPasv true).apply s)).m_iRespType != 2)
      = false := by
    have : (afterCommand "PASV".toList ((Prim.setPasv true).apply s)).m_iRespType = 2 := hty
    rw [this]
    decide
  rw [if_neg (by rw [hcond]; decide)]
  rw [run_bind]
  have hfold : afterCommand "PASV".toList ((Prim.setPasv true).apply s) = afterPasv s := rfl
  rw [hfold, hresp3]
  dsimp only
  cases hport : pasvPort (' ' :: text) with
  | none => rfl
  | some port =>
    simp only [run_prim_bind, run_getFtp_bind]
    have hdata : ((Prim.newData c.peerAddress port).apply (afterPasv s)).m_data =
        some (s.world.datas.headD DataSocket.unconnected) := by
      simp [Prim.apply, hworld]
    rw [hdata]
    rfl

theorem not_mem_of_isDigits {x : Char} {ds : Bytes} (hx : isdigit x = false)
    (hds : isDigits ds = true) : x ∉ ds := by
  intro hmem
  simp only [isDigits, Bool.and_eq_true, List.all_eq_true] at hds
  have := hds.2 x hmem
  rw [hx] at this
  cases this

theorem not_mem_pasvGroup {x : Char} {h1 h2 h3 h4 p1 p2 : Bytes} (hx : isdigit x = false)
    (hc : x ≠ ',')
    (d1 : isDigits h1 = true) (d2 : isDigits h2 = true) (d3 : isDigits h3 = true)
    (d4 : isDigits h4 = true) (d5 : isDigits p1 = true) (d6 : isDigits p2 = true) :
    x ∉ pasvGroup h1 h2 h3 h4 p1 p2 := by
  have n1 := not_mem_of_isDigits hx d1
  have n2 := not_mem_of_isDigits hx d2
  have n3 := not_mem_of_isDigits hx d3
  have n4 := not_mem_of_isDigits hx d4
  have n5 := not_mem_of_isDigits hx d5
  have n6 := not_mem_of_isDigits hx d6
  simp [pasvGroup, n1, n2, n3, n4, n5, n6, hc]

/-- The port read from a PASV reply text whose opening character is found. -/
theorem pasvPort_text (lead : Char) (pre h1 h2 h3 h4 p1 p2 tail : Bytes)
    (hlead : pasvLeadFound lead (' ' :: pre) tail)
    (d1 : isDigits h1 = true) (d2 : isDigits h2 = true) (d3 : isDigits h3 = true)
    (d4 : isDigits h4 = true) (d5 : isDigits p1 = true) (d6 : isDigits p2 = true)
    (htail : noDigitAhead tail = true) :
    pasvPort (' ' :: pasvText lead pre h1 h2 h3 h4 p1 p2 tail) = some (pasvPortOf p1 p2) := by
  have e : ' ' :: pasvText lead pre h1 h2 h3 h4 p1 p2 tail =
      (' ' :: pre) ++ lead :: (pasvGroup h1 h2 h3 h4 p1 p2 ++ tail) := rfl
  rw [e]
  rcases hlead with ⟨rfl, hpre⟩ | ⟨rfl, hpre, hp1, hp2⟩
  · exact pasvPort_paren _ h1 h2 h3 h4 p1 p2 tail hpre d1 d2 d3 d4 d5 d6 htail
  · refine pasvPort_equals _ h1 h2 h3 h4 p1 p2 tail hpre ?_ d1 d2 d3 d4 d5 d6 htail
    have hg : '(' ∉ pasvGroup h1 h2 h3 h4 p1 p2 :=
      not_mem_pasvGroup (by decide) (by decide) d1 d2 d3 d4 d5 d6
    intro hmem
    rcases List.mem_append.mp hmem with h | h
    · exact hp1 h
    · rcases List.mem_cons.mp h with h | h
      · exact absurd h (by decide)
      · rcases List.mem_append.mp h with h | h
        · exact hg h
        · exact hp2 h

theorem pasvText_no_nul (lead : Char) (pre h1 h2 h3 h4 p1 p2 tail : Bytes)
    (hlead : lead = '(' ∨ lead = '=') (hpre : '\x00' ∉ pre) (htl : '\x00' ∉ tail)
    (d1 : isDigits h1 = true) (d2 : isDigits h2 = true) (d3 : isDigits h3 = true)
    (d4 : isDigits h4 = true) (d5 : isDigits p1 = true) (d6 : isDigits p2 = true) :
    '\x00' ∉ pasvText lead pre h1 h2 h3 h4 p1 p2 tail := by
  have hg : '\x00' ∉ pasvGroup h1 h2 h3 h4 p1 p2 :=
    not_mem_pasvGroup (by decide) (by decide) d1 d2 d3 d4 d5 d6
  intro hmem
  unfold pasvText at hmem
  rcases List.mem_append.mp hmem with h | h
  · exact hpre h
  · rcases List.mem_cons.mp h with h | h
    · rcases hlead with rfl | rfl
      · exact absurd h (by decide)
      · exact absurd h (by decide)
    · rcases List.mem_append.mp h with h | h
      · exact hg h
      · exact htl h

theorem pasvLeadFound_lead {lead : Char} {pre tail : Bytes} (h : pasvLeadFound lead pre tail) :
    lead = '(' ∨ lead = '=' := by
  rcases h with ⟨h, _⟩ | ⟨h, _⟩
  · exact Or.inl h
  · exact Or.inr h

/-- The run of `ftpOpenPASVDataConnection` on a 2xx reply whose text holds the
six integers where the code looks for them. -/
theorem ftpOpenPASVDataConnection_group (fuel : Nat) (s : Ftp) (c : ControlSocket)
    (d2 d3 lead : Char) (pre h1 h2 h3 h4 p1 p2 tail : Bytes) (rest : List Bytes)
    (hs : s.m_control = some c) (hd : s.m_data = none)
    (hv4 : c.peerAddress.protocol = Protocol.IPv4) (hlatch : s.m_extControl.pasvUnknown = false)
    (hw : c.writeFails.headD false = false) (hd2 : isdigit d2 = true) (hd3 : isdigit d3 = true)
    (hlead : pasvLeadFound lead (' ' :: pre) tail)
    (hpre : '\x00' ∉ pre) (htl : '\x00' ∉ tail)
    (d1 : isDigits h1 = true) (d2' : isDigits h2 = true) (d3' : isDigits h3 = true)
    (d4 : isDigits h4 = true) (d5 : isDigits p1 = true) (d6 : isDigits p2 = true)
    (htail : noDigitAhead tail = true)
    (hlines : c.lines = reply2xx d2 d3 (pasvText lead pre h1 h2 h3 h4 p1 p2 tail) :: rest) :
    ftpOpenPASVDataConnection (fuel + 1) s =
      (Except.ok (if (s.world.datas.headD DataSocket.unconnected).connected then none
          else some KioError.ERR_INTERNAL),
        (Prim.newData c.peerAddress (pasvPortOf p1 p2)).apply (afterPasv s)) := by
  have hnul := pasvText_no_nul lead pre h1 h2 h3 h4 p1 p2 tail (pasvLeadFound_lead hlead) hpre htl
    d1 d2' d3' d4 d5 d6
  rw [ftpOpenPASVDataConnection_2xx fuel s c d2 d3 _ rest hs hd hv4 hlatch hw hd2 hd3 hnul hlines,
    pasvPort_text lead pre h1 h2 h3 h4 p1 p2 tail hlead d1 d2' d3' d4 d5 d6 htail]

theorem afterPasv_trace (s : Ftp) (c : ControlSocket) (d2 d3 : Char) (text : Bytes)
    (rest : List Bytes) (hs : s.m_control = some c) (hw : c.writeFails.headD false = false)
    (h2 : isdigit d2 = true) (h3 : isdigit d3 = true)
    (hlines : c.lines = reply2xx d2 d3 text :: rest) :
    (afterPasv s).trace = s.trace ++ [Event.controlSend "PASV\r\n".toList,
      Event.controlReply (codeOf '2' d2 d3 : Int) (reply2xx d2 d3 text)] := by
  have hloop : ftpResponseLoop c.lines 0 0 =
      (reply2xx d2 d3 text, (codeOf '2' d2 d3 : Int), rest) := by
    rw [hlines]
    exact ftpResponseLoop_single (by decide) h2 h3 (by decide) text rest
  have hw1 : c.writeFails.head?.getD false = false := by
    rw [← List.headD_eq_head?_getD]
    exact hw
  simp [afterPasv, afterCommand, Prim.apply, hs, hw1, hloop]

/-- C9 (amended): for every 2xx PASV reply whose text has, at its first `(`
(or, when it has no `(`, at its first `=`), six comma-separated decimal
integers h1,h2,h3,h4,p1,p2 with p1 and p2 at most 255, the data connection is
attempted to port p1 * 256 + p2: the function writes PASV, reads the reply,
and connects to the peer of the control connection at that port. -/
theorem pasv_reply_port (fuel : Nat) (s : Ftp) (c : ControlSocket)
    (d2 d3 lead : Char) (pre h1 h2 h3 h4 p1 p2 tail : Bytes) (rest : List Bytes)
    (hs : s.m_control = some c) (hd : s.m_data = none)
    (hv4 : c.peerAddress.protocol = Protocol.IPv4) (hlatch : s.m_extControl.pasvUnknown = false)
    (hw : c.writeFails.headD false = false) (hd2 : isdigit d2 = true) (hd3 : isdigit d3 = true)
    (hlead : pasvLeadFound lead (' ' :: pre) tail)
    (hpre : '\x00' ∉ pre) (htl : '\x00' ∉ tail)
    (d1 : isDigits h1 = true) (d2' : isDigits h2 = true) (d3' : isDigits h3 = true)
    (d4 : isDigits h4 = true) (d5 : isDigits p1 = true) (d6 : isDigits p2 = true)
    (htail : noDigitAhead tail = true)
    (hb1 : decimalValue p1 ≤ 255) (hb2 : decimalValue p2 ≤ 255)
    (hlines : c.lines = reply2xx d2 d3 (pasvText lead pre h1 h2 h3 h4 p1 p2 tail) :: rest) :
    (ftpOpenPASVDataConnection (fuel + 1) s).2.trace =
      s.trace ++ [Event.controlSend "PASV\r\n".toList,
        Event.controlReply (codeOf '2' d2 d3 : Int)
          (reply2xx d2 d3 (pasvText lead pre h1 h2 h3 h4 p1 p2 tail)),
        Event.dataConnect c.peerAddress
          ((decimalValue p1 * 256 + decimalValue p2 : Nat) : Int)] := by
  rw [ftpOpenPASVDataConnection_group fuel s c d2 d3 lead pre h1 h2 h3 h4 p1 p2 tail rest hs hd hv4
    hlatch hw hd2 hd3 hlead hpre htl d1 d2' d3' d4 d5 d6 htail hlines]
  have htr := afterPasv_trace s c d2 d3 _ rest hs hw hd2 hd3 hlines
  have hport := pasvPortOf_bytes p1 p2 hb1 hb2
  show ((Prim.newData c.peerAddress (pasvPortOf p1 p2)).apply (afterPasv s)).trace = _
  rw [hport]
  simp [Prim.apply, htr]

theorem newData_trace (a : HostAddress) (p : Int) (t : Ftp) :
    ((Prim.newData a p).apply t).trace = t.trace ++ [Event.dataConnect a p] := by
  simp [Prim.apply, Ftp.log]

set_option maxRecDepth 100000 in
/-- C9, the spec's example: the reply `227 =160,39,200,55,6,245` makes the
data connection go to port 6 * 256 + 245 = 1781 of the control peer. -/
theorem pasv_reply_port_witness :
    (ftpOpenPASVDataConnection 1
      (exampleLoggedOn (exampleControl ["227 =160,39,200,55,6,245\r\n"])
        (exampleWorld [] [exampleData []]))).2.trace =
      [Event.controlSend "PASV\r\n".toList,
        Event.controlReply 227 "227 =160,39,200,55,6,245\r\n".toList,
        Event.dataConnect exampleServer 1781] :=
  pasv_reply_port 0
    (exampleLoggedOn (exampleControl ["227 =160,39,200,55,6,245\r\n"])
      (exampleWorld [] [exampleData []]))
    (exampleControl ["227 =160,39,200,55,6,245\r\n"]) '2' '7' '=' []
    "160".toList "39".toList "200".toList "55".toList "6".toList "245".toList "\r\n".toList []
    rfl rfl rfl rfl rfl (by decide) (by decide)
    (Or.inr ⟨rfl, by decide, by decide, by decide⟩) (by decide) (by decide)
    (by decide) (by decide) (by decide) (by decide) (by decide) (by decide) (by decide)
    (by decide) (by decide) rfl

/-- C9 as stated fails: with the reply `227 ok (192,0,2,7,1,256)` the six
integers are there in the canonical form, and the connection goes to port
`1 << 8 | 256 = 256`, not to 1 * 256 + 256 = 512. -/
theorem pasv_port_is_bitwise_or :
    (ftpOpenPASVDataConnection 1
      (exampleLoggedOn (exampleControl ["227 ok (192,0,2,7,1,256)\r\n"])
        (exampleWorld [] [exampleData []]))).2.trace.getLast? =
      some (Event.dataConnect exampleServer 256) ∧
    (256 : Int) ≠ 1 * 256 + 256 := by
  decide!

/-- A text with an earlier `(` is not parsed at all, although the six integers
are there in the canonical form: no connection is attempted. -/
theorem pasv_earlier_paren_not_parsed :
    ftpOpenPASVDataConnection 1
      (exampleLoggedOn (exampleControl ["227 Entering Passive Mode (PASV) (192,0,2,7,6,245)\r\n"])
        (exampleWorld [] [exampleData []])) =
      (Except.ok (some KioError.ERR_INTERNAL),
        afterPasv (exampleLoggedOn
          (exampleControl ["227 Entering Passive Mode (PASV) (192,0,2,7,6,245)\r\n"])
          (exampleWorld [] [exampleData []]))) := by
  decide!

/-- C10: the host advertised in a PASV reply does not influence where the data
connection goes.  Two runs of `ftpOpenPASVDataConnection` from the same session
state, whose 2xx PASV replies differ only in the four host integers (`h1..h4`
in one, `g1..g4` in the other), return the same result and make exactly one
connection attempt each, to the same target: the peer address of the control
connection and the port given by the last two integers. -/
theorem pasv_host_ignored (fuel : Nat) (s : Ftp) (c : ControlSocket)
    (d2 d3 lead : Char) (pre h1 h2 h3 h4 g1 g2 g3 g4 p1 p2 tail : Bytes) (rest : List Bytes)
    (hd : s.m_data = none)
    (hv4 : c.peerAddress.protocol = Protocol.IPv4) (hlatch : s.m_extControl.pasvUnknown = false)
    (hw : c.writeFails.headD false = false) (hd2 : isdigit d2 = true) (hd3 : isdigit d3 = true)
    (hlead : pasvLeadFound lead (' ' :: pre) tail)
    (hpre : '\x00' ∉ pre) (htl : '\x00' ∉ tail)
    (dh1 : isDigits h1 = true) (dh2 : isDigits h2 = true) (dh3 : isDigits h3 = true)
    (dh4 : isDigits h4 = true) (dg1 : isDigits g1 = true) (dg2 : isDigits g2 = true)
    (dg3 : isDigits g3 = true) (dg4 : isDigits g4 = true)
    (dp1 : isDigits p1 = true) (dp2 : isDigits p2 = true)
    (htail : noDigitAhead tail = true) :
    (ftpOpenPASVDataConnection (fuel + 1)
        (withReply s c (reply2xx d2 d3 (pasvText lead pre h1 h2 h3 h4 p1 p2 tail)) rest)).1 =
      (ftpOpenPASVDataConnection (fuel + 1)
        (withReply s c (reply2xx d2 d3 (pasvText lead pre g1 g2 g3 g4 p1 p2 tail)) rest)).1 ∧
    (ftpOpenPASVDataConnection (fuel + 1)
        (withReply s c (reply2xx d2 d3 (pasvText lead pre h1 h2 h3 h4 p1 p2 tail)) rest)).2.trace =
      s.trace ++ [Event.controlSend "PASV\r\n".toList,
        Event.controlReply (codeOf '2' d2 d3 : Int)
          (reply2xx d2 d3 (pasvText lead pre h1 h2 h3 h4 p1 p2 tail)),
        Event.dataConnect c.peerAddress (pasvPortOf p1 p2)] ∧
    (ftpOpenPASVDataConnection (fuel + 1)
        (withReply s c (reply2xx d2 d3 (pasvText lead pre g1 g2 g3 g4 p1 p2 tail)) rest)).2.trace =
      s.trace ++ [Event.controlSend "PASV\r\n".toList,
        Event.controlReply (codeOf '2' d2 d3 : Int)
          (reply2xx d2 d3 (pasvText lead pre g1 g2 g3 g4 p1 p2 tail)),
        Event.dataConnect c.peerAddress (pasvPortOf p1 p2)] := by
  have ha := ftpOpenPASVDataConnection_group fuel
    (withReply s c (reply2xx d2 d3 (pasvText lead pre h1 h2 h3 h4 p1 p2 tail)) rest)
    { c with lines := reply2xx d2 d3 (pasvText lead pre h1 h2 h3 h4 p1 p2 tail) :: rest }
    d2 d3 lead pre h1 h2 h3 h4 p1 p2 tail rest rfl hd hv4 hlatch hw hd2 hd3 hlead hpre htl
    dh1 dh2 dh3 dh4 dp1 dp2 htail rfl
  have hb := ftpOpenPASVDataConnection_group fuel
    (withReply s c (reply2xx d2 d3 (pasvText lead pre g1 g2 g3 g4 p1 p2 tail)) rest)
    { c with lines := reply2xx d2 d3 (pasvText lead pre g1 g2 g3 g4 p1 p2 tail) :: rest }
    d2 d3 lead pre g1 g2 g3 g4 p1 p2 tail rest rfl hd hv4 hlatch hw hd2 hd3 hlead hpre htl
    dg1 dg2 dg3 dg4 dp1 dp2 htail rfl
  have hta := afterPasv_trace
    (withReply s c (reply2xx d2 d3 (pasvText lead pre h1 h2 h3 h4 p1 p2 tail)) rest)
    { c with lines := reply2xx d2 d3 (pasvText lead pre h1 h2 h3 h4 p1 p2 tail) :: rest }
    d2 d3 _ rest rfl hw hd2 hd3 rfl
  have htb := afterPasv_trace
    (withReply s c (reply2xx d2 d3 (pasvText lead pre g1 g2 g3 g4 p1 p2 tail)) rest)
    { c with lines := reply2xx d2 d3 (pasvText lead pre g1 g2 g3 g4 p1 p2 tail) :: rest }
    d2 d3 _ rest rfl hw hd2 hd3 rfl
  rw [ha, hb]
  refine ⟨rfl, ?_, ?_⟩
  · show ((Prim.newData c.peerAddress (pasvPortOf p1 p2)).apply (afterPasv _)).trace = _
    rw [newData_trace, hta]
    simp [withReply]
  · show ((Prim.newData c.peerAddress (pasvPortOf p1 p2)).apply (afterPasv _)).trace = _
    rw [newData_trace, htb]
    simp [withReply]

set_option maxRecDepth 100000 in
/-- C10 on two replies that advertise `192.0.2.7` and `10.9.8.7`: both runs
connect to the control peer at port 1781. -/
theorem pasv_host_ignored_witness :
    (ftpOpenPASVDataConnection 1
        (withReply (exampleLoggedOn (exampleControl []) (exampleWorld [] [exampleData []]))
          (exampleControl []) "227 ok (192,0,2,7,6,245)\r\n".toList [])).2.trace =
      [Event.controlSend "PASV\r\n".toList,
        Event.controlReply 227 "227 ok (192,0,2,7,6,245)\r\n".toList,
        Event.dataConnect exampleServer 1781] ∧
    (ftpOpenPASVDataConnection 1
        (withReply (exampleLoggedOn (exampleControl []) (exampleWorld [] [exampleData []]))
          (exampleControl []) "227 ok (10,9,8,7,6,245)\r\n".toList [])).2.trace =
      [Event.controlSend "PASV\r\n".toList,
        Event.controlReply 227 "227 ok (10,9,8,7,6,245)\r\n".toList,
        Event.dataConnect exampleServer 1781] :=
  (pasv_host_ignored 0 (exampleLoggedOn (exampleControl []) (exampleWorld [] [exampleData []]))
    (exampleControl []) '2' '7' '(' "ok ".toList
    "192".toList "0".toList "2".toList "7".toList "10".toList "9".toList "8".toList "7".toList
    "6".toList "245".toList ")\r\n".toList []
    rfl rfl rfl rfl (by decide) (by decide)
    (Or.inl ⟨rfl, by decide⟩) (by decide) (by decide)
    (by decide) (by decide) (by decide) (by decide) (by decide) (by decide) (by decide) (by decide)
    (by decide) (by decide) (by decide)).2

end KioFtps

namespace KioFtps

/-! ## Capability latching -/

/-- The latch of PASV holds: with `pasvUnknown` set, `ftpOpenPASVDataConnection`
returns `ERR_INTERNAL` and changes nothing, so it sends nothing. -/
theorem ftpOpenPASVDataConnection_latched (fuel : Nat) (s : Ftp) (c : ControlSocket)
    (hs : s.m_control = some c) (hd : s.m_data = none)
    (hlatch : s.m_extControl.pasvUnknown = true) :
    ftpOpenPASVDataConnection fuel s = (Except.ok (some KioError.ERR_INTERNAL), s) := by
  unfold ftpOpenPASVDataConnection
  simp only [run_getFtp_bind, hs, hd, hlatch]
  by_cases hv : c.peerAddress.protocol = Protocol.IPv4 <;> simp [hv, run_pure]

/-- The latch of EPSV holds: with `epsvUnknown` set, `ftpOpenEPSVDataConnection`
returns `ERR_INTERNAL` and changes nothing. -/
theorem ftpOpenEPSVDataConnection_latched (fuel : Nat) (s : Ftp) (c : ControlSocket)
    (hs : s.m_control = some c) (hd : s.m_data = none)
    (hlatch : s.m_extControl.epsvUnknown = true) :
    ftpOpenEPSVDataConnection fuel s = (Except.ok (some KioError.ERR_INTERNAL), s) := by
  unfold ftpOpenEPSVDataConnection
  simp [run_getFtp_bind, hs, hd, hlatch, run_pure]

/-- C7: the latch of EPRT does not exist.  Over IPv6 the server answers EPSV
and EPRT with 500.  The first `ftpOpenDataConnection` sets `epsvUnknown` but
leaves `eprtUnknown` clear, and the second one, on the same control
connection, sends EPRT again (and not EPSV). -/
theorem ftpOpenDataConnection_EPRT_sent_again :
    (ftpOpenDataConnection 5
      (exampleLoggedOn
        (exampleControl6 ["500 EPSV not understood\r\n", "500 EPRT not understood\r\n",
          "500 EPRT not understood\r\n"])
        (exampleListening [40000, 40001]))).2.m_extControl =
      { pasvUnknown := false, epsvUnknown := true, epsvAllSent := false, eprtUnknown := false,
        chmodUnknown := false } ∧
    (ftpOpenDataConnection 5 (ftpOpenDataConnection 5
      (exampleLoggedOn
        (exampleControl6 ["500 EPSV not understood\r\n", "500 EPRT not understood\r\n",
          "500 EPRT not understood\r\n"])
        (exampleListening [40000, 40001]))).2).2.trace =
      [Event.controlSend "EPSV\r\n".toList,
        Event.controlReply 500 "500 EPSV not understood\r\n".toList,
        Event.dataListen,
        Event.controlSend "EPRT |2|2001:db8::1|40000|\r\n".toList,
        Event.controlReply 500 "500 EPRT not understood\r\n".toList,
        Event.dataListen,
        Event.controlSend "EPRT |2|2001:db8::1|40001|\r\n".toList,
        Event.controlReply 500 "500 EPRT not understood\r\n".toList] := by
  decide!

end KioFtps

namespace KioFtps

/-! ## What the elementary state changes add to the trace -/

theorem Prim.apply_trace (p : Prim) (s : Ftp) : (p.apply s).trace = s.trace ++ p.events s := by
  cases p <;> simp only [Prim.apply, Prim.events, Ftp.log, List.append_nil] <;>
    first
      | rfl
      | (split <;> first | (simp_all; done) | (simp_all; split <;> simp))

theorem Emits.emits_refl (P : Event → Prop) (s : Ftp) : Emits P s s :=
  ⟨[], by simp, by simp⟩

theorem Emits.emits_trans {P : Event → Prop} {a b c : Ftp} (h1 : Emits P a b) (h2 : Emits P b c) :
    Emits P a c := by
  obtain ⟨x, hx, px⟩ := h1
  obtain ⟨y, hy, py⟩ := h2
  refine ⟨x ++ y, by rw [hy, hx, List.append_assoc], ?_⟩
  intro e he
  rcases List.mem_append.mp he with h | h
  · exact px e h
  · exact py e h

/-- Along a footprint whose elementary state changes add only events that
satisfy `P`, the trace grows by such events only. -/
theorem StepsIn.emits {Q : Prim → Prop} {P : Event → Prop}
    (h : ∀ p s, Q p → ∀ e ∈ Prim.events p s, P e) {s s1 : Ftp} (hs : StepsIn Q s s1) :
    Emits P s s1 :=
  StepsIn.induct (R := Emits P) (Emits.emits_refl P) (fun _ _ _ => Emits.emits_trans)
    (fun p s hq => ⟨Prim.events p s, Prim.apply_trace p s, h p s hq⟩) hs

/-! ## The footprint of the functions that open a data connection -/

theorem controlPrim_openPrim (cmds : Bytes → Prop) (active : Prop) (p : Prim)
    (h : controlPrim cmds p) : openPrim cmds active p := by
  cases p <;> first | exact h | exact trivial | exact h.elim

theorem within_send (cmds : Bytes → Prop) (active : Prop) (fuel : Nat) (cmd : Bytes)
    (maxretries : Int)
    (h : ownCommand (cmd ++ "\r\n".toList) = true ∨ cmds (cmd ++ "\r\n".toList)) :
    Within (openPrim cmds active) (ftpSendCmd fuel cmd maxretries) :=
  ((Within.control cmds fuel).1 cmd maxretries h).within_mono (controlPrim_openPrim cmds active)

theorem within_response (cmds : Bytes → Prop) (active : Prop) (iOffset : Int) :
    Within (openPrim cmds active) (ftpResponse iOffset) :=
  (@Within.ftpResponse cmds iOffset).within_mono (controlPrim_openPrim cmds active)

theorem within_requestDataEncryption (cmds : Bytes → Prop) (active : Prop) (fuel : Nat)
    (h1 : cmds ("PBSZ 0".toList ++ "\r\n".toList)) (h2 : cmds ("PROT P".toList ++ "\r\n".toList))
    (h3 : cmds ("PROT C".toList ++ "\r\n".toList)) :
    Within (openPrim cmds active) (requestDataEncryption fuel) := by
  unfold requestDataEncryption
  repeat' first
    | with_reducible exact Within.within_pure _
    | with_reducible exact Within.within_getFtp
    | ((with_reducible refine within_send _ _ _ _ _ ?_); first
        | exact Or.inr h1
        | exact Or.inr h2
        | exact Or.inr h3)
    | with_reducible apply Within.within_bind
    | intro _
    | split

theorem within_PASV (cmds : Bytes → Prop) (active : Prop) (fuel : Nat)
    (h : cmds ("PASV".toList ++ "\r\n".toList)) :
    Within (openPrim cmds active) (ftpOpenPASVDataConnection fuel) := by
  unfold ftpOpenPASVDataConnection
  repeat' first
    | with_reducible exact Within.within_pure _
    | with_reducible exact Within.within_fault _
    | with_reducible exact Within.within_getFtp
    | ((with_reducible refine Within.within_prim _ ?_); exact trivial)
    | ((with_reducible refine within_send _ _ _ _ _ ?_); exact Or.inr h)
    | with_reducible exact within_response _ _ _
    | with_reducible apply Within.within_bind
    | intro _
    | split

theorem within_EPSV (cmds : Bytes → Prop) (active : Prop) (fuel : Nat)
    (h : cmds ("EPSV".toList ++ "\r\n".toList)) :
    Within (openPrim cmds active) (ftpOpenEPSVDataConnection fuel) := by
  unfold ftpOpenEPSVDataConnection
  repeat' first
    | with_reducible exact Within.within_pure _
    | with_reducible exact Within.within_fault _
    | with_reducible exact Within.within_getFtp
    | ((with_reducible refine Within.within_prim _ ?_); exact trivial)
    | ((with_reducible refine within_send _ _ _ _ _ ?_); exact Or.inr h)
    | with_reducible exact within_response _ _ _
    | with_reducible apply Within.within_bind
    | intro _
    | split

/-- The passive block stays within the passive footprint: no listening socket
and no command besides PASV, EPSV, PBSZ, PROT and those of the control
connection itself. -/
theorem within_ftpOpenPassiveModes (cmds : Bytes → Prop) (active : Prop) (fuel : Nat)
    (hpasv : cmds ("PASV".toList ++ "\r\n".toList)) (hepsv : cmds ("EPSV".toList ++ "\r\n".toList))
    (h1 : cmds ("PBSZ 0".toList ++ "\r\n".toList)) (h2 : cmds ("PROT P".toList ++ "\r\n".toList))
    (h3 : cmds ("PROT C".toList ++ "\r\n".toList)) :
    Within (openPrim cmds active) (ftpOpenPassiveModes fuel) := by
  unfold ftpOpenPassiveModes
  repeat' first
    | with_reducible exact Within.within_pure _
    | with_reducible exact Within.within_fault _
    | with_reducible exact Within.within_getFtp
    | ((with_reducible refine Within.within_prim _ ?_); exact trivial)
    | with_reducible exact within_PASV _ _ _ hpasv
    | with_reducible exact within_EPSV _ _ _ hepsv
    | with_reducible exact within_requestDataEncryption _ _ _ h1 h2 h3
    | with_reducible apply Within.within_bind
    | intro _
    | split
    | dsimp only

theorem within_ftpOpenPortDataConnection (fuel : Nat) :
    Within (openPrim (fun _ => True) True) (ftpOpenPortDataConnection fuel) := by
  unfold ftpOpenPortDataConnection
  repeat' first
    | with_reducible exact Within.within_pure _
    | with_reducible exact Within.within_fault _
    | with_reducible exact Within.within_getFtp
    | ((with_reducible refine Within.within_prim _ ?_); exact trivial)
    | ((with_reducible refine within_send _ _ _ _ _ ?_); exact Or.inr trivial)
    | with_reducible apply Within.within_bind
    | intro _
    | split

theorem within_ftpOpenPortFallback (fuel : Nat) (iErrCodePASV : Option KioError) :
    Within (openPrim (fun _ => True) True) (ftpOpenPortFallback fuel iErrCodePASV) := by
  unfold ftpOpenPortFallback
  repeat' first
    | with_reducible exact Within.within_pure _
    | with_reducible exact Within.within_fault _
    | with_reducible exact Within.within_getFtp
    | ((with_reducible refine Within.within_prim _ ?_); exact trivial)
    | with_reducible exact within_ftpOpenPortDataConnection _
    | with_reducible exact within_requestDataEncryption _ _ _ trivial trivial trivial
    | with_reducible apply Within.within_bind
    | intro _
    | split

/-- The footprint of `ftpOpenDataConnection`: the state changes of the control
connection, of the passive modes and of active mode. -/
theorem within_ftpOpenDataConnection (fuel : Nat) :
    Within (openPrim (fun _ => True) True) (ftpOpenDataConnection fuel) := by
  unfold ftpOpenDataConnection
  repeat' first
    | with_reducible exact Within.within_pure _
    | with_reducible exact Within.within_fault _
    | with_reducible exact Within.within_getFtp
    | ((with_reducible refine Within.within_prim _ ?_); exact trivial)
    | with_reducible exact within_ftpOpenPortFallback _ _
    | with_reducible exact within_ftpOpenPassiveModes _ _ _ trivial trivial trivial trivial trivial
    | with_reducible apply Within.within_bind
    | intro _
    | split
    | dsimp only

/-! ## The capability bits along a footprint -/

theorem epsvAllSent_clear_apply (p : Prim) (s : Ftp) (h : s.m_extControl.epsvAllSent = false) :
    (p.apply s).m_extControl.epsvAllSent = false := by
  cases p <;> simp only [Prim.apply, Ftp.log] <;>
    first
      | exact h
      | rfl
      | (split <;> first | exact h | rfl)

/-- No elementary state change sets `epsvAllSent`. -/
theorem StepsIn.epsvAllSent_clear {Q : Prim → Prop} {s s1 : Ftp} (hs : StepsIn Q s s1)
    (h : s.m_extControl.epsvAllSent = false) : s1.m_extControl.epsvAllSent = false :=
  StepsIn.induct (R := fun a b => a.m_extControl.epsvAllSent = false →
      b.m_extControl.epsvAllSent = false)
    (fun _ h => h) (fun _ _ _ h1 h2 h => h2 (h1 h))
    (fun p s _ h => epsvAllSent_clear_apply p s h) hs h

/-! ## Active mode is not part of the passive footprint -/

theorem controlEvent_not_active (e : Event) (h : controlEvent e) : activeEvent e = false := by
  cases e <;> first | rfl | exact h.elim

theorem passiveCommand_not_active (buf : Bytes) (h : passiveCommand buf) :
    activeEvent (Event.controlSend buf) = false := by
  rcases h with rfl | rfl | rfl | rfl | rfl <;> decide

theorem startsWith_append (pre : Bytes) (buf : Bytes) (h : startsWith buf pre = true) :
    ∃ t, buf = pre ++ t := by
  unfold startsWith at h
  obtain ⟨t, ht⟩ := List.isPrefixOf_iff_prefix.mp h
  exact ⟨t, ht.symm⟩

theorem ownCommand_not_active (buf : Bytes) (h : ownCommand buf = true) :
    activeEvent (Event.controlSend buf) = false := by
  unfold ownCommand at h
  simp only [Bool.or_eq_true] at h
  rcases h with ((((((h | h) | h) | h) | h) | h) | h) | h
  · rw [eq_of_beq h]; decide
  · rw [eq_of_beq h]; decide
  · obtain ⟨t, rfl⟩ := startsWith_append _ buf h
    simp only [activeEvent, startsWith]
    rfl
  · obtain ⟨t, rfl⟩ := startsWith_append _ buf h
    simp only [activeEvent, startsWith]
    rfl
  · rw [eq_of_beq h]; decide
  · rw [eq_of_beq h]; decide
  · rw [eq_of_beq h]; decide
  · obtain ⟨t, rfl⟩ := startsWith_append _ buf h
    simp only [activeEvent, startsWith]
    rfl

/-- The elementary state changes of the passive footprint add no event of
active mode to the trace. -/
theorem passive_events (p : Prim) (s : Ftp) (h : openPrim passiveCommand False p) :
    ∀ e ∈ Prim.events p s, activeEvent e = false := by
  intro e he
  cases p <;> simp only [Prim.events] at he <;>
    first
      | exact absurd he (List.not_mem_nil _)
      | exact h.elim
      | (split at he <;>
          first
            | exact absurd he (List.not_mem_nil _)
            | (rw [List.mem_singleton.mp he]; rfl)
            | skip)
      | (rw [List.mem_singleton.mp he]; first | rfl | exact controlEvent_not_active _ h)
  split at he
  · exact absurd he (List.not_mem_nil _)
  · rw [List.mem_singleton.mp he]
    rcases (show ownCommand _ = true ∨ passiveCommand _ from h) with h1 | h1
    · exact ownCommand_not_active _ h1
    · exact passiveCommand_not_active _ h1

/-! ## What the functions return -/

theorem Returns.returns_pure {α : Type} {P : α → Prop} (a : α) (h : P a) : Returns P (pure a : M α) :=
  ⟨fun _ b hb => by
    have hab : a = b := Except.ok.inj hb
    rw [← hab]
    exact h⟩

theorem Returns.returns_fault {α : Type} {P : α → Prop} (e : Fault) : Returns P (fault e : M α) :=
  ⟨fun _ _ hb => nomatch hb⟩

theorem Returns.returns_bind_of {α β : Type} {R : α → Prop} {P : β → Prop} {m : M α} {f : α → M β}
    (hm : Returns R m) (hf : ∀ a, R a → Returns P (f a)) : Returns P (m >>= f) := by
  constructor
  intro s b hb
  rw [run_bind] at hb
  have hr := hm.run s
  cases hms : m s with
  | mk r s1 =>
    rw [hms] at hb hr
    cases r with
    | ok a => exact (hf a (hr a rfl)).run s1 b hb
    | error e => exact nomatch hb

theorem Returns.returns_bind {α β : Type} {P : β → Prop} {m : M α} {f : α → M β}
    (hf : ∀ a, Returns P (f a)) : Returns P (m >>= f) :=
  Returns.returns_bind_of (R := fun _ => True) ⟨fun _ _ _ => trivial⟩ (fun a _ => hf a)

theorem Post.post_pure {α : Type} {P : α → Ftp → Prop} (a : α) (h : ∀ s, P a s) :
    Post P (pure a : M α) :=
  ⟨fun s b hb => by
    have hab : a = b := Except.ok.inj hb
    rw [← hab]
    exact h s⟩

theorem Post.post_fault {α : Type} {P : α → Ftp → Prop} (e : Fault) : Post P (fault e : M α) :=
  ⟨fun _ _ hb => nomatch hb⟩

theorem Post.post_bind_of {α β : Type} {R : α → Prop} {P : β → Ftp → Prop} {m : M α} {f : α → M β}
    (hm : Returns R m) (hf : ∀ a, R a → Post P (f a)) : Post P (m >>= f) := by
  constructor
  intro s b hb
  rw [run_bind] at hb ⊢
  have hr := hm.run s
  cases hms : m s with
  | mk r s1 =>
    rw [hms] at hb hr
    cases r with
    | ok a => exact (hf a (hr a rfl)).run s1 b hb
    | error e => exact nomatch hb

theorem Post.post_bind {α β : Type} {P : β → Ftp → Prop} {m : M α} {f : α → M β}
    (hf : ∀ a, Post P (f a)) : Post P (m >>= f) :=
  Post.post_bind_of (R := fun _ => True) ⟨fun _ _ _ => trivial⟩ (fun a _ => hf a)

theorem Post.post_getFtp_bind {β : Type} {P : β → Ftp → Prop} {f : Ftp → M β}
    (h : ∀ s b, (f s s).1 = Except.ok b → P b (f s s).2) : Post P (getFtp >>= f) :=
  ⟨h⟩

/-- PASV mode fails with `ERR_INTERNAL` only. -/
theorem returns_PASV (fuel : Nat) :
    Returns (fun r => r = none ∨ r = some KioError.ERR_INTERNAL)
      (ftpOpenPASVDataConnection fuel) := by
  unfold ftpOpenPASVDataConnection
  repeat' first
    | with_reducible exact Returns.returns_fault _
    | ((with_reducible refine Returns.returns_pure _ ?_); first
        | exact Or.inl rfl
        | exact Or.inr rfl
        | (split <;> simp))
    | with_reducible apply Returns.returns_bind
    | intro _
    | split
    | dsimp only

/-- EPSV mode fails with `ERR_INTERNAL` only. -/
theorem returns_EPSV (fuel : Nat) :
    Returns (fun r => r = none ∨ r = some KioError.ERR_INTERNAL)
      (ftpOpenEPSVDataConnection fuel) := by
  unfold ftpOpenEPSVDataConnection
  repeat' first
    | with_reducible exact Returns.returns_fault _
    | ((with_reducible refine Returns.returns_pure _ ?_); first
        | exact Or.inl rfl
        | exact Or.inr rfl
        | (split <;> simp))
    | with_reducible apply Returns.returns_bind
    | intro _
    | split
    | dsimp only

/-- The passive block either ends the function, with 0 or `ERR_INTERNAL`, or
leaves it to active mode, and then `epsvAllSent` is clear. -/
theorem post_ftpOpenPassiveModes (fuel : Nat) :
    Post (fun r s1 => match r with
      | Sum.inl e => e = none ∨ e = some KioError.ERR_INTERNAL
      | Sum.inr _ => s1.m_extControl.epsvAllSent = false) (ftpOpenPassiveModes fuel) := by
  unfold ftpOpenPassiveModes
  refine Post.post_bind (fun s0 => ?_)
  refine Post.post_bind_of (returns_PASV fuel) (fun a ha => ?_)
  split
  · exact Post.post_bind (fun _ => Post.post_pure _ (fun _ => Or.inl rfl))
  · rename_i hne
    have hsome : a = some KioError.ERR_INTERNAL := by
      rcases ha with h | h
      · rw [h] at hne
        exact absurd rfl hne
      · exact h
    have hfin : ∀ (iErrCode : Option KioError) (s : Ftp) (b : Option KioError ⊕ Option KioError),
        ((if s.m_extControl.epsvAllSent = true then
            (pure (Sum.inl (a.orElse fun _ => iErrCode)) : M (Option KioError ⊕ Option KioError))
          else pure (Sum.inr a)) s).1 = Except.ok b →
        (match b with
          | Sum.inl e => e = none ∨ e = some KioError.ERR_INTERNAL
          | Sum.inr _ => ((if s.m_extControl.epsvAllSent = true then
              (pure (Sum.inl (a.orElse fun _ => iErrCode)) : M (Option KioError ⊕ Option KioError))
            else pure (Sum.inr a)) s).2.m_extControl.epsvAllSent = false) := by
      intro iErrCode s b hb
      by_cases hf : s.m_extControl.epsvAllSent = true
      · simp only [hf, if_true, run_pure] at hb ⊢
        rw [← Except.ok.inj hb, hsome]
        exact Or.inr rfl
      · simp only [hf, Bool.false_eq_true, if_false, run_pure] at hb ⊢
        rw [← Except.ok.inj hb]
        simpa using hf
    repeat' first
      | exact Post.post_pure _ (fun _ => Or.inl rfl)
      | exact Post.post_getFtp_bind (hfin _)
      | with_reducible apply Post.post_bind
      | intro _
      | split
      | dsimp only

/-! ## Refused passive modes -/

theorem respType_codeOf (d1 d2 d3 : Char) (h2 : isdigit d2 = true) (h3 : isdigit d3 = true) :
    respType (codeOf d1 d2 d3 : Int) = (digitVal d1 : Int) := by
  have hv2 := digitVal_le h2
  have hv3 := digitVal_le h3
  unfold respType codeOf
  push_cast
  split <;> omega

/-- The fields of the session after a command was written and answered by a
single-line reply. -/
theorem afterCommand_reply (cmd : Bytes) (s : Ftp) (c : ControlSocket) (d1 d2 d3 : Char)
    (text : Bytes) (rest : List Bytes) (hs : s.m_control = some c)
    (hw : c.writeFails.headD false = false) (h1 : isdigit d1 = true) (h2 : isdigit d2 = true)
    (h3 : isdigit d3 = true) (h0 : d1 ≠ '0') (hlines : c.lines = replyLine d1 d2 d3 text :: rest) :
    (afterCommand cmd s).m_iRespCode = (codeOf d1 d2 d3 : Int) ∧
    (afterCommand cmd s).m_iRespType = (digitVal d1 : Int) ∧
    (afterCommand cmd s).m_control =
      some { c with writeFails := c.writeFails.tail, lines := rest } ∧
    (afterCommand cmd s).trace = s.trace ++ [Event.controlSend (cmd ++ "\r\n".toList),
      Event.controlReply (codeOf d1 d2 d3 : Int) (replyLine d1 d2 d3 text)] ∧
    ftpResponseLoop c.lines 0 0 = (replyLine d1 d2 d3 text, (codeOf d1 d2 d3 : Int), rest) := by
  have hloop : ftpResponseLoop c.lines 0 0 =
      (replyLine d1 d2 d3 text, (codeOf d1 d2 d3 : Int), rest) := by
    rw [hlines]
    exact ftpResponseLoop_single h1 h2 h3 h0 text rest
  have hresp := afterCommand_resp cmd s c hs
  rw [hloop] at hresp
  have hw1 : c.writeFails.head?.getD false = false := by
    rw [← List.headD_eq_head?_getD]
    exact hw
  refine ⟨hresp.1, ?_, hresp.2.2.2.2.2.2.2.2, ?_, hloop⟩
  · exact hresp.2.1.trans (respType_codeOf d1 d2 d3 h2 h3)
  · simp [afterCommand, Prim.apply, hs, hw1, hloop]

theorem closeData_none (s : Ftp) (hd : s.m_data = none) : Prim.closeData.apply s = s := by
  simp [Prim.apply, hd]

/-- A command refused by a single-line reply: `ftpSendCmd` returns `true`
with a reply type other than 2. -/
theorem ftpSendCmd_refused (fuel : Nat) (cmd : Bytes) (s : Ftp) (c : ControlSocket)
    (d1 d2 d3 : Char) (text : Bytes) (rest : List Bytes) (hs : s.m_control = some c)
    (hcmd : (cmd.contains '\r' || cmd.contains '\n') = false)
    (hw : c.writeFails.headD false = false) (href : refusal d1 d2 d3)
    (hlines : c.lines = replyLine d1 d2 d3 text :: rest) :
    ftpSendCmd (fuel + 1) cmd defaultRetries s = (Except.ok true, afterCommand cmd s) ∧
    (afterCommand cmd s).m_iRespType ≠ 2 := by
  obtain ⟨h1, h2, h3, h0, h2xx, h421⟩ := href
  obtain ⟨_, hty, _, _, hloop⟩ := afterCommand_reply cmd s c d1 d2 d3 text rest hs hw h1 h2 h3 h0 hlines
  have hge := codeOf_ge d1 d2 d3 h1 h0
  have hv2 := digitVal_le h2
  have hv3 := digitVal_le h3
  constructor
  · refine ftpSendCmd_reply fuel cmd defaultRetries s c hs hcmd hw ?_ ?_
    · rw [hloop]
      show 0 < respType (codeOf d1 d2 d3 : Int)
      rw [respType_codeOf d1 d2 d3 h2 h3]
      unfold codeOf at hge
      omega
    · rw [hloop]
      show (codeOf d1 d2 d3 : Int) ≠ 421
      exact_mod_cast h421
  · rw [hty]
    unfold codeOf at h2xx
    omega

/-- PASV refused by a single-line reply: `ftpOpenPASVDataConnection` returns
`ERR_INTERNAL`, having written PASV and read the reply, and has set
`pasvUnknown` if the reply is 5xx. -/
theorem ftpOpenPASVDataConnection_refused (fuel : Nat) (s : Ftp) (c : ControlSocket)
    (d1 d2 d3 : Char) (text : Bytes) (rest : List Bytes) (hs : s.m_control = some c)
    (hd : s.m_data = none) (hv4 : c.peerAddress.protocol = Protocol.IPv4)
    (hlatch : s.m_extControl.pasvUnknown = false) (hw : c.writeFails.headD false = false)
    (href : refusal d1 d2 d3) (hlines : c.lines = replyLine d1 d2 d3 text :: rest) :
    ftpOpenPASVDataConnection (fuel + 1) s =
      (Except.ok (some KioError.ERR_INTERNAL), afterPasvRefused s) := by
  have hs0 : ((Prim.setPasv true).apply s).m_control = some c := hs
  obtain ⟨hsend, hty⟩ := ftpSendCmd_refused fuel "PASV".toList _ c d1 d2 d3 text rest hs0
    (by decide) hw href hlines
  have hproto : (c.peerAddress.protocol != Protocol.IPv4) = false := by
    rw [hv4]
    decide
  simp only [ftpOpenPASVDataConnection, run_getFtp_bind, hs, hd, Option.isSome_none,
    Bool.false_eq_true, if_false, hproto, hlatch, run_prim_bind]
  rw [run_bind, hsend]
  simp only [run_getFtp_bind]
  have hfold : afterCommand "PASV".toList ((Prim.setPasv true).apply s) = afterPasv s := rfl
  rw [hfold] at hty ⊢
  have hcond : (!true || (afterPasv s).m_iRespType != 2) = true := by
    simp [hty]
  rw [if_pos hcond]
  unfold afterPasvRefused
  by_cases h5 : ((afterPasv s).m_iRespType == 5) = true
  · rw [if_pos h5, if_pos h5]
    rfl
  · rw [if_neg h5, if_neg h5]
    rfl

/-- EPSV refused by a single-line reply: `ftpOpenEPSVDataConnection` returns
`ERR_INTERNAL`, having written EPSV and read the reply, and has set
`epsvUnknown` if the reply is 5xx. -/
theorem ftpOpenEPSVDataConnection_refused (fuel : Nat) (s : Ftp) (c : ControlSocket)
    (d1 d2 d3 : Char) (text : Bytes) (rest : List Bytes) (hs : s.m_control = some c)
    (hd : s.m_data = none) (hlatch : s.m_extControl.epsvUnknown = false)
    (hw : c.writeFails.headD false = false)
    (href : refusal d1 d2 d3) (hlines : c.lines = replyLine d1 d2 d3 text :: rest) :
    ftpOpenEPSVDataConnection (fuel + 1) s =
      (Except.ok (some KioError.ERR_INTERNAL), afterEpsvRefused s) := by
  have hs0 : ((Prim.setPasv true).apply s).m_control = some c := hs
  obtain ⟨hsend, hty⟩ := ftpSendCmd_refused fuel "EPSV".toList _ c d1 d2 d3 text rest hs0
    (by decide) hw href hlines
  simp only [ftpOpenEPSVDataConnection, run_getFtp_bind, hs, hd, Option.isSome_none,
    Bool.false_eq_true, if_false, hlatch, run_prim_bind]
  rw [run_bind, hsend]
  simp only [run_getFtp_bind]
  have hfold : afterCommand "EPSV".toList ((Prim.setPasv true).apply s) = afterEpsv s := rfl
  rw [hfold] at hty ⊢
  have hcond : (!true || (afterEpsv s).m_iRespType != 2) = true := by
    simp [hty]
  rw [if_pos hcond]
  unfold afterEpsvRefused
  by_cases h5 : ((afterEpsv s).m_iRespType == 5) = true
  · rw [if_pos h5, if_pos h5]
    rfl
  · rw [if_neg h5, if_neg h5]
    rfl

/-- The fields of the session after PASV was refused. -/
theorem afterPasvRefused_fields (s : Ftp) (c : ControlSocket) (d1 d2 d3 : Char) (text : Bytes)
    (rest : List Bytes) (hs : s.m_control = some c) (hw : c.writeFails.headD false = false)
    (href : refusal d1 d2 d3) (hlines : c.lines = replyLine d1 d2 d3 text :: rest) :
    (afterPasvRefused s).m_control =
      some { c with writeFails := c.writeFails.tail, lines := rest } ∧
    (afterPasvRefused s).m_data = s.m_data ∧
    (afterPasvRefused s).world = s.world ∧
    (afterPasvRefused s).m_bLoggedOn = s.m_bLoggedOn ∧
    (afterPasvRefused s).m_extControl.epsvUnknown = s.m_extControl.epsvUnknown ∧
    (afterPasvRefused s).m_extControl.epsvAllSent = s.m_extControl.epsvAllSent ∧
    (afterPasvRefused s).m_extControl.pasvUnknown =
      (s.m_extControl.pasvUnknown || decide (digitVal d1 = 5)) ∧
    (afterPasvRefused s).trace = s.trace ++ [Event.controlSend "PASV\r\n".toList,
      Event.controlReply (codeOf d1 d2 d3 : Int) (replyLine d1 d2 d3 text)] := by
  obtain ⟨h1, h2, h3, h0, _, _⟩ := href
  have hs0 : ((Prim.setPasv true).apply s).m_control = some c := hs
  obtain ⟨_, hty, hctl, htr, _⟩ := afterCommand_reply "PASV".toList _ c d1 d2 d3 text rest hs0 hw
    h1 h2 h3 h0 hlines
  obtain ⟨_, _, _, hlog, hdata, hext, hworld, _, _⟩ := afterCommand_resp "PASV".toList _ c hs0
  have hfold : afterCommand "PASV".toList ((Prim.setPasv true).apply s) = afterPasv s := rfl
  rw [hfold] at hty hctl htr hlog hdata hext hworld
  unfold afterPasvRefused
  by_cases h5 : ((afterPasv s).m_iRespType == 5) = true
  · rw [if_pos h5]
    have hv : digitVal d1 = 5 := by
      rw [hty] at h5
      exact_mod_cast eq_of_beq h5
    refine ⟨hctl, hdata, hworld, hlog, ?_, ?_, ?_, htr⟩
    · show (afterPasv s).m_extControl.epsvUnknown = _
      rw [hext]
      rfl
    · show (afterPasv s).m_extControl.epsvAllSent = _
      rw [hext]
      rfl
    · show true = _
      simp [hv]
  · rw [if_neg h5]
    have hv : ¬ digitVal d1 = 5 := by
      intro hv
      apply h5
      rw [hty, hv]
      rfl
    refine ⟨hctl, hdata, hworld, hlog, ?_, ?_, ?_, htr⟩
    · rw [hext]
      rfl
    · rw [hext]
      rfl
    · rw [hext]
      show s.m_extControl.pasvUnknown = _
      simp [hv]

/-- The fields of the session after EPSV was refused. -/
theorem afterEpsvRefused_fields (s : Ftp) (c : ControlSocket) (d1 d2 d3 : Char) (text : Bytes)
    (rest : List Bytes) (hs : s.m_control = some c) (hw : c.writeFails.headD false = false)
    (href : refusal d1 d2 d3) (hlines : c.lines = replyLine d1 d2 d3 text :: rest) :
    (afterEpsvRefused s).m_control =
      some { c with writeFails := c.writeFails.tail, lines := rest } ∧
    (afterEpsvRefused s).m_data = s.m_data ∧
    (afterEpsvRefused s).world = s.world ∧
    (afterEpsvRefused s).m_bLoggedOn = s.m_bLoggedOn ∧
    (afterEpsvRefused s).m_extControl.pasvUnknown = s.m_extControl.pasvUnknown ∧
    (afterEpsvRefused s).m_extControl.epsvAllSent = s.m_extControl.epsvAllSent ∧
    (afterEpsvRefused s).m_extControl.epsvUnknown =
      (s.m_extControl.epsvUnknown || decide (digitVal d1 = 5)) ∧
    (afterEpsvRefused s).trace = s.trace ++ [Event.controlSend "EPSV\r\n".toList,
      Event.controlReply (codeOf d1 d2 d3 : Int) (replyLine d1 d2 d3 text)] := by
  obtain ⟨h1, h2, h3, h0, _, _⟩ := href
  have hs0 : ((Prim.setPasv true).apply s).m_control = some c := hs
  obtain ⟨_, hty, hctl, htr, _⟩ := afterCommand_reply "EPSV".toList _ c d1 d2 d3 text rest hs0 hw
    h1 h2 h3 h0 hlines
  obtain ⟨_, _, _, hlog, hdata, hext, hworld, _, _⟩ := afterCommand_resp "EPSV".toList _ c hs0
  have hfold : afterCommand "EPSV".toList ((Prim.setPasv true).apply s) = afterEpsv s := rfl
  rw [hfold] at hty hctl htr hlog hdata hext hworld
  unfold afterEpsvRefused
  by_cases h5 : ((afterEpsv s).m_iRespType == 5) = true
  · rw [if_pos h5]
    have hv : digitVal d1 = 5 := by
      rw [hty] at h5
      exact_mod_cast eq_of_beq h5
    refine ⟨hctl, hdata, hworld, hlog, ?_, ?_, ?_, htr⟩
    · show (afterEpsv s).m_extControl.pasvUnknown = _
      rw [hext]
      rfl
    · show (afterEpsv s).m_extControl.epsvAllSent = _
      rw [hext]
      rfl
    · show true = _
      simp [hv]
  · rw [if_neg h5]
    have hv : ¬ digitVal d1 = 5 := by
      intro hv
      apply h5
      rw [hty, hv]
      rfl
    refine ⟨hctl, hdata, hworld, hlog, ?_, ?_, ?_, htr⟩
    · rw [hext]
      rfl
    · rw [hext]
      rfl
    · rw [hext]
      show s.m_extControl.epsvUnknown = _
      simp [hv]

end KioFtps

namespace KioFtps

/-! ## The origin of the data connection -/

theorem dataOrigin_snoc (x : List Event) (e : Event) :
    dataOrigin (x ++ [e]) = originStep (dataOrigin x) e := by
  unfold dataOrigin
  rw [List.foldl_append]
  rfl

theorem dataOrigin_append_quiet (x y : List Event) (h : ∀ e ∈ y, dataEvent e = false) :
    dataOrigin (x ++ y) = dataOrigin x := by
  induction y using List.reverseRecOn with
  | nil => simp
  | append_singleton ys e ih =>
    rw [← List.append_assoc, dataOrigin_snoc]
    have he : dataEvent e = false := h e (by simp)
    have hys : ∀ e ∈ ys, dataEvent e = false := fun e1 h1 => h e1 (by simp [h1])
    rw [← ih hys]
    cases e <;> first | rfl | exact nomatch he

theorem dataOrigin_append_some (x y : List Event) (b : Bool) (h : dataOrigin y = some b) :
    dataOrigin (x ++ y) = some b := by
  induction y using List.reverseRecOn with
  | nil => exact nomatch h
  | append_singleton ys e ih =>
    rw [← List.append_assoc, dataOrigin_snoc]
    rw [dataOrigin_snoc] at h
    cases e <;> first | exact h | exact ih h

/-! ## What the control connection does to the data connection -/

theorem CtlRel.ctl_refl (s : Ftp) : CtlRel s s :=
  ⟨rfl, [], by simp, Or.inl ⟨rfl, by simp⟩⟩

theorem CtlRel.ctl_trans {a b c : Ftp} (h1 : CtlRel a b) (h2 : CtlRel b c) : CtlRel a c := by
  obtain ⟨hp1, x, hx, hd1⟩ := h1
  obtain ⟨hp2, y, hy, hd2⟩ := h2
  refine ⟨hp2.trans hp1, x ++ y, by rw [hy, hx, List.append_assoc], ?_⟩
  rcases hd1 with ⟨hsame1, hq1⟩ | ⟨hsome1, hnone1⟩
  · rcases hd2 with ⟨hsame2, hq2⟩ | ⟨hsome2, hnone2⟩
    · refine Or.inl ⟨hsame2.trans hsame1, ?_⟩
      intro e he
      rcases List.mem_append.mp he with h | h
      · exact hq1 e h
      · exact hq2 e h
    · exact Or.inr ⟨by rw [← hsame1]; exact hsome2, hnone2⟩
  · rcases hd2 with ⟨hsame2, _⟩ | ⟨hsome2, _⟩
    · exact Or.inr ⟨hsome1, hsame2.trans hnone1⟩
    · rw [hnone1] at hsome2
      exact absurd hsome2 (by decide)

theorem controlEvent_quiet (e : Event) (h : controlEvent e) : dataEvent e = false := by
  cases e <;> first | rfl | exact h.elim

theorem ctlRel_apply (cmds : Bytes → Prop) (p : Prim) (s : Ftp) (h : controlPrim cmds p) :
    CtlRel s (p.apply s) := by
  refine ⟨?_, Prim.events p s, Prim.apply_trace p s, ?_⟩
  · cases p <;> first
      | exact h.elim
      | rfl
      | (simp only [Prim.apply]; split <;> rfl)
  · cases p <;> first
      | exact h.elim
      | (refine Or.inl ⟨rfl, ?_⟩
         intro e he
         simp only [Prim.events] at he
         first
           | exact absurd he (List.not_mem_nil _)
           | (rw [List.mem_singleton.mp he]; first | rfl | exact controlEvent_quiet _ h))
      | skip
    · cases hd : s.m_data with
      | none =>
        refine Or.inl ⟨by simp [Prim.apply, hd], ?_⟩
        intro e he
        simp [Prim.events, hd] at he
      | some d => exact Or.inr ⟨rfl, by simp [Prim.apply, hd]⟩
    · refine Or.inl ⟨rfl, ?_⟩
      intro e he
      simp only [Prim.events] at he
      split at he
      · rw [List.mem_singleton.mp he]
        rfl
      · exact absurd he (List.not_mem_nil _)
    · refine Or.inl ⟨by simp only [Prim.apply]; split <;> rfl, ?_⟩
      intro e he
      simp only [Prim.events] at he
      split at he
      · exact absurd he (List.not_mem_nil _)
      · rw [List.mem_singleton.mp he]
        rfl
    · refine Or.inl ⟨by simp only [Prim.apply]; split <;> rfl, ?_⟩
      intro e he
      simp only [Prim.events] at he
      split at he
      · exact absurd he (List.not_mem_nil _)
      · split at he
        · exact absurd he (List.not_mem_nil _)
        · rw [List.mem_singleton.mp he]
          rfl

/-- Along the footprint of the control connection the data connection is left
alone or closed. -/
theorem StepsIn.ctlRel {cmds : Bytes → Prop} {s s1 : Ftp} (h : StepsIn (controlPrim cmds) s s1) :
    CtlRel s s1 :=
  StepsIn.induct (R := CtlRel) CtlRel.ctl_refl (fun _ _ _ => CtlRel.ctl_trans)
    (fun p s hp => ctlRel_apply cmds p s hp) h

theorem CtlRel.noData {t0 : List Event} {s s1 : Ftp} (h : CtlRel s s1) (hs : NoData t0 s) :
    NoData t0 s1 := by
  obtain ⟨_, x, hx, hd⟩ := h
  obtain ⟨⟨y, hy⟩, hnone⟩ := hs
  refine ⟨⟨y ++ x, by rw [hx, hy, List.append_assoc]⟩, ?_⟩
  rcases hd with ⟨hsame, _⟩ | ⟨hsome, _⟩
  · exact hsame.trans hnone
  · rw [hnone] at hsome
    exact nomatch hsome

theorem CtlRel.passiveReady {t0 : List Event} {s s1 : Ftp} (h : CtlRel s s1)
    (hs : PassiveReady t0 s) : PassiveReady t0 s1 := by
  obtain ⟨hext, hnone, hp⟩ := hs
  obtain ⟨hext1, hnone1⟩ := h.noData ⟨hext, hnone⟩
  exact ⟨hext1, hnone1, h.1.trans hp⟩

theorem CtlRel.listening {t0 : List Event} {s s1 : Ftp} (h : CtlRel s s1)
    (hs : Listening t0 s) : Listening t0 s1 := by
  obtain ⟨hp1, x, hx, hd⟩ := h
  obtain ⟨y, hy, ho, hnone, hp⟩ := hs
  rcases hd with ⟨hsame, hq⟩ | ⟨hsome, _⟩
  · refine ⟨y ++ x, by rw [hx, hy, List.append_assoc], ?_, hsame.trans hnone, hp1.trans hp⟩
    rw [dataOrigin_append_quiet y x hq]
    exact ho
  · rw [hnone] at hsome
    exact nomatch hsome

theorem CtlRel.opened {t0 : List Event} {s s1 : Ftp} (h : CtlRel s s1)
    (hs : Opened t0 s) : Opened t0 s1 := by
  obtain ⟨hp1, x, hx, hd⟩ := h
  obtain ⟨y, hy, ho⟩ := hs
  refine ⟨y ++ x, by rw [hx, hy, List.append_assoc], ?_⟩
  intro hsome1
  rcases hd with ⟨hsame, hq⟩ | ⟨_, hnone1⟩
  · rw [dataOrigin_append_quiet y x hq, hp1]
    exact ho (by rw [← hsame]; exact hsome1)
  · rw [hnone1] at hsome1
    exact nomatch hsome1

/-! ## Partial correctness -/

theorem Hoare.hoare_pure {α : Type} {P : Ftp → Prop} {Q : α → Ftp → Prop} (a : α)
    (h : ∀ s, P s → Q a s) : Hoare P (pure a : M α) Q :=
  ⟨fun s hs b hb => by
    have hab : a = b := Except.ok.inj hb
    rw [← hab]
    exact h s hs⟩

theorem Hoare.hoare_fault {α : Type} {P : Ftp → Prop} {Q : α → Ftp → Prop} (e : Fault) :
    Hoare P (fault e : M α) Q :=
  ⟨fun _ _ _ hb => nomatch hb⟩

theorem Hoare.hoare_bind {α β : Type} {P : Ftp → Prop} {R : α → Ftp → Prop} {Q : β → Ftp → Prop}
    {m : M α} {f : α → M β} (hm : Hoare P m R) (hf : ∀ a, Hoare (R a) (f a) Q) :
    Hoare P (m >>= f) Q := by
  constructor
  intro s hs b hb
  rw [run_bind] at hb ⊢
  have hr := hm.run s hs
  cases hms : m s with
  | mk r s1 =>
    rw [hms] at hb hr
    cases r with
    | ok a => exact (hf a).run s1 (hr a rfl) b hb
    | error e => exact nomatch hb

theorem Hoare.weaken {α : Type} {P P1 : Ftp → Prop} {Q : α → Ftp → Prop} {m : M α}
    (h : ∀ s, P s → P1 s) (hm : Hoare P1 m Q) : Hoare P m Q :=
  ⟨fun s hs => hm.run s (h s hs)⟩

theorem Hoare.hoare_getFtp_bind {β : Type} {P : Ftp → Prop} {Q : β → Ftp → Prop} {f : Ftp → M β}
    (h : ∀ s0, Hoare (fun s => P s ∧ s = s0) (f s0) Q) : Hoare P (getFtp >>= f) Q :=
  ⟨fun s hs => (h s).run s ⟨hs, rfl⟩⟩

theorem Hoare.prim_bind {β : Type} {P : Ftp → Prop} {Q : β → Ftp → Prop} (p : Prim)
    {f : Unit → M β} (h : Hoare (fun s1 => ∃ s, P s ∧ s1 = p.apply s) (f ()) Q) :
    Hoare P (prim p >>= f) Q :=
  ⟨fun s hs => h.run (p.apply s) ⟨s, hs, rfl⟩⟩

theorem Hoare.hoare_prim {P : Ftp → Prop} {Q : Unit → Ftp → Prop} (p : Prim)
    (h : ∀ s, P s → Q () (p.apply s)) : Hoare P (prim p) Q :=
  ⟨fun s hs a _ => h s hs⟩

/-- A computation within the footprint of the control connection keeps every
property that `CtlRel` keeps. -/
theorem Hoare.ctl {α : Type} {cmds : Bytes → Prop} {I : Ftp → Prop} {m : M α}
    (hW : Within (controlPrim cmds) m) (hI : ∀ s s1, CtlRel s s1 → I s → I s1) :
    Hoare I m (fun _ => I) :=
  ⟨fun s hs _ _ => hI s _ (hW.run s).ctlRel hs⟩

/-! ## A command that went through leaves the data connection alone -/

theorem post_closeConnection (fuel : Nat) :
    Post (fun _ s1 => s1.m_data = none) (closeConnection fuel) := by
  have hfinal : Post (fun _ s1 => s1.m_data = none)
      (prim Prim.closeData >>= fun _ => prim Prim.closeControl) := by
    constructor
    intro s _ _
    show (Prim.closeControl.apply (Prim.closeData.apply s)).m_data = none
    cases hd : s.m_data <;> simp [Prim.apply, hd]
  cases fuel with
  | zero =>
    unfold closeConnection
    exact Post.post_fault _
  | succ n =>
    unfold closeConnection
    repeat' first
      | exact hfinal
      | with_reducible apply Post.post_bind
      | intro _
      | split
      | dsimp only

theorem returns_contra {m : M Bool} {s s1 : Ftp} (h : m s = (Except.ok true, s1))
    (hret : Returns (fun b => b = false) m) : False :=
  absurd (hret.run s true (by rw [h])) (by decide)

theorem post_contra {m : M Bool} {s s1 : Ftp} (h : m s = (Except.ok true, s1))
    (hpost : Post (fun _ s => s.m_data = none) m) (hd : s1.m_data.isSome = true) : False := by
  have hnone := hpost.run s true (by rw [h])
  rw [h] at hnone
  rw [show s1.m_data = none from hnone] at hd
  exact nomatch hd

/-- After a computation that ends without data connection, the functions of
the control connection do not make one. -/
theorem Post.bind_ctl {α β : Type} {m : M α} {f : α → M β}
    (hm : Post (fun _ s => s.m_data = none) m)
    (hf : ∀ a, Within (controlPrim (fun _ => True)) (f a)) :
    Post (fun _ s => s.m_data = none) (m >>= f) := by
  constructor
  intro s b hb
  rw [run_bind] at hb ⊢
  have hr := hm.run s
  have hw := fun a => (hf a).run
  cases hms : m s with
  | mk r s1 =>
    rw [hms] at hb hr
    cases r with
    | ok a =>
      have hnone : s1.m_data = none := hr a rfl
      obtain ⟨_, _, _, hd⟩ := (hw a s1).ctlRel
      rcases hd with ⟨hsame, _⟩ | ⟨_, hn⟩
      · exact hsame.trans hnone
      · exact hn
    | error e => exact nomatch hb

/-- The rest of `ftpSendCmd` after the reply was read: it returns `true` with a
data connection only if the reply is accepted, and then it changes nothing. -/
theorem ftpSendCmd_sent (fuel : Nat) (cmd : Bytes) (maxretries : Int) (s s1 : Ftp)
    (h : ftpSendCmd fuel cmd maxretries s = (Except.ok true, s1))
    (hd : s1.m_data.isSome = true) : Sent cmd s s1 := by
  cases fuel with
  | zero =>
    unfold ftpSendCmd at h
    exact nomatch h
  | succ n =>
    have hC := Within.control (fun _ => True) n
    unfold ftpSendCmd at h
    simp only [run_getFtp_bind] at h
    cases hc : s.m_control with
    | none =>
      simp only [hc] at h
      exact nomatch h
    | some c =>
      simp only [hc] at h
      by_cases hcr : (cmd.contains '\r' || cmd.contains '\n') = true
      · rw [if_pos hcr] at h
        exact (returns_contra h (Returns.returns_bind (fun _ => Returns.returns_pure _ rfl))).elim
      · rw [if_neg hcr] at h
        simp only [run_prim_bind] at h
        by_cases hw : c.writeFails.headD false = true
        · rw [if_pos hw] at h
          simp only [run_prim_bind, run_getFtp_bind] at h
          have hty : (Prim.clearResponse.apply
              ((Prim.controlWrite (cmd ++ "\r\n".toList)).apply s)).m_iRespType = 0 := rfl
          generalize Prim.clearResponse.apply
              ((Prim.controlWrite (cmd ++ "\r\n".toList)).apply s) = sc at h hty
          rw [hty] at h
          rw [if_pos (by simp)] at h
          split at h
          · exact (returns_contra h (by
              repeat' first
                | exact Returns.returns_pure _ rfl
                | with_reducible apply Returns.returns_bind
                | intro _
                | split)).elim
          · split at h
            · exact (returns_contra h (Returns.returns_pure _ rfl)).elim
            · refine (post_contra h (Post.bind_ctl (post_closeConnection n) (fun _ => ?_)) hd).elim
              repeat' first
                | with_reducible exact Within.within_pure _
                | with_reducible exact Within.within_getFtp
                | with_reducible exact Within.error _ _
                | with_reducible exact hC.2.1
                | with_reducible exact hC.2.2.1 _
                | with_reducible exact hC.1 _ _ (Or.inr trivial)
                | with_reducible apply Within.within_bind
                | intro _
                | split
        · rw [if_neg hw] at h
          rw [run_bind, ftpResponse_afterWrite _ s c hc] at h
          simp only [run_pure_bind, run_getFtp_bind] at h
          have hfold : Prim.readResponse.apply ((Prim.controlWrite (cmd ++ "\r\n".toList)).apply s) =
              afterCommand cmd s := rfl
          rw [hfold] at h
          have hw0 : c.writeFails.head?.getD false = false := by
            rw [← List.headD_eq_head?_getD]
            simpa using hw
          have hsent : Sent cmd s (afterCommand cmd s) := by
            unfold Sent
            simp [afterCommand, Prim.apply, hc, hw0]
          generalize afterCommand cmd s = sc at h hsent
          split at h
          · split at h
            · exact (returns_contra h (by
                repeat' first
                  | exact Returns.returns_pure _ rfl
                  | with_reducible apply Returns.returns_bind
                  | intro _
                  | split)).elim
            · split at h
              · exact (returns_contra h (Returns.returns_pure _ rfl)).elim
              · refine (post_contra h (Post.bind_ctl (post_closeConnection n) (fun _ => ?_)) hd).elim
                repeat' first
                  | with_reducible exact Within.within_pure _
                  | with_reducible exact Within.within_getFtp
                  | with_reducible exact Within.error _ _
                  | with_reducible exact hC.2.1
                  | with_reducible exact hC.2.2.1 _
                  | with_reducible exact hC.1 _ _ (Or.inr trivial)
                  | with_reducible apply Within.within_bind
                  | intro _
                  | split
          · have hs1 : sc = s1 := congrArg Prod.snd h
            rw [← hs1]
            exact hsent

/-- When `requestDataEncryption` returns `true` and there is a data
connection, it has written PBSZ 0 and PROT P, each answered 2xx, and nothing
else happened. -/
theorem requestDataEncryption_sent (fuel : Nat) (s s1 : Ftp)
    (h : requestDataEncryption fuel s = (Except.ok true, s1)) (hd : s1.m_data.isSome = true) :
    ∃ sm, Sent "PBSZ 0".toList s sm ∧ sm.m_iRespType = 2 ∧ Sent "PROT P".toList sm s1 ∧
      s1.m_iRespType = 2 := by
  unfold requestDataEncryption at h
  rw [run_bind] at h
  rcases h1 : ftpSendCmd fuel "PBSZ 0".toList defaultRetries s with ⟨r1, sm⟩
  rw [h1] at h
  cases r1 with
  | error e => exact nomatch h
  | ok pbsz =>
    simp only [run_getFtp_bind] at h
    split at h
    · exact (returns_contra h (Returns.returns_pure _ rfl)).elim
    · rename_i hc1
      rw [run_bind] at h
      rcases h2 : ftpSendCmd fuel "PROT P".toList defaultRetries sm with ⟨r2, sp⟩
      rw [h2] at h
      cases r2 with
      | error e => exact nomatch h
      | ok prot =>
        simp only [run_getFtp_bind] at h
        split at h
        · exact (returns_contra h (Returns.returns_bind (fun _ => Returns.returns_pure _ rfl))).elim
        · rename_i hc2
          have hs1 : sp = s1 := congrArg Prod.snd h
          rw [hs1] at h2 hc2
          simp at hc1 hc2
          obtain ⟨hp1, ht1⟩ := hc1
          obtain ⟨hp2, ht2⟩ := hc2
          rw [hp1] at h1
          rw [hp2] at h2
          have hsent2 := ftpSendCmd_sent fuel _ _ sm s1 h2 hd
          have hdm : sm.m_data.isSome = true := by
            rw [← hsent2.2.2.1]
            exact hd
          exact ⟨sm, ftpSendCmd_sent fuel _ _ s sm h1 hdm, ht1, hsent2, ht2⟩

/-! ## How the data connection is made -/

theorem NoData.nodata_opened {t0 : List Event} {s : Ftp} (h : NoData t0 s) : Opened t0 s := by
  obtain ⟨⟨x, hx⟩, hnone⟩ := h
  refine ⟨x, hx, fun hsome => ?_⟩
  rw [hnone] at hsome
  exact nomatch hsome

theorem PassiveReady.ready_opened {t0 : List Event} {s : Ftp} (h : PassiveReady t0 s) : Opened t0 s :=
  NoData.nodata_opened ⟨h.1, h.2.1⟩

theorem Listening.listening_opened {t0 : List Event} {s : Ftp} (h : Listening t0 s) : Opened t0 s := by
  obtain ⟨x, hx, _, hnone, _⟩ := h
  exact NoData.nodata_opened ⟨⟨x, hx⟩, hnone⟩

theorem Opened.closeData {t0 : List Event} {s : Ftp} (h : Opened t0 s) :
    NoData t0 (Prim.closeData.apply s) := by
  obtain ⟨x, hx, _⟩ := h
  refine ⟨⟨x ++ Prim.events Prim.closeData s, ?_⟩, ?_⟩
  · rw [Prim.apply_trace, hx, List.append_assoc]
  · cases hd : s.m_data <;> simp [Prim.apply, hd]

theorem PassiveReady.newData {t0 : List Event} {s : Ftp} (h : PassiveReady t0 s)
    (addr : HostAddress) (port : Int) : Opened t0 ((Prim.newData addr port).apply s) := by
  obtain ⟨⟨x, hx⟩, _, hp⟩ := h
  refine ⟨x ++ [Event.dataConnect addr port], ?_, fun _ => ?_⟩
  · rw [newData_trace, hx, List.append_assoc]
  · rw [dataOrigin_snoc]
    show some true = some s.m_bPasv
    rw [hp]

theorem Listening.acceptData {t0 : List Event} {s : Ftp} (h : Listening t0 s)
    (d : Option DataSocket) : Opened t0 ((Prim.acceptData d).apply s) := by
  obtain ⟨x, hx, ho, _, hp⟩ := h
  refine ⟨x, hx, fun _ => ?_⟩
  show dataOrigin x = some s.m_bPasv
  rw [ho, hp]

theorem NoData.listen {t0 : List Event} {s : Ftp} (h : NoData t0 s) (hp : s.m_bPasv = false) :
    Listening t0 (Prim.listen.apply s) := by
  obtain ⟨⟨x, hx⟩, hnone⟩ := h
  refine ⟨x ++ [Event.dataListen], ?_, ?_, hnone, hp⟩
  · show s.trace ++ [Event.dataListen] = _
    rw [hx, List.append_assoc]
  · rw [dataOrigin_snoc]
    rfl

/-- `ftpOpenPASVDataConnection` starts without data connection and leaves, if
any, one made by a passive connect, with `m_bPasv` set. -/
theorem hoare_PASV (t0 : List Event) (fuel : Nat) :
    Hoare (NoData t0) (ftpOpenPASVDataConnection fuel) (fun _ => Opened t0) := by
  have hset : ∀ s1, (∃ s, (NoData t0 s) ∧ s1 = (Prim.setPasv true).apply s) →
      PassiveReady t0 s1 := by
    rintro s1 ⟨s, ⟨hext, hnone⟩, rfl⟩
    exact ⟨hext, hnone, rfl⟩
  have hnew : ∀ (addr : HostAddress) (port : Int) (s1 : Ftp),
      (∃ s, PassiveReady t0 s ∧ s1 = (Prim.newData addr port).apply s) → Opened t0 s1 := by
    rintro addr port s1 ⟨s, hs, rfl⟩
    exact hs.newData addr port
  unfold ftpOpenPASVDataConnection
  refine Hoare.hoare_getFtp_bind (fun s0 => ?_)
  split
  · exact Hoare.hoare_fault _
  · split
    · exact Hoare.hoare_fault _
    · split
      · exact Hoare.hoare_pure _ (fun s h => h.1.nodata_opened)
      · split
        · exact Hoare.hoare_pure _ (fun s h => h.1.nodata_opened)
        · refine Hoare.weaken (fun s (h : NoData t0 s ∧ s = s0) => (h.1 : NoData t0 s)) ?_
          refine Hoare.prim_bind _ (Hoare.weaken hset ?_)
          refine Hoare.hoare_bind (Hoare.ctl ((Within.control (fun _ => True) fuel).1 _ _
            (Or.inr trivial)) (fun _ _ h => h.passiveReady)) (fun sent => ?_)
          refine Hoare.hoare_getFtp_bind (fun s1 => ?_)
          refine Hoare.weaken (fun s (h : PassiveReady t0 s ∧ s = s1) => (h.1 : PassiveReady t0 s)) ?_
          split
          · dsimp only
            split
            · exact Hoare.hoare_bind (Hoare.hoare_prim (Q := fun _ => PassiveReady t0) _ (fun s h => h))
                (fun _ => Hoare.hoare_pure _ (fun s h => h.ready_opened))
            · exact Hoare.hoare_bind (Hoare.hoare_pure (Q := fun _ => PassiveReady t0) _ (fun s h => h))
                (fun _ => Hoare.hoare_pure _ (fun s h => h.ready_opened))
          · refine Hoare.hoare_bind (Hoare.ctl (@Within.ftpResponse (fun _ => True) 3)
              (fun _ _ h => h.passiveReady)) (fun text => ?_)
            split
            · exact Hoare.hoare_pure _ (fun s h => h.ready_opened)
            · refine Hoare.prim_bind _ (Hoare.weaken (hnew _ _) ?_)
              refine Hoare.hoare_getFtp_bind (fun s2 => ?_)
              split
              · exact Hoare.hoare_fault _
              · exact Hoare.hoare_pure _ (fun s h => h.1)

/-- `ftpOpenEPSVDataConnection` starts without data connection and leaves, if
any, one made by a passive connect, with `m_bPasv` set. -/
theorem hoare_EPSV (t0 : List Event) (fuel : Nat) :
    Hoare (NoData t0) (ftpOpenEPSVDataConnection fuel) (fun _ => Opened t0) := by
  have hset : ∀ s1, (∃ s, (NoData t0 s) ∧ s1 = (Prim.setPasv true).apply s) →
      PassiveReady t0 s1 := by
    rintro s1 ⟨s, ⟨hext, hnone⟩, rfl⟩
    exact ⟨hext, hnone, rfl⟩
  have hnew : ∀ (addr : HostAddress) (port : Int) (s1 : Ftp),
      (∃ s, PassiveReady t0 s ∧ s1 = (Prim.newData addr port).apply s) → Opened t0 s1 := by
    rintro addr port s1 ⟨s, hs, rfl⟩
    exact hs.newData addr port
  unfold ftpOpenEPSVDataConnection
  refine Hoare.hoare_getFtp_bind (fun s0 => ?_)
  split
  · exact Hoare.hoare_fault _
  · split
    · exact Hoare.hoare_fault _
    · split
      · exact Hoare.hoare_pure _ (fun s h => h.1.nodata_opened)
      · refine Hoare.weaken (fun s (h : NoData t0 s ∧ s = s0) => (h.1 : NoData t0 s)) ?_
        refine Hoare.prim_bind _ (Hoare.weaken hset ?_)
        refine Hoare.hoare_bind (Hoare.ctl ((Within.control (fun _ => True) fuel).1 _ _
          (Or.inr trivial)) (fun _ _ h => h.passiveReady)) (fun sent => ?_)
        refine Hoare.hoare_getFtp_bind (fun s1 => ?_)
        refine Hoare.weaken (fun s (h : PassiveReady t0 s ∧ s = s1) => (h.1 : PassiveReady t0 s)) ?_
        split
        · dsimp only
          split
          · exact Hoare.hoare_bind (Hoare.hoare_prim (Q := fun _ => PassiveReady t0) _ (fun s h => h))
              (fun _ => Hoare.hoare_pure _ (fun s h => h.ready_opened))
          · exact Hoare.hoare_bind (Hoare.hoare_pure (Q := fun _ => PassiveReady t0) _ (fun s h => h))
              (fun _ => Hoare.hoare_pure _ (fun s h => h.ready_opened))
        · refine Hoare.hoare_bind (Hoare.ctl (@Within.ftpResponse (fun _ => True) 3)
            (fun _ _ h => h.passiveReady)) (fun text => ?_)
          split
          · exact Hoare.hoare_pure _ (fun s h => h.ready_opened)
          · refine Hoare.prim_bind _ (Hoare.weaken (hnew _ _) ?_)
            refine Hoare.hoare_getFtp_bind (fun s2 => ?_)
            split
            · exact Hoare.hoare_fault _
            · exact Hoare.hoare_pure _ (fun s h => h.1)

/-- `ftpOpenPortDataConnection` starts without data connection and leaves, if
any, one accepted on the listening socket, with `m_bPasv` clear. -/
theorem hoare_PORT (t0 : List Event) (fuel : Nat) :
    Hoare (NoData t0) (ftpOpenPortDataConnection fuel) (fun _ => Opened t0) := by
  have hset : ∀ s1, (∃ s, (NoData t0 s) ∧ s1 = (Prim.setPasv false).apply s) →
      NoData t0 s1 ∧ s1.m_bPasv = false := by
    rintro s1 ⟨s, ⟨hext, hnone⟩, rfl⟩
    exact ⟨⟨hext, hnone⟩, rfl⟩
  have hlisten : ∀ s1, (∃ s, (NoData t0 s ∧ s.m_bPasv = false) ∧ s1 = Prim.listen.apply s) →
      Listening t0 s1 := by
    rintro s1 ⟨s, ⟨hs, hp⟩, rfl⟩
    exact hs.listen hp
  have haccept : ∀ (d : Option DataSocket) (s1 : Ftp),
      (∃ s, Listening t0 s ∧ s1 = (Prim.acceptData d).apply s) → Opened t0 s1 := by
    rintro d s1 ⟨s, hs, rfl⟩
    exact hs.acceptData d
  unfold ftpOpenPortDataConnection
  refine Hoare.hoare_getFtp_bind (fun s0 => ?_)
  split
  · exact Hoare.hoare_fault _
  · split
    · exact Hoare.hoare_fault _
    · refine Hoare.weaken (fun s (h : NoData t0 s ∧ s = s0) => (h.1 : NoData t0 s)) ?_
      refine Hoare.prim_bind _ (Hoare.weaken hset ?_)
      split
      · exact Hoare.hoare_pure _ (fun s h => h.1.nodata_opened)
      · dsimp only
        refine Hoare.prim_bind _ (Hoare.weaken hlisten ?_)
        split
        · exact Hoare.hoare_pure _ (fun s h => h.listening_opened)
        · refine Hoare.hoare_bind (Hoare.ctl ((Within.control (fun _ => True) fuel).1 _ _
            (Or.inr trivial)) (fun _ _ h => h.listening)) (fun sent => ?_)
          refine Hoare.hoare_getFtp_bind (fun s1 => ?_)
          refine Hoare.weaken (fun s (h : Listening t0 s ∧ s = s1) => (h.1 : Listening t0 s)) ?_
          split
          · exact Hoare.hoare_pure _ (fun s h => h.listening_opened)
          · exact Hoare.prim_bind _ (Hoare.weaken (haccept _) (Hoare.hoare_pure _ (fun s h => h)))

theorem Hoare.pure_bind {α β : Type} {P : Ftp → Prop} {Q : β → Ftp → Prop} (a : α)
    {f : α → M β} (h : Hoare P (f a) Q) : Hoare P (Pure.pure a >>= f) Q :=
  ⟨fun s hs => h.run s hs⟩

theorem within_ctl_requestDataEncryption (fuel : Nat) :
    Within (controlPrim (fun _ => True)) (requestDataEncryption fuel) := by
  have hC := Within.control (fun _ => True) fuel
  unfold requestDataEncryption
  repeat' first
    | with_reducible exact Within.within_pure _
    | with_reducible exact Within.within_getFtp
    | with_reducible exact hC.1 _ _ (Or.inr trivial)
    | with_reducible apply Within.within_bind
    | intro _
    | split

theorem hoare_requestDataEncryption (t0 : List Event) (fuel : Nat) :
    Hoare (Opened t0) (requestDataEncryption fuel) (fun _ => Opened t0) :=
  Hoare.ctl (within_ctl_requestDataEncryption fuel) (fun _ _ h => h.opened)

theorem hoare_closeData (t0 : List Event) :
    ∀ s1, (∃ s, Opened t0 s ∧ s1 = Prim.closeData.apply s) → NoData t0 s1 := by
  rintro s1 ⟨s, hs, rfl⟩
  exact hs.closeData

/-- The passive block ends the function with a data connection of known
origin, if any, or leaves it to active mode without data connection. -/
theorem hoare_ftpOpenPassiveModes (t0 : List Event) (fuel : Nat) :
    Hoare (NoData t0) (ftpOpenPassiveModes fuel)
      (fun r s => match r with
        | Sum.inl _ => Opened t0 s
        | Sum.inr _ => NoData t0 s) := by
  have hjp : ∀ (a iErrCode : Option KioError),
      Hoare (NoData t0)
        (getFtp >>= fun s1 =>
          if s1.m_extControl.epsvAllSent = true then
            (pure (Sum.inl (a.orElse fun _ => iErrCode)) : M (Option KioError ⊕ Option KioError))
          else pure (Sum.inr a))
        (fun r s => match r with
          | Sum.inl _ => Opened t0 s
          | Sum.inr _ => NoData t0 s) := by
    intro a iErrCode
    refine Hoare.hoare_getFtp_bind (fun s1 => ?_)
    split
    · exact Hoare.hoare_pure _ (fun s h => h.1.nodata_opened)
    · exact Hoare.hoare_pure _ (fun s h => h.1)
  unfold ftpOpenPassiveModes
  refine Hoare.hoare_getFtp_bind (fun s0 => ?_)
  refine Hoare.weaken (fun s (h : NoData t0 s ∧ s = s0) => (h.1 : NoData t0 s)) ?_
  refine Hoare.hoare_bind (hoare_PASV t0 fuel) (fun a => ?_)
  split
  · exact Hoare.hoare_bind (hoare_requestDataEncryption t0 fuel) (fun _ => Hoare.hoare_pure _ (fun s h => h))
  · refine Hoare.prim_bind _ (Hoare.weaken (hoare_closeData t0) ?_)
    dsimp only
    split
    · refine Hoare.hoare_bind (hoare_EPSV t0 fuel) (fun e => ?_)
      split
      · refine Hoare.hoare_bind (hoare_requestDataEncryption t0 fuel) (fun _ => ?_)
        refine Hoare.pure_bind _ ?_
        exact Hoare.hoare_pure _ (fun s h => h)
      · refine Hoare.prim_bind _ (Hoare.weaken (hoare_closeData t0) ?_)
        refine Hoare.pure_bind _ ?_
        exact hjp _ _
    · refine Hoare.pure_bind _ ?_
      exact hjp _ _

/-- The fallback to port mode leaves, if any, a data connection of known
origin. -/
theorem hoare_ftpOpenPortFallback (t0 : List Event) (fuel : Nat) (e : Option KioError) :
    Hoare (NoData t0) (ftpOpenPortFallback fuel e) (fun _ => Opened t0) := by
  unfold ftpOpenPortFallback
  refine Hoare.hoare_bind (hoare_PORT t0 fuel) (fun a => ?_)
  split
  · exact Hoare.hoare_bind (hoare_requestDataEncryption t0 fuel) (fun _ => Hoare.hoare_pure _ (fun s h => h))
  · refine Hoare.prim_bind _ (Hoare.weaken (hoare_closeData t0) ?_)
    exact Hoare.hoare_pure _ (fun s h => h.nodata_opened)

/-- After `ftpOpenDataConnection` the data connection, if there is one, was
made during the call, in the mode that `m_bPasv` tells: by a passive connect
if it is set, on a listening socket if it is clear. -/
theorem hoare_ftpOpenDataConnection (t0 : List Event) (fuel : Nat) :
    Hoare (TraceExt t0) (ftpOpenDataConnection fuel) (fun _ => Opened t0) := by
  have hclose : ∀ s1, (∃ s, (TraceExt t0 s ∧ s = s) ∧ s1 = Prim.closeData.apply s) →
      NoData t0 s1 := by
    rintro s1 ⟨s, ⟨⟨x, hx⟩, _⟩, rfl⟩
    refine ⟨⟨x ++ Prim.events Prim.closeData s, ?_⟩, ?_⟩
    · rw [Prim.apply_trace, hx, List.append_assoc]
    · cases hd : s.m_data <;> simp [Prim.apply, hd]
  unfold ftpOpenDataConnection
  refine Hoare.hoare_getFtp_bind (fun s0 => ?_)
  split
  · exact Hoare.hoare_fault _
  · refine Hoare.weaken (fun s (h : TraceExt t0 s ∧ s = s0) =>
      (⟨h.1, rfl⟩ : TraceExt t0 s ∧ s = s)) ?_
    refine Hoare.prim_bind _ (Hoare.weaken hclose ?_)
    dsimp only
    split
    · refine Hoare.hoare_bind (hoare_ftpOpenPassiveModes t0 fuel) (fun passive => ?_)
      split
      · exact Hoare.hoare_pure _ (fun s h => h)
      · exact hoare_ftpOpenPortFallback t0 fuel _
    · refine Hoare.pure_bind _ ?_
      exact hoare_ftpOpenPortFallback t0 fuel _

/-! ## The handshake on the data connection -/

theorem controlEvent_not_handshake (e : Event) (h : controlEvent e) : handshake e = false := by
  cases e <;> first | rfl | exact h.elim

/-- Before the handshake no elementary state change adds a handshake to the
trace. -/
theorem transfer_events (p : Prim) (s : Ftp) (h : transferPrim p) :
    ∀ e ∈ Prim.events p s, handshake e = false := by
  intro e he
  cases p <;> simp only [Prim.events] at he <;>
    first
      | exact absurd he (List.not_mem_nil _)
      | exact h.elim
      | (rw [List.mem_singleton.mp he]; first | rfl | exact controlEvent_not_handshake _ h)
      | (split at he <;>
          first
            | exact absurd he (List.not_mem_nil _)
            | (rw [List.mem_singleton.mp he]; rfl)
            | skip)
  split at he
  · exact absurd he (List.not_mem_nil _)
  · rw [List.mem_singleton.mp he]
    rfl

theorem openPrim_transferPrim (p : Prim) (h : openPrim (fun _ => True) True p) :
    transferPrim p := by
  cases p <;> first | exact h | exact trivial

theorem within_ftpDataMode (fuel : Nat) (cMode : Char) :
    Within transferPrim (ftpDataMode fuel cMode) := by
  unfold ftpDataMode
  repeat' first
    | with_reducible exact Within.within_pure _
    | with_reducible exact Within.within_getFtp
    | ((with_reducible refine Within.within_prim _ ?_); exact trivial)
    | with_reducible exact (within_send _ _ _ _ _ (Or.inr trivial)).within_mono openPrim_transferPrim
    | with_reducible apply Within.within_bind
    | intro _
    | split
    | dsimp only

/-- The trace grows without handshake along the footprint of the transfer. -/
theorem Within.no_handshake {α : Type} {m : M α} (h : Within transferPrim m) (s : Ftp) :
    Emits (fun e => handshake e = false) s (m s).2 :=
  StepsIn.emits transfer_events (h.run s)

theorem emits_apply (p : Prim) (s : Ftp) (h : transferPrim p) :
    Emits (fun e => handshake e = false) s (p.apply s) :=
  ⟨Prim.events p s, Prim.apply_trace p s, transfer_events p s h⟩

theorem encryptDataChannel_bind_none {β : Type} (f : Option KioError → M β) (s : Ftp)
    (hd : s.m_data = none) :
    (encryptDataChannel >>= f) s = (Except.error Fault.nullDeref, s) := by
  rw [run_bind]
  unfold encryptDataChannel
  simp only [run_getFtp_bind, hd, run_fault]

theorem encryptDataChannel_bind_some {β : Type} (f : Option KioError → M β) (s : Ftp)
    (d : DataSocket) (hd : s.m_data = some d) :
    (encryptDataChannel >>= f) s =
      f (if d.encrypts then none else some KioError.ERR_SLAVE_DEFINED)
        (s.log (Event.dataEncrypt s.m_bPasv)) := by
  rw [run_bind]
  unfold encryptDataChannel
  simp only [run_getFtp_bind, hd, run_prim_bind, run_pure]
  rfl

/-- The end of `ftpOpenCommand`: no handshake, or exactly one, in the role that
`m_bPasv` tells, on a data connection that is there. -/
theorem ftpOpenCommandAccepted_trace (command : Bytes) (offset : Int) (u : Bool) (se : Ftp) :
    Emits (fun e => handshake e = false) se (ftpOpenCommandAccepted command offset u se).2 ∨
    (se.m_data.isSome = true ∧ u = true ∧ ∃ after post,
      (ftpOpenCommandAccepted command offset u se).2.trace =
        se.trace ++ (after ++ Event.dataEncrypt se.m_bPasv :: post) ∧
      ∀ e ∈ after ++ post, dataEvent e = false) := by
  unfold ftpOpenCommandAccepted
  by_cases hres : (decide (offset > 0) && command == "retr".toList) = true
  · rw [if_pos hres]
    cases u
    · left
      exact ⟨[Event.canResume], by simp [Prim.apply, Ftp.log], by simp [handshake]⟩
    · cases hd : se.m_data with
      | none =>
        left
        refine ⟨[Event.canResume], ?_, by simp [handshake]⟩
        simp [encryptDataChannel_bind_none, Prim.apply, Ftp.log, hd]
      | some d =>
        right
        refine ⟨rfl, rfl, [Event.canResume], ?_⟩
        by_cases henc : d.encrypts = true
        · refine ⟨[], ?_, by simp [dataEvent]⟩
          simp [encryptDataChannel_bind_some, Prim.apply, Ftp.log, hd, henc]
        · refine ⟨[Event.error KioError.ERR_SLAVE_DEFINED
            "TLS Negotiation failed on the data channel.".toList], ?_, by simp [dataEvent]⟩
          simp [encryptDataChannel_bind_some, Prim.apply, Ftp.log, hd, henc, error]
  · rw [if_neg hres]
    cases u
    · left
      exact ⟨[], by simp [Prim.apply, Ftp.log], by simp⟩
    · cases hd : se.m_data with
      | none =>
        left
        refine ⟨[], ?_, by simp⟩
        simp [encryptDataChannel_bind_none, Prim.apply, Ftp.log, hd]
      | some d =>
        right
        refine ⟨rfl, rfl, [], ?_⟩
        by_cases henc : d.encrypts = true
        · refine ⟨[], ?_, by simp⟩
          simp [encryptDataChannel_bind_some, Prim.apply, Ftp.log, hd, henc]
        · refine ⟨[Event.error KioError.ERR_SLAVE_DEFINED
            "TLS Negotiation failed on the data channel.".toList], ?_, by simp [dataEvent]⟩
          simp [encryptDataChannel_bind_some, Prim.apply, Ftp.log, hd, henc, error]

theorem within_transfer_send (fuel : Nat) (cmd : Bytes) (maxretries : Int) :
    Within transferPrim (ftpSendCmd fuel cmd maxretries) :=
  (within_send _ _ _ _ _ (Or.inr trivial)).within_mono openPrim_transferPrim

/-- The transfer command and what follows it: no handshake, or the command
got a 1xx reply and exactly one handshake follows. -/
theorem ftpOpenCommandSend_trace (fuel : Nat) (command path : Bytes) (errorcode : KioError)
    (offset : Int) (u : Bool) (sd : Ftp) :
    Emits (fun e => handshake e = false) sd
      (ftpOpenCommandSend fuel command path errorcode offset u sd).2 ∨
    ∃ se, Sent (if !path.isEmpty then command ++ [' '] ++ path else command) sd se ∧
      se.m_iRespType = 1 ∧ se.m_data.isSome = true ∧ u = true ∧ ∃ after post,
      (ftpOpenCommandSend fuel command path errorcode offset u sd).2.trace =
        se.trace ++ (after ++ Event.dataEncrypt se.m_bPasv :: post) ∧
      ∀ e ∈ after ++ post, dataEvent e = false := by
  unfold ftpOpenCommandSend
  dsimp only
  rw [run_bind]
  have e1 := (within_transfer_send fuel (if !path.isEmpty then command ++ [' '] ++ path
    else command) defaultRetries).no_handshake sd
  rcases h : ftpSendCmd fuel (if !path.isEmpty then command ++ [' '] ++ path else command)
    defaultRetries sd with ⟨r, se⟩
  rw [h] at e1
  cases r with
  | error e => exact Or.inl e1
  | ok sent =>
    dsimp only
    simp only [run_getFtp_bind]
    split
    · left
      exact Emits.emits_trans e1 (emits_apply _ _ trivial)
    · rename_i hc
      simp at hc
      obtain ⟨hsent, hty⟩ := hc
      rw [hsent] at h
      rcases ftpOpenCommandAccepted_trace command offset u se with hl | ⟨hd, hu, after, post, htr, hq⟩
      · exact Or.inl (Emits.emits_trans e1 hl)
      · exact Or.inr ⟨se, ftpSendCmd_sent fuel _ _ sd se h hd, hty, hd, hu, after, post, htr, hq⟩

theorem within_ftpOpenCommandRest (fuel : Nat) (path : Bytes) (offset : Int) :
    Within (controlPrim (fun _ => True)) (ftpOpenCommandRest fuel path offset) := by
  have hC := Within.control (fun _ => True) fuel
  unfold ftpOpenCommandRest
  repeat' first
    | with_reducible exact Within.within_pure _
    | with_reducible exact Within.within_getFtp
    | with_reducible exact Within.error _ _
    | with_reducible exact hC.1 _ _ (Or.inr trivial)
    | with_reducible apply Within.within_bind
    | intro _
    | split

theorem controlPrim_transferPrim (p : Prim) (h : controlPrim (fun _ => True) p) :
    transferPrim p :=
  openPrim_transferPrim p (controlPrim_openPrim _ _ p h)

/-- What a run of `ftpOpenCommand` adds to the trace: no handshake, or the
events described by `HandshakeTrace`. -/
theorem ftpOpenCommand_trace (fuel : Nat) (command path : Bytes) (mode : Char)
    (errorcode : KioError) (offset : Int) (s : Ftp) :
    Emits (fun e => handshake e = false) s
      (ftpOpenCommand fuel command path mode errorcode offset s).2 ∨
    ∃ role added,
      (ftpOpenCommand fuel command path mode errorcode offset s).2.trace = s.trace ++ added ∧
      HandshakeTrace ((if !path.isEmpty then command ++ [' '] ++ path else command) ++
        "\r\n".toList) role added := by
  unfold ftpOpenCommand
  rw [run_bind]
  have e0 := (within_ftpDataMode fuel mode).no_handshake s
  rcases h0 : ftpDataMode fuel mode s with ⟨r0, sa⟩
  rw [h0] at e0
  cases r0 with
  | error e => exact Or.inl e0
  | ok modeOk =>
    dsimp only
    cases modeOk with
    | false =>
      left
      exact Emits.emits_trans e0 (emits_apply _ _ trivial)
    | true =>
      simp only [Bool.not_true, Bool.false_eq_true, if_false]
      rw [run_bind]
      have e1 := ((within_ftpOpenDataConnection fuel).within_mono openPrim_transferPrim).no_handshake sa
      have o1 := (hoare_ftpOpenDataConnection sa.trace fuel).run sa ⟨[], by simp⟩
      rcases h1 : ftpOpenDataConnection fuel sa with ⟨r1, sb⟩
      rw [h1] at e1 o1
      cases r1 with
      | error e => exact Or.inl (Emits.emits_trans e0 e1)
      | ok errCode =>
        dsimp only
        simp only [run_getFtp_bind]
        cases errCode with
        | some code =>
          left
          exact Emits.emits_trans (Emits.emits_trans e0 e1) (emits_apply _ _ trivial)
        | none =>
          dsimp only
          rw [run_bind]
          have e2 := ((within_ctl_requestDataEncryption fuel).within_mono
            controlPrim_transferPrim).no_handshake sb
          rcases h2 : requestDataEncryption fuel sb with ⟨r2, sc⟩
          rw [h2] at e2
          cases r2 with
          | error e => exact Or.inl (Emits.emits_trans (Emits.emits_trans e0 e1) e2)
          | ok u =>
            dsimp only
            rw [run_bind]
            have w3 := (within_ftpOpenCommandRest fuel path offset).run sc
            have e3 := ((within_ftpOpenCommandRest fuel path offset).within_mono
              controlPrim_transferPrim).no_handshake sc
            rcases h3 : ftpOpenCommandRest fuel path offset sc with ⟨r3, sd⟩
            rw [h3] at e3 w3
            have e03 := Emits.emits_trans (Emits.emits_trans (Emits.emits_trans e0 e1) e2) e3
            cases r3 with
            | error e => exact Or.inl e03
            | ok rest =>
              dsimp only
              cases rest with
              | some r => exact Or.inl e03
              | none =>
                dsimp only
                rcases ftpOpenCommandSend_trace fuel command path errorcode offset u sd with
                  hl | ⟨se, hsent, hty, hd, hu, after, post, htr, hq⟩
                · exact Or.inl (Emits.emits_trans e03 hl)
                · right
                  have hd_d : sd.m_data.isSome = true := by
                    rw [← hsent.2.2.1]
                    exact hd
                  obtain ⟨hp3, resume, hres, hdis⟩ := w3.ctlRel
                  rcases hdis with ⟨hsame3, hq3⟩ | ⟨_, hnone3⟩
                  · have hd_c : sc.m_data.isSome = true := by
                      rw [← hsame3]
                      exact hd_d
                    rw [hu] at h2
                    obtain ⟨sm, hs1, ht1, hs2, ht2⟩ := requestDataEncryption_sent fuel sb sc h2 hd_c
                    have hd_b : sb.m_data.isSome = true := by
                      rw [← hs1.2.2.1, ← hs2.2.2.1]
                      exact hd_c
                    obtain ⟨added1, htr1, ho1⟩ := o1 none rfl
                    obtain ⟨added0, htr0, hn0⟩ := e0
                    obtain ⟨added1a, htr1a, hn1⟩ := e1
                    have hsame1 : added1 = added1a :=
                      List.append_cancel_left (htr1.symm.trans htr1a)
                    have hrole : sb.m_bPasv = se.m_bPasv := by
                      rw [hsent.2.2.2, hp3, hs2.2.2.2, hs1.2.2.2]
                    have hpbsz : "PBSZ 0".toList ++ "\r\n".toList = "PBSZ 0\r\n".toList := by decide
                    have hprot : "PROT P".toList ++ "\r\n".toList = "PROT P\r\n".toList := by decide
                    refine ⟨se.m_bPasv, _, ?_, added0 ++ added1, resume, after, post,
                      sm.m_iRespCode, sc.m_iRespCode, se.m_iRespCode, sm.m_lastControlLine,
                      sc.m_lastControlLine, se.m_lastControlLine, rfl, ?_, ?_, ?_, ?_, ?_, ?_⟩
                    · rw [htr, hsent.1, hres, hs2.1, hs1.1, htr1, htr0, hpbsz, hprot]
                      simp only [List.append_assoc, List.cons_append, List.nil_append]
                    · rw [← hs1.2.1]
                      exact ht1
                    · rw [← hs2.2.1]
                      exact ht2
                    · rw [← hsent.2.1]
                      exact hty
                    · rw [← hrole]
                      exact dataOrigin_append_some _ _ _ (ho1 hd_b)
                    · intro e he
                      rcases List.mem_append.mp he with h | h
                      · exact hn0 e h
                      · exact hn1 e (hsame1 ▸ h)
                    · intro e he
                      rcases List.mem_append.mp he with h | h
                      · rcases List.mem_append.mp h with h | h
                        · exact hq3 e h
                        · exact hq e (List.mem_append.mpr (Or.inl h))
                      · exact hq e (List.mem_append.mpr (Or.inr h))
                  · rw [hnone3] at hd_d
                    exact nomatch hd_d

/-- C6: whenever a run of `ftpOpenCommand` starts the TLS handshake on the data
connection (the only place where `encryptDataChannel` is called), in the role
`role` (`true`: client, `false`: server), the events the run has added to the
trace are: `before`, in which the data connection was made and whose last
connect, listen or close is a passive connect if `role` is `true` and a listen
(PORT/EPRT mode) if it is `false`; then PBSZ 0 and PROT P, each with a 2xx
reply; then `resume` (the REST command and its reply, if any); then the
transfer command with a 1xx reply; then `after` (the upcall `canResume`, if
any); then the handshake; then `post` (the error report of a failed
handshake).  No event of the data connection lies between `before` and the
handshake, so the replies belong to this data connection. -/
theorem ftpOpenCommand_handshake (fuel : Nat) (command path : Bytes) (mode : Char)
    (errorcode : KioError) (offset : Int) (s : Ftp) (added : List Event) (role : Bool)
    (htrace : (ftpOpenCommand fuel command path mode errorcode offset s).2.trace =
      s.trace ++ added)
    (hmem : Event.dataEncrypt role ∈ added) :
    ∃ (before resume after post : List Event) (c1 c2 c3 : Int) (l1 l2 l3 : Bytes),
      added = before ++ [Event.controlSend "PBSZ 0\r\n".toList, Event.controlReply c1 l1,
          Event.controlSend "PROT P\r\n".toList, Event.controlReply c2 l2] ++ resume ++
        [Event.controlSend ((if !path.isEmpty then command ++ [' '] ++ path else command) ++
          "\r\n".toList), Event.controlReply c3 l3] ++ after ++
        Event.dataEncrypt role :: post ∧
      respType c1 = 2 ∧ respType c2 = 2 ∧ respType c3 = 1 ∧
      dataOrigin before = some role ∧
      (∀ e ∈ before, handshake e = false) ∧
      (∀ e ∈ resume ++ after ++ post, dataEvent e = false) := by
  rcases ftpOpenCommand_trace fuel command path mode errorcode offset s with
    ⟨added1, htr1, hn1⟩ | ⟨role1, added1, htr1, hshake⟩
  · have hsame : added = added1 := List.append_cancel_left (htrace.symm.trans htr1)
    rw [hsame] at hmem
    exact absurd (hn1 (Event.dataEncrypt role) hmem) (by simp [handshake])
  · have hsame : added = added1 := List.append_cancel_left (htrace.symm.trans htr1)
    rw [← hsame] at hshake
    obtain ⟨before, resume, after, post, c1, c2, c3, l1, l2, l3, hadd, h1, h2, h3, ho, hb, hq⟩ :=
      hshake
    have hrole : role = role1 := by
      rw [hadd] at hmem
      simp only [List.mem_append, List.mem_cons, List.mem_singleton, List.not_mem_nil,
        or_false] at hmem
      have hne : ¬ dataEvent (Event.dataEncrypt role) = false := fun h => nomatch h
      have hnh : ¬ handshake (Event.dataEncrypt role) = false := fun h => nomatch h
      rcases hmem with ((((h | h) | h) | h) | h) | h
      · exact absurd (hb (Event.dataEncrypt role) h) hnh
      · rcases h with h | h | h | h <;> exact nomatch h
      · exact absurd (hq (Event.dataEncrypt role) (by simp [h])) hne
      · rcases h with h | h <;> exact nomatch h
      · exact absurd (hq (Event.dataEncrypt role) (by simp [h])) hne
      · rcases h with h | h
        · exact Event.dataEncrypt.inj h
        · exact absurd (hq (Event.dataEncrypt role) (by simp [h])) hne
    rw [hrole]
    exact ⟨before, resume, after, post, c1, c2, c3, l1, l2, l3, hadd, h1, h2, h3, ho, hb, hq⟩

/-- C6 on a listing in passive mode: the run of `list /pub` adds TYPE I, PASV,
the connect to port 1781, PBSZ 0 and PROT P twice (once in
`ftpOpenDataConnection`, once in `ftpOpenCommand`), the transfer command with
its reply 150, and the handshake as client. -/
theorem ftpOpenCommand_handshake_witness :
    ∃ (before resume after post : List Event) (c1 c2 c3 : Int) (l1 l2 l3 : Bytes),
      [Event.controlSend "TYPE I\r\n".toList,
        Event.controlReply 200 "200 Type set to I\r\n".toList,
        Event.controlSend "PASV\r\n".toList,
        Event.controlReply 227 "227 Entering Passive Mode (192,0,2,7,6,245)\r\n".toList,
        Event.dataConnect exampleServer 1781,
        Event.controlSend "PBSZ 0\r\n".toList, Event.controlReply 200 "200 PBSZ=0\r\n".toList,
        Event.controlSend "PROT P\r\n".toList, Event.controlReply 200 "200 PROT P ok\r\n".toList,
        Event.controlSend "PBSZ 0\r\n".toList, Event.controlReply 200 "200 PBSZ=0\r\n".toList,
        Event.controlSend "PROT P\r\n".toList, Event.controlReply 200 "200 PROT P ok\r\n".toList,
        Event.controlSend "list /pub\r\n".toList,
        Event.controlReply 150 "150 Opening data connection\r\n".toList,
        Event.dataEncrypt true] =
      before ++ [Event.controlSend "PBSZ 0\r\n".toList, Event.controlReply c1 l1,
          Event.controlSend "PROT P\r\n".toList, Event.controlReply c2 l2] ++ resume ++
        [Event.controlSend ((if !"/pub".toList.isEmpty then "list".toList ++ [' '] ++ "/pub".toList
          else "list".toList) ++ "\r\n".toList), Event.controlReply c3 l3] ++ after ++
        Event.dataEncrypt true :: post ∧
      respType c1 = 2 ∧ respType c2 = 2 ∧ respType c3 = 1 ∧
      dataOrigin before = some true ∧
      (∀ e ∈ before, handshake e = false) ∧
      (∀ e ∈ resume ++ after ++ post, dataEvent e = false) :=
  ftpOpenCommand_handshake 5 "list".toList "/pub".toList 'I' KioError.ERR_DOES_NOT_EXIST 0
    exampleTransfer _ true (by decide!) (by simp)

end KioFtps

namespace KioFtps

/-! ## `strtok` on a line of fields -/

theorem spanLen_append {p : Char → Bool} (t : Bytes) (d : Char) (R : Bytes)
    (ht : ∀ c ∈ t, p c = true) (hd : p d = false) : spanLen p (t ++ d :: R) = t.length := by
  induction t with
  | nil => simp [spanLen, hd]
  | cons c cs ih =>
    have hc : p c = true := ht c (by simp)
    simp only [List.cons_append, spanLen, hc, if_true, List.length_cons]
    exact congrArg (fun n => n + 1) (ih (fun x hx => ht x (by simp [hx])))

theorem spanLen_all {p : Char → Bool} (t : Bytes) (ht : ∀ c ∈ t, p c = true) :
    spanLen p t = t.length := by
  induction t with
  | nil => rfl
  | cons c cs ih =>
    have hc : p c = true := ht c (by simp)
    simp only [spanLen, hc, if_true, List.length_cons]
    exact congrArg (fun n => n + 1) (ih (fun x hx => ht x (by simp [hx])))

theorem spanLen_head {p : Char → Bool} (c : Char) (R : Bytes) (hc : p c = false) :
    spanLen p (c :: R) = 0 := by
  simp [spanLen, hc]

theorem byteAt_append_right (P X : Bytes) (i : Nat) :
    byteAt (P ++ X) (P.length + i) = byteAt X i := by
  unfold byteAt
  simp [List.getD_eq_getElem?_getD, List.getElem?_append_right]

theorem byteAt_append_length (P X : Bytes) : byteAt (P ++ X) P.length = byteAt X 0 := by
  have := byteAt_append_right P X 0
  simpa using this

theorem byteAt_append_left (t R : Bytes) (i : Nat) (h : i < t.length) :
    byteAt (t ++ R) i = byteAt t i := by
  unfold byteAt
  simp [List.getD_eq_getElem?_getD, List.getElem?_append_left h]

theorem isToken_head {t : Bytes} (ht : isToken t) :
    ∃ c cs, t = c :: cs ∧ c ≠ ' ' ∧ c ≠ '\x00' := by
  obtain ⟨hne, hsp, hnul⟩ := ht
  cases t with
  | nil => exact absurd rfl hne
  | cons c cs =>
    refine ⟨c, cs, rfl, ?_, ?_⟩
    · intro h
      exact hsp (by simp [h])
    · intro h
      exact hnul (by simp [h])

/-- `strtok(…, " ")` on a token that is followed by a space: the token starts
where the scan starts, the space becomes NUL and the scan resumes behind it. -/
theorem strtok_space (P t R : Bytes) (ht : isToken t) :
    strtok ⟨P ++ (t ++ ' ' :: R), P.length⟩ [' '] =
      some (P.length, ⟨(P ++ t ++ ['\x00']) ++ R, (P ++ t ++ ['\x00']).length⟩) := by
  obtain ⟨c, cs, rfl, hc1, hc2⟩ := isToken_head ht
  obtain ⟨_, hsp, hnul⟩ := ht
  have hdelim : isDelim [' '] c = false := by
    simp [isDelim, hc1]
  have htok : ∀ x ∈ c :: cs, isTokChar [' '] x = true := by
    intro x hx
    have h1 : x ≠ ' ' := fun h => hsp (h ▸ hx)
    have h2 : x ≠ '\x00' := fun h => hnul (h ▸ hx)
    simp [isTokChar, h1, h2]
  have hspace : isTokChar [' '] ' ' = false := by decide
  unfold strtok
  simp only [List.drop_left]
  rw [show (c :: cs) ++ ' ' :: R = c :: (cs ++ ' ' :: R) from rfl, spanLen_head c _ hdelim]
  simp only [Nat.add_zero, List.drop_left]
  rw [byteAt_append_length]
  have hb0 : byteAt (c :: (cs ++ ' ' :: R)) 0 = c := rfl
  rw [hb0]
  rw [if_neg (by simpa using hc2)]
  rw [show c :: (cs ++ ' ' :: R) = (c :: cs) ++ ' ' :: R from rfl, spanLen_append _ _ _ htok hspace]
  have hq : byteAt (P ++ ((c :: cs) ++ ' ' :: R)) (P.length + (c :: cs).length) = ' ' := by
    rw [byteAt_append_right]
    have := byteAt_append_length (c :: cs) (' ' :: R)
    rw [this]
    rfl
  rw [hq]
  rw [if_neg (by decide)]
  congr 1
  congr 1
  congr 1
  · rw [← List.append_assoc, ← List.length_append]
    rw [List.set_append_right _ _ (Nat.le_refl _)]
    simp
  · simp
    omega

/-- `strtok(…, "\r\n")` on the rest of the line: the token is all of it. -/
theorem strtok_last (P L : Bytes) (hne : L ≠ []) (hL : isText L) :
    strtok ⟨P ++ L, P.length⟩ ['\r', '\n'] = some (P.length, ⟨P ++ L, P.length + L.length⟩) := by
  obtain ⟨hnul, hcr, hlf⟩ := hL
  cases L with
  | nil => exact absurd rfl hne
  | cons c cs =>
    have hc0 : c ≠ '\x00' := fun h => hnul (by simp [h])
    have hc1 : c ≠ '\r' := fun h => hcr (by simp [h])
    have hc2 : c ≠ '\n' := fun h => hlf (by simp [h])
    have hdelim : isDelim ['\r', '\n'] c = false := by
      simp [isDelim, hc1, hc2]
    have htok : ∀ x ∈ c :: cs, isTokChar ['\r', '\n'] x = true := by
      intro x hx
      have h0 : x ≠ '\x00' := fun h => hnul (h ▸ hx)
      have h1 : x ≠ '\r' := fun h => hcr (h ▸ hx)
      have h2 : x ≠ '\n' := fun h => hlf (h ▸ hx)
      simp [isTokChar, h0, h1, h2]
    unfold strtok
    simp only [List.drop_left]
    rw [spanLen_head c _ hdelim]
    simp only [Nat.add_zero, List.drop_left]
    rw [byteAt_append_length]
    have hb0 : byteAt (c :: cs) 0 = c := rfl
    rw [hb0]
    rw [if_neg (by simpa using hc0)]
    rw [spanLen_all _ htok]
    have hq : byteAt (P ++ (c :: cs)) (P.length + (c :: cs).length) = '\x00' := by
      rw [byteAt_append_right]
      unfold byteAt
      simp [List.getD_eq_getElem?_getD]
    rw [hq]
    rfl

theorem cstr_append_nul (t R : Bytes) (ht : '\x00' ∉ t) : cstr (t ++ '\x00' :: R) = t := by
  unfold cstr
  rw [List.takeWhile_append_of_pos]
  · simp
  · intro a ha
    have : a ≠ '\x00' := fun h => ht (h ▸ ha)
    simpa using this

/-- The C string at the offset of a token that was cut by `strtok`. -/
theorem cstrAt_token (P t R : Bytes) (ht : '\x00' ∉ t) :
    cstrAt (P ++ (t ++ '\x00' :: R)) P.length = t := by
  unfold cstrAt
  rw [List.drop_left]
  exact cstr_append_nul t R ht

/-- The C string at the offset of the last token. -/
theorem cstrAt_last (P L : Bytes) (hL : '\x00' ∉ L) : cstrAt (P ++ L) P.length = L := by
  unfold cstrAt
  rw [List.drop_left]
  exact cstr_of_no_nul L hL

/-! ## Numbers -/

theorem isDigits_cons {ds : Bytes} (h : isDigits ds = true) :
    ∃ d tl, ds = d :: tl ∧ isdigit d = true ∧ tl.all isdigit = true := by
  cases ds with
  | nil => exact nomatch h
  | cons d tl =>
    simp only [isDigits, List.isEmpty_cons, Bool.not_false, Bool.true_and, List.all_cons,
      Bool.and_eq_true] at h
    exact ⟨d, tl, rfl, h.1, h.2⟩

theorem isDigits_all {ds : Bytes} (h : isDigits ds = true) : ∀ c ∈ ds, isdigit c = true := by
  simp only [isDigits, Bool.and_eq_true, List.all_eq_true] at h
  exact h.2

theorem scanDigits_digits (ds : Bytes) (h : isDigits ds = true) :
    scanDigits ds 0 = (decimalValue ds, []) := by
  have hall : ds.all isdigit = true := by
    simp only [isDigits, Bool.and_eq_true] at h
    exact h.2
  have := scanDigits_append ds [] 0 hall (by decide)
  simpa [decimalValue] using this

/-- A string of digits stands for a number below ten to the power of its
length. -/
theorem foldl_digits_lt (ds : Bytes) (h : ∀ c ∈ ds, isdigit c = true) : ∀ acc : Nat,
    ds.foldl (fun acc c => acc * 10 + digitVal c) acc < (acc + 1) * 10 ^ ds.length := by
  induction ds with
  | nil =>
    intro acc
    simp
  | cons c cs ih =>
    intro acc
    have hc := digitVal_le (h c (List.mem_cons_self _ _))
    have := ih (fun x hx => h x (List.mem_cons_of_mem _ hx)) (acc * 10 + digitVal c)
    simp only [List.foldl_cons, List.length_cons, pow_succ]
    have hle : (acc * 10 + digitVal c + 1) * 10 ^ cs.length ≤ (acc + 1) * (10 ^ cs.length * 10) := by
      have h10 : acc * 10 + digitVal c + 1 ≤ (acc + 1) * 10 := by omega
      calc (acc * 10 + digitVal c + 1) * 10 ^ cs.length
          ≤ ((acc + 1) * 10) * 10 ^ cs.length := Nat.mul_le_mul_right _ h10
        _ = (acc + 1) * (10 ^ cs.length * 10) := by ring
    omega

theorem decimalValue_lt (ds : Bytes) (h : isDigits ds = true) :
    decimalValue ds < 10 ^ ds.length := by
  have := foldl_digits_lt ds (isDigits_all h) 0
  simpa [decimalValue] using this

/-- `atoi` of a string of digits that stands for a number below 2^31. -/
theorem atoi_digits (ds : Bytes) (h : isDigits ds = true) (hlt : decimalValue ds < 2 ^ 31) :
    atoi ds = (decimalValue ds : Int) := by
  obtain ⟨d, tl, rfl, hd, _⟩ := isDigits_cons h
  rw [atoi_of_isdigit tl hd (by rw [scanDigits_digits _ h]; exact hlt), scanDigits_digits _ h]

/-- `strtoll` of a string of digits below 2^63, as a file size. -/
theorem toFilesize_digits (ds : Bytes) (h : isDigits ds = true) (hlt : decimalValue ds < 2 ^ 63) :
    toFilesize (charToLongLong ds) = decimalValue ds := by
  obtain ⟨d, tl, rfl, hd, _⟩ := isDigits_cons h
  unfold charToLongLong toFilesize
  rw [List.dropWhile_cons_of_neg (by simp [isspace_of_isdigit hd])]
  rw [scanSigned_of_isdigit tl hd, scanDigits_digits _ h]
  have h1 : ((decimalValue (d :: tl) : Nat) : Int) < 2 ^ 63 := by exact_mod_cast hlt
  have h0 : (0 : Int) ≤ ((decimalValue (d :: tl) : Nat) : Int) := Int.natCast_nonneg _
  generalize hv : ((decimalValue (d :: tl) : Nat) : Int) = v at h1 h0
  have hmin : min (2 ^ 63 - 1) v = v := by omega
  have hmax : max (-(2 ^ 63)) v = v := by omega
  show (max (-(2 ^ 63)) (min (2 ^ 63 - 1) v) % 2 ^ 64).toNat = _
  rw [hmin, hmax]
  have hmod : v % 2 ^ 64 = v := Int.emod_eq_of_lt h0 (by omega)
  rw [hmod, ← hv]
  exact Int.toNat_natCast _

/-! ## The access string -/

theorem testBit_orIf (c : Bool) (k acc j : Nat) :
    (orIf c (2 ^ k) acc).testBit j = (acc.testBit j || (c && decide (k = j))) := by
  cases c
  · simp [orIf]
  · simp [orIf, Nat.testBit_or, Nat.testBit_two_pow]

/-- The permission bits, or-ed together in the order in which `ftpReadDir`
tests them, give back the mode. -/
theorem mode_bits (m : Nat) (hm : m < 4096) :
    (orIf (m.testBit 9) S_ISVTX <|
      orIf (m.testBit 10) S_ISGID <|
      orIf (m.testBit 11) S_ISUID <|
      orIf (m.testBit 0) S_IXOTH <|
      orIf (m.testBit 1) S_IWOTH <|
      orIf (m.testBit 2) S_IROTH <|
      orIf (m.testBit 3) S_IXGRP <|
      orIf (m.testBit 4) S_IWGRP <|
      orIf (m.testBit 5) S_IRGRP <|
      orIf (m.testBit 6) S_IXUSR <|
      orIf (m.testBit 7) S_IWUSR <|
      orIf (m.testBit 8) S_IRUSR 0) = m := by
  have e0 : S_IXOTH = 2 ^ 0 := by norm_num [S_IXOTH]
  have e1 : S_IWOTH = 2 ^ 1 := by norm_num [S_IWOTH]
  have e2 : S_IROTH = 2 ^ 2 := by norm_num [S_IROTH]
  have e3 : S_IXGRP = 2 ^ 3 := by norm_num [S_IXGRP]
  have e4 : S_IWGRP = 2 ^ 4 := by norm_num [S_IWGRP]
  have e5 : S_IRGRP = 2 ^ 5 := by norm_num [S_IRGRP]
  have e6 : S_IXUSR = 2 ^ 6 := by norm_num [S_IXUSR]
  have e7 : S_IWUSR = 2 ^ 7 := by norm_num [S_IWUSR]
  have e8 : S_IRUSR = 2 ^ 8 := by norm_num [S_IRUSR]
  have e9 : S_ISVTX = 2 ^ 9 := by norm_num [S_ISVTX]
  have e10 : S_ISGID = 2 ^ 10 := by norm_num [S_ISGID]
  have e11 : S_ISUID = 2 ^ 11 := by norm_num [S_ISUID]
  rw [e0, e1, e2, e3, e4, e5, e6, e7, e8, e9, e10, e11]
  apply Nat.eq_of_testBit_eq
  intro j
  simp only [testBit_orIf, Nat.zero_testBit, Bool.false_or]
  by_cases hj : j < 12
  · interval_cases j <;> simp
  · have hfalse : m.testBit j = false :=
      Nat.testBit_lt_two_pow (lt_of_lt_of_le hm (by
        have : (2 : Nat) ^ 12 ≤ 2 ^ j := Nat.pow_le_pow_right (by decide) (by omega)
        simpa using this))
    rw [hfalse]
    have h : ∀ k, k < 12 → decide (k = j) = false := by
      intro k hk
      simp
      omega
    simp [h]

theorem char_r (b : Bool) : ((if b then 'r' else '-') == 'r') = b := by cases b <;> rfl

theorem char_w (b : Bool) : ((if b then 'w' else '-') == 'w') = b := by cases b <;> rfl

theorem char_xs (x s : Bool) :
    ((if s then (if x then 's' else 'S') else (if x then 'x' else '-')) == 'x' ||
      (if s then (if x then 's' else 'S') else (if x then 'x' else '-')) == 's') = x := by
  cases x <;> cases s <;> rfl

theorem char_sS (x s : Bool) :
    ((if s then (if x then 's' else 'S') else (if x then 'x' else '-')) == 's' ||
      (if s then (if x then 's' else 'S') else (if x then 'x' else '-')) == 'S') = s := by
  cases x <;> cases s <;> rfl

theorem char_xt (x s : Bool) :
    ((if s then (if x then 't' else 'T') else (if x then 'x' else '-')) == 'x' ||
      (if s then (if x then 't' else 'T') else (if x then 'x' else '-')) == 't') = x := by
  cases x <;> cases s <;> rfl

theorem char_tT (x s : Bool) :
    ((if s then (if x then 't' else 'T') else (if x then 'x' else '-')) == 't' ||
      (if s then (if x then 't' else 'T') else (if x then 'x' else '-')) == 'T') = s := by
  cases x <;> cases s <;> rfl

/-- The permission bits read from a rendered access string are the mode. -/
theorem entryAccess_accessString (k : Char) (m : Nat) (R : Bytes) (hm : m < 4096) :
    entryAccess (fun i => byteAt ((k :: modeChars m) ++ R) (0 + i)) 0 = m := by
  have h : ∀ i, byteAt ((k :: modeChars m) ++ R) (0 + (i + 1)) = byteAt (modeChars m ++ R) i := by
    intro i
    simp [byteAt]
  unfold entryAccess
  simp only [h, modeChars, tripleChars, List.cons_append, List.nil_append, byteAt,
    List.getD_cons_succ, List.getD_cons_zero, char_r, char_w, char_xs, char_sS, char_xt, char_tT]
  exact mode_bits m hm

theorem ite_char_ne {b : Bool} {x y c : Char} (hx : x ≠ c) (hy : y ≠ c) :
    (if b then x else y) ≠ c := by
  cases b
  · exact hy
  · exact hx

theorem accessChar_ne_space (k : EntryKind) : k.accessChar ≠ ' ' := by cases k <;> decide

theorem accessChar_ne_nul (k : EntryKind) : k.accessChar ≠ '\x00' := by cases k <;> decide

/-- The access string is one token of ten characters. -/
theorem accessString_token (k : EntryKind) (m : Nat) :
    isToken (accessString k m) ∧ (accessString k m).length = 10 := by
  unfold isToken
  refine ⟨⟨(fun h => nomatch h), ?_, ?_⟩, rfl⟩
  · intro hc
    simp only [accessString, modeChars, tripleChars, List.cons_append, List.nil_append,
      List.mem_cons, List.not_mem_nil, or_false] at hc
    rcases hc with h | h | h | h | h | h | h | h | h | h
    · exact accessChar_ne_space k h.symm
    all_goals
      first
        | exact ite_char_ne (by decide) (by decide) h.symm
        | exact ite_char_ne (ite_char_ne (by decide) (by decide))
            (ite_char_ne (by decide) (by decide)) h.symm
  · intro hc
    simp only [accessString, modeChars, tripleChars, List.cons_append, List.nil_append,
      List.mem_cons, List.not_mem_nil, or_false] at hc
    rcases hc with h | h | h | h | h | h | h | h | h | h
    · exact accessChar_ne_nul k h.symm
    all_goals
      first
        | exact ite_char_ne (by decide) (by decide) h.symm
        | exact ite_char_ne (ite_char_ne (by decide) (by decide))
            (ite_char_ne (by decide) (by decide)) h.symm

theorem entryType_accessChar (k : EntryKind) : entryType k.accessChar = k.typeBits := by
  cases k <;> rfl

theorem accessChar_eq_l (k : EntryKind) : (k.accessChar == 'l') = decide (k = EntryKind.symlink) := by
  cases k <;> rfl

/-! ## The date -/

/-- The month names are tokens, found in `s_months` at their index. -/
theorem month_text (m : Nat) (hm : m < 12) :
    isToken (s_months.getD m []) ∧ s_months.contains (s_months.getD m []) = true ∧
      s_months.indexOf (s_months.getD m []) = m := by
  unfold isToken
  interval_cases m <;> exact ⟨⟨by decide, by decide, by decide⟩, by decide, by decide⟩

theorem isDigits_token {ds : Bytes} (h : isDigits ds = true) : isToken ds := by
  have hall := isDigits_all h
  obtain ⟨d, tl, rfl, _, _⟩ := isDigits_cons h
  unfold isToken
  refine ⟨(fun h => nomatch h), ?_, ?_⟩
  · intro hc
    exact absurd (hall _ hc) (by decide)
  · intro hc
    exact absurd (hall _ hc) (by decide)

theorem not_mem_of_digits {x : Char} {ds : Bytes} (hx : isdigit x = false)
    (hds : isDigits ds = true) : x ∉ ds := by
  intro hc
  rw [isDigits_all hds x hc] at hx
  exact nomatch hx

theorem takeWhile_colon (hh mm : Bytes) (h : isDigits hh = true) :
    (hh ++ ':' :: mm).takeWhile (fun c => c != ':') = hh := by
  rw [List.takeWhile_append_of_pos]
  · simp
  · intro a ha
    have : a ≠ ':' := fun e => not_mem_of_digits (x := ':') (by decide) h (e ▸ ha)
    simpa using this

/-- The date the three date fields of the line of a well-formed entry are
read as. -/
theorem entryDate_rendered (now : Tm) (e : Listed) (h : e.WellFormed) :
    entryDate now (s_months.getD e.month []) e.day e.tail.text = e.date now := by
  obtain ⟨_, hcont, hidx⟩ := month_text e.month h.month_lt
  have hday := atoi_digits e.day h.day_digits h.day_int
  have htail := h.tail_ok
  have hlong := h.clock_long
  have hfit := h.clock_int
  unfold entryDate Listed.date
  cases ht : e.tail with
  | year yyyy =>
    rw [ht] at htail
    have hlen : (yyyy.length == 4) = true := by simp [htail.2]
    have hy : decimalValue yyyy < 2 ^ 31 := by
      have h4 := decimalValue_lt yyyy htail.1
      rw [htail.2] at h4
      omega
    simp only [DateTail.text, hcont, if_true, hlen, hidx, hday, atoi_digits yyyy htail.1 hy]
  | clock hh mm =>
    rw [ht] at htail hlong hfit
    obtain ⟨h1, h3⟩ := htail
    have hlen : ((hh ++ ':' :: mm).length == 4) = false := by
      have hlong1 : (hh.length + 1 + mm.length == 4) = false := hlong
      simp only [List.length_append, List.length_cons]
      rw [← hlong1]
      congr 1
      omega
    have hchr : strchr (hh ++ ':' :: mm) ':' = some (':' :: mm) :=
      strchr_first hh mm ':' (not_mem_of_digits (by decide) h1)
    simp only [DateTail.text, hcont, if_true, hlen, hidx, hday, Bool.false_eq_true, if_false,
      hchr, List.drop_succ_cons, List.drop_zero, takeWhile_colon hh mm h1,
      atoi_digits hh h1 hfit.1, atoi_digits mm h3 hfit.2]
    split <;> rfl

/-! ## Tokens in the buffer -/

theorem spanLen_spaces (k : Nat) (X : Bytes) :
    spanLen (isDelim [' ']) (spaces k ++ X) = k + spanLen (isDelim [' ']) X := by
  induction k with
  | zero => simp [spaces]
  | succ n ih =>
    have hsp : isDelim [' '] ' ' = true := by decide
    have : spaces (n + 1) ++ X = ' ' :: (spaces n ++ X) := by
      simp [spaces, List.replicate_succ]
    rw [this]
    simp only [spanLen, hsp, if_true]
    rw [ih]
    omega

theorem length_spaces (k : Nat) : (spaces k).length = k := by
  simp [spaces]

/-- Leading spaces are skipped by `strtok(…, " ")`. -/
theorem strtok_skip (P : Bytes) (k : Nat) (X : Bytes) :
    strtok ⟨P ++ (spaces k ++ X), P.length⟩ [' '] =
      strtok ⟨(P ++ spaces k) ++ X, (P ++ spaces k).length⟩ [' '] := by
  unfold strtok
  simp only [List.drop_left, spanLen_spaces, List.length_append, length_spaces,
    List.append_assoc, Nat.add_assoc]
  rw [show List.drop (P.length + k) (P ++ (spaces k ++ X)) = X from by
    rw [← List.append_assoc, show P.length + k = (P ++ spaces k).length from by
      simp [length_spaces]]
    exact List.drop_left _ _]

/-- `strtok(…, " ")` on a field that stands after `k` spaces and is followed by
a space: the token starts behind the spaces, the space that follows it becomes
NUL and the scan resumes behind it. -/
theorem strtok_gap (P : Bytes) (k : Nat) (t R : Bytes) (ht : isToken t) :
    strtok ⟨P ++ (spaces k ++ (t ++ ' ' :: R)), P.length⟩ [' '] =
      some (P.length + k,
        ⟨(P ++ (spaces k ++ (t ++ ['\x00']))) ++ R, (P ++ (spaces k ++ (t ++ ['\x00']))).length⟩) := by
  rw [strtok_skip, strtok_space (P ++ spaces k) t R ht]
  simp only [List.length_append, length_spaces, List.append_assoc]

/-- `strtok(…, "\r\n")` on the name field and the line end. -/
theorem strtok_name (P L eol : Bytes) (hne : L ≠ []) (hL : isText L) (heol : isEol eol) :
    ∃ save, strtok ⟨P ++ (L ++ eol), P.length⟩ ['\r', '\n'] =
      some (P.length, ⟨P ++ (L ++ cutEol eol), save⟩) := by
  obtain ⟨hnul, hcr, hlf⟩ := hL
  cases L with
  | nil => exact absurd rfl hne
  | cons c cs =>
    have hc0 : c ≠ '\x00' := fun h => hnul (by simp [h])
    have hc1 : c ≠ '\r' := fun h => hcr (by simp [h])
    have hc2 : c ≠ '\n' := fun h => hlf (by simp [h])
    have hdelim : isDelim ['\r', '\n'] c = false := by
      simp [isDelim, hc1, hc2]
    have htok : ∀ x ∈ c :: cs, isTokChar ['\r', '\n'] x = true := by
      intro x hx
      have h0 : x ≠ '\x00' := fun h => hnul (h ▸ hx)
      have h1 : x ≠ '\r' := fun h => hcr (h ▸ hx)
      have h2 : x ≠ '\n' := fun h => hlf (h ▸ hx)
      simp [isTokChar, h0, h1, h2]
    rcases heol with heol | ⟨rest, heol⟩
    · subst heol
      refine ⟨P.length + (c :: cs).length, ?_⟩
      simp only [List.append_nil, cutEol]
      exact strtok_last P (c :: cs) (fun h => nomatch h) ⟨hnul, hcr, hlf⟩
    · have hd : ∃ d, eol = d :: rest ∧ isTokChar ['\r', '\n'] d = false ∧ d ≠ '\x00' := by
        rcases heol with h | h
        · exact ⟨'\r', h, by decide, by decide⟩
        · exact ⟨'\n', h, by decide, by decide⟩
      obtain ⟨d, hd1, hd2, hd3⟩ := hd
      subst hd1
      refine ⟨P.length + (c :: cs).length + 1, ?_⟩
      unfold strtok
      simp only [List.drop_left]
      rw [show (c :: cs) ++ d :: rest = c :: (cs ++ d :: rest) from rfl, spanLen_head c _ hdelim]
      simp only [Nat.add_zero, List.drop_left]
      rw [byteAt_append_length]
      have hb0 : byteAt (c :: (cs ++ d :: rest)) 0 = c := rfl
      rw [hb0]
      rw [if_neg (by simpa using hc0)]
      rw [show c :: (cs ++ d :: rest) = (c :: cs) ++ d :: rest from rfl,
        spanLen_append _ _ _ htok hd2]
      have hq : byteAt (P ++ ((c :: cs) ++ d :: rest)) (P.length + (c :: cs).length) = d := by
        rw [byteAt_append_right]
        have := byteAt_append_length (c :: cs) (d :: rest)
        rw [this]
        rfl
      rw [hq]
      rw [if_neg (by simpa using hd3)]
      congr 1
      congr 1
      congr 1
      rw [← List.append_assoc, ← List.length_append]
      rw [List.set_append_right _ _ (Nat.le_refl _)]
      simp [cutEol]

theorem holdsAt_append {A : Bytes} {off : Nat} {t : Bytes} (B : Bytes) (h : holdsAt A off t) :
    holdsAt (A ++ B) off t := by
  obtain ⟨X, Y, hA, hX, ht⟩ := h
  refine ⟨X, Y ++ B, ?_, hX, ht⟩
  rw [hA]
  simp [List.append_assoc]

theorem holdsAt_new (A : Bytes) (k : Nat) (t : Bytes) (ht : '\x00' ∉ t) :
    holdsAt (A ++ (spaces k ++ (t ++ ['\x00']))) (A.length + k) t := by
  refine ⟨A ++ spaces k, [], ?_, ?_, ht⟩
  · simp [List.append_assoc]
  · simp [length_spaces]

/-- The C string at the offset of a token the buffer holds. -/
theorem cstrAt_holds {A : Bytes} {off : Nat} {t : Bytes} (R : Bytes) (h : holdsAt A off t) :
    cstrAt (A ++ R) off = t := by
  obtain ⟨X, Y, hA, hX, ht⟩ := h
  subst hA hX
  rw [List.append_assoc]
  have := cstrAt_token X t (Y ++ R) ht
  simpa [List.append_assoc] using this

/-- The bytes of a token the buffer holds. -/
theorem byteAt_holds {A : Bytes} {off : Nat} {t : Bytes} (R : Bytes) (i : Nat)
    (h : holdsAt A off t) (hi : i < t.length) : byteAt (A ++ R) (off + i) = byteAt t i := by
  obtain ⟨X, Y, hA, hX, ht⟩ := h
  subst hA hX
  rw [List.append_assoc, byteAt_append_right, List.append_assoc]
  exact byteAt_append_left t _ i hi

/-- The C string at the offset of the name. -/
theorem cstrAt_name (P L eol : Bytes) (hL : '\x00' ∉ L) :
    cstrAt (P ++ (L ++ cutEol eol)) P.length = L := by
  cases eol with
  | nil =>
    simp only [cutEol, List.append_nil]
    exact cstrAt_last P L hL
  | cons d rest => exact cstrAt_token P L rest hL

end KioFtps

namespace KioFtps

/-! ## Active mode: the result of `ftpOpenPortDataConnection` -/

/-- C11: on a logged-on session whose server answers the PORT command with
`200` and connects to the listening socket, `ftpOpenPortDataConnection` returns
0 right after the reply: nothing is accepted and `m_data` is still NULL.  With
the reply `500` to PORT it waits for the peer, accepts it and returns 0 as
well, so a result of 0 tells neither that PORT was answered 2xx nor that there
is a data connection. -/
theorem ftpOpenPortDataConnection_returns_before_accept :
    (ftpOpenPortDataConnection 2 (exampleLoggedOn
      (exampleControl ["200 PORT command successful\r\n"]) (exampleAccepting [40000]))).1 =
        Except.ok none ∧
    (ftpOpenPortDataConnection 2 (exampleLoggedOn
      (exampleControl ["200 PORT command successful\r\n"]) (exampleAccepting [40000]))).2.m_data =
        none ∧
    (ftpOpenPortDataConnection 2 (exampleLoggedOn
      (exampleControl ["200 PORT command successful\r\n"]) (exampleAccepting [40000]))).2.trace =
        [Event.dataListen, Event.controlSend "PORT 1,2,0,192,64,156\r\n".toList,
          Event.controlReply 200 "200 PORT command successful\r\n".toList] ∧
    (ftpOpenPortDataConnection 2 (exampleLoggedOn
      (exampleControl ["500 PORT not understood\r\n"]) (exampleAccepting [40000]))).1 =
        Except.ok none ∧
    (ftpOpenPortDataConnection 2 (exampleLoggedOn
      (exampleControl ["500 PORT not understood\r\n"]) (exampleAccepting [40000]))).2.m_iRespCode =
        500 ∧
    (ftpOpenPortDataConnection 2 (exampleLoggedOn
      (exampleControl ["500 PORT not understood\r\n"]) (exampleAccepting [40000]))).2.m_data =
        some (exampleData []) := by
  decide!

/-! ## The end of the control stream -/

theorem respMore_nil (iMore : Int) : respMore [] iMore = 0 := by
  unfold respMore
  simp [byteAt]

theorem respCode_nil (code : Int) : respCode [] code = code := by
  have h0 : atoi [] = 0 := by decide
  unfold respCode
  rw [h0]
  rfl

/-- The read loop when the stream ends, by exhaustion or by an empty read. -/
theorem ftpResponseLoop_eof (lines rest : List Bytes) (iMore code : Int)
    (h : lines = [] ∨ lines = [] :: rest) :
    (ftpResponseLoop lines iMore code).1 = [] ∧ (ftpResponseLoop lines iMore code).2.1 = code := by
  rcases h with h | h
  · subst h
    simp [ftpResponseLoop, respCode_nil]
  · subst h
    simp [ftpResponseLoop, respMore_nil, respCode_nil]

/-- The code after a continuation line whose leading number, if it has one, is
that of the reply. -/
theorem respCode_continuation (l : Bytes) (n : Int) (h : atoi l ≤ 0 ∨ atoi l = n) :
    respCode l n = n := by
  unfold respCode
  split
  · rcases h with h | h
    · omega
    · exact h
  · rfl

/-- Inside a multi-line reply the loop passes over continuation lines and ends
at the end of the stream with the code of the opening line. -/
theorem ftpResponseLoop_continuations_eof {d1 d2 d3 : Char} (h1 : isdigit d1 = true)
    (h2 : isdigit d2 = true) (h3 : isdigit d3 = true) (h0 : d1 ≠ '0')
    (conts tail rest : List Bytes)
    (hconts : ∀ l ∈ conts, isContinuation d1 d2 d3 l = true ∧
      (atoi l ≤ 0 ∨ atoi l = (codeOf d1 d2 d3 : Int)))
    (htail : tail = [] ∨ tail = [] :: rest) :
    (ftpResponseLoop (conts ++ tail) (codeOf d1 d2 d3 : Int) (codeOf d1 d2 d3 : Int)).1 = [] ∧
    (ftpResponseLoop (conts ++ tail) (codeOf d1 d2 d3 : Int) (codeOf d1 d2 d3 : Int)).2.1 =
      (codeOf d1 d2 d3 : Int) := by
  have hge := codeOf_ge d1 d2 d3 h1 h0
  have hne : ((codeOf d1 d2 d3 : Nat) : Int) ≠ 0 := by omega
  have hpos : (0 : Int) < ((codeOf d1 d2 d3 : Nat) : Int) := by omega
  induction conts with
  | nil => exact ftpResponseLoop_eof tail rest _ _ htail
  | cons l ls ih =>
    have hl := respMore_continuation l h1 h2 h3 h0 (hconts l (List.mem_cons_self _ _)).1
    have hc := respCode_continuation l _ (hconts l (List.mem_cons_self _ _)).2
    simp only [List.cons_append, ftpResponseLoop, hl, hc]
    rw [if_pos (by simpa using hne)]
    exact ih (fun l' hl' => hconts l' (List.mem_cons_of_mem _ hl'))

theorem respCode_opening {d1 d2 d3 : Char} (t : Bytes) (code : Int) (h1 : isdigit d1 = true)
    (h2 : isdigit d2 = true) (h3 : isdigit d3 = true) (h0 : d1 ≠ '0') :
    respCode (d1 :: d2 :: d3 :: '-' :: t) code = (codeOf d1 d2 d3 : Int) := by
  have hge : (100 : Int) ≤ (codeOf d1 d2 d3 : Int) := by
    exact_mod_cast codeOf_ge d1 d2 d3 h1 h0
  have hat := atoi_code t h1 h2 h3 (c := '-') (by decide)
  generalize (codeOf d1 d2 d3 : Int) = n at hat hge
  have hpos : n > 0 := by omega
  unfold respCode
  rw [hat, if_pos hpos]

/-- The read loop on a multi-line reply that is cut off by the end of the
stream. -/
theorem ftpResponseLoop_cut {d1 d2 d3 : Char} (h1 : isdigit d1 = true)
    (h2 : isdigit d2 = true) (h3 : isdigit d3 = true) (h0 : d1 ≠ '0') (text : Bytes)
    (conts tail rest : List Bytes)
    (hconts : ∀ l ∈ conts, isContinuation d1 d2 d3 l = true ∧
      (atoi l ≤ 0 ∨ atoi l = (codeOf d1 d2 d3 : Int)))
    (htail : tail = [] ∨ tail = [] :: rest) :
    (ftpResponseLoop ((d1 :: d2 :: d3 :: '-' :: text) :: (conts ++ tail)) 0 0).1 = [] ∧
    (ftpResponseLoop ((d1 :: d2 :: d3 :: '-' :: text) :: (conts ++ tail)) 0 0).2.1 =
      (codeOf d1 d2 d3 : Int) := by
  have hge := codeOf_ge d1 d2 d3 h1 h0
  have hne : ((codeOf d1 d2 d3 : Nat) : Int) ≠ 0 := by omega
  simp only [ftpResponseLoop, respMore_opening text h1 h2 h3 h0,
    respCode_opening text 0 h1 h2 h3 h0]
  rw [if_pos (by simpa using hne)]
  exact ftpResponseLoop_continuations_eof h1 h2 h3 h0 conts tail rest hconts htail

/-- A command whose reply has code 0 (nothing could be read), or that could not
be written, when no retry is allowed: `ftpSendCmd` returns `false`. -/
theorem ftpSendCmd_no_reply (fuel : Nat) (cmd : Bytes) (maxretries : Int) (s : Ftp)
    (c : ControlSocket) (hs : s.m_control = some c)
    (hcode : (ftpResponseLoop c.lines 0 0).2.1 = 0) (hretries : maxretries ≤ 0) :
    (ftpSendCmd (fuel + 1) cmd maxretries s).1 = Except.ok false := by
  have hread := ftpResponse_afterWrite (cmd ++ "\r\n".toList) s c hs
  have hresp := afterCommand_resp cmd s c hs
  have hfold : Prim.readResponse.apply ((Prim.controlWrite (cmd ++ "\r\n".toList)).apply s) =
      afterCommand cmd s := rfl
  rw [hfold] at hread
  have hr1 : ¬ (maxretries > 0) := by omega
  have hr2 : maxretries < 1 := by omega
  simp only [ftpSendCmd, run_getFtp_bind, hs]
  split
  · rfl
  · simp only [run_prim_bind]
    split
    · simp only [run_prim_bind, run_getFtp_bind, Prim.apply]
      simp [hr1, hr2]
      split <;> rfl
    · rw [run_bind, hread]
      have hty : (afterCommand cmd s).m_iRespType = 0 := by
        rw [hresp.2.1, hcode]
        rfl
      simp only [run_pure_bind, run_getFtp_bind, hty]
      simp [hr1, hr2]
      split <;> rfl

/-- C16 (amended): when the control stream ends before any line was read,
`ftpResponse(-1)` reports code 0 and type 0, and `ftpSendCmd` without retries
left returns `false`.  When it ends after the opening line `NNN-text` of a
multi-line reply (and continuation lines), `ftpResponse(-1)` reports the code
NNN of the opening line and the type NNN/100 with an empty last line, and
`ftpSendCmd` returns `true` for it unless NNN is 421. -/
theorem ftpResponse_end_of_stream (s : Ftp) (c : ControlSocket) (rest : List Bytes)
    (hs : s.m_control = some c) :
    ((c.lines = [] ∨ c.lines = [] :: rest) →
      (ftpResponse (-1) s).2.m_iRespCode = 0 ∧ (ftpResponse (-1) s).2.m_iRespType = 0 ∧
      ∀ (fuel : Nat) (cmd : Bytes) (maxretries : Int), maxretries ≤ 0 →
        (ftpSendCmd (fuel + 1) cmd maxretries s).1 = Except.ok false) ∧
    (∀ (d1 d2 d3 : Char) (text : Bytes) (conts tail : List Bytes),
      isdigit d1 = true → isdigit d2 = true → isdigit d3 = true → d1 ≠ '0' →
      (∀ l ∈ conts, isContinuation d1 d2 d3 l = true ∧
        (atoi l ≤ 0 ∨ atoi l = (codeOf d1 d2 d3 : Int))) →
      (tail = [] ∨ tail = [] :: rest) →
      c.lines = (d1 :: d2 :: d3 :: '-' :: text) :: (conts ++ tail) →
      (ftpResponse (-1) s).2.m_iRespCode = (codeOf d1 d2 d3 : Int) ∧
      (ftpResponse (-1) s).2.m_iRespType = (codeOf d1 d2 d3 : Int) / 100 ∧
      (ftpResponse (-1) s).2.m_lastControlLine = [] ∧
      ∀ (fuel : Nat) (cmd : Bytes) (maxretries : Int),
        (cmd.contains '\r' || cmd.contains '\n') = false → c.writeFails.headD false = false →
        (codeOf d1 d2 d3 : Int) ≠ 421 →
        (ftpSendCmd (fuel + 1) cmd maxretries s).1 = Except.ok true) := by
  constructor
  · intro hl
    have hloop := ftpResponseLoop_eof c.lines rest 0 0 hl
    refine ⟨?_, ?_, ?_⟩
    · rw [ftpResponse_read s c hs]
      exact hloop.2
    · rw [ftpResponse_read s c hs]
      show respType (ftpResponseLoop c.lines 0 0).2.1 = 0
      rw [hloop.2]
      rfl
    · intro fuel cmd maxretries hr
      exact ftpSendCmd_no_reply fuel cmd maxretries s c hs hloop.2 hr
  · intro d1 d2 d3 text conts tail h1 h2 h3 h0 hconts htail hlines
    have hloop := ftpResponseLoop_cut h1 h2 h3 h0 text conts tail rest hconts htail
    rw [← hlines] at hloop
    have hge : (100 : Int) ≤ (codeOf d1 d2 d3 : Int) := by
      exact_mod_cast codeOf_ge d1 d2 d3 h1 h0
    have hpos : (codeOf d1 d2 d3 : Int) > 0 := by omega
    have hty : respType (codeOf d1 d2 d3 : Int) = (codeOf d1 d2 d3 : Int) / 100 := by
      simp only [respType, if_pos hpos]
    refine ⟨?_, ?_, ?_, ?_⟩
    · rw [ftpResponse_read s c hs]
      exact hloop.2
    · rw [ftpResponse_read s c hs]
      show respType (ftpResponseLoop c.lines 0 0).2.1 = _
      rw [hloop.2, hty]
    · rw [ftpResponse_read s c hs]
      exact hloop.1
    · intro fuel cmd maxretries hcmd hw h421
      rw [ftpSendCmd_reply fuel cmd maxretries s c hs hcmd hw
        (by rw [hloop.2, hty]; omega) (by rw [hloop.2]; exact h421)]

/-- C16 on the stream that ends after the line `220-hello`: code 220, type 2,
and `ftpSendCmd` returns `true`. -/
theorem ftpResponse_end_of_stream_witness :
    (ftpResponse (-1) (exampleLoggedOn (exampleControl ["220-hello\r\n"])
      (exampleWorld [] []))).2.m_iRespCode = 220 ∧
    (ftpSendCmd 1 "NOOP".toList 0 (exampleLoggedOn (exampleControl ["220-hello\r\n"])
      (exampleWorld [] []))).1 = Except.ok true :=
  have h := (ftpResponse_end_of_stream
    (exampleLoggedOn (exampleControl ["220-hello\r\n"]) (exampleWorld [] []))
    (exampleControl ["220-hello\r\n"]) [] rfl).2 '2' '2' '0' "hello\r\n".toList [] []
    (by decide) (by decide) (by decide) (by decide) (fun _ h => nomatch h) (Or.inl rfl) rfl
  ⟨h.1, h.2.2.2 0 "NOOP".toList 0 (by decide) (by decide) (by decide)⟩

/-- C16 as stated fails: the stream ends right after the opening line
`220-hello` of a multi-line reply, and `ftpResponse(-1)` reports code 220 and
type 2, not "no reply"; `ftpSendCmd` returns `true` as for a complete reply. -/
theorem ftpResponse_cut_reply_reported :
    (ftpResponse (-1) (exampleLoggedOn (exampleControl ["220-hello\r\n"])
      (exampleWorld [] []))).2.m_iRespCode = 220 ∧
    (ftpResponse (-1) (exampleLoggedOn (exampleControl ["220-hello\r\n"])
      (exampleWorld [] []))).2.m_iRespType = 2 ∧
    (ftpResponse (-1) (exampleLoggedOn (exampleControl ["220-hello\r\n"])
      (exampleWorld [] []))).2.m_control.map (fun c => c.lines) = some [] ∧
    (ftpSendCmd 2 "NOOP".toList 1 (exampleLoggedOn (exampleControl ["220-hello\r\n"])
      (exampleWorld [] []))).1 = Except.ok true := by
  decide!

/-! ## Upload onto a destination that exists with size zero -/

/-- After `ftpSize` has returned `true`, `m_size` is not 0: a size of 0 in the
reply is stored as `UnknownSize`. -/
theorem post_ftpSize (fuel : Nat) (path : Bytes) (mode : Char) :
    Post (fun r s1 => r = true → s1.m_size ≠ 0) (ftpSize fuel path mode) := by
  have hfinal : ∀ x : Nat, Post (fun r s1 => r = true → s1.m_size ≠ 0)
      (prim (Prim.setSize (if (x == 0) = true then UnknownSize else x)) >>= fun _ => pure true) := by
    intro x
    constructor
    intro s a _ _
    show (if (x == 0) = true then UnknownSize else x) ≠ 0
    split
    · decide
    · rename_i h
      simpa using h
  unfold ftpSize
  repeat' first
    | with_reducible exact hfinal _
    | with_reducible exact Post.post_pure false (fun _ h => nomatch h)
    | with_reducible apply Post.post_bind
    | intro _
    | split

/-- C19: `put` of `/upload/empty.txt` without the Overwrite and Resume flags,
on a session whose server answers `SIZE /upload/empty.txt` with `213 0`: no
`DELE` is sent, and the operation fails with `ERR_FILE_ALREADY_EXIST`.  The
size 0 of the reply has been stored as `UnknownSize` by `ftpSize`, so the test
`m_size == 0` of `ftpPut` does not hold. -/
theorem put_zero_size_destination_not_deleted :
    (put 9 "/upload/empty.txt".toList 420 ⟨false, false⟩
      (exampleUser (exampleControl ["213 0\r\n"]) (exampleWorld [] []))).2.trace =
      [Event.controlSend "SIZE /upload/empty.txt\r\n".toList,
        Event.controlReply 213 "213 0\r\n".toList,
        Event.error KioError.ERR_FILE_ALREADY_EXIST "/upload/empty.txt".toList] ∧
    (put 9 "/upload/empty.txt".toList 420 ⟨false, false⟩
      (exampleUser (exampleControl ["213 0\r\n"]) (exampleWorld [] []))).2.m_size = UnknownSize := by
  decide!

end KioFtps

namespace KioFtps

/-! ## A line whose tokens are known -/

/-- The result of `ftpReadDir` for a line in which `strtok` finds nine tokens,
the fifth of which holds no comma and starts with a digit. -/
theorem ftpReadDirLine_of_tokens (now : Tm) (data : Bytes)
    (p1 p2 p3 p4 p5 p6 p7 p8 p9 : Nat) (st1 st2 st3 st4 st5 st6 st7 st8 st9 : StrtokState)
    (h1 : strtok ⟨data, 0⟩ [' '] = some (p1, st1))
    (h2 : strtok st1 [' '] = some (p2, st2))
    (h3 : strtok st2 [' '] = some (p3, st3))
    (h4 : strtok st3 [' '] = some (p4, st4))
    (h5 : strtok st4 [' '] = some (p5, st5))
    (hcomma : (cstrAt st5.buf p5).contains ',' = false)
    (hdigit : isdigit (byteAt st5.buf p5) = true)
    (h6 : strtok st5 [' '] = some (p6, st6))
    (h7 : strtok st6 [' '] = some (p7, st7))
    (h8 : strtok st7 [' '] = some (p8, st8))
    (h9 : strtok st8 ['\r', '\n'] = some (p9, st9)) :
    ftpReadDirLine now data =
      ftpReadDirEntry now st9.buf
        (if (cstrAt st5.buf p1).length == 1 && byteAt st5.buf p2 == '[' then S_IRWXUGO else 0)
        p1 p3 (some p4) p5 p6 p7 p8 p9 := by
  unfold ftpReadDirLine
  simp only [h1, h2, h3, h4, h5, hcomma, Bool.false_eq_true, if_false, hdigit, if_true, h6, h7,
    h8, h9]

/-- The result of `ftpReadDir` for a line in which `strtok` finds ten tokens,
the fifth of which holds a comma while the sixth starts with a digit. -/
theorem ftpReadDirLine_of_device_tokens (now : Tm) (data : Bytes)
    (p1 p2 p3 p4 p5 q5 p6 p7 p8 p9 : Nat)
    (st1 st2 st3 st4 st5 su5 st6 st7 st8 st9 : StrtokState)
    (h1 : strtok ⟨data, 0⟩ [' '] = some (p1, st1))
    (h2 : strtok st1 [' '] = some (p2, st2))
    (h3 : strtok st2 [' '] = some (p3, st3))
    (h4 : strtok st3 [' '] = some (p4, st4))
    (h5 : strtok st4 [' '] = some (p5, st5))
    (hcomma : (cstrAt st5.buf p5).contains ',' = true)
    (g5 : strtok st5 [' '] = some (q5, su5))
    (hdigit : isdigit (byteAt su5.buf q5) = true)
    (h6 : strtok su5 [' '] = some (p6, st6))
    (h7 : strtok st6 [' '] = some (p7, st7))
    (h8 : strtok st7 [' '] = some (p8, st8))
    (h9 : strtok st8 ['\r', '\n'] = some (p9, st9)) :
    ftpReadDirLine now data =
      ftpReadDirEntry now st9.buf
        (if (cstrAt st5.buf p1).length == 1 && byteAt st5.buf p2 == '[' then S_IRWXUGO else 0)
        p1 p3 (some p4) q5 p6 p7 p8 p9 := by
  unfold ftpReadDirLine
  simp only [h1, h2, h3, h4, h5, hcomma, if_true, g5, hdigit, h6, h7, h8, h9]

/-- The permission bits depend on the bytes 1 to 9 of the access string only. -/
theorem entryAccess_congr (f g : Nat → Char) (acc : Nat)
    (h : ∀ i, 1 ≤ i → i ≤ 9 → f i = g i) : entryAccess f acc = entryAccess g acc := by
  unfold entryAccess
  rw [h 1 (by omega) (by omega), h 2 (by omega) (by omega), h 3 (by omega) (by omega),
    h 4 (by omega) (by omega), h 5 (by omega) (by omega), h 6 (by omega) (by omega),
    h 7 (by omega) (by omega), h 8 (by omega) (by omega), h 9 (by omega) (by omega)]

/-- One `strtok` step along a line whose cut part and rest are given by name. -/
theorem strtok_step (A A1 R R1 : Bytes) (k : Nat) (t : Bytes) (ht : isToken t)
    (hA : A1 = A ++ (spaces k ++ (t ++ ['\x00']))) (hR : R = spaces k ++ (t ++ ' ' :: R1)) :
    strtok ⟨A ++ R, A.length⟩ [' '] = some (A.length + k, ⟨A1 ++ R1, A1.length⟩) := by
  subst hA hR
  exact strtok_gap A k t R1 ht

theorem holdsAt_step (A A1 : Bytes) (k : Nat) (t : Bytes) (ht : isToken t)
    (hA : A1 = A ++ (spaces k ++ (t ++ ['\x00']))) : holdsAt A1 (A.length + k) t := by
  subst hA
  exact holdsAt_new A k t ht.2.2

theorem holdsAt_keep {A A1 X : Bytes} {off : Nat} {t : Bytes} (h : holdsAt A off t)
    (hA : A1 = A ++ X) : holdsAt A1 off t := by
  subst hA
  exact holdsAt_append X h

theorem byteAt_zero_of_token {t : Bytes} (ht : isToken t) : 0 < t.length := by
  obtain ⟨c, cs, rfl, _, _⟩ := isToken_head ht
  simp

/-- The result of `ftpReadDir` for a line of eight fields and a name: an access
string `a` of ten characters, the fields `j`, `o` and `g`, a size `s` that
starts with a digit and holds no comma, and the date fields `d1`, `d2`, `d3`. -/
theorem ftpReadDirLine_row (now : Tm) (a j o g s d1 d2 d3 N eol : Bytes) (gap : Nat → Nat)
    (ha : isToken a) (hal : a.length = 10) (hj : isToken j) (ho : isToken o) (hg : isToken g)
    (hs : isToken s) (hsd : isdigit (byteAt s 0) = true) (hsc : s.contains ',' = false)
    (hd1 : isToken d1) (hd2 : isToken d2) (hd3 : isToken d3)
    (hN : N ≠ []) (hNt : isText N) (heol : isEol eol) :
    ftpReadDirLine now (fieldsLine [a, j, o, g, s, d1, d2, d3] gap 0 (N ++ eol)) =
      (ftpReadDirName (byteAt a 0 == 'l') N).map fun nl =>
        { name := nl.1
          owner := o
          group := g
          link := nl.2
          size := toFilesize (charToLongLong s)
          type := entryType (byteAt a 0)
          access := entryAccess (fun i => byteAt a i) 0
          date := entryDate now d1 d2 d3 } := by
  obtain ⟨R8, hR8⟩ : ∃ R, R = N ++ eol := ⟨_, rfl⟩
  obtain ⟨R7, hR7⟩ : ∃ R, R = spaces (gap 6) ++ (d3 ++ ' ' :: R8) := ⟨_, rfl⟩
  obtain ⟨R6, hR6⟩ : ∃ R, R = spaces (gap 5) ++ (d2 ++ ' ' :: R7) := ⟨_, rfl⟩
  obtain ⟨R5, hR5⟩ : ∃ R, R = spaces (gap 4) ++ (d1 ++ ' ' :: R6) := ⟨_, rfl⟩
  obtain ⟨R4, hR4⟩ : ∃ R, R = spaces (gap 3) ++ (s ++ ' ' :: R5) := ⟨_, rfl⟩
  obtain ⟨R3, hR3⟩ : ∃ R, R = spaces (gap 2) ++ (g ++ ' ' :: R4) := ⟨_, rfl⟩
  obtain ⟨R2, hR2⟩ : ∃ R, R = spaces (gap 1) ++ (o ++ ' ' :: R3) := ⟨_, rfl⟩
  obtain ⟨R1, hR1⟩ : ∃ R, R = spaces (gap 0) ++ (j ++ ' ' :: R2) := ⟨_, rfl⟩
  obtain ⟨R0, hR0⟩ : ∃ R, R = spaces 0 ++ (a ++ ' ' :: R1) := ⟨_, rfl⟩
  have hdata : fieldsLine [a, j, o, g, s, d1, d2, d3] gap 0 (N ++ eol) = [] ++ R0 := by
    rw [hR0, hR1, hR2, hR3, hR4, hR5, hR6, hR7, hR8]
    rfl
  obtain ⟨A1, hA1⟩ : ∃ A, A = ([] : Bytes) ++ (spaces 0 ++ (a ++ ['\x00'])) := ⟨_, rfl⟩
  obtain ⟨A2, hA2⟩ : ∃ A, A = A1 ++ (spaces (gap 0) ++ (j ++ ['\x00'])) := ⟨_, rfl⟩
  obtain ⟨A3, hA3⟩ : ∃ A, A = A2 ++ (spaces (gap 1) ++ (o ++ ['\x00'])) := ⟨_, rfl⟩
  obtain ⟨A4, hA4⟩ : ∃ A, A = A3 ++ (spaces (gap 2) ++ (g ++ ['\x00'])) := ⟨_, rfl⟩
  obtain ⟨A5, hA5⟩ : ∃ A, A = A4 ++ (spaces (gap 3) ++ (s ++ ['\x00'])) := ⟨_, rfl⟩
  obtain ⟨A6, hA6⟩ : ∃ A, A = A5 ++ (spaces (gap 4) ++ (d1 ++ ['\x00'])) := ⟨_, rfl⟩
  obtain ⟨A7, hA7⟩ : ∃ A, A = A6 ++ (spaces (gap 5) ++ (d2 ++ ['\x00'])) := ⟨_, rfl⟩
  obtain ⟨A8, hA8⟩ : ∃ A, A = A7 ++ (spaces (gap 6) ++ (d3 ++ ['\x00'])) := ⟨_, rfl⟩
  have h1 := strtok_step [] A1 R0 R1 0 a ha hA1 hR0
  have h2 := strtok_step A1 A2 R1 R2 (gap 0) j hj hA2 hR1
  have h3 := strtok_step A2 A3 R2 R3 (gap 1) o ho hA3 hR2
  have h4 := strtok_step A3 A4 R3 R4 (gap 2) g hg hA4 hR3
  have h5 := strtok_step A4 A5 R4 R5 (gap 3) s hs hA5 hR4
  have h6 := strtok_step A5 A6 R5 R6 (gap 4) d1 hd1 hA6 hR5
  have h7 := strtok_step A6 A7 R6 R7 (gap 5) d2 hd2 hA7 hR6
  have h8 := strtok_step A7 A8 R7 R8 (gap 6) d3 hd3 hA8 hR7
  obtain ⟨save, h9⟩ := strtok_name A8 N eol hN hNt heol
  rw [← hR8] at h9
  -- what the buffer holds
  have ta1 := holdsAt_step [] A1 0 a ha hA1
  have ta5 : holdsAt A5 (([] : Bytes).length + 0) a :=
    holdsAt_keep (holdsAt_keep (holdsAt_keep (holdsAt_keep ta1 hA2) hA3) hA4) hA5
  have ta8 : holdsAt A8 (([] : Bytes).length + 0) a :=
    holdsAt_keep (holdsAt_keep (holdsAt_keep ta5 hA6) hA7) hA8
  have tj2 := holdsAt_step A1 A2 (gap 0) j hj hA2
  have tj5 : holdsAt A5 (A1.length + gap 0) j :=
    holdsAt_keep (holdsAt_keep (holdsAt_keep tj2 hA3) hA4) hA5
  have to3 := holdsAt_step A2 A3 (gap 1) o ho hA3
  have to8 : holdsAt A8 (A2.length + gap 1) o :=
    holdsAt_keep (holdsAt_keep (holdsAt_keep (holdsAt_keep (holdsAt_keep to3 hA4) hA5) hA6) hA7) hA8
  have tg4 := holdsAt_step A3 A4 (gap 2) g hg hA4
  have tg8 : holdsAt A8 (A3.length + gap 2) g :=
    holdsAt_keep (holdsAt_keep (holdsAt_keep (holdsAt_keep tg4 hA5) hA6) hA7) hA8
  have ts5 := holdsAt_step A4 A5 (gap 3) s hs hA5
  have ts8 : holdsAt A8 (A4.length + gap 3) s :=
    holdsAt_keep (holdsAt_keep (holdsAt_keep ts5 hA6) hA7) hA8
  have td6 := holdsAt_step A5 A6 (gap 4) d1 hd1 hA6
  have td6' : holdsAt A8 (A5.length + gap 4) d1 := holdsAt_keep (holdsAt_keep td6 hA7) hA8
  have td7 := holdsAt_step A6 A7 (gap 5) d2 hd2 hA7
  have td7' : holdsAt A8 (A6.length + gap 5) d2 := holdsAt_keep td7 hA8
  have td8 := holdsAt_step A7 A8 (gap 6) d3 hd3 hA8
  have hcomma : (cstrAt (A5 ++ R5) (A4.length + gap 3)).contains ',' = false := by
    rw [cstrAt_holds R5 ts5]
    exact hsc
  have hdigit : isdigit (byteAt (A5 ++ R5) (A4.length + gap 3)) = true := by
    have := byteAt_holds R5 0 ts5 (byteAt_zero_of_token hs)
    rw [Nat.add_zero] at this
    rw [this]
    exact hsd
  rw [hdata]
  rw [ftpReadDirLine_of_tokens now ([] ++ R0) _ _ _ _ _ _ _ _ _ _ _ _ _ _ _ _ _ _
    h1 h2 h3 h4 h5 hcomma hdigit h6 h7 h8 h9]
  have hlen : ((cstrAt (A5 ++ R5) (([] : Bytes).length + 0)).length == 1) = false := by
    rw [cstrAt_holds R5 ta5, hal]
    rfl
  have hb0 : byteAt (A8 ++ (N ++ cutEol eol)) (([] : Bytes).length + 0) = byteAt a 0 := by
    have := byteAt_holds (N ++ cutEol eol) 0 ta8 (byteAt_zero_of_token ha)
    rw [Nat.add_zero] at this
    exact this
  have hacc : entryAccess (fun i => byteAt (A8 ++ (N ++ cutEol eol)) (([] : Bytes).length + 0 + i)) 0 =
      entryAccess (fun i => byteAt a i) 0 := by
    apply entryAccess_congr
    intro i _ hi
    exact byteAt_holds (N ++ cutEol eol) i ta8 (by omega)
  unfold ftpReadDirEntry
  simp only [hlen, Bool.false_and, Bool.false_eq_true, if_false]
  rw [cstrAt_name A8 N eol hNt.1, hb0, hacc, cstrAt_holds (N ++ cutEol eol) to8,
    cstrAt_holds (N ++ cutEol eol) tg8, cstrAt_holds (N ++ cutEol eol) ts8,
    cstrAt_holds (N ++ cutEol eol) td6', cstrAt_holds (N ++ cutEol eol) td7',
    cstrAt_holds (N ++ cutEol eol) td8]
  cases ftpReadDirName (byteAt a 0 == 'l') N <;> rfl

/-! ## The name field -/

theorem occursIn_cons (sub : Bytes) (c : Char) (cs : Bytes) :
    occursIn sub (c :: cs) = (sub.isPrefixOf (c :: cs) || occursIn sub cs) := by
  simp [occursIn, List.tails]

theorem lastIndexOfSub_none (sub s : Bytes) (hsub : sub ≠ []) (h : occursIn sub s = false) :
    lastIndexOfSub sub s = none := by
  induction s with
  | nil =>
    cases sub with
    | nil => exact absurd rfl hsub
    | cons x xs => rfl
  | cons c cs ih =>
    rw [occursIn_cons, Bool.or_eq_false_iff] at h
    simp only [lastIndexOfSub, ih h.2, h.1, Bool.false_eq_true, if_false]

theorem lastIndexOfSub_append (sub pre s : Bytes) (i : Nat) (h : lastIndexOfSub sub s = some i) :
    lastIndexOfSub sub (pre ++ s) = some (pre.length + i) := by
  induction pre with
  | nil => simpa using h
  | cons c cs ih =>
    have e : cs.length + 1 + i = cs.length + i + 1 := by omega
    simp only [List.cons_append, lastIndexOfSub]
    rw [show cs.append s = cs ++ s from rfl, ih]
    simp only [List.length_cons, e]

theorem lastIndexOfSub_here (sub : Bytes) (c : Char) (cs : Bytes)
    (hn : lastIndexOfSub sub cs = none) (hp : sub.isPrefixOf (c :: cs) = true) :
    lastIndexOfSub sub (c :: cs) = some 0 := by
  simp only [lastIndexOfSub, hn, hp, if_true]

theorem lastIndexOfSub_isPrefix (sub s : Bytes) (h : sub.isPrefixOf s = true) :
    ∃ k, lastIndexOfSub sub s = some k := by
  cases s with
  | nil =>
    cases sub with
    | nil => exact ⟨0, rfl⟩
    | cons x xs => exact nomatch h
  | cons c cs =>
    cases hcs : lastIndexOfSub sub cs with
    | some i => exact ⟨i + 1, by simp only [lastIndexOfSub, hcs]⟩
    | none => exact ⟨0, lastIndexOfSub_here sub c cs hcs h⟩

/-- The last arrow of `name -> target` stands behind the name. -/
theorem lastIndexOfSub_arrow_ge (name target : Bytes) :
    ∃ k, lastIndexOfSub " -> ".toList (name ++ (" -> ".toList ++ target)) = some (name.length + k) := by
  obtain ⟨k, hk⟩ := lastIndexOfSub_isPrefix " -> ".toList (" -> ".toList ++ target)
    (by simp [List.isPrefixOf_iff_prefix])
  exact ⟨k, lastIndexOfSub_append _ name _ k hk⟩

/-- When the target holds no further arrow, the last arrow of `name -> target`
is the one behind the name. -/
theorem lastIndexOfSub_arrow (name target : Bytes)
    (h : occursIn " -> ".toList ("-> ".toList ++ target) = false) :
    lastIndexOfSub " -> ".toList (name ++ (" -> ".toList ++ target)) = some name.length := by
  have h0 : lastIndexOfSub " -> ".toList (" -> ".toList ++ target) = some 0 := by
    have hn := lastIndexOfSub_none " -> ".toList ("-> ".toList ++ target) (by decide) h
    have hp : (" -> ".toList).isPrefixOf (' ' :: ("-> ".toList ++ target)) = true := by
      simp [List.isPrefixOf_iff_prefix]
    exact lastIndexOfSub_here _ ' ' _ hn hp
  have := lastIndexOfSub_append _ name _ 0 h0
  simpa using this

theorem mem_trimmed {x : Char} {s : Bytes} (h : x ∈ trimmed s) : x ∈ s := by
  unfold trimmed trimRight at h
  rw [List.mem_reverse] at h
  have h1 := (List.dropWhile_suffix isspace).subset h
  rw [List.mem_reverse] at h1
  exact (List.dropWhile_suffix isspace).subset h1

theorem trimmed_eq (s : Bytes) (hne : s ≠ []) (hfirst : isspace (s.headD ' ') = false)
    (hlast : isspace (s.getLastD ' ') = false) : trimmed s = s := by
  unfold trimmed trimRight
  cases s with
  | nil => exact absurd rfl hne
  | cons c cs =>
    have hc : isspace c = false := hfirst
    have h1 : (c :: cs).dropWhile isspace = c :: cs := by
      simp [List.dropWhile_cons, hc]
    rw [h1]
    have hrev : (c :: cs).reverse ≠ [] := by simp
    obtain ⟨d, ds, hd⟩ := List.exists_cons_of_ne_nil hrev
    have hdl : d = (c :: cs).getLastD ' ' := by
      have : (c :: cs) = (d :: ds).reverse := by rw [← hd, List.reverse_reverse]
      rw [this]
      simp [List.getLastD_eq_getLast?]
    have hd1 : isspace d = false := by
      rw [hdl]
      exact hlast
    rw [hd]
    have h2 : (d :: ds).dropWhile isspace = d :: ds := by
      simp [List.dropWhile_cons, hd1]
    rw [h2, ← hd, List.reverse_reverse]

/-- The name field of a line that is not a link, or has no arrow. -/
theorem ftpReadDirName_plain (isLink : Bool) (N : Bytes)
    (h : (if isLink = true then lastIndexOfSub " -> ".toList N else none) = none) :
    ftpReadDirName isLink N =
      if (if byteAt N 0 == '/' then N.drop 1 else N).contains '/' then none
      else some (trimmed (if byteAt N 0 == '/' then N.drop 1 else N), []) := by
  unfold ftpReadDirName
  simp only [h]

/-- The name field of a link whose last arrow stands at offset `i`. -/
theorem ftpReadDirName_arrow (N : Bytes) (i : Nat)
    (h : lastIndexOfSub " -> ".toList N = some i) :
    ftpReadDirName true N =
      if (if byteAt (N.take i) 0 == '/' then (N.take i).drop 1 else N.take i).contains '/' then none
      else some (trimmed (if byteAt (N.take i) 0 == '/' then (N.take i).drop 1 else N.take i),
        N.drop (i + 4)) := by
  unfold ftpReadDirName
  simp only [if_true, h]

theorem nameCheck_no_slash (tmp0 link : Bytes) (nl : Bytes × Bytes)
    (h : (if (if byteAt tmp0 0 == '/' then tmp0.drop 1 else tmp0).contains '/' then none
      else some (trimmed (if byteAt tmp0 0 == '/' then tmp0.drop 1 else tmp0), link)) = some nl) :
    '/' ∉ nl.1 := by
  generalize (if byteAt tmp0 0 == '/' then tmp0.drop 1 else tmp0) = tmp at h
  by_cases hc : tmp.contains '/' = true
  · rw [if_pos hc] at h
    exact nomatch h
  · rw [if_neg hc] at h
    have hnl := Option.some.inj h
    rw [← hnl]
    intro hx
    exact hc (by simpa using mem_trimmed hx)

theorem nameCheck_some (tmp0 link : Bytes) (h : '/' ∉ tmp0) :
    ∃ nl, (if (if byteAt tmp0 0 == '/' then tmp0.drop 1 else tmp0).contains '/' then none
      else some (trimmed (if byteAt tmp0 0 == '/' then tmp0.drop 1 else tmp0), link)) = some nl := by
  have h0 : '/' ∉ (if byteAt tmp0 0 == '/' then tmp0.drop 1 else tmp0) := by
    intro hx
    split at hx
    · exact h (List.mem_of_mem_drop hx)
    · exact h hx
  rw [if_neg (by simpa using h0)]
  exact ⟨_, rfl⟩

theorem arrow_cases (isLink : Bool) (N : Bytes) :
    (if isLink = true then lastIndexOfSub " -> ".toList N else none) = none ∨
      ∃ i, isLink = true ∧ lastIndexOfSub " -> ".toList N = some i := by
  cases isLink with
  | false => exact Or.inl rfl
  | true =>
    cases h : lastIndexOfSub " -> ".toList N with
    | none => exact Or.inl (by simp [h])
    | some i => exact Or.inr ⟨i, rfl, rfl⟩

/-- An entry is built only from a name that holds no `/`. -/
theorem ftpReadDirName_no_slash (isLink : Bool) (N : Bytes) (nl : Bytes × Bytes)
    (h : ftpReadDirName isLink N = some nl) : '/' ∉ nl.1 := by
  rcases arrow_cases isLink N with ha | ⟨i, hl, ha⟩
  · rw [ftpReadDirName_plain isLink N ha] at h
    exact nameCheck_no_slash _ _ nl h
  · subst hl
    rw [ftpReadDirName_arrow N i ha] at h
    exact nameCheck_no_slash _ _ nl h

/-- A name field without `/` gives an entry. -/
theorem ftpReadDirName_some (isLink : Bool) (N : Bytes) (h : '/' ∉ N) :
    ∃ nl, ftpReadDirName isLink N = some nl := by
  rcases arrow_cases isLink N with ha | ⟨i, hl, ha⟩
  · rw [ftpReadDirName_plain isLink N ha]
    exact nameCheck_some _ _ h
  · subst hl
    rw [ftpReadDirName_arrow N i ha]
    exact nameCheck_some _ _ (fun hx => h (List.mem_of_mem_take hx))

/-- The result of `ftpReadDir` for a line in the style of `/dev`: nine fields
and a name, where the field `c` before the size holds a comma. -/
theorem ftpReadDirLine_device_row (now : Tm) (a j o g c s d1 d2 d3 N eol : Bytes)
    (gap : Nat → Nat)
    (ha : isToken a) (hal : a.length = 10) (hj : isToken j) (ho : isToken o) (hg : isToken g)
    (hc : isToken c) (hcc : c.contains ',' = true)
    (hs : isToken s) (hsd : isdigit (byteAt s 0) = true)
    (hd1 : isToken d1) (hd2 : isToken d2) (hd3 : isToken d3)
    (hN : N ≠ []) (hNt : isText N) (heol : isEol eol) :
    ftpReadDirLine now (fieldsLine [a, j, o, g, c, s, d1, d2, d3] gap 0 (N ++ eol)) =
      (ftpReadDirName (byteAt a 0 == 'l') N).map fun nl =>
        { name := nl.1
          owner := o
          group := g
          link := nl.2
          size := toFilesize (charToLongLong s)
          type := entryType (byteAt a 0)
          access := entryAccess (fun i => byteAt a i) 0
          date := entryDate now d1 d2 d3 } := by
  obtain ⟨R9, hR9⟩ : ∃ R, R = N ++ eol := ⟨_, rfl⟩
  obtain ⟨R8, hR8⟩ : ∃ R, R = spaces (gap 7) ++ (d3 ++ ' ' :: R9) := ⟨_, rfl⟩
  obtain ⟨R7, hR7⟩ : ∃ R, R = spaces (gap 6) ++ (d2 ++ ' ' :: R8) := ⟨_, rfl⟩
  obtain ⟨R6, hR6⟩ : ∃ R, R = spaces (gap 5) ++ (d1 ++ ' ' :: R7) := ⟨_, rfl⟩
  obtain ⟨R5, hR5⟩ : ∃ R, R = spaces (gap 4) ++ (s ++ ' ' :: R6) := ⟨_, rfl⟩
  obtain ⟨R4, hR4⟩ : ∃ R, R = spaces (gap 3) ++ (c ++ ' ' :: R5) := ⟨_, rfl⟩
  obtain ⟨R3, hR3⟩ : ∃ R, R = spaces (gap 2) ++ (g ++ ' ' :: R4) := ⟨_, rfl⟩
  obtain ⟨R2, hR2⟩ : ∃ R, R = spaces (gap 1) ++ (o ++ ' ' :: R3) := ⟨_, rfl⟩
  obtain ⟨R1, hR1⟩ : ∃ R, R = spaces (gap 0) ++ (j ++ ' ' :: R2) := ⟨_, rfl⟩
  obtain ⟨R0, hR0⟩ : ∃ R, R = spaces 0 ++ (a ++ ' ' :: R1) := ⟨_, rfl⟩
  have hdata : fieldsLine [a, j, o, g, c, s, d1, d2, d3] gap 0 (N ++ eol) = [] ++ R0 := by
    rw [hR0, hR1, hR2, hR3, hR4, hR5, hR6, hR7, hR8, hR9]
    rfl
  obtain ⟨A1, hA1⟩ : ∃ A, A = ([] : Bytes) ++ (spaces 0 ++ (a ++ ['\x00'])) := ⟨_, rfl⟩
  obtain ⟨A2, hA2⟩ : ∃ A, A = A1 ++ (spaces (gap 0) ++ (j ++ ['\x00'])) := ⟨_, rfl⟩
  obtain ⟨A3, hA3⟩ : ∃ A, A = A2 ++ (spaces (gap 1) ++ (o ++ ['\x00'])) := ⟨_, rfl⟩
  obtain ⟨A4, hA4⟩ : ∃ A, A = A3 ++ (spaces (gap 2) ++ (g ++ ['\x00'])) := ⟨_, rfl⟩
  obtain ⟨A5, hA5⟩ : ∃ A, A = A4 ++ (spaces (gap 3) ++ (c ++ ['\x00'])) := ⟨_, rfl⟩
  obtain ⟨B5, hB5⟩ : ∃ A, A = A5 ++ (spaces (gap 4) ++ (s ++ ['\x00'])) := ⟨_, rfl⟩
  obtain ⟨A6, hA6⟩ : ∃ A, A = B5 ++ (spaces (gap 5) ++ (d1 ++ ['\x00'])) := ⟨_, rfl⟩
  obtain ⟨A7, hA7⟩ : ∃ A, A = A6 ++ (spaces (gap 6) ++ (d2 ++ ['\x00'])) := ⟨_, rfl⟩
  obtain ⟨A8, hA8⟩ : ∃ A, A = A7 ++ (spaces (gap 7) ++ (d3 ++ ['\x00'])) := ⟨_, rfl⟩
  have h1 := strtok_step [] A1 R0 R1 0 a ha hA1 hR0
  have h2 := strtok_step A1 A2 R1 R2 (gap 0) j hj hA2 hR1
  have h3 := strtok_step A2 A3 R2 R3 (gap 1) o ho hA3 hR2
  have h4 := strtok_step A3 A4 R3 R4 (gap 2) g hg hA4 hR3
  have h5 := strtok_step A4 A5 R4 R5 (gap 3) c hc hA5 hR4
  have g5 := strtok_step A5 B5 R5 R6 (gap 4) s hs hB5 hR5
  have h6 := strtok_step B5 A6 R6 R7 (gap 5) d1 hd1 hA6 hR6
  have h7 := strtok_step A6 A7 R7 R8 (gap 6) d2 hd2 hA7 hR7
  have h8 := strtok_step A7 A8 R8 R9 (gap 7) d3 hd3 hA8 hR8
  obtain ⟨save, h9⟩ := strtok_name A8 N eol hN hNt heol
  rw [← hR9] at h9
  -- what the buffer holds
  have ta1 := holdsAt_step [] A1 0 a ha hA1
  have ta5 : holdsAt A5 (([] : Bytes).length + 0) a :=
    holdsAt_keep (holdsAt_keep (holdsAt_keep (holdsAt_keep ta1 hA2) hA3) hA4) hA5
  have ta8 : holdsAt A8 (([] : Bytes).length + 0) a :=
    holdsAt_keep (holdsAt_keep (holdsAt_keep (holdsAt_keep ta5 hB5) hA6) hA7) hA8
  have to3 := holdsAt_step A2 A3 (gap 1) o ho hA3
  have to8 : holdsAt A8 (A2.length + gap 1) o :=
    holdsAt_keep (holdsAt_keep (holdsAt_keep (holdsAt_keep (holdsAt_keep
      (holdsAt_keep to3 hA4) hA5) hB5) hA6) hA7) hA8
  have tg4 := holdsAt_step A3 A4 (gap 2) g hg hA4
  have tg8 : holdsAt A8 (A3.length + gap 2) g :=
    holdsAt_keep (holdsAt_keep (holdsAt_keep (holdsAt_keep (holdsAt_keep tg4 hA5) hB5) hA6) hA7) hA8
  have tc5 := holdsAt_step A4 A5 (gap 3) c hc hA5
  have ts5 := holdsAt_step A5 B5 (gap 4) s hs hB5
  have ts8 : holdsAt A8 (A5.length + gap 4) s :=
    holdsAt_keep (holdsAt_keep (holdsAt_keep ts5 hA6) hA7) hA8
  have td6 := holdsAt_step B5 A6 (gap 5) d1 hd1 hA6
  have td6' : holdsAt A8 (B5.length + gap 5) d1 := holdsAt_keep (holdsAt_keep td6 hA7) hA8
  have td7 := holdsAt_step A6 A7 (gap 6) d2 hd2 hA7
  have td7' : holdsAt A8 (A6.length + gap 6) d2 := holdsAt_keep td7 hA8
  have td8 := holdsAt_step A7 A8 (gap 7) d3 hd3 hA8
  have hcomma : (cstrAt (A5 ++ R5) (A4.length + gap 3)).contains ',' = true := by
    rw [cstrAt_holds R5 tc5]
    exact hcc
  have hdigit : isdigit (byteAt (B5 ++ R6) (A5.length + gap 4)) = true := by
    have := byteAt_holds R6 0 ts5 (byteAt_zero_of_token hs)
    rw [Nat.add_zero] at this
    rw [this]
    exact hsd
  rw [hdata]
  rw [ftpReadDirLine_of_device_tokens now ([] ++ R0) _ _ _ _ _ _ _ _ _ _ _ _ _ _ _ _ _ _ _ _
    h1 h2 h3 h4 h5 hcomma g5 hdigit h6 h7 h8 h9]
  have hlen : ((cstrAt (A5 ++ R5) (([] : Bytes).length + 0)).length == 1) = false := by
    rw [cstrAt_holds R5 ta5, hal]
    rfl
  have hb0 : byteAt (A8 ++ (N ++ cutEol eol)) (([] : Bytes).length + 0) = byteAt a 0 := by
    have := byteAt_holds (N ++ cutEol eol) 0 ta8 (byteAt_zero_of_token ha)
    rw [Nat.add_zero] at this
    exact this
  have hacc : entryAccess (fun i => byteAt (A8 ++ (N ++ cutEol eol)) (([] : Bytes).length + 0 + i)) 0 =
      entryAccess (fun i => byteAt a i) 0 := by
    apply entryAccess_congr
    intro i _ hi
    exact byteAt_holds (N ++ cutEol eol) i ta8 (by omega)
  unfold ftpReadDirEntry
  simp only [hlen, Bool.false_and, Bool.false_eq_true, if_false]
  rw [cstrAt_name A8 N eol hNt.1, hb0, hacc, cstrAt_holds (N ++ cutEol eol) to8,
    cstrAt_holds (N ++ cutEol eol) tg8, cstrAt_holds (N ++ cutEol eol) ts8,
    cstrAt_holds (N ++ cutEol eol) td6', cstrAt_holds (N ++ cutEol eol) td7',
    cstrAt_holds (N ++ cutEol eol) td8]
  cases ftpReadDirName (byteAt a 0 == 'l') N <;> rfl

/-! ## Lines that show an entry -/

theorem tail_token (e : Listed) (h : e.Fields) : isToken e.tail.text := by
  have ht := h.tail_ok
  cases hcase : e.tail with
  | year yyyy =>
    rw [hcase] at ht
    exact isDigits_token ht.1
  | clock hh mm =>
    rw [hcase] at ht
    obtain ⟨h1, h2⟩ := ht
    unfold isToken
    refine ⟨?_, ?_, ?_⟩
    · simp [DateTail.text]
    · intro hx
      simp only [DateTail.text, List.mem_append, List.mem_cons] at hx
      rcases hx with hx | hx | hx
      · exact not_mem_of_digits (by decide) h1 hx
      · exact nomatch hx
      · exact not_mem_of_digits (by decide) h2 hx
    · intro hx
      simp only [DateTail.text, List.mem_append, List.mem_cons] at hx
      rcases hx with hx | hx | hx
      · exact not_mem_of_digits (by decide) h1 hx
      · exact nomatch hx
      · exact not_mem_of_digits (by decide) h2 hx

theorem nameField_text (e : Listed) (h : e.Fields) : e.nameField ≠ [] ∧ isText e.nameField := by
  have hn := h.name_text
  have ht := h.target_text
  have hne := h.name_ne
  unfold Listed.nameField
  split
  · refine ⟨by simp [hne], ?_, ?_, ?_⟩
    · intro hx
      simp only [List.mem_append] at hx
      rcases hx with hx | hx | hx
      · exact hn.1 hx
      · exact absurd hx (by decide)
      · exact ht.1 hx
    · intro hx
      simp only [List.mem_append] at hx
      rcases hx with hx | hx | hx
      · exact hn.2.1 hx
      · exact absurd hx (by decide)
      · exact ht.2.1 hx
    · intro hx
      simp only [List.mem_append] at hx
      rcases hx with hx | hx | hx
      · exact hn.2.2 hx
      · exact absurd hx (by decide)
      · exact ht.2.2 hx
  · exact ⟨hne, hn⟩

theorem size_first_digit {ds : Bytes} (h : isDigits ds = true) : isdigit (byteAt ds 0) = true := by
  obtain ⟨d, tl, rfl, hd, _⟩ := isDigits_cons h
  exact hd

theorem no_comma_of_digits {ds : Bytes} (h : isDigits ds = true) : ds.contains ',' = false := by
  have := not_mem_of_digits (x := ',') (by decide) h
  simpa using this

/-- The line of an entry read by `ftpReadDir`, up to the name field. -/
theorem ftpReadDirLine_listed (now : Tm) (e : Listed) (gap : Nat → Nat) (eol : Bytes)
    (h : e.Fields) (heol : isEol eol) :
    ftpReadDirLine now (e.line gap eol) =
      (ftpReadDirName (e.kind.accessChar == 'l') e.nameField).map fun nl =>
        { name := nl.1
          owner := e.owner
          group := e.group
          link := nl.2
          size := decimalValue e.size
          type := e.kind.typeBits
          access := e.mode
          date := entryDate now (s_months.getD e.month []) e.day e.tail.text } := by
  have hacc := accessString_token e.kind e.mode
  have hname := nameField_text e h
  unfold Listed.line Listed.fields
  rw [ftpReadDirLine_row now _ _ _ _ _ _ _ _ _ _ gap hacc.1 hacc.2 h.links_token h.owner_token
    h.group_token (isDigits_token h.size_digits) (size_first_digit h.size_digits)
    (no_comma_of_digits h.size_digits) (month_text e.month h.month_lt).1
    (isDigits_token h.day_digits) (tail_token e h) hname.1 hname.2 heol]
  have hb : byteAt (accessString e.kind e.mode) 0 = e.kind.accessChar := rfl
  have hm : entryAccess (fun i => byteAt (accessString e.kind e.mode) i) 0 = e.mode := by
    refine Eq.trans ?_ (entryAccess_accessString e.kind.accessChar e.mode [] h.mode_lt)
    apply entryAccess_congr
    intro i _ _
    simp [accessString]
  rw [hb, hm, toFilesize_digits e.size h.size_digits h.size_lt, entryType_accessChar]

/-- The line of a device read by `ftpReadDir`, up to the name field. -/
theorem ftpReadDirLine_device (now : Tm) (e : Listed) (major : Bytes) (gap : Nat → Nat)
    (eol : Bytes) (h : e.Fields) (hmajor : isToken major) (hcomma : ',' ∈ major)
    (heol : isEol eol) :
    ftpReadDirLine now (e.deviceLine major gap eol) =
      (ftpReadDirName (e.kind.accessChar == 'l') e.nameField).map fun nl =>
        { name := nl.1
          owner := e.owner
          group := e.group
          link := nl.2
          size := decimalValue e.size
          type := e.kind.typeBits
          access := e.mode
          date := entryDate now (s_months.getD e.month []) e.day e.tail.text } := by
  have hacc := accessString_token e.kind e.mode
  have hname := nameField_text e h
  unfold Listed.deviceLine
  rw [ftpReadDirLine_device_row now _ _ _ _ _ _ _ _ _ _ _ gap hacc.1 hacc.2 h.links_token
    h.owner_token h.group_token hmajor (by simpa using hcomma) (isDigits_token h.size_digits)
    (size_first_digit h.size_digits) (month_text e.month h.month_lt).1
    (isDigits_token h.day_digits) (tail_token e h) hname.1 hname.2 heol]
  have hb : byteAt (accessString e.kind e.mode) 0 = e.kind.accessChar := rfl
  have hm : entryAccess (fun i => byteAt (accessString e.kind e.mode) i) 0 = e.mode := by
    refine Eq.trans ?_ (entryAccess_accessString e.kind.accessChar e.mode [] h.mode_lt)
    apply entryAccess_congr
    intro i _ _
    simp [accessString]
  rw [hb, hm, toFilesize_digits e.size h.size_digits h.size_lt, entryType_accessChar]

end KioFtps

namespace KioFtps

/-! ## The parser of directory listings on the lines of entries -/

theorem head_ne_slash {name : Bytes} (hne : name ≠ []) (h : '/' ∉ name) :
    (byteAt name 0 == '/') = false := by
  cases name with
  | nil => exact absurd rfl hne
  | cons c cs =>
    have hc : c ≠ '/' := fun hx => h (by simp [hx])
    simpa [byteAt] using hc

theorem nameCheck_name {name : Bytes} (link : Bytes) (hne : name ≠ []) (h : '/' ∉ name)
    (hfirst : isspace (name.headD ' ') = false) (hlast : isspace (name.getLastD ' ') = false) :
    (if (if byteAt name 0 == '/' then name.drop 1 else name).contains '/' then none
      else some (trimmed (if byteAt name 0 == '/' then name.drop 1 else name), link)) =
      some (name, link) := by
  rw [head_ne_slash hne h]
  simp only [Bool.false_eq_true, if_false]
  rw [if_neg (by simpa using h), trimmed_eq name hne hfirst hlast]

/-- The name field of a well-formed entry is cut into its name and its target. -/
theorem nameField_parsed (e : Listed) (h : e.WellFormed) :
    ftpReadDirName (e.kind.accessChar == 'l') e.nameField =
      some (e.name, if e.kind = EntryKind.symlink then e.target else []) := by
  rw [accessChar_eq_l]
  unfold Listed.nameField
  by_cases hk : e.kind = EntryKind.symlink
  · simp only [hk, decide_True, if_true]
    rw [ftpReadDirName_arrow _ e.name.length
      (lastIndexOfSub_arrow e.name e.target (h.target_arrow hk))]
    have ht : List.take e.name.length (e.name ++ (" -> ".toList ++ e.target)) = e.name :=
      List.take_left _ _
    have hd : List.drop (e.name.length + 4) (e.name ++ (" -> ".toList ++ e.target)) = e.target := by
      rw [← List.drop_drop, List.drop_left]
      rfl
    rw [ht, hd]
    exact nameCheck_name e.target h.name_ne h.name_slash h.name_first h.name_last
  · simp only [hk, decide_False, if_false]
    rw [ftpReadDirName_plain false e.name rfl]
    exact nameCheck_name [] h.name_ne h.name_slash h.name_first h.name_last

/-- Removing one leading `/` from a text that starts with the name. -/
theorem strip_bareName (e : Listed) (hne : e.name ≠ []) (X : Bytes) :
    (if byteAt (e.name ++ X) 0 == '/' then (e.name ++ X).drop 1 else e.name ++ X) =
      e.bareName ++ X := by
  unfold Listed.bareName
  cases hn : e.name with
  | nil => exact absurd hn hne
  | cons c cs =>
    by_cases hc : c = '/'
    · subst hc
      rfl
    · have hb : (byteAt ((c :: cs) ++ X) 0 == '/') = false := by simpa [byteAt] using hc
      rw [hb]
      simp only [Bool.false_eq_true, if_false]
      split
      · rename_i heq
        exact absurd (List.cons.inj heq).1 hc
      · rfl

theorem nameCheck_slash (e : Listed) (hne : e.name ≠ []) (X link : Bytes) (hs : '/' ∈ e.bareName) :
    (if (if byteAt (e.name ++ X) 0 == '/' then (e.name ++ X).drop 1 else e.name ++ X).contains '/'
      then none
      else some (trimmed (if byteAt (e.name ++ X) 0 == '/' then (e.name ++ X).drop 1
        else e.name ++ X), link)) = none := by
  rw [strip_bareName e hne X]
  rw [if_pos (by simp [hs])]

/-- A name that still holds a `/` behind one leading `/` gives no entry. -/
theorem nameField_slash (e : Listed) (h : e.Fields) (hs : '/' ∈ e.bareName) :
    ftpReadDirName (e.kind.accessChar == 'l') e.nameField = none := by
  rw [accessChar_eq_l]
  unfold Listed.nameField
  by_cases hk : e.kind = EntryKind.symlink
  · simp only [hk, decide_True, if_true]
    obtain ⟨k, hk1⟩ := lastIndexOfSub_arrow_ge e.name e.target
    rw [ftpReadDirName_arrow _ _ hk1]
    have ht : List.take (e.name.length + k) (e.name ++ (" -> ".toList ++ e.target)) =
        e.name ++ List.take k (" -> ".toList ++ e.target) := by
      rw [List.take_append]
    rw [ht]
    exact nameCheck_slash e h.name_ne _ _ hs
  · simp only [hk, decide_False, if_false]
    rw [ftpReadDirName_plain false e.name rfl]
    have := nameCheck_slash e h.name_ne [] [] hs
    simpa using this

theorem line_ne_nil (e : Listed) (gap : Nat → Nat) (eol : Bytes) :
    (e.line gap eol).isEmpty = false := by
  simp [Listed.line, Listed.fields, fieldsLine, accessString]

/-! ## No path separator in parsed names -/

theorem ftpReadDirEntry_name (now : Tm) (buf : Bytes) (access0 p1 p3 : Nat) (pg : Option Nat)
    (ps p6 p7 p8 p9 : Nat) (de : FtpEntry)
    (h : ftpReadDirEntry now buf access0 p1 p3 pg ps p6 p7 p8 p9 = some de) : '/' ∉ de.name := by
  unfold ftpReadDirEntry at h
  split at h
  · exact nomatch h
  · rename_i nl hnl
    have hde := Option.some.inj h
    rw [← hde]
    exact ftpReadDirName_no_slash _ _ nl hnl

theorem ftpReadDirLine_name (now : Tm) (data : Bytes) (de : FtpEntry)
    (h : ftpReadDirLine now data = some de) : '/' ∉ de.name := by
  unfold ftpReadDirLine at h
  simp only [] at h
  repeat' split at h
  all_goals first
    | contradiction
    | exact ftpReadDirEntry_name _ _ _ _ _ _ _ _ _ _ _ de h

theorem ftpReadDirLoop_name (now : Tm) (lines : List Bytes) (de : FtpEntry)
    (h : (ftpReadDirLoop now lines).1 = some de) : '/' ∉ de.name := by
  induction lines with
  | nil => exact nomatch h
  | cons data rest ih =>
    unfold ftpReadDirLoop at h
    split at h
    · exact nomatch h
    · split at h
      · rename_i de1 hde1
        have : de1 = de := Option.some.inj h
        rw [← this]
        exact ftpReadDirLine_name now data de1 hde1
      · exact ih h

/-! ## The claims on the parser -/

theorem wellFormed_exampleLog : exampleLog.WellFormed :=
  { mode_lt := by decide, links_token := by decide, owner_token := by decide,
    group_token := by decide, size_digits := by decide, size_lt := by decide,
    month_lt := by decide, day_digits := by decide, tail_ok := (by decide : isDigits "12".toList = true ∧ isDigits "30".toList = true),
    name_ne := by decide, name_text := by decide, target_text := by decide,
    name_slash := by decide, name_first := by decide, name_last := by decide,
    clock_long := by decide, target_arrow := (fun h => nomatch h),
    day_int := by decide, clock_int := (⟨by decide, by decide⟩ :
      decimalValue "12".toList < 2 ^ 31 ∧ decimalValue "30".toList < 2 ^ 31) }

theorem wellFormed_exampleLink : exampleLink.WellFormed :=
  { mode_lt := by decide, links_token := by decide, owner_token := by decide,
    group_token := by decide, size_digits := by decide, size_lt := by decide,
    month_lt := by decide, day_digits := by decide, tail_ok := (by decide : isDigits "2020".toList = true ∧ "2020".toList.length = 4),
    name_ne := by decide, name_text := by decide, target_text := by decide,
    name_slash := by decide, name_first := by decide, name_last := by decide,
    clock_long := by decide, target_arrow := (fun _ => by decide),
    day_int := by decide, clock_int := True.intro }

theorem wellFormed_exampleZero : exampleZero.WellFormed :=
  { mode_lt := by decide, links_token := by decide, owner_token := by decide,
    group_token := by decide, size_digits := by decide, size_lt := by decide,
    month_lt := by decide, day_digits := by decide, tail_ok := (by decide : isDigits "1997".toList = true ∧ "1997".toList.length = 4),
    name_ne := by decide, name_text := by decide, target_text := by decide,
    name_slash := by decide, name_first := by decide, name_last := by decide,
    clock_long := by decide, target_arrow := (fun h => nomatch h),
    day_int := by decide, clock_int := True.intro }

theorem fields_exampleSlash : exampleSlash.Fields :=
  { mode_lt := by decide, links_token := by decide, owner_token := by decide,
    group_token := by decide, size_digits := by decide, size_lt := by decide,
    month_lt := by decide, day_digits := by decide, tail_ok := (by decide : isDigits "12".toList = true ∧ isDigits "30".toList = true),
    name_ne := by decide, name_text := by decide, target_text := by decide }

/-- C1 (amended): for every directory entry whose fields respect the grammar
made precise in `Listed.WellFormed` (which asks, among others, that the day,
the hours and the minutes are numbers below 2^31), the line that shows it
(with any spacing between its fields and any line end) is read back by the
loop of `ftpReadDir` as the entry with the same name, owner, group, mode, size
and date and with the target as link; the type is that of the entry, except
that a symlink is given the type of a regular file. -/
theorem ftpReadDir_round_trip (now : Tm) (e : Listed) (gap : Nat → Nat) (eol : Bytes)
    (rest : List Bytes) (h : e.WellFormed) (heol : isEol eol) :
    ftpReadDirLine now (e.line gap eol) = some (e.entry now) ∧
    ftpReadDirLoop now (e.line gap eol :: rest) = (some (e.entry now), rest) := by
  have hline : ftpReadDirLine now (e.line gap eol) = some (e.entry now) := by
    rw [ftpReadDirLine_listed now e gap eol h.toFields heol, nameField_parsed e h]
    simp only [Option.map_some', entryDate_rendered now e h, Listed.entry]
  refine ⟨hline, ?_⟩
  unfold ftpReadDirLoop
  simp only [line_ne_nil, Bool.false_eq_true, if_false, hline]

/-- C1 on the lines of the specification:
`-rw-r--r--   1 root     root       102 Nov  9 12:30 log` read in November 2020
gives the file `log` of `root`, mode 0644, size 102, dated November 9th 2020,
12:30; `lrwxrwxrwx 1 u g 4 Jan 2 2020 link -> /tmp/x` gives the name `link` and
the link target `/tmp/x`. -/
theorem ftpReadDir_round_trip_witness :
    exampleLog.line exampleLogGap [] =
      "-rw-r--r--   1 root     root       102 Nov  9 12:30 log".toList ∧
    ftpReadDirLine exampleNow (exampleLog.line exampleLogGap []) =
      some { name := "log".toList, owner := "root".toList, group := "root".toList, link := [],
             size := 102, type := S_IFREG, access := 0o644,
             date := { exampleNow with tm_sec := 0, tm_min := 30, tm_hour := 12, tm_mday := 9,
                                       tm_mon := 10, tm_year := 120 } } ∧
    exampleLink.line single [] = "lrwxrwxrwx 1 u g 4 Jan 2 2020 link -> /tmp/x".toList ∧
    (ftpReadDirLine exampleNow (exampleLink.line single [])).map (fun de => (de.name, de.link)) =
      some ("link".toList, "/tmp/x".toList) :=
  ⟨by decide,
    (ftpReadDir_round_trip exampleNow exampleLog exampleLogGap [] [] wellFormed_exampleLog
      (Or.inl rfl)).1,
    by decide,
    by rw [(ftpReadDir_round_trip exampleNow exampleLink single [] [] wellFormed_exampleLink
      (Or.inl rfl)).1]; rfl⟩

/-- C1 as stated fails: the symlink `a` with the target `b -> c`, shown as
`lrwxrwxrwx 1 u g 4 Jan 2 2020 a -> b -> c`, is read back with the name
`a -> b` and the target `c`, because the name field is cut at its last arrow;
and its type is that of a regular file. -/
theorem ftpReadDir_cuts_at_last_arrow :
    exampleArrowLink.line single [] = "lrwxrwxrwx 1 u g 4 Jan 2 2020 a -> b -> c".toList ∧
    (ftpReadDirLine exampleNow (exampleArrowLink.line single [])).map
      (fun de => (de.name, de.link, de.type)) = some ("a -> b".toList, "c".toList, S_IFREG) := by
  decide!

/-- C12: no entry returned by `ftpReadDir` has a `/` in its name, whatever the
lines on the data connection are; and the line of an entry whose name still
holds a `/` after one leading `/` is removed gives no entry: the loop goes on
with the next line. -/
theorem ftpReadDir_no_path_separator (s : Ftp) (now : Tm) (e : Listed) (gap : Nat → Nat)
    (eol : Bytes) (rest : List Bytes) :
    (∀ de, (ftpReadDir s).1 = Except.ok (some de) → '/' ∉ de.name) ∧
    (e.Fields → isEol eol → '/' ∈ e.bareName →
      ftpReadDirLine now (e.line gap eol) = none ∧
      ftpReadDirLoop now (e.line gap eol :: rest) = ftpReadDirLoop now rest) := by
  constructor
  · intro de hde
    unfold ftpReadDir at hde
    simp only [run_getFtp_bind] at hde
    cases hd : s.m_data with
    | none =>
      simp only [hd] at hde
      exact nomatch hde
    | some d =>
      simp only [hd, run_prim_bind, run_pure] at hde
      exact ftpReadDirLoop_name _ _ de (Except.ok.inj hde)
  · intro h heol hs
    have hline : ftpReadDirLine now (e.line gap eol) = none := by
      rw [ftpReadDirLine_listed now e gap eol h heol, nameField_slash e h hs]
      rfl
    refine ⟨hline, ?_⟩
    rw [ftpReadDirLoop]
    simp only [line_ne_nil, Bool.false_eq_true, if_false, hline]

/-- C12 on a data connection that delivers the lines of `etc/passwd` and of
`log`: the first line gives no entry, and `ftpReadDir` returns the entry `log`. -/
theorem ftpReadDir_no_path_separator_witness :
    exampleSlash.line single "\r\n".toList =
      "-rw-r--r-- 1 root root 102 Nov 9 12:30 etc/passwd\r\n".toList ∧
    ftpReadDirLine exampleNow (exampleSlash.line single "\r\n".toList) = none ∧
    ((ftpReadDir { exampleLoggedOn (exampleControl []) (exampleWorld [] []) with
        m_data := some (exampleData ["-rw-r--r-- 1 root root 102 Nov 9 12:30 etc/passwd\r\n",
          "-rw-r--r-- 1 root root 102 Nov 9 12:30 log\r\n"]) }).1 =
      Except.ok (some (exampleLog.entry exampleNow))) ∧
    '/' ∉ (exampleLog.entry exampleNow).name :=
  have h := ftpReadDir_no_path_separator
    { exampleLoggedOn (exampleControl []) (exampleWorld [] []) with
      m_data := some (exampleData ["-rw-r--r-- 1 root root 102 Nov 9 12:30 etc/passwd\r\n",
        "-rw-r--r-- 1 root root 102 Nov 9 12:30 log\r\n"]) }
    exampleNow exampleSlash single "\r\n".toList []
  have hrun : (ftpReadDir { exampleLoggedOn (exampleControl []) (exampleWorld [] []) with
        m_data := some (exampleData ["-rw-r--r-- 1 root root 102 Nov 9 12:30 etc/passwd\r\n",
          "-rw-r--r-- 1 root root 102 Nov 9 12:30 log\r\n"]) }).1 =
      Except.ok (some (exampleLog.entry exampleNow)) := by decide!
  ⟨by decide, (h.2 fields_exampleSlash (Or.inr ⟨_, Or.inl rfl⟩) (by decide)).1, hrun,
    h.1 _ hrun⟩

/-- C13: the third date field is taken for a year whenever it has four
characters, although the comment on that test (line 1787) says "4 digits,
looks like a year": the time `9:05` has four characters.  The line
`-rw-r--r-- 1 root root 102 Nov 9 9:05 log`, read in November 2020, gives the
year 9 - 1900 = -1891 with hour and minute 0, while the same line with the time
written `09:05` gives 9:05 of the current year, 120. -/
theorem ftpReadDir_short_time_read_as_year :
    exampleShortClock.line single [] = "-rw-r--r-- 1 root root 102 Nov 9 9:05 log".toList ∧
    (ftpReadDirLine exampleNow "-rw-r--r-- 1 root root 102 Nov 9 9:05 log".toList).map
      (fun de => (de.date.tm_year, de.date.tm_mon, de.date.tm_mday, de.date.tm_hour,
        de.date.tm_min)) = some (-1891, 10, 9, 0, 0) ∧
    (ftpReadDirLine exampleNow "-rw-r--r-- 1 root root 102 Nov 9 09:05 log".toList).map
      (fun de => (de.date.tm_year, de.date.tm_mon, de.date.tm_mday, de.date.tm_hour,
        de.date.tm_min)) = some (120, 10, 9, 9, 5) ∧
    exampleNow.tm_year = 120 ∧ exampleNow.tm_mon = 10 := by
  decide!

/-- C14: the line of a device in the style of `/dev`, where a field with a
comma (the major number) stands before the size field: the field with the
comma is ignored, the size is the decimal value of the field behind it, and
owner, group, date and name are those of the entry (its day, hours and minutes
being numbers below 2^31, as `Listed.WellFormed` asks). -/
theorem ftpReadDir_device_line (now : Tm) (e : Listed) (major : Bytes) (gap : Nat → Nat)
    (eol : Bytes) (h : e.WellFormed) (hmajor : isToken major) (hcomma : ',' ∈ major)
    (heol : isEol eol) :
    ftpReadDirLine now (e.deviceLine major gap eol) = some (e.entry now) := by
  rw [ftpReadDirLine_device now e major gap eol h.toFields hmajor hcomma heol,
    nameField_parsed e h]
  simp only [Option.map_some', entryDate_rendered now e h, Listed.entry]

/-- C14 on the line of the specification,
`crw-rw-rw-   1 root     root       1,   5 Jun 29  1997 zero`: the name is
`zero`, the type that of a character device, the size 5 and the year 1997. -/
theorem ftpReadDir_device_line_witness :
    exampleZero.deviceLine "1,".toList exampleZeroGap "\r\n".toList =
      "crw-rw-rw-   1 root     root       1,   5 Jun 29  1997 zero\r\n".toList ∧
    ftpReadDirLine exampleNow (exampleZero.deviceLine "1,".toList exampleZeroGap "\r\n".toList) =
      some { name := "zero".toList, owner := "root".toList, group := "root".toList, link := [],
             size := 5, type := S_IFCHR, access := 0o666,
             date := { exampleNow with tm_sec := 0, tm_min := 0, tm_hour := 0, tm_mday := 29,
                                       tm_mon := 5, tm_year := 97 } } :=
  ⟨by decide,
    ftpReadDir_device_line exampleNow exampleZero "1,".toList exampleZeroGap "\r\n".toList
      wellFormed_exampleZero (by decide) (by decide) (Or.inr ⟨_, Or.inl rfl⟩)⟩

/-- C15: the Netware line `d [RWCEAFMS] Admin 512 Oct 13 2004 PSI` is read as
the directory `PSI` of `Admin` with mode 0777, no group and size 512; but for
the line `d [SRWCEMFA] Admin 512 Oct 13 2004 PSI` the mode is 04777: the
permission characters are read at the offsets 1 to 9 from the one-character
access token, that is in the field of the rights, whose `S` sets the
set-user-id bit. -/
theorem ftpReadDir_netware_rights_read_as_mode :
    ftpReadDirLine exampleNow "d [RWCEAFMS] Admin 512 Oct 13 2004 PSI\r\n".toList =
      some { name := "PSI".toList, owner := "Admin".toList, group := [], link := [],
             size := 512, type := S_IFDIR, access := 0o777,
             date := { exampleNow with tm_sec := 0, tm_min := 0, tm_hour := 0, tm_mday := 13,
                                       tm_mon := 9, tm_year := 104 } } ∧
    (ftpReadDirLine exampleNow "d [SRWCEMFA] Admin 512 Oct 13 2004 PSI\r\n".toList).map
      (fun de => (de.name, de.access)) = some ("PSI".toList, 0o4777) := by
  decide!

end KioFtps

namespace KioFtps

/-! ## The footprint of a download outside its read loop -/

theorem Prim.apply_config (p : Prim) (s : Ftp) : (p.apply s).world.config = s.world.config := by
  cases p <;> simp only [Prim.apply, Ftp.log] <;> first | rfl | (split <;> rfl)

theorem StepsIn.steps_config {Q : Prim → Prop} {s s1 : Ftp} (h : StepsIn Q s s1) :
    s1.world.config = s.world.config :=
  StepsIn.induct (R := fun a b => b.world.config = a.world.config) (fun _ => rfl)
    (fun _ _ _ h1 h2 => h2.trans h1) (fun p s _ => Prim.apply_config p s) h

theorem controlEvent_not_upcall (e : Event) (h : controlEvent e) : downloadEvent e = false := by
  cases e <;> first | rfl | exact h.elim

theorem transfer_no_upcall (p : Prim) (s : Ftp) (h : transferPrim p) :
    ∀ e ∈ Prim.events p s, downloadEvent e = false := by
  intro e he
  cases p <;> simp only [Prim.events] at he <;>
    first
      | exact absurd he (List.not_mem_nil _)
      | exact h.elim
      | (rw [List.mem_singleton.mp he]; first | rfl | exact controlEvent_not_upcall _ h)
      | (split at he <;>
          first
            | exact absurd he (List.not_mem_nil _)
            | (rw [List.mem_singleton.mp he]; rfl)
            | skip)
  split at he
  · exact absurd he (List.not_mem_nil _)
  · rw [List.mem_singleton.mp he]
    rfl

theorem command_no_upcall (p : Prim) (s : Ftp) (h : commandPrim p) :
    ∀ e ∈ Prim.events p s, downloadEvent e = false := by
  rcases h with h | h | ⟨b, h⟩ | ⟨n, h⟩
  · exact transfer_no_upcall p s h
  · subst h
    intro e he
    simp only [Prim.events] at he
    rw [List.mem_singleton.mp he]
    rfl
  · subst h
    intro e he
    simp only [Prim.events] at he
    rw [List.mem_singleton.mp he]
    rfl
  · subst h
    intro e he
    simp only [Prim.events] at he
    exact absurd he (List.not_mem_nil _)

theorem within_command {α : Type} {m : M α} (h : Within transferPrim m) : Within commandPrim m :=
  h.within_mono fun _ hp => Or.inl hp

theorem within_control_command {α : Type} {m : M α} (h : Within (controlPrim (fun _ => True)) m) :
    Within commandPrim m :=
  within_command (h.within_mono controlPrim_transferPrim)

theorem within_ftpSize (fuel : Nat) (path : Bytes) (mode : Char) :
    Within commandPrim (ftpSize fuel path mode) := by
  unfold ftpSize
  repeat' first
    | with_reducible exact Within.within_pure _
    | with_reducible exact Within.within_getFtp
    | ((with_reducible refine Within.within_prim _ ?_);
        first
          | exact Or.inl trivial
          | exact Or.inr (Or.inl rfl)
          | exact Or.inr (Or.inr (Or.inl ⟨_, rfl⟩))
          | exact Or.inr (Or.inr (Or.inr ⟨_, rfl⟩)))
    | with_reducible exact within_command (within_ftpDataMode _ _)
    | with_reducible exact within_command (within_transfer_send _ _ _)
    | with_reducible exact within_control_command (Within.ftpResponse _)
    | with_reducible apply Within.within_bind
    | intro _
    | split
    | dsimp only

theorem within_encryptDataChannel : Within commandPrim encryptDataChannel := by
  unfold encryptDataChannel
  repeat' first
    | with_reducible exact Within.within_pure _
    | with_reducible exact Within.within_fault _
    | with_reducible exact Within.within_getFtp
    | ((with_reducible refine Within.within_prim _ ?_);
        first
          | exact Or.inl trivial
          | exact Or.inr (Or.inl rfl)
          | exact Or.inr (Or.inr (Or.inl ⟨_, rfl⟩))
          | exact Or.inr (Or.inr (Or.inr ⟨_, rfl⟩)))
    | with_reducible apply Within.within_bind
    | intro _
    | split
    | dsimp only

theorem within_ftpOpenCommandAccepted (command : Bytes) (offset : Int) (useDataEnc : Bool) :
    Within commandPrim (ftpOpenCommandAccepted command offset useDataEnc) := by
  unfold ftpOpenCommandAccepted
  repeat' first
    | with_reducible exact Within.within_pure _
    | with_reducible exact Within.within_getFtp
    | ((with_reducible refine Within.within_prim _ ?_);
        first
          | exact Or.inl trivial
          | exact Or.inr (Or.inl rfl)
          | exact Or.inr (Or.inr (Or.inl ⟨_, rfl⟩))
          | exact Or.inr (Or.inr (Or.inr ⟨_, rfl⟩)))
    | with_reducible exact within_encryptDataChannel
    | with_reducible exact within_control_command (Within.error _ _)
    | with_reducible apply Within.within_bind
    | intro _
    | split
    | dsimp only

theorem within_ftpOpenCommandSend (fuel : Nat) (command path : Bytes) (errorcode : KioError)
    (offset : Int) (useDataEnc : Bool) :
    Within commandPrim (ftpOpenCommandSend fuel command path errorcode offset useDataEnc) := by
  unfold ftpOpenCommandSend
  repeat' first
    | with_reducible exact Within.within_pure _
    | with_reducible exact Within.within_getFtp
    | with_reducible exact within_command (within_transfer_send _ _ _)
    | with_reducible exact within_ftpOpenCommandAccepted _ _ _
    | with_reducible exact within_control_command (Within.error _ _)
    | with_reducible apply Within.within_bind
    | intro _
    | split
    | dsimp only

theorem within_ftpOpenCommand (fuel : Nat) (command path : Bytes) (mode : Char)
    (errorcode : KioError) (offset : Int) :
    Within commandPrim (ftpOpenCommand fuel command path mode errorcode offset) := by
  have hO := within_command ((within_ftpOpenDataConnection fuel).within_mono openPrim_transferPrim)
  unfold ftpOpenCommand
  repeat' first
    | with_reducible exact Within.within_pure _
    | with_reducible exact Within.within_getFtp
    | with_reducible exact within_command (within_ftpDataMode _ _)
    | with_reducible exact hO
    | with_reducible exact within_control_command (within_ctl_requestDataEncryption _)
    | with_reducible exact within_control_command (within_ftpOpenCommandRest _ _ _)
    | with_reducible exact within_ftpOpenCommandSend _ _ _ _ _ _
    | with_reducible exact within_control_command (Within.error _ _)
    | with_reducible apply Within.within_bind
    | intro _
    | split
    | dsimp only

theorem within_ftpCloseCommand : Within transferPrim ftpCloseCommand := by
  unfold ftpCloseCommand
  repeat' first
    | with_reducible exact Within.within_pure _
    | with_reducible exact Within.within_getFtp
    | ((with_reducible refine Within.within_prim _ ?_); exact trivial)
    | with_reducible exact (Within.ftpResponse _).within_mono controlPrim_transferPrim
    | with_reducible apply Within.within_bind
    | intro _
    | split
    | dsimp only

theorem within_ftpGetSize : Within commandPrim ftpGetSize := by
  unfold ftpGetSize
  repeat' first
    | with_reducible exact Within.within_pure _
    | with_reducible exact Within.within_getFtp
    | ((with_reducible refine Within.within_prim _ ?_);
        first
          | exact Or.inl trivial
          | exact Or.inr (Or.inl rfl)
          | exact Or.inr (Or.inr (Or.inl ⟨_, rfl⟩))
          | exact Or.inr (Or.inr (Or.inr ⟨_, rfl⟩)))
    | with_reducible exact within_control_command (Within.ftpResponse _)
    | with_reducible apply Within.within_bind
    | intro _
    | split
    | dsimp only

theorem Prim.apply_size (p : Prim) (s : Ftp) (h : transferPrim p) :
    (p.apply s).m_size = s.m_size := by
  cases p <;> simp only [Prim.apply, Ftp.log] <;>
    first | rfl | exact h.elim | (split <;> rfl) | skip

theorem StepsIn.steps_size {s s1 : Ftp} (h : StepsIn transferPrim s s1) : s1.m_size = s.m_size :=
  StepsIn.induct (R := fun a b => b.m_size = a.m_size) (fun _ => rfl)
    (fun _ _ _ h1 h2 => h2.trans h1) (fun p s hp => Prim.apply_size p s hp) h

/-- A computation within a footprint keeps every property that the footprint
keeps. -/
theorem Hoare.of_within {α : Type} {Q : Prim → Prop} {I : Ftp → Prop} {m : M α}
    (hW : Within Q m) (hI : ∀ s s1, StepsIn Q s s1 → I s → I s1) : Hoare I m (fun _ => I) :=
  ⟨fun s hs _ _ => hI s _ (hW.run s) hs⟩

theorem Hoare.getFtp_keep {β : Type} {P : Ftp → Prop} {Q : β → Ftp → Prop} {f : Ftp → M β}
    (h : ∀ s0, Hoare P (f s0) Q) : Hoare P (getFtp >>= f) Q :=
  ⟨fun s hs => (h s).run s hs⟩

/-! ## The footprint of the read loop of `ftpGet` -/

theorem take_length_ne_nil (buffer block : Bytes) (h : block ≠ []) :
    (buffer ++ block).take block.length ≠ [] := by
  cases block with
  | nil => exact absurd rfl h
  | cons c cs =>
    cases buffer with
    | nil => simp
    | cons b bs => simp

end KioFtps

namespace KioFtps

/-! ## The end of the data in the read loop of `ftpGet` -/

/-- A download of a file of five bytes whose data connection ends after two:
`get` reports `ERR_COULD_NOT_READ` and emits neither `mimeType`, nor a chunk of
data, nor `finished`. -/
theorem get_premature_end_of_data :
    ((get 9 "/pub/hello".toList (exampleUser (exampleControl exampleRetrSized)
        (exampleWorld [] [exampleReads ["he"]]))).2.trace.drop 15) =
      [Event.dataEncrypt true, Event.dataRecv "he".toList, Event.processedSize 2,
        Event.error KioError.ERR_COULD_NOT_READ "/pub/hello".toList, Event.dataClose,
        Event.controlReply 226 "226 done\r\n".toList] := by
  decide!

end KioFtps

namespace KioFtps

/-! ## The order of the upcalls of a download -/

theorem recvBytes_append (a b : List Event) : recvBytes (a ++ b) = recvBytes a + recvBytes b := by
  induction a with
  | nil => simp [recvBytes]
  | cons e es ih =>
    have ih1 : recvBytes (es.append b) = recvBytes es + recvBytes b := ih
    cases e <;> simp only [List.cons_append, recvBytes, ih] <;> first | rfl | omega

theorem foldl_getStep_no_upcall (size : Option Nat) (es : List Event)
    (h : ∀ e ∈ es, downloadEvent e = false) (st : GetPhase × Nat) :
    es.foldl (getStep size) st = st := by
  induction es generalizing st with
  | nil => rfl
  | cons e es ih =>
    have he : getStep size st e = st := by
      have := h e (List.mem_cons_self _ _)
      cases e <;> first | rfl | exact Bool.noConfusion this
    rw [List.foldl_cons, he]
    exact ih (fun x hx => h x (List.mem_cons_of_mem _ hx)) st

theorem ftpGetMime_run (mimetypeEmitted : Bool) (chunk : Bytes) (s : Ftp) :
    ∃ s1, ftpGetMime mimetypeEmitted chunk s = (Except.ok (), s1) ∧
      s1.trace = s.trace ++ mimeUpcalls mimetypeEmitted s.m_size chunk ∧ s1.m_size = s.m_size := by
  unfold ftpGetMime mimeUpcalls
  cases mimetypeEmitted with
  | true => exact ⟨s, rfl, by simp, rfl⟩
  | false =>
    by_cases hu : (s.m_size != UnknownSize) = true
    · refine ⟨(Prim.emit (Event.totalSize s.m_size)).apply
          ((Prim.emit (Event.mimeType chunk)).apply s), ?_, ?_, rfl⟩
      · simp only [Bool.false_eq_true, if_false, run_getFtp_bind, run_prim_bind, hu, if_true,
          run_prim]
      · simp [Prim.apply, Ftp.log, hu]
    · refine ⟨(Prim.emit (Event.mimeType chunk)).apply s, ?_, ?_, rfl⟩
      · simp only [Bool.false_eq_true, if_false, run_getFtp_bind, run_prim_bind, hu, run_pure]
      · simp [Prim.apply, Ftp.log, hu]

theorem ftpGetDeliver_run (chunk : Bytes) (processed_size : Int) (s : Ftp) :
    ∃ s1, ftpGetDeliver (-1) chunk processed_size s = (Except.ok none, s1) ∧
      s1.trace = s.trace ++ [Event.data chunk, Event.processedSize (toFilesize processed_size)] ∧
      s1.m_size = s.m_size := by
  unfold ftpGetDeliver
  refine ⟨(Prim.emit (Event.processedSize (toFilesize processed_size))).apply
    ((Prim.emit (Event.data chunk)).apply s), ?_, ?_, rfl⟩
  · simp only [run_getFtp_bind, beq_self_eq_true, if_true, run_prim_bind, run_pure]
  · simp [Prim.apply, Ftp.log]

theorem foldl_getStep_chunk (mimetypeEmitted : Bool) (m_size : Nat) (c : Char) (cs chunk : Bytes)
    (hne : chunk ≠ []) (ph : GetPhase) (last p : Nat) (h : last ≤ p)
    (hph : if mimetypeEmitted then ph = GetPhase.streaming
      else ph = GetPhase.start ∨ ph = GetPhase.pending) :
    (Event.dataRecv (c :: cs) :: (mimeUpcalls mimetypeEmitted m_size chunk ++
        [Event.data chunk, Event.processedSize p])).foldl
      (getStep (knownSize m_size)) (ph, last) = (GetPhase.streaming, p) := by
  cases chunk with
  | nil => exact absurd rfl hne
  | cons c1 cs1 =>
    cases mimetypeEmitted with
    | true =>
      simp only [if_true] at hph
      subst hph
      simp [mimeUpcalls, getStep, h]
    | false =>
      simp only [Bool.false_eq_true, if_false] at hph
      by_cases hu : m_size = UnknownSize <;> rcases hph with hph | hph <;> subst hph <;>
        simp [mimeUpcalls, getStep, knownSize, hu, h]

theorem recvBytes_chunk (mimetypeEmitted : Bool) (m_size : Nat) (chunk : Bytes) (p : Nat) :
    recvBytes (mimeUpcalls mimetypeEmitted m_size chunk ++
      [Event.data chunk, Event.processedSize p]) = 0 := by
  cases mimetypeEmitted <;> by_cases hu : m_size = UnknownSize <;>
    simp [mimeUpcalls, recvBytes, hu]

/-- A pass of the read loop that has read the bytes `c :: cs`, with the host
data pump as the sink: the pass goes on, it has counted the bytes, and its
events keep the order. -/
theorem ftpGetStep_upcalls (v : GetLoop) (iBlockSize : Int) (c : Char) (cs : Bytes) (s : Ftp) :
    ∃ v1 s1 evs, ftpGetStep (-1) v iBlockSize (c :: cs) s = (Except.ok (Sum.inr v1), s1) ∧
      s1.trace = s.trace ++ evs ∧ s1.m_size = s.m_size ∧ recvBytes evs = 0 ∧
      v1.processed_size = v.processed_size + ((cs.length + 1 : Nat) : Int) ∧
      (s.m_size ≠ UnknownSize →
        v1.bytesLeft = toFilesize ((v.bytesLeft : Int) - ((cs.length + 1 : Nat) : Int))) ∧
      ∀ ph last, v.inPhase s.m_size ph → last ≤ toFilesize v1.processed_size →
        ∃ ph1, v1.inPhase s.m_size ph1 ∧
          (Event.dataRecv (c :: cs) :: evs).foldl (getStep (knownSize s.m_size)) (ph, last) =
            (ph1, toFilesize v1.processed_size) := by
  have hlen : ((c :: cs).length : Int) = ((cs.length + 1 : Nat) : Int) := rfl
  have hweak : ∀ ph, v.inPhase s.m_size ph → if v.mimetypeEmitted then ph = GetPhase.streaming
      else ph = GetPhase.start ∨ ph = GetPhase.pending := by
    intro ph hph
    unfold GetLoop.inPhase at hph
    cases hm : v.mimetypeEmitted
    · rw [hm] at hph
      simp only [Bool.false_eq_true, if_false] at hph ⊢
      exact hph.imp id fun h => h.1
    · rw [hm] at hph
      exact hph
  unfold ftpGetStep
  simp only [run_getFtp_bind]
  by_cases hu : (s.m_size != UnknownSize) = true
  · rw [if_pos hu]
    by_cases ha : (decide (((v.buffer ++ c :: cs).length : Int) < mimimumMimeSize) &&
        decide (toFilesize ((v.bytesLeft : Int) - ((c :: cs).length : Int)) > 0)) = true
    · rw [if_pos ha]
      refine ⟨⟨v.processed_size + ((c :: cs).length : Int),
          toFilesize ((v.bytesLeft : Int) - ((c :: cs).length : Int)), iBlockSize,
          v.buffer ++ c :: cs, v.mimetypeEmitted⟩, (Prim.emit (Event.processedSize
          (toFilesize (v.processed_size +
          ((c :: cs).length : Int))))).apply s, [Event.processedSize (toFilesize (v.processed_size +
          ((c :: cs).length : Int)))], ?_, ?_, rfl, rfl, rfl, fun _ => rfl, ?_⟩
      · simp only [run_prim_bind, run_pure]
      · simp [Prim.apply, Ftp.log]
      · intro ph last hph hl
        have hw := hweak ph hph
        have hleft : 0 < toFilesize ((v.bytesLeft : Int) - ((c :: cs).length : Int)) := by
          simp only [Bool.and_eq_true, decide_eq_true_eq] at ha
          exact ha.2
        have hk : s.m_size ≠ UnknownSize := by simpa using hu
        unfold GetLoop.inPhase
        cases hm : v.mimetypeEmitted
        · rw [hm] at hw
          simp only [Bool.false_eq_true, if_false] at hw
          refine ⟨GetPhase.pending, ?_, ?_⟩
          · rw [if_neg (by simp)]
            exact Or.inr ⟨rfl, hk, hleft⟩
          · rcases hw with hw | hw <;> subst hw <;> simp [getStep] <;> exact hl
        · rw [hm] at hw
          simp only [if_true] at hw
          subst hw
          refine ⟨GetPhase.streaming, by simp, ?_⟩
          simp [getStep]
          exact hl
    · rw [if_neg ha]
      obtain ⟨s1, h1, t1, z1⟩ := ftpGetMime_run v.mimetypeEmitted (v.buffer ++ c :: cs) s
      obtain ⟨s2, h2, t2, z2⟩ := ftpGetDeliver_run (v.buffer ++ c :: cs)
        (v.processed_size + ((c :: cs).length : Int)) s1
      refine ⟨⟨v.processed_size + ((c :: cs).length : Int),
          toFilesize ((v.bytesLeft : Int) - ((c :: cs).length : Int)), iBlockSize, [], true⟩,
        s2, mimeUpcalls v.mimetypeEmitted s.m_size (v.buffer ++ c :: cs) ++
        [Event.data (v.buffer ++ c :: cs), Event.processedSize (toFilesize (v.processed_size +
          ((c :: cs).length : Int)))], ?_, ?_, z2.trans z1, recvBytes_chunk _ _ _ _, rfl,
        fun _ => rfl, ?_⟩
      · rw [run_bind_ok h1, run_bind_ok h2]
        rfl
      · rw [t2, t1, List.append_assoc]
      · intro ph last hph hl
        exact ⟨GetPhase.streaming, by simp [GetLoop.inPhase],
          foldl_getStep_chunk _ _ _ _ _ (by simp) ph last _ hl (hweak ph hph)⟩
  · rw [if_neg hu]
    obtain ⟨s1, h1, t1, z1⟩ := ftpGetMime_run v.mimetypeEmitted
      ((v.buffer ++ c :: cs).take (c :: cs).length) s
    obtain ⟨s2, h2, t2, z2⟩ := ftpGetDeliver_run ((v.buffer ++ c :: cs).take (c :: cs).length)
      (v.processed_size + ((c :: cs).length : Int)) s1
    refine ⟨⟨v.processed_size + ((c :: cs).length : Int), v.bytesLeft, iBlockSize, v.buffer, true⟩,
      s2, mimeUpcalls v.mimetypeEmitted s.m_size
        ((v.buffer ++ c :: cs).take (c :: cs).length) ++
      [Event.data ((v.buffer ++ c :: cs).take (c :: cs).length),
        Event.processedSize (toFilesize (v.processed_size + ((c :: cs).length : Int)))], ?_, ?_,
      z2.trans z1, recvBytes_chunk _ _ _ _, rfl, fun hk => ?_, ?_⟩
    · rw [run_bind_ok h1, run_bind_ok h2]
      rfl
    · rw [t2, t1, List.append_assoc]
    · exact absurd (by simpa using hk) hu
    · intro ph last hph hl
      exact ⟨GetPhase.streaming, by simp [GetLoop.inPhase],
        foldl_getStep_chunk _ _ _ _ _ (take_length_ne_nil _ _ (List.cons_ne_nil _ _)) ph last _ hl
          (hweak ph hph)⟩

theorem dataRead_size (maxlen : Int) (s : Ftp) :
    ((Prim.dataRead maxlen).apply s).m_size = s.m_size := by
  simp only [Prim.apply]
  split <;> first | rfl | (split <;> rfl)

theorem toFilesize_of_nonneg (x : Int) (h0 : 0 ≤ x) (h1 : x < 2 ^ 63) : toFilesize x = x.toNat := by
  unfold toFilesize
  congr 1
  omega

/-- A pass of the read loop at which nothing is left to read starts in the
phase `start` or `streaming`. -/
theorem inPhase_at_end (v : GetLoop) (m_size : Nat) (ph : GetPhase) (h : v.inPhase m_size ph)
    (hend : m_size = UnknownSize ∨ v.bytesLeft = 0) :
    ph = GetPhase.start ∨ ph = GetPhase.streaming := by
  unfold GetLoop.inPhase at h
  cases hm : v.mimetypeEmitted
  · rw [hm] at h
    simp only [Bool.false_eq_true, if_false] at h
    rcases h with h | ⟨_, hk, hl⟩
    · exact Or.inl h
    · rcases hend with he | he
      · exact absurd he hk
      · omega
  · rw [hm] at h
    exact Or.inr h

/-- The read loop of `ftpGet` with the host data pump as the sink, from any
pass at which `bytesLeft` is what the size and the bytes processed tell: when
it ends, and the count of bytes has not wrapped, the bytes processed are those
before plus those read, they are no more than a known size, and the events of
the loop keep the order. -/
theorem ftpGetLoop_upcalls (llOffset : Int) : ∀ (fuel : Nat) (v : GetLoop) (s : Ftp) (r : Int)
    (s1 : Ftp), 0 ≤ v.processed_size →
    (s.m_size ≠ UnknownSize → v.bytesLeft = toFilesize ((s.m_size : Int) - v.processed_size)) →
    ftpGetLoop (-1) llOffset fuel v s = (Except.ok (Sum.inr r), s1) →
    ∃ added, s1.trace = s.trace ++ added ∧ s1.m_size = s.m_size ∧
      (v.processed_size + (recvBytes added : Int) < 2 ^ 63 →
        r = v.processed_size + (recvBytes added : Int) ∧
        (s.m_size ≠ UnknownSize → toFilesize r ≤ s.m_size) ∧
        ∀ ph last, v.inPhase s.m_size ph → last ≤ toFilesize v.processed_size →
          ∃ ph1 last1, (ph1 = GetPhase.start ∨ ph1 = GetPhase.streaming) ∧
            last1 ≤ toFilesize r ∧
            added.foldl (getStep (knownSize s.m_size)) (ph, last) = (ph1, last1)) := by
  intro fuel
  induction fuel with
  | zero =>
    intro v s r s1 _ _ h
    unfold ftpGetLoop at h
    exact nomatch h
  | succ n ih =>
    intro v s r s1 hp hinv h
    unfold ftpGetLoop at h
    simp only [run_getFtp_bind] at h
    by_cases hc : (!(s.m_size == UnknownSize || decide (v.bytesLeft > 0))) = true
    · rw [if_pos hc] at h
      have hr : v.processed_size = r := Sum.inr.inj (Except.ok.inj (Prod.mk.inj h).1)
      have hs : s = s1 := (Prod.mk.inj h).2
      subst hr hs
      simp only [Bool.not_eq_true', Bool.or_eq_false_iff, beq_eq_false_iff_ne,
        decide_eq_false_iff_not, Nat.not_lt, Nat.le_zero] at hc
      refine ⟨[], by simp, rfl, fun hb => ⟨by simp [recvBytes], fun _ => ?_, fun ph last hph hl =>
        ⟨ph, last, inPhase_at_end v _ ph hph (Or.inr hc.2), hl, rfl⟩⟩⟩
      have h0 := hinv hc.1
      rw [hc.2] at h0
      simp only [recvBytes, Nat.cast_zero, add_zero] at hb
      rw [toFilesize_of_nonneg _ hp hb]
      unfold toFilesize at h0
      omega
    · rw [if_neg hc] at h
      cases hd : s.m_data with
      | none =>
        simp only [hd] at h
        exact nomatch h
      | some d =>
        simp only [hd, run_prim_bind] at h
        have htr : ((Prim.dataRead (ftpGetBlockSize v llOffset)).apply s).trace =
            s.trace ++ Prim.events (Prim.dataRead (ftpGetBlockSize v llOffset)) s :=
          Prim.apply_trace _ _
        have hsz := dataRead_size (ftpGetBlockSize v llOffset) s
        cases hrd : readBlock d.reads (ftpGetBlockSize v llOffset) with
        | none =>
          simp only [hrd] at h
          exact nomatch h
        | some block =>
          cases block with
          | nil =>
            simp only [hrd] at h
            simp only [Prim.events, hd, hrd, List.append_nil] at htr
            by_cases hu : (s.m_size == UnknownSize) = true
            · rw [if_pos hu] at h
              have hr : v.processed_size = r := Sum.inr.inj (Except.ok.inj (Prod.mk.inj h).1)
              have hs := (Prod.mk.inj h).2
              subst hr hs
              have hu1 : s.m_size = UnknownSize := by simpa using hu
              refine ⟨[], by simp [htr], hsz, fun hb => ⟨by simp [recvBytes], fun hk => ?_,
                fun ph last hph hl =>
                  ⟨ph, last, inPhase_at_end v _ ph hph (Or.inl hu1), hl, rfl⟩⟩⟩
              exact absurd hu1 hk
            · rw [if_neg hu] at h
              exact nomatch h
          | cons c cs =>
            simp only [hrd] at h
            simp only [Prim.events, hd, hrd] at htr
            obtain ⟨v1, s2, evs, hstep, t2, z2, rb, hp1, hbl, hfold⟩ :=
              ftpGetStep_upcalls v (ftpGetBlockSize v llOffset) c cs
                ((Prim.dataRead (ftpGetBlockSize v llOffset)).apply s)
            rw [run_bind_ok hstep] at h
            have hz : s2.m_size = s.m_size := z2.trans hsz
            have hp2 : 0 ≤ v1.processed_size := by omega
            have hinv1 : s2.m_size ≠ UnknownSize →
                v1.bytesLeft = toFilesize ((s2.m_size : Int) - v1.processed_size) := by
              intro hk
              rw [hz] at hk ⊢
              rw [hbl (by rw [hsz]; exact hk), hinv hk, hp1]
              unfold toFilesize
              congr 1
              omega
            obtain ⟨added1, t1, z1, hrest⟩ := ih v1 s2 r s1 hp2 hinv1 h
            refine ⟨Event.dataRecv (c :: cs) :: (evs ++ added1), ?_, z1.trans hz, fun hb => ?_⟩
            · rw [t1, t2, htr]
              simp
            · have hrb : recvBytes (Event.dataRecv (c :: cs) :: (evs ++ added1)) =
                  (cs.length + 1) + recvBytes added1 := by
                simp only [recvBytes, recvBytes_append, rb, List.length_cons]
                omega
              rw [hrb] at hb ⊢
              push_cast at hb hp1 ⊢
              obtain ⟨e1, e2, e3⟩ := hrest (by omega)
              refine ⟨by omega, fun hk => ?_, fun ph last hph hl => ?_⟩
              · rw [← hz]
                exact e2 (by rw [hz]; exact hk)
              · have hl1 : last ≤ toFilesize v1.processed_size := by
                  rw [toFilesize_of_nonneg _ hp (by omega)] at hl
                  rw [toFilesize_of_nonneg _ hp2 (by omega)]
                  omega
                rw [← hsz] at hph
                obtain ⟨ph1, hph1, hf1⟩ := hfold ph last hph hl1
                rw [hsz, ← hz] at hph1
                obtain ⟨ph2, last2, hph2, hle, hf⟩ :=
                  e3 ph1 (toFilesize v1.processed_size) hph1 (le_refl _)
                refine ⟨ph2, last2, hph2, hle, ?_⟩
                rw [← List.cons_append, List.foldl_append, ← hsz, hf1, hsz, ← hz]
                exact hf

end KioFtps

namespace KioFtps

/-! ## The events of a whole download -/

theorem ftpGetDone_run (processed_size : Int) (s : Ftp) :
    ∃ s1, ftpGetDone (-1) processed_size s = (Except.ok (StatusCode.statusSuccess, none), s1) ∧
      s1.trace = s.trace ++ [Event.data [], Event.processedSize
        (if s.m_size == UnknownSize then toFilesize processed_size else s.m_size), Event.finished] ∧
      s1.m_size = s.m_size := by
  unfold ftpGetDone
  refine ⟨(Prim.emit Event.finished).apply ((Prim.emit (Event.processedSize
    (if s.m_size == UnknownSize then toFilesize processed_size else s.m_size))).apply
      ((Prim.emit (Event.data [])).apply s)), ?_, ?_, rfl⟩
  · simp only [beq_self_eq_true, if_true, run_prim_bind, run_getFtp_bind, run_pure]
    rfl
  · simp [Prim.apply, Ftp.log]

theorem recvBytes_no_event (es : List Event) (h : ∀ e ∈ es, downloadEvent e = false) :
    recvBytes es = 0 := by
  induction es with
  | nil => rfl
  | cons e es ih =>
    have he := h e (List.mem_cons_self _ _)
    have ht := ih fun x hx => h x (List.mem_cons_of_mem _ hx)
    cases e <;> first | exact ht | exact Bool.noConfusion he

/-- What follows the accepted `retr`, when it ends with success: the events
added since `s0` are events that are none of the download, followed by events
of the download in their order. -/
theorem hoare_ftpGetTransfer_upcalls (s0 : Ftp) (fuel : Nat) (llOffset : Int)
    (hoff : 0 ≤ llOffset) :
    Hoare (Emits (fun e => downloadEvent e = false) s0) (ftpGetTransfer fuel (-1) llOffset)
      (fun r s1 => r = (StatusCode.statusSuccess, none) →
        ∃ pre added, s1.trace = s0.trace ++ (pre ++ added) ∧
          (∀ e ∈ pre, downloadEvent e = false) ∧
          (llOffset + (recvBytes added : Int) < 2 ^ 63 →
            ∃ last, added.foldl (getStep (knownSize s1.m_size)) (GetPhase.start, 0) =
              (GetPhase.done, last))) := by
  constructor
  intro s hs r hr hsucc
  obtain ⟨pre0, hpre0, hno0⟩ := hs
  rcases hT : ftpGetTransfer fuel (-1) llOffset s with ⟨res, sT⟩
  rw [hT] at hr
  simp only at hr ⊢
  unfold ftpGetTransfer at hT
  have eS : Emits (fun e => downloadEvent e = false) s (ftpGetSize s).2 :=
    StepsIn.emits command_no_upcall (within_ftpGetSize.run s)
  rcases hS : ftpGetSize s with ⟨r0, sa⟩
  rw [hS] at eS
  obtain ⟨preS, hpreS, hnoS⟩ := eS
  cases r0 with
  | error e =>
    rw [run_bind_error hS] at hT
    rw [← (Prod.mk.inj hT).1] at hr
    exact nomatch hr
  | ok u =>
    rw [run_bind_ok hS] at hT
    simp only [run_getFtp_bind] at hT
    rcases hL : ftpGetLoop (-1) llOffset fuel ⟨llOffset,
      if (sa.m_size != UnknownSize) = true then toFilesize ((sa.m_size : Int) - llOffset) else 0,
      initialIpcSize, [], false⟩ sa with ⟨rl, sb⟩
    cases rl with
    | error e =>
      rw [run_bind_error hL] at hT
      rw [← (Prod.mk.inj hT).1] at hr
      exact nomatch hr
    | ok x =>
      rw [run_bind_ok hL] at hT
      cases x with
      | inl e =>
        simp only [run_pure] at hT
        rw [← (Prod.mk.inj hT).1, hsucc] at hr
        exact Option.noConfusion (congrArg Prod.snd (Except.ok.inj hr))
      | inr p =>
        simp only at hT
        obtain ⟨sd, hD, tD, zD⟩ := ftpGetDone_run p sb
        rw [hD] at hT
        have hsT : sd = sT := (Prod.mk.inj hT).2
        subst hsT
        obtain ⟨added, tL, zL, hrest⟩ := ftpGetLoop_upcalls llOffset fuel _ sa p sb hoff
          (fun hk => by
            have : (sa.m_size != UnknownSize) = true := by simpa using hk
            simp only [this, if_true]) hL
        refine ⟨pre0 ++ preS, added ++ [Event.data [], Event.processedSize
          (if sb.m_size == UnknownSize then toFilesize p else sb.m_size), Event.finished], ?_, ?_,
          fun hb => ?_⟩
        · rw [tD, tL, hpreS, hpre0]
          simp
        · intro e he
          rcases List.mem_append.mp he with h | h
          · exact hno0 e h
          · exact hnoS e h
        · have hrb : recvBytes (added ++ [Event.data [], Event.processedSize
              (if sb.m_size == UnknownSize then toFilesize p else sb.m_size), Event.finished]) =
              recvBytes added := by
            simp [recvBytes_append, recvBytes]
          rw [hrb] at hb
          obtain ⟨e1, e2, e3⟩ := hrest hb
          obtain ⟨ph1, last1, hph1, hle, hf⟩ := e3 GetPhase.start 0
            (by simp [GetLoop.inPhase]) (Nat.zero_le _)
          rw [List.foldl_append, zD, zL, hf]
          by_cases hu : sa.m_size = UnknownSize
          · rcases hph1 with h | h <;> subst h <;> simp [getStep, hu, hle]
          · have hle2 := e2 hu
            have hle3 : last1 ≤ sa.m_size := le_trans hle hle2
            rcases hph1 with h | h <;> subst h <;> simp [getStep, hu, hle3]

theorem Hoare.getFtp_inv {β : Type} {P : Ftp → Prop} {Q : β → Ftp → Prop} {f : Ftp → M β}
    (h : ∀ s0, P s0 → Hoare P (f s0) Q) : Hoare P (getFtp >>= f) Q :=
  ⟨fun s hs => (h s hs).run s hs⟩

/-- The invariant of a download before its transfer starts: only events that
are none of the download have been added since `s0`, and the configuration is
that of `s0`. -/
theorem hoare_command_quiet {α : Type} (s0 : Ftp) {m : M α} (h : Within commandPrim m) :
    Hoare (fun s => Emits (fun e => downloadEvent e = false) s0 s ∧
        s.world.config = s0.world.config) m
      (fun _ s => Emits (fun e => downloadEvent e = false) s0 s ∧
        s.world.config = s0.world.config) :=
  Hoare.of_within h fun _ _ hs hI =>
    ⟨hI.1.emits_trans (StepsIn.emits command_no_upcall hs), hs.steps_config.trans hI.2⟩

theorem hoare_ftpGet_upcalls (s0 : Ftp) (fuel : Nat) (path : Bytes) (llOffset0 : Int)
    (hoff : 0 ≤ resumeOffset s0.world.config llOffset0) :
    Hoare (fun s => Emits (fun e => downloadEvent e = false) s0 s ∧
        s.world.config = s0.world.config) (ftpGet fuel (-1) path llOffset0)
      (fun r s1 => r = (StatusCode.statusSuccess, none) →
        ∃ pre added, s1.trace = s0.trace ++ (pre ++ added) ∧
          (∀ e ∈ pre, downloadEvent e = false) ∧
          (resumeOffset s0.world.config llOffset0 + (recvBytes added : Int) < 2 ^ 63 →
            ∃ last, added.foldl (getStep (knownSize s1.m_size)) (GetPhase.start, 0) =
              (GetPhase.done, last))) := by
  have hC := Within.control (fun _ => True) fuel
  have hfail : ∀ (st : StatusCode) (e : Option KioError), st ≠ StatusCode.statusSuccess →
      Hoare (fun s => Emits (fun e => downloadEvent e = false) s0 s ∧
        s.world.config = s0.world.config) (pure (st, e) : M (StatusCode × Option KioError))
      (fun r s1 => r = (StatusCode.statusSuccess, none) →
        ∃ pre added, s1.trace = s0.trace ++ (pre ++ added) ∧
          (∀ e ∈ pre, downloadEvent e = false) ∧
          (resumeOffset s0.world.config llOffset0 + (recvBytes added : Int) < 2 ^ 63 →
            ∃ last, added.foldl (getStep (knownSize s1.m_size)) (GetPhase.start, 0) =
              (GetPhase.done, last))) :=
    fun st e hne => Hoare.hoare_pure _ fun _ _ h => absurd (congrArg Prod.fst h) hne
  unfold ftpGet
  refine Hoare.hoare_bind (hoare_command_quiet s0 (within_control_command (hC.2.2.1 _)))
    fun opened => ?_
  split
  · exact hfail _ _ (by decide)
  refine Hoare.hoare_bind (hoare_command_quiet s0 (within_ftpSize _ _ _)) fun sized => ?_
  refine Hoare.getFtp_keep fun s1 => ?_
  refine Hoare.hoare_bind (R := fun _ s => Emits (fun e => downloadEvent e = false) s0 s ∧
    s.world.config = s0.world.config) ?_ fun isDir => ?_
  · split
    · exact hoare_command_quiet s0 (within_control_command (hC.2.2.2.2.2.2.2.2.2 _ _))
    · exact Hoare.hoare_pure _ fun _ h => h
  split
  · exact hfail _ _ (by decide)
  refine Hoare.getFtp_inv fun s hI => ?_
  have hres : (if (!s.world.config.resume.isEmpty) = true then toLongLong s.world.config.resume
      else llOffset0) = resumeOffset s0.world.config llOffset0 := by
    rw [hI.2]
    rfl
  simp only [hres]
  refine Hoare.hoare_bind (hoare_command_quiet s0 (within_ftpOpenCommand _ _ _ _ _ _))
    fun cmdOk => ?_
  split
  · exact hfail _ _ (by decide)
  · exact Hoare.weaken (fun _ h => h.1) (hoare_ftpGetTransfer_upcalls s0 fuel _ hoff)

theorem get_state (fuel : Nat) (path : Bytes) (s : Ftp)
    (hok : (ftpGet fuel (-1) path 0 s).1 = Except.ok (StatusCode.statusSuccess, none)) :
    (get fuel path s).2 = (ftpCloseCommand (ftpGet fuel (-1) path 0 s).2).2 := by
  unfold get
  rcases hG : ftpGet fuel (-1) path 0 s with ⟨r, sG⟩
  rw [hG] at hok
  simp only at hok
  subst hok
  rw [run_bind_ok hG]
  simp only [run_pure_bind]
  rw [run_bind]
  rcases ftpCloseCommand sG with ⟨rc, sc⟩
  cases rc <;> rfl

/-- C17 (amended). In every run of `get` in which `ftpGet` returns
`statusSuccess` with no error, the resume offset is not negative and the count
of bytes does not pass 2^63, the events added to the trace are accepted by the
order `getStep`: `mimeType` is emitted once, after the first bytes were read
and before every chunk of data, and not at all when no byte is read;
`totalSize` comes directly after `mimeType` if and only if the size is known;
the arguments of `processedSize` never decrease; and the last data upcall is
the one empty chunk, followed by `finished`. -/
theorem get_upcall_order (fuel : Nat) (path : Bytes) (s : Ftp) (added : List Event)
    (hok : (ftpGet fuel (-1) path 0 s).1 = Except.ok (StatusCode.statusSuccess, none))
    (htrace : (get fuel path s).2.trace = s.trace ++ added)
    (hoff : 0 ≤ resumeOffset s.world.config 0)
    (hlen : resumeOffset s.world.config 0 + (recvBytes added : Int) < 2 ^ 63) :
    ∃ last, added.foldl (getStep (knownSize (get fuel path s).2.m_size)) (GetPhase.start, 0) =
      (GetPhase.done, last) := by
  obtain ⟨pre, mid, hmid, hpre, hfold⟩ := (hoare_ftpGet_upcalls s fuel path 0 hoff).run s
    ⟨Emits.emits_refl _ s, rfl⟩ _ hok rfl
  have hst := get_state fuel path s hok
  have hcl := within_ftpCloseCommand.run (ftpGet fuel (-1) path 0 s).2
  rw [← hst] at hcl
  obtain ⟨post, hpost, hnone⟩ := StepsIn.emits transfer_no_upcall hcl
  have hsize := hcl.steps_size
  have hadded : added = pre ++ mid ++ post := by
    rw [hpost, hmid, List.append_assoc] at htrace
    exact (List.append_cancel_left htrace).symm
  subst hadded
  have hb : resumeOffset s.world.config 0 + (recvBytes mid : Int) < 2 ^ 63 := by
    simp only [recvBytes_append, Nat.cast_add] at hlen
    omega
  obtain ⟨last, hlast⟩ := hfold hb
  refine ⟨last, ?_⟩
  rw [List.foldl_append, List.foldl_append, foldl_getStep_no_upcall _ pre hpre, hsize, hlast]
  exact foldl_getStep_no_upcall _ post hnone _

theorem get_upcall_order_witness :
    (ftpGet 9 (-1) "/pub/hello".toList 0 (exampleUser (exampleControl exampleRetrSized)
      (exampleWorld [] [exampleReads ["he", "llo"]]))).1 =
        Except.ok (StatusCode.statusSuccess, none) ∧
    ∃ last, (get 9 "/pub/hello".toList (exampleUser (exampleControl exampleRetrSized)
      (exampleWorld [] [exampleReads ["he", "llo"]]))).2.trace.foldl
        (getStep (knownSize (get 9 "/pub/hello".toList (exampleUser (exampleControl
          exampleRetrSized) (exampleWorld [] [exampleReads ["he", "llo"]]))).2.m_size))
        (GetPhase.start, 0) = (GetPhase.done, last) :=
  ⟨by decide!,
    get_upcall_order 9 "/pub/hello".toList (exampleUser (exampleControl exampleRetrSized)
      (exampleWorld [] [exampleReads ["he", "llo"]])) _ (by decide!) (List.nil_append _).symm
      (by decide) (by decide!)⟩

/-- C17 (as stated) fails for a file without content: `get` succeeds, and its
upcalls are the empty chunk, `processedSize` and `finished`, with no
`mimeType` among them. -/
theorem get_empty_file_without_mimeType :
    (ftpGet 9 (-1) "/pub/empty".toList 0 (exampleUser (exampleControl exampleRetrReplies)
      (exampleWorld [] [exampleReads []]))).1 = Except.ok (StatusCode.statusSuccess, none) ∧
    (get 9 "/pub/empty".toList (exampleUser (exampleControl exampleRetrReplies)
      (exampleWorld [] [exampleReads []]))).2.trace.filter downloadEvent =
        [Event.data [], Event.processedSize 0, Event.finished] := by
  decide!

/-- A download of five bytes that come in two reads: the bytes are held back
until the size is reached, then `mimeType`, `totalSize` and the chunk follow. -/
theorem get_known_size_trace :
    (get 9 "/pub/hello".toList (exampleUser (exampleControl exampleRetrSized)
      (exampleWorld [] [exampleReads ["he", "llo"]]))).2.trace.filter downloadEvent =
        [Event.dataRecv "he".toList, Event.processedSize 2, Event.dataRecv "llo".toList,
          Event.mimeType "hello".toList, Event.totalSize 5, Event.data "hello".toList,
          Event.processedSize 5, Event.data [], Event.processedSize 5, Event.finished] := by
  decide!

end KioFtps

namespace KioFtps

/-! ## The last command on the control connection -/

end KioFtps

namespace KioFtps

/-! ## The commands of a transfer that resumes -/

end KioFtps

namespace KioFtps

/-! ## The data and the last commands of an upload -/

end KioFtps

namespace KioFtps

/-! ## An upload that resumes a `.part` file -/

end KioFtps

namespace KioFtps

/-! ## The TLS handshake on the control connection -/

/-- C21: the answers to the dialogs about certificate errors never set
`doNotIgnore`: started with `false` (line 435), the loop over the errors returns
`false` whatever the user answers, so the branch that reports
`ERR_SLAVE_DEFINED` "TLS Handshake Error." is never taken.  On a server with a
self-signed, expired certificate and a user who answers Cancel to both dialogs,
`ftpOpenControlConnection` closes the connection, connects again, starts the
handshake with the errors ignored and returns true; no error is reported. -/
theorem ftpOpenControlConnection_cancel_still_retries :
    (∀ errors s, (askSslErrors errors false s).1 = Except.ok false) ∧
    (ftpOpenControlConnection 9 "ftp.example".toList 0 false
      (exampleDeclining [exampleUntrusted ["self signed", "expired"] true,
        exampleUntrusted ["self signed", "expired"] true] [true, true])).1 = Except.ok true ∧
    (ftpOpenControlConnection 9 "ftp.example".toList 0 false
      (exampleDeclining [exampleUntrusted ["self signed", "expired"] true,
        exampleUntrusted ["self signed", "expired"] true] [true, true])).2.trace =
      [Event.controlConnect "ftp.example".toList 21,
       Event.controlReply 220 "220 hi\r\n".toList,
       Event.controlSend "AUTH TLS\r\n".toList,
       Event.controlReply 234 "234 go on\r\n".toList,
       Event.controlEncrypt false,
       Event.messageBox "self signed".toList,
       Event.messageBox "expired".toList,
       Event.controlClose,
       Event.controlConnect "ftp.example".toList 21,
       Event.controlReply 220 "220 hi\r\n".toList,
       Event.controlSend "AUTH TLS\r\n".toList,
       Event.controlReply 234 "234 go on\r\n".toList,
       Event.controlEncrypt true] := by
  refine ⟨?_, by decide!, by decide!⟩
  intro errors
  induction errors with
  | nil => intro s; rfl
  | cons e es ih =>
    intro s
    unfold askSslErrors
    simp only [run_getFtp_bind, run_prim_bind]
    split <;> exact ih _

/-- C30: the retry of `ftpOpenControlConnection` is started after every failed
handshake, also in a pass that already ignores the certificate errors (line
455 is reached whatever `ignoreSslErrors` is).  With three successive
connections whose handshake fails even when the errors are ignored, the
function connects four times: the second and the third pass are retries with
`ignoreSslErrors = true` that end in a further retry, and the operation stops
only because the fourth connect fails.  With ten such connections it connects
eleven times. -/
theorem ftpOpenControlConnection_retries_unbounded :
    connectAttempts (ftpOpenControlConnection 9 "ftp.example".toList 0 false
      (exampleDeclining [exampleUntrusted ["e"] false, exampleUntrusted ["e"] false,
        exampleUntrusted ["e"] false] [false, false, false])).2.trace = 4 ∧
    connectAttempts (ftpOpenControlConnection 20 "ftp.example".toList 0 false
      (exampleDeclining (List.replicate 10 (exampleUntrusted ["e"] false)) [])).2.trace = 11 ∧
    (ftpOpenControlConnection 9 "ftp.example".toList 0 false
      (exampleDeclining [exampleUntrusted ["e"] false, exampleUntrusted ["e"] false,
        exampleUntrusted ["e"] false] [false, false, false])).2.trace =
      [Event.controlConnect "ftp.example".toList 21,
       Event.controlReply 220 "220 hi\r\n".toList,
       Event.controlSend "AUTH TLS\r\n".toList,
       Event.controlReply 234 "234 go on\r\n".toList,
       Event.controlEncrypt false,
       Event.messageBox "e".toList,
       Event.controlClose,
       Event.controlConnect "ftp.example".toList 21,
       Event.controlReply 220 "220 hi\r\n".toList,
       Event.controlSend "AUTH TLS\r\n".toList,
       Event.controlReply 234 "234 go on\r\n".toList,
       Event.controlEncrypt true,
       Event.messageBox "e".toList,
       Event.controlClose,
       Event.controlConnect "ftp.example".toList 21,
       Event.controlReply 220 "220 hi\r\n".toList,
       Event.controlSend "AUTH TLS\r\n".toList,
       Event.controlReply 234 "234 go on\r\n".toList,
       Event.controlEncrypt true,
       Event.messageBox "e".toList,
       Event.controlClose,
       Event.controlConnect "ftp.example".toList 21,
       Event.controlClose,
       Event.error KioError.ERR_COULD_NOT_CONNECT "ftp.example: ".toList] := by
  refine ⟨by decide!, by decide!, by decide!⟩

end KioFtps

namespace KioFtps

/-! ## Login: the credentials and the cache -/

/-- The nested tests of `ftpLogin` (lines 481-500) compute `startCredentials`. -/
theorem startCredentials_eq (cfg : Config) (user pass : Bytes) :
    ((if ((if (cfg.EnableAutoLogin && !cfg.autoLoginUser.isEmpty) = true then cfg.autoLoginUser
            else user).isEmpty &&
          (if (cfg.EnableAutoLogin && !cfg.autoLoginUser.isEmpty) = true then cfg.autoLoginPass
            else pass).isEmpty) = true then FTP_LOGIN
      else (if (cfg.EnableAutoLogin && !cfg.autoLoginUser.isEmpty) = true then cfg.autoLoginUser
            else user)),
     (if ((if (cfg.EnableAutoLogin && !cfg.autoLoginUser.isEmpty) = true then cfg.autoLoginUser
            else user).isEmpty &&
          (if (cfg.EnableAutoLogin && !cfg.autoLoginUser.isEmpty) = true then cfg.autoLoginPass
            else pass).isEmpty) = true then FTP_PASSWD
      else (if (cfg.EnableAutoLogin && !cfg.autoLoginUser.isEmpty) = true then cfg.autoLoginPass
            else pass))) = startCredentials cfg user pass := by
  unfold startCredentials
  cases cfg.EnableAutoLogin <;> cases cfg.autoLoginUser <;> cases user <;> cases pass <;> simp

/-- C22 (amended): the credentials `ftpLogin` starts its login loop with are
the configured auto-login user and password when `EnableAutoLogin` is set and
`autoLoginUser` is not empty, also when `setHost` gave an explicit user;
otherwise `anonymous` / `anonymous@` when the user and the password given by
`setHost` are both empty; otherwise the user and password given by `setHost`. -/
theorem ftpLogin_credentials (fuel : Nat) (s : Ftp) (h : s.m_bLoggedOn = false) :
    ftpLogin (fuel + 1) s =
      (ftpLoginLoop fuel (startCredentials s.world.config s.m_user s.m_pass).1
          (startCredentials s.world.config s.m_user s.m_pass).2 ⟨[], [], false⟩ 0 >>=
        ftpLoginRest fuel s.world.config)
        (s.log (Event.infoMessage "Sending login information".toList)) := by
  rw [← startCredentials_eq]
  unfold ftpLogin ftpLoginRest
  have hl : (s.log (Event.infoMessage "Sending login information".toList)).m_bLoggedOn = false := h
  simp only [infoMessage, run_prim_bind, run_getFtp_bind, Prim.apply, hl, Bool.false_eq_true,
    if_false]
  rfl

/-- C22 on a login of the explicit user `bob` under an auto-login
configuration for `alice`: the loop starts with the credentials of `alice`. -/
theorem ftpLogin_credentials_witness :
    startCredentials (exampleAutoLogin "alice" "wonder") "bob".toList "secret".toList =
      ("alice".toList, "wonder".toList) ∧
    startCredentials exampleConfig "bob".toList "secret".toList =
      ("bob".toList, "secret".toList) ∧
    startCredentials exampleConfig [] [] = ("anonymous".toList, "anonymous@".toList) ∧
    ftpLogin 9 (exampleLogin (exampleControl exampleLoginReplies)
        (exampleAutoLogin "alice" "wonder") "bob" "secret") =
      (ftpLoginLoop 8
          (startCredentials (exampleAutoLogin "alice" "wonder") "bob".toList "secret".toList).1
          (startCredentials (exampleAutoLogin "alice" "wonder") "bob".toList "secret".toList).2
          ⟨[], [], false⟩ 0 >>=
        ftpLoginRest 8 (exampleAutoLogin "alice" "wonder"))
        ((exampleLogin (exampleControl exampleLoginReplies)
          (exampleAutoLogin "alice" "wonder") "bob" "secret").log
          (Event.infoMessage "Sending login information".toList)) :=
  ⟨by decide, by decide, by decide,
    ftpLogin_credentials 8 (exampleLogin (exampleControl exampleLoginReplies)
      (exampleAutoLogin "alice" "wonder") "bob" "secret") rfl⟩

/-- C22 as stated fails: with the explicit user `bob` and password `secret` and
an auto-login configuration for `alice`, `ftpLogin` sends `USER alice` and
`pass wonder`: the explicit user is replaced by the auto-login user. -/
theorem ftpLogin_auto_login_replaces_explicit_user :
    (ftpLogin 9 (exampleLogin (exampleControl exampleLoginReplies)
        (exampleAutoLogin "alice" "wonder") "bob" "secret")).1 = Except.ok true ∧
    sentCommands (ftpLogin 9 (exampleLogin (exampleControl exampleLoginReplies)
        (exampleAutoLogin "alice" "wonder") "bob" "secret")).2.trace =
      ["USER alice\r\n".toList, "pass wonder\r\n".toList, "SYST\r\n".toList, "PWD\r\n".toList] := by
  refine ⟨by decide!, by decide!⟩

/-- C23 (amended): a pass of the login loop that logs in, either by the reply
230 to `USER` or by the reply 331 to `USER` and 230 to `pass`, calls
`cacheAuthentication` if and only if the user is not `anonymous` and the
password is not `anonymous@`: both must differ from the default.  What is
handed to the cache is the `AuthInfo` record, whose user name and password are
those a password dialog has put there. -/
theorem ftpLoginAttempt_caches (fuel : Nat) (user pass : Bytes) (info : AuthInfo)
    (failedAuth : Int) (s s1 s2 : Ftp) (sent : Bool)
    (h1 : ftpSendCmd fuel ("USER ".toList ++ user ++ proxyPart s) defaultRetries s =
      (Except.ok sent, s1))
    (h2 : (sent = true ∧ s1.m_iRespCode = 230 ∧ s2 = s1) ∨
      (s1.m_iRespCode = 331 ∧
        ftpSendCmd fuel ("pass ".toList ++ pass) defaultRetries s1 = (Except.ok true, s2) ∧
        s2.m_iRespCode = 230)) :
    ftpLoginAttempt (fuel + 1) user pass info failedAuth s =
      (Except.ok true,
        if user ≠ FTP_LOGIN ∧ pass ≠ FTP_PASSWD then
          s2.log (Event.cacheAuthentication info.username info.password)
        else s2) := by
  unfold ftpLoginAttempt
  unfold proxyPart at h1
  simp only [run_getFtp_bind]
  rw [run_bind_ok h1]
  simp only [run_getFtp_bind]
  have hcond : (user != FTP_LOGIN && pass != FTP_PASSWD) = true ↔
      (user ≠ FTP_LOGIN ∧ pass ≠ FTP_PASSWD) := by simp
  rcases h2 with ⟨hs, h230, rfl⟩ | ⟨h331, hp, h230⟩
  · subst hs
    have hn : (s2.m_iRespCode == 331) = false := by rw [h230]; rfl
    have hy : (s2.m_iRespCode == 230) = true := by rw [h230]; rfl
    simp only [hn, hy, Bool.true_and, Bool.not_true, Bool.false_and, Bool.false_eq_true,
      if_false, run_pure_bind, if_true]
    by_cases hc : user ≠ FTP_LOGIN ∧ pass ≠ FTP_PASSWD
    · rw [if_pos (hcond.2 hc), if_pos hc]; rfl
    · rw [if_neg (fun h => hc (hcond.1 h)), if_neg hc]; rfl
  · have hn : (s1.m_iRespCode == 331) = true := by rw [h331]; rfl
    have hy : (s2.m_iRespCode == 230) = true := by rw [h230]; rfl
    simp only [hn, Bool.not_true, Bool.and_false, Bool.false_eq_true, if_false, if_true]
    rw [run_bind, hp]
    simp only [run_getFtp_bind, run_pure_bind, hy, Bool.and_self, run_pure, if_true]
    by_cases hc : user ≠ FTP_LOGIN ∧ pass ≠ FTP_PASSWD
    · rw [if_pos (hcond.2 hc), if_pos hc]; rfl
    · rw [if_neg (fun h => hc (hcond.1 h)), if_neg hc]; rfl

set_option maxRecDepth 100000 in
/-- C23 on the login of `bob` with the password `secret`, `USER` answered
with 331 and `pass` with 230: `cacheAuthentication` is called once. -/
theorem ftpLoginAttempt_caches_witness :
    cached (ftpLoginAttempt 4 "bob".toList "secret".toList ⟨[], [], false⟩ 0
      (exampleLogin (exampleControl exampleLoginReplies) exampleConfig "bob" "secret")).2.trace =
      [([], [])] ∧
    ftpLoginAttempt 4 "bob".toList "secret".toList ⟨[], [], false⟩ 0
        (exampleLogin (exampleControl exampleLoginReplies) exampleConfig "bob" "secret") =
      (Except.ok true,
        if "bob".toList ≠ FTP_LOGIN ∧ "secret".toList ≠ FTP_PASSWD then
          (ftpSendCmd 3 ("pass ".toList ++ "secret".toList) defaultRetries
            (ftpSendCmd 3 ("USER ".toList ++ "bob".toList ++
                proxyPart (exampleLogin (exampleControl exampleLoginReplies) exampleConfig
                  "bob" "secret")) defaultRetries
              (exampleLogin (exampleControl exampleLoginReplies) exampleConfig
                "bob" "secret")).2).2.log (Event.cacheAuthentication [] [])
        else
          (ftpSendCmd 3 ("pass ".toList ++ "secret".toList) defaultRetries
            (ftpSendCmd 3 ("USER ".toList ++ "bob".toList ++
                proxyPart (exampleLogin (exampleControl exampleLoginReplies) exampleConfig
                  "bob" "secret")) defaultRetries
              (exampleLogin (exampleControl exampleLoginReplies) exampleConfig
                "bob" "secret")).2).2) :=
  ⟨by decide!,
    ftpLoginAttempt_caches 3 "bob".toList "secret".toList ⟨[], [], false⟩ 0
      (exampleLogin (exampleControl exampleLoginReplies) exampleConfig "bob" "secret")
      (ftpSendCmd 3 ("USER ".toList ++ "bob".toList ++
          proxyPart (exampleLogin (exampleControl exampleLoginReplies) exampleConfig
            "bob" "secret")) defaultRetries
        (exampleLogin (exampleControl exampleLoginReplies) exampleConfig "bob" "secret")).2
      (ftpSendCmd 3 ("pass ".toList ++ "secret".toList) defaultRetries
        (ftpSendCmd 3 ("USER ".toList ++ "bob".toList ++
            proxyPart (exampleLogin (exampleControl exampleLoginReplies) exampleConfig
              "bob" "secret")) defaultRetries
          (exampleLogin (exampleControl exampleLoginReplies) exampleConfig
            "bob" "secret")).2).2
      true (Prod.ext (by decide!) rfl)
      (Or.inr ⟨by decide!, Prod.ext (by decide!) rfl, by decide!⟩)⟩

/-- C23 as stated fails: a login as `anonymous` with the password `secret`
succeeds and is not cached, and neither is a login as `bob` with the password
`anonymous@`; the login as `bob` with `secret` is. -/
theorem ftpLogin_half_default_not_cached :
    ((ftpLogin 9 (exampleLogin (exampleControl exampleLoginReplies) exampleConfig
        "anonymous" "secret")).1 = Except.ok true ∧
      sentCommands (ftpLogin 9 (exampleLogin (exampleControl exampleLoginReplies) exampleConfig
        "anonymous" "secret")).2.trace =
        ["USER anonymous\r\n".toList, "pass secret\r\n".toList, "SYST\r\n".toList,
          "PWD\r\n".toList] ∧
      cached (ftpLogin 9 (exampleLogin (exampleControl exampleLoginReplies) exampleConfig
        "anonymous" "secret")).2.trace = []) ∧
    ((ftpLogin 9 (exampleLogin (exampleControl exampleLoginReplies) exampleConfig
        "bob" "anonymous@")).1 = Except.ok true ∧
      sentCommands (ftpLogin 9 (exampleLogin (exampleControl exampleLoginReplies) exampleConfig
        "bob" "anonymous@")).2.trace =
        ["USER bob\r\n".toList, "pass anonymous@\r\n".toList, "SYST\r\n".toList,
          "PWD\r\n".toList] ∧
      cached (ftpLogin 9 (exampleLogin (exampleControl exampleLoginReplies) exampleConfig
        "bob" "anonymous@")).2.trace = []) ∧
    cached (ftpLogin 9 (exampleLogin (exampleControl exampleLoginReplies) exampleConfig
        "bob" "secret")).2.trace = [([], [])] := by
  refine ⟨⟨by decide!, by decide!, by decide!⟩, ⟨by decide!, by decide!, by decide!⟩, by decide!⟩

/-! ## The transfer type -/

/-- The tests of `ftpDataMode` on the requested mode (lines 2263-2265) compute
`dataModeOf`. -/
theorem dataModeOf_eq (textMode : Bool) (c : Char) :
    (if (c == '?') = true then (if textMode = true then 'A' else 'I')
      else if (c == 'a') = true then 'A'
      else if (c != 'A') = true then 'I'
      else c) = dataModeOf textMode c := by
  unfold dataModeOf
  by_cases h1 : c = '?'
  · simp [h1]
  · by_cases h2 : c = 'a'
    · simp [h2]
    · by_cases h3 : c = 'A'
      · simp [h3]
      · simp [h1, h2, h3]

/-- Reading a reply leaves the transfer type as it is. -/
theorem afterCommand_dataMode (cmd : Bytes) (s : Ftp) :
    (afterCommand cmd s).m_cDataMode = s.m_cDataMode := by
  unfold afterCommand
  cases hs : s.m_control <;> simp [Prim.apply, hs]

/-- The first digit of a reply code is 2 exactly for the character `2`. -/
theorem digitVal_eq_two {c : Char} (h : isdigit c = true) : digitVal c = 2 ↔ c = '2' := by
  simp only [isdigit, Bool.and_eq_true, decide_eq_true_eq] at h
  have h1 : 48 ≤ c.toNat := h.1
  constructor
  · intro hv
    unfold digitVal at hv
    apply Char.ext
    apply UInt32.ext
    show c.toNat = 50
    omega
  · intro hc
    rw [hc]
    rfl

/-- The command `TYPE X` has no CR or LF when `X` is a transfer type. -/
theorem type_command_clean (textMode : Bool) (c : Char) :
    (("TYPE ".toList ++ [dataModeOf textMode c]).contains '\r' ||
      ("TYPE ".toList ++ [dataModeOf textMode c]).contains '\n') = false := by
  unfold dataModeOf
  split
  · split <;> decide
  · split <;> decide

/-- C24 (amended): with `X` the transfer type the requested mode stands for
(`?` by the text mode, `a` and `A` ASCII, anything else binary), `ftpDataMode`
returns true without any command when `X` is the current type; otherwise it
sends `TYPE X`, and if the command is sent and the reply is 2xx it sets the type
to `X` and returns true, else it returns false in the state the command left.
On a connection that delivers a 2xx reply nothing but the command and the reply
is exchanged; on one that delivers a refusal the type is unchanged. -/
theorem ftpDataMode_type (fuel : Nat) (c : Char) (s : Ftp) :
    (s.m_cDataMode = dataModeOf s.m_bTextMode c → ftpDataMode fuel c s = (Except.ok true, s)) ∧
    (s.m_cDataMode ≠ dataModeOf s.m_bTextMode c →
      (∀ sent s1,
        ftpSendCmd fuel ("TYPE ".toList ++ [dataModeOf s.m_bTextMode c]) defaultRetries s =
          (Except.ok sent, s1) →
        ftpDataMode fuel c s =
          if sent = true ∧ s1.m_iRespType = 2 then
            (Except.ok true, (Prim.setDataMode (dataModeOf s.m_bTextMode c)).apply s1)
          else (Except.ok false, s1)) ∧
      (∀ sock d1 d2 d3 text rest, s.m_control = some sock → sock.writeFails.headD false = false →
        sock.lines = replyLine d1 d2 d3 text :: rest →
        isdigit d1 = true → isdigit d2 = true → isdigit d3 = true → d1 ≠ '0' →
        codeOf d1 d2 d3 ≠ 421 →
        ∃ s1, ftpDataMode (fuel + 1) c s = (Except.ok (decide (d1 = '2')), s1) ∧
          s1.trace = s.trace ++
            [Event.controlSend ("TYPE ".toList ++ [dataModeOf s.m_bTextMode c] ++ "\r\n".toList),
             Event.controlReply (codeOf d1 d2 d3 : Int) (replyLine d1 d2 d3 text)] ∧
          s1.m_cDataMode = if d1 = '2' then dataModeOf s.m_bTextMode c else s.m_cDataMode)) := by
  refine ⟨?_, ?_⟩
  · intro h
    unfold ftpDataMode
    simp only [run_getFtp_bind, dataModeOf_eq]
    rw [if_pos (by rw [h]; exact beq_self_eq_true _)]
    rfl
  · intro h
    have hne : (s.m_cDataMode == dataModeOf s.m_bTextMode c) = false := by
      simpa using h
    have hgen : ∀ fuel1 sent s1,
        ftpSendCmd fuel1 ("TYPE ".toList ++ [dataModeOf s.m_bTextMode c]) defaultRetries s =
          (Except.ok sent, s1) →
        ftpDataMode fuel1 c s =
          if sent = true ∧ s1.m_iRespType = 2 then
            (Except.ok true, (Prim.setDataMode (dataModeOf s.m_bTextMode c)).apply s1)
          else (Except.ok false, s1) := by
      intro fuel1 sent s1 hsend
      unfold ftpDataMode
      simp only [run_getFtp_bind, dataModeOf_eq, hne, Bool.false_eq_true, if_false]
      rw [run_bind, hsend]
      simp only [run_getFtp_bind]
      by_cases hc : sent = true ∧ s1.m_iRespType = 2
      · rw [if_pos hc, if_neg (by simp [hc.1, hc.2])]
        rfl
      · rw [if_neg hc, if_pos]
        · rfl
        · cases sent
          · rfl
          · have : s1.m_iRespType ≠ 2 := fun h2 => hc ⟨rfl, h2⟩
            simpa using this
    refine ⟨hgen fuel, ?_⟩
    intro sock d1 d2 d3 text rest hs hw hlines h1 h2 h3 h0 h421
    obtain ⟨hcode, hty, _, htrace, hloop⟩ :=
      afterCommand_reply ("TYPE ".toList ++ [dataModeOf s.m_bTextMode c]) s sock d1 d2 d3 text rest
        hs hw h1 h2 h3 h0 hlines
    have hge := codeOf_ge d1 d2 d3 h1 h0
    have hsend := ftpSendCmd_reply fuel ("TYPE ".toList ++ [dataModeOf s.m_bTextMode c])
      defaultRetries s sock hs (type_command_clean _ _) hw
      (by rw [hloop]
          show 0 < respType (codeOf d1 d2 d3 : Int)
          rw [respType_codeOf d1 d2 d3 h2 h3]
          have := digitVal_pos h1 h0
          omega)
      (by rw [hloop]
          show (codeOf d1 d2 d3 : Int) ≠ 421
          exact_mod_cast h421)
    have hrun := hgen (fuel + 1) _ _ hsend
    have htwo : (afterCommand ("TYPE ".toList ++ [dataModeOf s.m_bTextMode c]) s).m_iRespType = 2 ↔
        d1 = '2' := by
      rw [hty, ← digitVal_eq_two h1]
      omega
    by_cases hd : d1 = '2'
    · rw [if_pos ⟨rfl, htwo.2 hd⟩] at hrun
      refine ⟨(Prim.setDataMode (dataModeOf s.m_bTextMode c)).apply
        (afterCommand ("TYPE ".toList ++ [dataModeOf s.m_bTextMode c]) s), ?_, ?_, ?_⟩
      · rw [hrun, decide_eq_true hd]
      · exact htrace
      · rw [if_pos hd]
        rfl
    · rw [if_neg (fun hx => hd (htwo.1 hx.2))] at hrun
      refine ⟨afterCommand ("TYPE ".toList ++ [dataModeOf s.m_bTextMode c]) s, ?_, htrace, ?_⟩
      · rw [hrun, decide_eq_false hd]
      · rw [if_neg hd]
        exact afterCommand_dataMode _ _

set_option maxRecDepth 100000 in
/-- C24 on a session in binary mode: `ftpDataMode('I')` sends nothing;
`ftpDataMode('a')` sends `TYPE A` and, on the reply 200, sets the type to `A`;
on the reply 500 it returns false and the type stays `I`. -/
theorem ftpDataMode_type_witness :
    ftpDataMode 1 'I' (exampleUser (exampleControl ["200 ok\r\n"]) (exampleWorld [] [])) =
      (Except.ok true, exampleUser (exampleControl ["200 ok\r\n"]) (exampleWorld [] [])) ∧
    (∃ s1, ftpDataMode 1 'a' (exampleUser (exampleControl ["200 ok\r\n"]) (exampleWorld [] [])) =
        (Except.ok true, s1) ∧
      s1.trace = [Event.controlSend "TYPE A\r\n".toList,
        Event.controlReply 200 "200 ok\r\n".toList] ∧
      s1.m_cDataMode = 'A') ∧
    (ftpDataMode 1 'a' (exampleUser (exampleControl ["500 no\r\n"]) (exampleWorld [] [])) =
      (Except.ok false,
        afterCommand "TYPE A".toList
          (exampleUser (exampleControl ["500 no\r\n"]) (exampleWorld [] []))) ∧
      (afterCommand "TYPE A".toList
        (exampleUser (exampleControl ["500 no\r\n"]) (exampleWorld [] []))).m_cDataMode = 'I') :=
  ⟨(ftpDataMode_type 1 'I'
      (exampleUser (exampleControl ["200 ok\r\n"]) (exampleWorld [] []))).1 (by decide),
    ((ftpDataMode_type 0 'a'
      (exampleUser (exampleControl ["200 ok\r\n"]) (exampleWorld [] []))).2 (by decide)).2
      (exampleControl ["200 ok\r\n"]) '2' '0' '0' "ok\r\n".toList [] rfl rfl rfl
      (by decide) (by decide) (by decide) (by decide) (by decide),
    ((ftpDataMode_type 1 'a'
      (exampleUser (exampleControl ["500 no\r\n"]) (exampleWorld [] []))).2 (by decide)).1
      true (afterCommand "TYPE A".toList
        (exampleUser (exampleControl ["500 no\r\n"]) (exampleWorld [] [])))
      (Prod.ext (by decide!) (by decide!)),
    by decide!⟩

/-- C24 as stated fails twice.  The mode `A` is not mapped to `I`: on a session
in binary mode `ftpDataMode('A')` sends `TYPE A` and sets the type to `A`.  And
a failure does not always leave the type unchanged: when `TYPE A` gets no reply
the connection is closed and re-opened, which fails here, and the type is reset
to 0 although it was `I`. -/
theorem ftpDataMode_upper_A_and_reset :
    ((ftpDataMode 9 'A' (exampleUser (exampleControl ["200 ok\r\n"]) (exampleWorld [] []))).1 =
        Except.ok true ∧
      sentCommands (ftpDataMode 9 'A'
        (exampleUser (exampleControl ["200 ok\r\n"]) (exampleWorld [] []))).2.trace =
        ["TYPE A\r\n".toList] ∧
      (ftpDataMode 9 'A'
        (exampleUser (exampleControl ["200 ok\r\n"]) (exampleWorld [] []))).2.m_cDataMode = 'A') ∧
    ((exampleUser (exampleControl []) (exampleWorld [] [])).m_cDataMode = 'I' ∧
      (ftpDataMode 9 'A' (exampleUser (exampleControl []) (exampleWorld [] []))).1 =
        Except.ok false ∧
      (ftpDataMode 9 'A'
        (exampleUser (exampleControl []) (exampleWorld [] []))).2.m_cDataMode = '\x00') := by
  refine ⟨⟨by decide!, by decide!, by decide!⟩, ⟨by decide!, by decide!, by decide!⟩⟩

end KioFtps

namespace KioFtps

/-! ## Permissions: `SITE CHMOD` and its latch -/

/-- A state change that keeps the control connection keeps the latch. -/
theorem keepsControl_latch (p : Prim) (hp : keepsControl p) (s : Ftp)
    (h : s.m_extControl.chmodUnknown = true) : (p.apply s).m_extControl.chmodUnknown = true := by
  cases p <;> first
    | exact absurd rfl hp
    | exact h
    | rfl
    | (simp only [Prim.apply]; split <;> exact h)

/-- The latch stays set as long as the control connection is kept. -/
theorem StepsIn.latch {s s1 : Ftp} (hsteps : StepsIn keepsControl s s1)
    (h : s.m_extControl.chmodUnknown = true) : s1.m_extControl.chmodUnknown = true := by
  induction hsteps with
  | refl => exact h
  | tail _ hstep ih =>
    obtain ⟨p, hp, rfl⟩ := hstep
    exact keepsControl_latch p hp _ ih

set_option maxRecDepth 100000 in
/-- The octal digits of a number below 512 have no CR and no LF. -/
theorem octal_clean : ∀ m, m < 512 →
    ((octal m).contains '\r' || (octal m).contains '\n') = false := by
  decide!

theorem contains_append (a b : Bytes) (c : Char) :
    (a ++ b).contains c = (a.contains c || b.contains c) := by
  induction a with
  | nil => simp
  | cons x xs ih => simp [List.contains_cons, ih, Bool.or_assoc]

/-- The `SITE CHMOD` command has a CR or LF only if the path has one. -/
theorem siteChmod_clean (path : Bytes) (permissions : Int)
    (hpath : (path.contains '\r' || path.contains '\n') = false) :
    ((siteChmod path permissions).contains '\r' ||
      (siteChmod path permissions).contains '\n') = false := by
  have hlt : (permissions % 512).toNat < 512 := by omega
  have ho := octal_clean _ hlt
  rw [Bool.or_eq_false_iff] at hpath ho ⊢
  unfold siteChmod
  simp only [contains_append, hpath.1, hpath.2, ho.1, ho.2, Bool.or_false]
  exact ⟨by decide, by decide⟩

/-- On a session that is logged on over a control connection, the implicit
`ftpOpenConnection` returns true and changes nothing. -/
theorem ftpOpenConnection_implicit (fuel : Nat) (s : Ftp) (hl : s.m_bLoggedOn = true)
    (hc : s.m_control ≠ none) :
    ftpOpenConnection (fuel + 1) LoginMode.loginImplicit s = (Except.ok true, s) := by
  unfold ftpOpenConnection
  simp only [run_getFtp_bind, hl, beq_self_eq_true, Bool.and_self, if_true]
  cases h : s.m_control with
  | none => exact absurd h hc
  | some c => rfl

/-- With the latch set, `ftpChmod` returns false and leaves the session as it is. -/
theorem ftpChmod_latched (fuel : Nat) (path : Bytes) (permissions : Int) (s : Ftp)
    (hl : s.m_bLoggedOn = true) (h : s.m_extControl.chmodUnknown = true) :
    ftpChmod fuel path permissions s = (Except.ok false, s) := by
  unfold ftpChmod
  simp only [run_getFtp_bind, hl, h, Bool.not_true, Bool.false_eq_true, if_false, if_true]
  rfl

/-- C25: on a session that is logged on, with the latch clear, `ftpChmod` sends
`SITE CHMOD <m> <path>` with `<m>` the octal digits of the permissions modulo
512 and returns true exactly on a 2xx reply; the latch `chmodUnknown` is set
exactly by the reply 500.  Once it is set, in every later state of the session
reached while the control connection is kept, the latch is still set,
`ftpChmod` returns false there without sending anything (the session is
unchanged), and `chmod` reports `ERR_CANNOT_CHMOD`. -/
theorem ftpChmod_latch (fuel : Nat) (path : Bytes) (permissions : Int) (s : Ftp)
    (sock : ControlSocket) (d1 d2 d3 : Char) (text : Bytes) (rest : List Bytes)
    (hl : s.m_bLoggedOn = true) (h0 : s.m_extControl.chmodUnknown = false)
    (hs : s.m_control = some sock)
    (hpath : (path.contains '\r' || path.contains '\n') = false)
    (hw : sock.writeFails.headD false = false)
    (hlines : sock.lines = replyLine d1 d2 d3 text :: rest)
    (h1 : isdigit d1 = true) (h2 : isdigit d2 = true) (h3 : isdigit d3 = true)
    (hd : d1 ≠ '0') (h421 : codeOf d1 d2 d3 ≠ 421) :
    ∃ s1, ftpChmod (fuel + 1) path permissions s = (Except.ok (decide (d1 = '2')), s1) ∧
      s1.trace = s.trace ++
        [Event.controlSend ("SITE CHMOD ".toList ++ octal (permissions % 512).toNat ++ [' '] ++
            path ++ "\r\n".toList),
         Event.controlReply (codeOf d1 d2 d3 : Int) (replyLine d1 d2 d3 text)] ∧
      (s1.m_extControl.chmodUnknown = true ↔ codeOf d1 d2 d3 = 500) ∧
      (codeOf d1 d2 d3 = 500 →
        ∀ s2, StepsIn keepsControl s1 s2 → s2.m_bLoggedOn = true →
          s2.m_extControl.chmodUnknown = true ∧
          (∀ fuel2 path2 permissions2,
            ftpChmod fuel2 path2 permissions2 s2 = (Except.ok false, s2)) ∧
          (∀ fuel2 path2 permissions2, s2.m_control ≠ none →
            chmod (fuel2 + 1) path2 permissions2 s2 =
              (Except.ok (), s2.log (Event.error KioError.ERR_CANNOT_CHMOD path2)))) := by
  obtain ⟨hcode, hty, _, htrace, hloop⟩ :=
    afterCommand_reply (siteChmod path permissions) s sock d1 d2 d3 text rest
      hs hw h1 h2 h3 hd hlines
  have hext : (afterCommand (siteChmod path permissions) s).m_extControl = s.m_extControl :=
    (afterCommand_resp (siteChmod path permissions) s sock hs).2.2.2.2.2.1
  have hge := codeOf_ge d1 d2 d3 h1 hd
  have hv2 := digitVal_le h2
  have hv3 := digitVal_le h3
  have hsend := ftpSendCmd_reply fuel (siteChmod path permissions) defaultRetries s sock hs
    (siteChmod_clean path permissions hpath) hw
    (by rw [hloop]
        show 0 < respType (codeOf d1 d2 d3 : Int)
        rw [respType_codeOf d1 d2 d3 h2 h3]
        have := digitVal_pos h1 hd
        omega)
    (by rw [hloop]
        show (codeOf d1 d2 d3 : Int) ≠ 421
        exact_mod_cast h421)
  have hsend1 : ftpSendCmd (fuel + 1)
      ("SITE CHMOD ".toList ++ octal (permissions % 512).toNat ++ [' '] ++ path)
      defaultRetries s = (Except.ok true, afterCommand (siteChmod path permissions) s) := hsend
  have htwo : (afterCommand (siteChmod path permissions) s).m_iRespType = 2 ↔ d1 = '2' := by
    rw [hty, ← digitVal_eq_two h1]
    omega
  have hlater : ∀ s1 : Ftp, s1.m_extControl.chmodUnknown = true →
      ∀ s2, StepsIn keepsControl s1 s2 → s2.m_bLoggedOn = true →
        s2.m_extControl.chmodUnknown = true ∧
        (∀ fuel2 path2 permissions2,
          ftpChmod fuel2 path2 permissions2 s2 = (Except.ok false, s2)) ∧
        (∀ fuel2 path2 permissions2, s2.m_control ≠ none →
          chmod (fuel2 + 1) path2 permissions2 s2 =
            (Except.ok (), s2.log (Event.error KioError.ERR_CANNOT_CHMOD path2))) := by
    intro s1 hset s2 hsteps hl2
    have hlatch : s2.m_extControl.chmodUnknown = true := hsteps.latch hset
    refine ⟨hlatch, fun fuel2 path2 permissions2 => ftpChmod_latched _ _ _ s2 hl2 hlatch, ?_⟩
    intro fuel2 path2 permissions2 hc
    unfold chmod
    rw [run_bind, ftpOpenConnection_implicit fuel2 s2 hl2 hc]
    simp only [Bool.not_true, Bool.false_eq_true, if_false]
    rw [run_bind, ftpChmod_latched _ _ _ s2 hl2 hlatch]
    rfl
  by_cases hd2 : d1 = '2'
  · have hty2 : ((afterCommand (siteChmod path permissions) s).m_iRespType == 2) = true := by
      rw [htwo.2 hd2]; rfl
    have hne : codeOf d1 d2 d3 ≠ 500 := by
      have hv := (digitVal_eq_two h1).2 hd2
      unfold codeOf
      omega
    refine ⟨afterCommand (siteChmod path permissions) s, ?_, htrace, ?_, fun h => absurd h hne⟩
    · unfold ftpChmod
      simp only [run_getFtp_bind, hl, h0, Bool.not_true, Bool.false_eq_true, if_false]
      rw [run_bind, hsend1]
      simp only [run_getFtp_bind, hty2, if_true, run_pure]
      rw [decide_eq_true hd2]
    · rw [hext, h0]
      exact ⟨fun h => Bool.noConfusion h, fun h => absurd h hne⟩
  · have hty2 : ((afterCommand (siteChmod path permissions) s).m_iRespType == 2) = false := by
      have : (afterCommand (siteChmod path permissions) s).m_iRespType ≠ 2 :=
        fun h => hd2 (htwo.1 h)
      simpa using this
    by_cases h5 : codeOf d1 d2 d3 = 500
    · have hc500 : ((afterCommand (siteChmod path permissions) s).m_iRespCode == 500) = true := by
        rw [hcode, h5]; rfl
      refine ⟨Prim.setChmodUnknown.apply (afterCommand (siteChmod path permissions) s), ?_,
        htrace, ⟨fun _ => h5, fun _ => rfl⟩, fun _ => hlater _ rfl⟩
      unfold ftpChmod
      simp only [run_getFtp_bind, hl, h0, Bool.not_true, Bool.false_eq_true, if_false]
      rw [run_bind, hsend1]
      simp only [run_getFtp_bind, hty2, hc500, Bool.false_eq_true, if_false, if_true,
        run_prim_bind, run_pure]
      rw [decide_eq_false hd2]
    · have hc500 : ((afterCommand (siteChmod path permissions) s).m_iRespCode == 500) = false := by
        have : (afterCommand (siteChmod path permissions) s).m_iRespCode ≠ 500 := by
          rw [hcode]
          exact_mod_cast h5
        simpa using this
      refine ⟨afterCommand (siteChmod path permissions) s, ?_, htrace, ?_, fun h => absurd h h5⟩
      · unfold ftpChmod
        simp only [run_getFtp_bind, hl, h0, Bool.not_true, Bool.false_eq_true, if_false]
        rw [run_bind, hsend1]
        simp only [run_getFtp_bind, hty2, hc500, Bool.false_eq_true, if_false, run_pure]
        rw [decide_eq_false hd2]
      · rw [hext, h0]
        exact ⟨fun h => Bool.noConfusion h, fun h => absurd h h5⟩

/-- C25 on `ftpChmod("/a", 0100644)` answered with `500 what?`: `SITE CHMOD
644 /a` is sent, the latch is set, and from then on `ftpChmod` sends nothing
and `chmod` reports `ERR_CANNOT_CHMOD`. -/
theorem ftpChmod_latch_witness :
    ∃ s1, ftpChmod 1 "/a".toList 0o100644
        (exampleUser (exampleControl ["500 what?\r\n"]) (exampleWorld [] [])) =
        (Except.ok false, s1) ∧
      s1.trace = [Event.controlSend "SITE CHMOD 644 /a\r\n".toList,
         Event.controlReply 500 "500 what?\r\n".toList] ∧
      (s1.m_extControl.chmodUnknown = true ↔ codeOf '5' '0' '0' = 500) ∧
      (codeOf '5' '0' '0' = 500 →
        ∀ s2, StepsIn keepsControl s1 s2 → s2.m_bLoggedOn = true →
          s2.m_extControl.chmodUnknown = true ∧
          (∀ fuel2 path2 permissions2,
            ftpChmod fuel2 path2 permissions2 s2 = (Except.ok false, s2)) ∧
          (∀ fuel2 path2 permissions2, s2.m_control ≠ none →
            chmod (fuel2 + 1) path2 permissions2 s2 =
              (Except.ok (), s2.log (Event.error KioError.ERR_CANNOT_CHMOD path2)))) :=
  ftpChmod_latch 0 "/a".toList 0o100644
    (exampleUser (exampleControl ["500 what?\r\n"]) (exampleWorld [] []))
    (exampleControl ["500 what?\r\n"]) '5' '0' '0' "what?\r\n".toList [] rfl rfl rfl (by decide)
    rfl rfl (by decide) (by decide) (by decide) (by decide) (by decide)

/-- C29: `ftpChmod` does not look at the result of `ftpSendCmd` (line 1240) and
tests the reply type the session holds, which is that of an earlier command
when none was read.  `chmod` of the path `/a`, LF, `b` on a fresh session: the
login ends with the reply 257 to `PWD`; `ftpSendCmd` refuses the `SITE CHMOD`
command with `ERR_UNSUPPORTED_ACTION` and sends nothing; `ftpChmod` finds the
reply type 2 of `PWD` and returns true, and `chmod` emits `finished` after the
error.  Likewise when `SITE CHMOD 644 /a` gets no reply and the connection
that is opened again ends with the reply 200 to `AUTH TLS`: an error is
reported, `ftpChmod` returns true and `chmod` emits `finished`. -/
theorem ftpChmod_true_without_acknowledgement :
    (sentCommands (chmod 12 "/a\nb".toList 0o644
        (exampleFresh (exampleWorld [exampleControl exampleSessionReplies] []))).2.trace =
        ["AUTH TLS\r\n".toList, "USER anonymous\r\n".toList, "pass anonymous@\r\n".toList,
          "SYST\r\n".toList, "PWD\r\n".toList] ∧
      outcomes (chmod 12 "/a\nb".toList 0o644
        (exampleFresh (exampleWorld [exampleControl exampleSessionReplies] []))).2.trace =
        [Event.error KioError.ERR_UNSUPPORTED_ACTION "ftp.example".toList, Event.finished]) ∧
    ((ftpChmod 12 "/a".toList 0o644 (exampleUser (exampleControl [])
        (exampleWorld [exampleControl ["220 hi\r\n", "200 fine\r\n"]] []))).1 = Except.ok true ∧
      (ftpChmod 12 "/a".toList 0o644 (exampleUser (exampleControl [])
        (exampleWorld [exampleControl ["220 hi\r\n", "200 fine\r\n"]] []))).2.trace =
        [Event.controlSend "SITE CHMOD 644 /a\r\n".toList,
         Event.controlReply 0 [],
         Event.controlSend "quit\r\n".toList,
         Event.controlReply 0 [],
         Event.controlClose,
         Event.infoMessage "Opening connection to host ftp.example".toList,
         Event.controlConnect "ftp.example".toList 21,
         Event.controlReply 220 "220 hi\r\n".toList,
         Event.controlSend "AUTH TLS\r\n".toList,
         Event.controlReply 200 "200 fine\r\n".toList,
         Event.controlClose,
         Event.error KioError.ERR_SLAVE_DEFINED
           "The FTP server does not seem to support ftps-encryption.".toList] ∧
      outcomes (chmod 12 "/a".toList 0o644 (exampleUser (exampleControl [])
        (exampleWorld [exampleControl ["220 hi\r\n", "200 fine\r\n"]] []))).2.trace =
        [Event.error KioError.ERR_SLAVE_DEFINED
           "The FTP server does not seem to support ftps-encryption.".toList,
         Event.finished]) := by
  refine ⟨⟨by decide!, by decide!⟩, ⟨by decide!, by decide!, by decide!⟩⟩

end KioFtps

namespace KioFtps

/-! ## The read loop of a download: the bounds of the buffer -/

/-- A pass of the read loop that goes on: the variables it ends with. -/
theorem ftpGetStep_vars (iCopyFile : Int) (v v1 : GetLoop) (iBlockSize : Int) (block : Bytes)
    (s s1 : Ftp)
    (h : ftpGetStep iCopyFile v iBlockSize block s = (Except.ok (Sum.inr v1), s1)) :
    v1.iBlockSize = iBlockSize ∧ v1.processed_size = v.processed_size + (block.length : Int) ∧
    (v1.buffer = [] ∨ v1.buffer = v.buffer ∨
      (v1.buffer = v.buffer ++ block ∧ (v1.buffer.length : Int) < mimimumMimeSize)) := by
  unfold ftpGetStep at h
  simp only [run_getFtp_bind] at h
  have key : ∀ (chunk : Bytes) (x : GetLoop),
      (do
        ftpGetMime v.mimetypeEmitted chunk
        let failed ← ftpGetDeliver iCopyFile chunk (v.processed_size + (block.length : Int))
        match failed with
          | some e => pure (Sum.inl (StatusCode.statusClientError, e))
          | none => pure (Sum.inr x) : M (Sum (StatusCode × KioError) GetLoop)) s =
        (Except.ok (Sum.inr v1), s1) → v1 = x := by
    intro chunk x hx
    rw [run_bind] at hx
    generalize ftpGetMime v.mimetypeEmitted chunk s = res at hx
    obtain ⟨r, sa⟩ := res
    cases r with
    | error e => simp at hx
    | ok u =>
      simp only at hx
      rw [run_bind] at hx
      generalize ftpGetDeliver iCopyFile chunk (v.processed_size + (block.length : Int)) sa =
        res2 at hx
      obtain ⟨r2, sb⟩ := res2
      cases r2 with
      | error e => simp at hx
      | ok o =>
        cases o with
        | some e => simp at hx
        | none =>
          simp only [run_pure] at hx
          exact (Sum.inr.inj (Except.ok.inj (Prod.mk.inj hx).1)).symm
  split at h
  · split at h
    · rename_i hb
      simp only [run_prim_bind, run_pure] at h
      have hv := (Sum.inr.inj (Except.ok.inj (Prod.mk.inj h).1)).symm
      subst hv
      simp only [Bool.and_eq_true, decide_eq_true_eq] at hb
      exact ⟨rfl, rfl, Or.inr (Or.inr ⟨rfl, hb.1⟩)⟩
    · have hv := key _ _ h
      subst hv
      exact ⟨rfl, rfl, Or.inl rfl⟩
  · have hv := key _ _ h
    subst hv
    exact ⟨rfl, rfl, Or.inr (Or.inl rfl)⟩

/-- A pass that is followed by another is a pass of `ftpGetLoop`: the loop
goes on with the variables and the session the pass ends with. -/
theorem ftpGetLoop_pass (iCopyFile llOffset : Int) (fuel : Nat) (a b : GetLoop × Ftp)
    (h : ftpGetPass iCopyFile llOffset a b) :
    ftpGetLoop iCopyFile llOffset (fuel + 1) a.1 a.2 = ftpGetLoop iCopyFile llOffset fuel b.1 b.2 := by
  obtain ⟨d, c, cs, hcond, hd, hread, hstep⟩ := h
  rw [ftpGetLoop]
  simp only [run_getFtp_bind, hcond, Bool.not_true, Bool.false_eq_true, if_false, hd,
    run_prim_bind, hread]
  rw [run_bind_ok hstep]

/-- A `read` returns no more bytes than it was asked for. -/
theorem readBlock_length (reads : List (Option Bytes)) (maxlen : Int) (block : Bytes)
    (h0 : 0 ≤ maxlen) (h : readBlock reads maxlen = some block) :
    (block.length : Int) ≤ maxlen := by
  unfold readBlock at h
  rw [if_neg (by omega)] at h
  match reads, h with
  | [], h =>
    rw [← Option.some.inj h]
    exact h0
  | some b :: _, h =>
    rw [← Option.some.inj h, List.length_take]
    omega

/-- The length asked of `read` when the loop variables are within their bounds. -/
theorem inBounds_blockSize (v : GetLoop) (llOffset : Int) (h : v.inBounds llOffset) :
    0 < ftpGetBlockSize v llOffset ∧
    (v.buffer.length : Int) + ftpGetBlockSize v llOffset ≤ 32768 ∧
    ftpGetBlockSize v llOffset ≤ 32768 ∧
    (v.processed_size - llOffset ≤ 65536 → ftpGetBlockSize v llOffset = 2048) := by
  obtain ⟨h1, h2, h3, h4⟩ := h
  unfold ftpGetBlockSize
  simp only [maximumIpcSize, mimimumMimeSize, initialIpcSize] at *
  refine ⟨?_, ?_, ?_, ?_⟩
  · split <;> split <;> omega
  · split <;> split <;> omega
  · split <;> split <;> omega
  · intro hp
    have := h4 (by omega)
    split <;> split <;> omega

/-- A pass of the loop keeps the loop variables within their bounds. -/
theorem inBounds_pass (iCopyFile llOffset : Int) (a b : GetLoop × Ftp)
    (h : ftpGetPass iCopyFile llOffset a b) (ha : a.1.inBounds llOffset) :
    b.1.inBounds llOffset := by
  obtain ⟨d, c, cs, _, _, _, hstep⟩ := h
  obtain ⟨e1, e2, e3⟩ := ftpGetStep_vars _ _ _ _ _ _ _ hstep
  obtain ⟨b1, b2, b3, b4⟩ := inBounds_blockSize _ _ ha
  have ha1 := ha.1
  simp only [mimimumMimeSize] at ha1
  refine ⟨?_, by rw [e1]; exact b1, by rw [e1]; simpa [maximumIpcSize] using b3, ?_⟩
  · rcases e3 with e | e | e
    · rw [e]
      decide
    · rw [e]
      exact ha.1
    · exact e.2
  · intro hp
    rw [e1]
    rw [e2] at hp
    have : (0 : Int) ≤ ((c :: cs).length : Int) := Int.natCast_nonneg _
    simpa [initialIpcSize] using b4 (by omega)

/-- C28: at every pass of the read loop of `ftpGet`, reached from the start of
the loop through any number of passes, fewer than 1024 bytes are held back in
the buffer, and the `read` is issued with a length that is positive and, added
to the bytes held back, at most 32768, the size of the buffer; the length is
2048 as long as no more than 65536 bytes have been processed and at most 32768
afterwards.  The bytes a `read` returns are no more than that length, so they
and those held back, of which the chunk that is emitted is a part, fit into the
buffer. -/
theorem ftpGet_buffer_bounds (iCopyFile llOffset : Int) (bytesLeft : Nat) (s0 : Ftp)
    (v : GetLoop) (s : Ftp)
    (h : Relation.ReflTransGen (ftpGetPass iCopyFile llOffset)
      (⟨llOffset, bytesLeft, initialIpcSize, [], false⟩, s0) (v, s)) :
    v.buffer.length < 1024 ∧
    0 < ftpGetBlockSize v llOffset ∧
    (v.buffer.length : Int) + ftpGetBlockSize v llOffset ≤ 32768 ∧
    (v.processed_size - llOffset ≤ 65536 → ftpGetBlockSize v llOffset = 2048) ∧
    ftpGetBlockSize v llOffset ≤ 32768 ∧
    ∀ d block, s.m_data = some d →
      readBlock d.reads (ftpGetBlockSize v llOffset) = some block →
      (block.length : Int) ≤ ftpGetBlockSize v llOffset ∧
      (v.buffer ++ block).length ≤ 32768 ∧
      ((v.buffer ++ block).take block.length).length ≤ 32768 := by
  have hinv : v.inBounds llOffset := by
    have hgen : ∀ a b, Relation.ReflTransGen (ftpGetPass iCopyFile llOffset) a b →
        a.1.inBounds llOffset → b.1.inBounds llOffset := by
      intro a b hab
      induction hab with
      | refl => exact id
      | tail _ hstep ih => exact fun ha => inBounds_pass _ _ _ _ hstep (ih ha)
    have hinit : GetLoop.inBounds ⟨llOffset, bytesLeft, initialIpcSize, [], false⟩ llOffset := by
      unfold GetLoop.inBounds
      simp [mimimumMimeSize, initialIpcSize, maximumIpcSize]
    exact hgen (⟨llOffset, bytesLeft, initialIpcSize, [], false⟩, s0) (v, s) h hinit
  obtain ⟨b1, b2, b3, b4⟩ := inBounds_blockSize _ _ hinv
  have h1 := hinv.1
  simp only [mimimumMimeSize] at h1
  refine ⟨by omega, b1, b2, b4, b3, ?_⟩
  intro d block _ hread
  have hlen := readBlock_length _ _ _ (le_of_lt b1) hread
  refine ⟨hlen, ?_, ?_⟩
  · rw [List.length_append]
    omega
  · rw [List.length_take, List.length_append]
    omega

/-- C28 at the second pass of a download of five bytes that come as `he` and
`llo`: two bytes are held back, and the `read` is issued with the length 2048. -/
theorem ftpGet_buffer_bounds_witness :
    ftpGetBlockSize ⟨2, 3, 2048, "he".toList, false⟩ 0 = 2048 ∧
    ("he".toList.length < 1024 ∧
      0 < ftpGetBlockSize ⟨2, 3, 2048, "he".toList, false⟩ 0 ∧
      ("he".toList.length : Int) + ftpGetBlockSize ⟨2, 3, 2048, "he".toList, false⟩ 0 ≤ 32768 ∧
      ((2 : Int) - 0 ≤ 65536 → ftpGetBlockSize ⟨2, 3, 2048, "he".toList, false⟩ 0 = 2048) ∧
      ftpGetBlockSize ⟨2, 3, 2048, "he".toList, false⟩ 0 ≤ 32768 ∧
      ∀ d block, exampleSecondPass.m_data = some d →
        readBlock d.reads (ftpGetBlockSize ⟨2, 3, 2048, "he".toList, false⟩ 0) = some block →
        (block.length : Int) ≤ ftpGetBlockSize ⟨2, 3, 2048, "he".toList, false⟩ 0 ∧
        ("he".toList ++ block).length ≤ 32768 ∧
        (("he".toList ++ block).take block.length).length ≤ 32768) :=
  ⟨by decide,
    ftpGet_buffer_bounds (-1) 0 5 (exampleReading 5 ["he", "llo"])
      ⟨2, 3, 2048, "he".toList, false⟩ exampleSecondPass
      (Relation.ReflTransGen.single
        ⟨exampleReads ["he", "llo"], 'h', "e".toList, by decide, rfl, by decide!,
          Prod.ext (by decide!) rfl⟩)⟩

end KioFtps

namespace KioFtps

/-! ## The read loop of a download: the byte stream -/

theorem received_append (a b : List Event) : received (a ++ b) = received a ++ received b := by
  induction a with
  | nil => rfl
  | cons e es ih =>
    have ih1 : received (es.append b) = received es ++ received b := ih
    cases e <;> simp only [List.cons_append, received, ih, ih1, List.append_assoc]

theorem delivered_append (a b : List Event) :
    delivered (a ++ b) = delivered a ++ delivered b := by
  induction a with
  | nil => rfl
  | cons e es ih =>
    have ih1 : delivered (es.append b) = delivered es ++ delivered b := ih
    cases e <;> simp only [List.cons_append, delivered, ih, ih1, List.append_assoc]

/-- Events that carry no bytes of the stream add nothing to it. -/
theorem stream_no_event (es : List Event) (h : ∀ e ∈ es, streamEvent e = false) :
    received es = [] ∧ delivered es = [] := by
  induction es with
  | nil => exact ⟨rfl, rfl⟩
  | cons e es ih =>
    have he := h e (List.mem_cons_self _ _)
    have ht := ih fun x hx => h x (List.mem_cons_of_mem _ hx)
    cases e <;> first | exact ht | exact Bool.noConfusion he

theorem controlEvent_not_stream (e : Event) (h : controlEvent e) : streamEvent e = false := by
  cases e <;> first | rfl | exact h.elim

theorem transfer_no_stream (p : Prim) (s : Ftp) (h : transferPrim p) :
    ∀ e ∈ Prim.events p s, streamEvent e = false := by
  intro e he
  cases p <;> simp only [Prim.events] at he <;>
    first
      | exact absurd he (List.not_mem_nil _)
      | exact h.elim
      | (rw [List.mem_singleton.mp he]; first | rfl | exact controlEvent_not_stream _ h)
      | (split at he <;>
          first
            | exact absurd he (List.not_mem_nil _)
            | (rw [List.mem_singleton.mp he]; rfl)
            | skip)
  split at he
  · exact absurd he (List.not_mem_nil _)
  · rw [List.mem_singleton.mp he]
    rfl

theorem command_no_stream (p : Prim) (s : Ftp) (h : commandPrim p) :
    ∀ e ∈ Prim.events p s, streamEvent e = false := by
  rcases h with h | h | ⟨b, h⟩ | ⟨n, h⟩
  · exact transfer_no_stream p s h
  · subst h
    intro e he
    simp only [Prim.events] at he
    rw [List.mem_singleton.mp he]
    rfl
  · subst h
    intro e he
    simp only [Prim.events] at he
    rw [List.mem_singleton.mp he]
    rfl
  · subst h
    intro e he
    simp only [Prim.events] at he
    exact absurd he (List.not_mem_nil _)

theorem stream_mimeUpcalls (mimetypeEmitted : Bool) (m_size : Nat) (chunk : Bytes) :
    received (mimeUpcalls mimetypeEmitted m_size chunk) = [] ∧
    delivered (mimeUpcalls mimetypeEmitted m_size chunk) = [] := by
  unfold mimeUpcalls
  cases mimetypeEmitted
  · by_cases hu : (m_size != UnknownSize) = true
    · simp only [Bool.false_eq_true, if_false, hu, if_true]
      exact ⟨rfl, rfl⟩
    · simp only [Bool.false_eq_true, if_false, hu]
      exact ⟨rfl, rfl⟩
  · exact ⟨rfl, rfl⟩

/-- A chunk that is handed on without an error: the events are the chunk, to
the data pump or to the local file, and `processedSize`. -/
theorem ftpGetDeliver_stream (iCopyFile : Int) (chunk : Bytes) (processed_size : Int)
    (s s1 : Ftp) (h : ftpGetDeliver iCopyFile chunk processed_size s = (Except.ok none, s1)) :
    ∃ evs, s1.trace = s.trace ++ evs ∧ s1.m_size = s.m_size ∧ received evs = [] ∧
      delivered evs = chunk := by
  unfold ftpGetDeliver at h
  simp only [run_getFtp_bind] at h
  split at h
  · simp only [run_prim_bind, run_pure] at h
    rw [← (Prod.mk.inj h).2]
    exact ⟨[Event.data chunk, Event.processedSize (toFilesize processed_size)],
      by simp [Prim.apply, Ftp.log], rfl, rfl, by simp [delivered]⟩
  · simp only [run_prim_bind] at h
    cases hw : s.world.fileWrites.headD none with
    | some e =>
      simp only [hw, run_pure] at h
      exact nomatch (Except.ok.inj (Prod.mk.inj h).1)
    | none =>
      simp only [hw, run_prim_bind, run_pure] at h
      rw [← (Prod.mk.inj h).2]
      exact ⟨[Event.fileWrite iCopyFile chunk, Event.processedSize (toFilesize processed_size)],
        by simp [Prim.apply, Ftp.log], rfl, rfl, by simp [delivered]⟩

/-- The end of a pass that emits a chunk and goes on: `mimeType` and
`totalSize` if they are due, then the chunk. -/
theorem ftpGetEmit_stream (iCopyFile : Int) (mimetypeEmitted : Bool) (chunk : Bytes)
    (processed_size : Int) (x v1 : GetLoop) (s s1 : Ftp)
    (h : (do
        ftpGetMime mimetypeEmitted chunk
        let failed ← ftpGetDeliver iCopyFile chunk processed_size
        match failed with
          | some e => pure (Sum.inl (StatusCode.statusClientError, e))
          | none => pure (Sum.inr x) : M (Sum (StatusCode × KioError) GetLoop)) s =
        (Except.ok (Sum.inr v1), s1)) :
    v1 = x ∧ ∃ evs, s1.trace = s.trace ++ evs ∧ s1.m_size = s.m_size ∧ received evs = [] ∧
      delivered evs = chunk := by
  obtain ⟨sa, hM, tM, zM⟩ := ftpGetMime_run mimetypeEmitted chunk s
  rw [run_bind_ok hM] at h
  rcases hD : ftpGetDeliver iCopyFile chunk processed_size sa with ⟨r2, sb⟩
  cases r2 with
  | error e =>
    rw [run_bind_error hD] at h
    exact nomatch (Prod.mk.inj h).1
  | ok o =>
    rw [run_bind_ok hD] at h
    cases o with
    | some e =>
      simp only [run_pure] at h
      exact nomatch (Except.ok.inj (Prod.mk.inj h).1)
    | none =>
      simp only [run_pure] at h
      have hs : sb = s1 := (Prod.mk.inj h).2
      subst hs
      obtain ⟨evs, tD, zD, rD, dD⟩ := ftpGetDeliver_stream _ _ _ _ _ hD
      have hm := stream_mimeUpcalls mimetypeEmitted s.m_size chunk
      refine ⟨(Sum.inr.inj (Except.ok.inj (Prod.mk.inj h).1)).symm,
        mimeUpcalls mimetypeEmitted s.m_size chunk ++ evs, ?_, zD.trans zM, ?_, ?_⟩
      · rw [tD, tM, List.append_assoc]
      · rw [received_append, hm.1, rD]
        rfl
      · rw [delivered_append, hm.2, dD]
        rfl

/-- A pass of the read loop that has read the bytes `c :: cs` and goes on: it
reads nothing more, and the bytes held back before together with those read
are the bytes it hands on followed by those it holds back.  Bytes are held back
only while a known size tells that more are to come. -/
theorem ftpGetStep_stream (iCopyFile : Int) (v v1 : GetLoop) (iBlockSize : Int) (c : Char)
    (cs : Bytes) (s s1 : Ftp) (hJ : s.m_size = UnknownSize → v.buffer = [])
    (h : ftpGetStep iCopyFile v iBlockSize (c :: cs) s = (Except.ok (Sum.inr v1), s1)) :
    ∃ evs, s1.trace = s.trace ++ evs ∧ s1.m_size = s.m_size ∧ received evs = [] ∧
      v.buffer ++ c :: cs = delivered evs ++ v1.buffer ∧
      (v1.buffer ≠ [] → s.m_size ≠ UnknownSize ∧ 0 < v1.bytesLeft) ∧
      v1.bytesLeft = if s.m_size = UnknownSize then v.bytesLeft
        else toFilesize ((v.bytesLeft : Int) - ((cs.length + 1 : Nat) : Int)) := by
  have hlen : ((c :: cs).length : Int) = ((cs.length + 1 : Nat) : Int) := rfl
  unfold ftpGetStep at h
  simp only [run_getFtp_bind] at h
  by_cases hu : (s.m_size != UnknownSize) = true
  · have hk : s.m_size ≠ UnknownSize := by simpa using hu
    rw [if_pos hu] at h
    rw [if_neg hk]
    by_cases ha : (decide (((v.buffer ++ c :: cs).length : Int) < mimimumMimeSize) &&
        decide (toFilesize ((v.bytesLeft : Int) - ((c :: cs).length : Int)) > 0)) = true
    · rw [if_pos ha] at h
      simp only [run_prim_bind, run_pure] at h
      have hv := (Sum.inr.inj (Except.ok.inj (Prod.mk.inj h).1)).symm
      have hs := (Prod.mk.inj h).2.symm
      subst hv hs
      simp only [Bool.and_eq_true, decide_eq_true_eq] at ha
      refine ⟨[Event.processedSize (toFilesize (v.processed_size + ((c :: cs).length : Int)))],
        by simp [Prim.apply, Ftp.log], rfl, rfl, rfl, fun _ => ⟨hk, ha.2⟩, rfl⟩
    · rw [if_neg ha] at h
      obtain ⟨hv, evs, t, z, r, d⟩ := ftpGetEmit_stream _ _ _ _ _ _ _ _ h
      subst hv
      refine ⟨evs, t, z, r, ?_, fun hne => absurd rfl hne, rfl⟩
      rw [d, List.append_nil]
  · have hk : s.m_size = UnknownSize := by simpa using hu
    rw [if_neg hu] at h
    rw [if_pos hk]
    obtain ⟨hv, evs, t, z, r, d⟩ := ftpGetEmit_stream _ _ _ _ _ _ _ _ h
    subst hv
    have hb := hJ hk
    refine ⟨evs, t, z, r, ?_, fun hne => absurd hb hne, rfl⟩
    rw [d]
    simp only [hb, List.nil_append, List.take_length, List.append_nil]

theorem toFilesize_sub (a : Nat) (n m : Int) :
    toFilesize ((toFilesize ((a : Int) - n) : Int) - m) = toFilesize ((a : Int) - (n + m)) := by
  unfold toFilesize
  congr 1
  omega

/-- The read loop of `ftpGet`, from any pass at which bytes are held back only
while a known size tells that more are to come: when the loop ends, the bytes
held back at that pass followed by the bytes read since are the bytes handed
on, in order; and with a known size the bytes read since are, modulo 2^64, the
bytes that were left. -/
theorem ftpGetLoop_stream (iCopyFile llOffset : Int) : ∀ (fuel : Nat) (v : GetLoop) (s : Ftp)
    (r : Int) (s1 : Ftp),
    (v.buffer ≠ [] → s.m_size ≠ UnknownSize ∧ 0 < v.bytesLeft) →
    ftpGetLoop iCopyFile llOffset fuel v s = (Except.ok (Sum.inr r), s1) →
    ∃ added, s1.trace = s.trace ++ added ∧ s1.m_size = s.m_size ∧
      v.buffer ++ received added = delivered added ∧
      (s.m_size ≠ UnknownSize →
        toFilesize ((v.bytesLeft : Int) - ((received added).length : Int)) = 0) := by
  intro fuel
  induction fuel with
  | zero =>
    intro v s r s1 _ h
    unfold ftpGetLoop at h
    exact nomatch h
  | succ n ih =>
    intro v s r s1 hJ h
    unfold ftpGetLoop at h
    simp only [run_getFtp_bind] at h
    by_cases hc : (!(s.m_size == UnknownSize || decide (v.bytesLeft > 0))) = true
    · rw [if_pos hc] at h
      have hs : s = s1 := (Prod.mk.inj h).2
      subst hs
      simp only [Bool.not_eq_true', Bool.or_eq_false_iff, beq_eq_false_iff_ne,
        decide_eq_false_iff_not, Nat.not_lt, Nat.le_zero] at hc
      have hb : v.buffer = [] := by
        by_contra hne
        have := (hJ hne).2
        omega
      refine ⟨[], by simp, rfl, by simp [received, delivered, hb], fun _ => ?_⟩
      rw [hc.2]
      rfl
    · rw [if_neg hc] at h
      cases hd : s.m_data with
      | none =>
        simp only [hd] at h
        exact nomatch h
      | some d =>
        simp only [hd, run_prim_bind] at h
        have htr : ((Prim.dataRead (ftpGetBlockSize v llOffset)).apply s).trace =
            s.trace ++ Prim.events (Prim.dataRead (ftpGetBlockSize v llOffset)) s :=
          Prim.apply_trace _ _
        have hsz := dataRead_size (ftpGetBlockSize v llOffset) s
        cases hrd : readBlock d.reads (ftpGetBlockSize v llOffset) with
        | none =>
          simp only [hrd] at h
          exact nomatch h
        | some block =>
          cases block with
          | nil =>
            simp only [hrd] at h
            simp only [Prim.events, hd, hrd, List.append_nil] at htr
            by_cases hu : (s.m_size == UnknownSize) = true
            · rw [if_pos hu] at h
              have hs := (Prod.mk.inj h).2
              subst hs
              have hu1 : s.m_size = UnknownSize := by simpa using hu
              have hb : v.buffer = [] := by
                by_contra hne
                exact (hJ hne).1 hu1
              exact ⟨[], by simp [htr], hsz, by simp [received, delivered, hb],
                fun hk => absurd hu1 hk⟩
            · rw [if_neg hu] at h
              exact nomatch h
          | cons c cs =>
            simp only [hrd] at h
            simp only [Prim.events, hd, hrd] at htr
            rcases hS : ftpGetStep iCopyFile v (ftpGetBlockSize v llOffset) (c :: cs)
              ((Prim.dataRead (ftpGetBlockSize v llOffset)).apply s) with ⟨rs, s2⟩
            cases rs with
            | error e =>
              rw [run_bind_error hS] at h
              exact nomatch (Prod.mk.inj h).1
            | ok x =>
              rw [run_bind_ok hS] at h
              cases x with
              | inl e =>
                simp only [run_pure] at h
                exact nomatch (Except.ok.inj (Prod.mk.inj h).1)
              | inr v1 =>
                simp only at h
                obtain ⟨evs, t2, z2, rv, hbuf, hJ1, hleft⟩ :=
                  ftpGetStep_stream iCopyFile v v1 _ c cs _ s2
                    (fun hk => by
                      by_contra hne
                      exact (hJ hne).1 (hsz ▸ hk)) hS
                have hz : s2.m_size = s.m_size := z2.trans hsz
                obtain ⟨added1, t1, z1, hstream, hmod⟩ := ih v1 s2 r s1
                  (fun hne => by
                    have := hJ1 hne
                    rw [hsz] at this
                    rw [hz]
                    exact this) h
                refine ⟨Event.dataRecv (c :: cs) :: (evs ++ added1), ?_, z1.trans hz, ?_,
                  fun hk => ?_⟩
                · rw [t1, t2, htr]
                  simp
                · simp only [received, delivered, received_append, delivered_append, rv,
                    List.nil_append]
                  rw [← hstream, ← List.append_assoc, ← List.append_assoc, ← hbuf]
                · have hm := hmod (by rw [hz]; exact hk)
                  rw [hleft, if_neg (by rw [hsz]; exact hk), toFilesize_sub] at hm
                  simp only [received, received_append, rv, List.nil_append, List.length_append,
                    List.length_cons]
                  rw [← hm]
                  congr 1

theorem ftpGetDone_stream (iCopyFile : Int) (processed_size : Int) (s : Ftp) :
    ∃ s1 evs, ftpGetDone iCopyFile processed_size s =
        (Except.ok (StatusCode.statusSuccess, none), s1) ∧
      s1.trace = s.trace ++ evs ∧ s1.m_size = s.m_size ∧ received evs = [] ∧
      delivered evs = [] := by
  unfold ftpGetDone
  by_cases hc : (iCopyFile == -1) = true
  · refine ⟨(Prim.emit Event.finished).apply ((Prim.emit (Event.processedSize
      (if s.m_size == UnknownSize then toFilesize processed_size else s.m_size))).apply
        ((Prim.emit (Event.data [])).apply s)), [Event.data [], Event.processedSize
      (if s.m_size == UnknownSize then toFilesize processed_size else s.m_size),
      Event.finished], ?_, ?_, rfl, rfl, rfl⟩
    · simp only [hc, if_true, run_prim_bind, run_getFtp_bind, run_pure]
      rfl
    · simp [Prim.apply, Ftp.log]
  · refine ⟨(Prim.emit Event.finished).apply ((Prim.emit (Event.processedSize
      (if s.m_size == UnknownSize then toFilesize processed_size else s.m_size))).apply s),
      [Event.processedSize
        (if s.m_size == UnknownSize then toFilesize processed_size else s.m_size),
      Event.finished], ?_, ?_, rfl, rfl, rfl⟩
    · simp only [hc, Bool.false_eq_true, if_false, run_pure_bind, run_prim_bind,
        run_getFtp_bind, run_pure]
    · simp [Prim.apply, Ftp.log]

/-- What follows the accepted `retr`, when it ends with success: among the
events added since `s0` the bytes handed on are the bytes read, and with a
known size their number is, modulo 2^64, the size less the offset. -/
theorem hoare_ftpGetTransfer_stream (s0 : Ftp) (fuel : Nat) (iCopyFile llOffset : Int) :
    Hoare (Emits (fun e => streamEvent e = false) s0) (ftpGetTransfer fuel iCopyFile llOffset)
      (fun r s1 => r = (StatusCode.statusSuccess, none) →
        ∃ added, s1.trace = s0.trace ++ added ∧ delivered added = received added ∧
          (s1.m_size ≠ UnknownSize →
            toFilesize ((s1.m_size : Int) - llOffset - ((received added).length : Int)) = 0)) := by
  constructor
  intro s hs r hr hsucc
  obtain ⟨pre0, hpre0, hno0⟩ := hs
  rcases hT : ftpGetTransfer fuel iCopyFile llOffset s with ⟨res, sT⟩
  rw [hT] at hr
  simp only at hr ⊢
  unfold ftpGetTransfer at hT
  have eS : Emits (fun e => streamEvent e = false) s (ftpGetSize s).2 :=
    StepsIn.emits command_no_stream (within_ftpGetSize.run s)
  rcases hS : ftpGetSize s with ⟨r0, sa⟩
  rw [hS] at eS
  obtain ⟨preS, hpreS, hnoS⟩ := eS
  cases r0 with
  | error e =>
    rw [run_bind_error hS] at hT
    rw [← (Prod.mk.inj hT).1] at hr
    exact nomatch hr
  | ok u =>
    rw [run_bind_ok hS] at hT
    simp only [run_getFtp_bind] at hT
    rcases hL : ftpGetLoop iCopyFile llOffset fuel ⟨llOffset,
      if (sa.m_size != UnknownSize) = true then toFilesize ((sa.m_size : Int) - llOffset) else 0,
      initialIpcSize, [], false⟩ sa with ⟨rl, sb⟩
    cases rl with
    | error e =>
      rw [run_bind_error hL] at hT
      rw [← (Prod.mk.inj hT).1] at hr
      exact nomatch hr
    | ok x =>
      rw [run_bind_ok hL] at hT
      cases x with
      | inl e =>
        simp only [run_pure] at hT
        rw [← (Prod.mk.inj hT).1, hsucc] at hr
        exact Option.noConfusion (congrArg Prod.snd (Except.ok.inj hr))
      | inr p =>
        simp only at hT
        obtain ⟨sd, evD, hD, tD, zD, rD, dD⟩ := ftpGetDone_stream iCopyFile p sb
        rw [hD] at hT
        have hsT : sd = sT := (Prod.mk.inj hT).2
        subst hsT
        obtain ⟨added, tL, zL, hstream, hmod⟩ := ftpGetLoop_stream iCopyFile llOffset fuel _ sa
          p sb (fun hne => absurd rfl hne) hL
        have q0 := stream_no_event pre0 hno0
        have qS := stream_no_event preS hnoS
        refine ⟨pre0 ++ preS ++ added ++ evD, ?_, ?_, fun hk => ?_⟩
        · rw [tD, tL, hpreS, hpre0]
          simp
        · simp only [received_append, delivered_append, q0.1, q0.2, qS.1, qS.2, rD, dD,
            List.nil_append, List.append_nil]
          exact hstream.symm
        · rw [zD, zL] at hk ⊢
          have hm := hmod hk
          have hu : (sa.m_size != UnknownSize) = true := by simpa using hk
          simp only [hu, if_true] at hm
          simp only [received_append, q0.1, qS.1, rD, List.nil_append, List.append_nil]
          rw [← hm]
          unfold toFilesize
          congr 1
          omega

/-- The invariant of a download before its transfer starts: no event that
carries bytes of the stream has been added since `s0`, and the configuration
is that of `s0`. -/
theorem hoare_command_still {α : Type} (s0 : Ftp) {m : M α} (h : Within commandPrim m) :
    Hoare (fun s => Emits (fun e => streamEvent e = false) s0 s ∧
        s.world.config = s0.world.config) m
      (fun _ s => Emits (fun e => streamEvent e = false) s0 s ∧
        s.world.config = s0.world.config) :=
  Hoare.of_within h fun _ _ hs hI =>
    ⟨hI.1.emits_trans (StepsIn.emits command_no_stream hs), hs.steps_config.trans hI.2⟩

theorem hoare_ftpGet_stream (s0 : Ftp) (fuel : Nat) (iCopyFile : Int) (path : Bytes)
    (llOffset0 : Int) :
    Hoare (fun s => Emits (fun e => streamEvent e = false) s0 s ∧
        s.world.config = s0.world.config) (ftpGet fuel iCopyFile path llOffset0)
      (fun r s1 => r = (StatusCode.statusSuccess, none) →
        ∃ added, s1.trace = s0.trace ++ added ∧ delivered added = received added ∧
          (s1.m_size ≠ UnknownSize →
            toFilesize ((s1.m_size : Int) - resumeOffset s0.world.config llOffset0 -
              ((received added).length : Int)) = 0)) := by
  have hC := Within.control (fun _ => True) fuel
  have hfail : ∀ (st : StatusCode) (e : Option KioError), st ≠ StatusCode.statusSuccess →
      Hoare (fun s => Emits (fun e => streamEvent e = false) s0 s ∧
        s.world.config = s0.world.config) (pure (st, e) : M (StatusCode × Option KioError))
      (fun r s1 => r = (StatusCode.statusSuccess, none) →
        ∃ added, s1.trace = s0.trace ++ added ∧ delivered added = received added ∧
          (s1.m_size ≠ UnknownSize →
            toFilesize ((s1.m_size : Int) - resumeOffset s0.world.config llOffset0 -
              ((received added).length : Int)) = 0)) :=
    fun st e hne => Hoare.hoare_pure _ fun _ _ h => absurd (congrArg Prod.fst h) hne
  unfold ftpGet
  refine Hoare.hoare_bind (hoare_command_still s0 (within_control_command (hC.2.2.1 _)))
    fun opened => ?_
  split
  · exact hfail _ _ (by decide)
  refine Hoare.hoare_bind (hoare_command_still s0 (within_ftpSize _ _ _)) fun sized => ?_
  refine Hoare.getFtp_keep fun s1 => ?_
  refine Hoare.hoare_bind (R := fun _ s => Emits (fun e => streamEvent e = false) s0 s ∧
    s.world.config = s0.world.config) ?_ fun isDir => ?_
  · split
    · exact hoare_command_still s0 (within_control_command (hC.2.2.2.2.2.2.2.2.2 _ _))
    · exact Hoare.hoare_pure _ fun _ h => h
  split
  · exact hfail _ _ (by decide)
  refine Hoare.getFtp_inv fun s hI => ?_
  have hres : (if (!s.world.config.resume.isEmpty) = true then toLongLong s.world.config.resume
      else llOffset0) = resumeOffset s0.world.config llOffset0 := by
    rw [hI.2]
    rfl
  simp only [hres]
  refine Hoare.hoare_bind (hoare_command_still s0 (within_ftpOpenCommand _ _ _ _ _ _))
    fun cmdOk => ?_
  split
  · exact hfail _ _ (by decide)
  · exact Hoare.weaken (fun _ h => h.1) (hoare_ftpGetTransfer_stream s0 fuel _ _)

/-- C27: in every run of `ftpGet` that returns `statusSuccess` with no error,
whether the chunks go to the data pump (`data` upcalls) or to the local file,
the bytes handed on since the start, in order, are the bytes read from the data
connection, in order: the buffering of the first chunks drops, repeats and
reorders nothing.  When the size is known, the number of these bytes is the
size less the offset modulo 2^64, and is equal to it when the offset, the size
and that number are in the range of a signed 64-bit integer. -/
theorem ftpGet_stream_unchanged (fuel : Nat) (iCopyFile : Int) (path : Bytes) (llOffset0 : Int)
    (s : Ftp) (added : List Event)
    (hok : (ftpGet fuel iCopyFile path llOffset0 s).1 =
      Except.ok (StatusCode.statusSuccess, none))
    (htrace : (ftpGet fuel iCopyFile path llOffset0 s).2.trace = s.trace ++ added) :
    delivered added = received added ∧
    ((ftpGet fuel iCopyFile path llOffset0 s).2.m_size ≠ UnknownSize →
      toFilesize (((ftpGet fuel iCopyFile path llOffset0 s).2.m_size : Int) -
        resumeOffset s.world.config llOffset0 - ((delivered added).length : Int)) = 0 ∧
      (-(2 ^ 63) ≤ resumeOffset s.world.config llOffset0 →
        resumeOffset s.world.config llOffset0 < 2 ^ 63 →
        (ftpGet fuel iCopyFile path llOffset0 s).2.m_size < 2 ^ 63 →
        (delivered added).length < 2 ^ 63 →
        ((delivered added).length : Int) =
          ((ftpGet fuel iCopyFile path llOffset0 s).2.m_size : Int) -
            resumeOffset s.world.config llOffset0)) := by
  obtain ⟨added1, ht, hstream, hmod⟩ := (hoare_ftpGet_stream s fuel iCopyFile path llOffset0).run s
    ⟨Emits.emits_refl _ s, rfl⟩ _ hok rfl
  have hadd : added1 = added := List.append_cancel_left (ht.symm.trans htrace)
  subst hadd
  refine ⟨hstream, fun hk => ?_⟩
  have hm := hmod hk
  rw [← hstream] at hm
  refine ⟨hm, fun h1 h2 h3 h4 => ?_⟩
  unfold toFilesize at hm
  have h3i : (((ftpGet fuel iCopyFile path llOffset0 s).2.m_size : Nat) : Int) < 2 ^ 63 := by
    exact_mod_cast h3
  have h4i : (((delivered added1).length : Nat) : Int) < 2 ^ 63 := by
    exact_mod_cast h4
  omega

/-- C27 on a download of five bytes that come as `he` and `llo`, to the data
pump and to a local file: the bytes handed on are `hello`, five bytes for the
size 5 and the offset 0. -/
theorem ftpGet_stream_unchanged_witness :
    (delivered (ftpGet 9 (-1) "/pub/hello".toList 0 exampleHello).2.trace = "hello".toList ∧
      delivered (ftpGet 9 7 "/pub/hello".toList 0 exampleHello).2.trace = "hello".toList ∧
      (ftpGet 9 7 "/pub/hello".toList 0 exampleHello).2.trace.filter streamEvent =
        [Event.dataRecv "he".toList, Event.dataRecv "llo".toList,
          Event.fileWrite 7 "hello".toList]) ∧
    (delivered (ftpGet 9 (-1) "/pub/hello".toList 0 exampleHello).2.trace =
        received (ftpGet 9 (-1) "/pub/hello".toList 0 exampleHello).2.trace ∧
      ((ftpGet 9 (-1) "/pub/hello".toList 0 exampleHello).2.m_size ≠ UnknownSize →
        toFilesize (((ftpGet 9 (-1) "/pub/hello".toList 0 exampleHello).2.m_size : Int) -
          resumeOffset exampleHello.world.config 0 -
          ((delivered (ftpGet 9 (-1) "/pub/hello".toList 0 exampleHello).2.trace).length : Int)) =
            0 ∧
        (-(2 ^ 63) ≤ resumeOffset exampleHello.world.config 0 →
          resumeOffset exampleHello.world.config 0 < 2 ^ 63 →
          (ftpGet 9 (-1) "/pub/hello".toList 0 exampleHello).2.m_size < 2 ^ 63 →
          (delivered (ftpGet 9 (-1) "/pub/hello".toList 0 exampleHello).2.trace).length < 2 ^ 63 →
          ((delivered (ftpGet 9 (-1) "/pub/hello".toList 0 exampleHello).2.trace).length : Int) =
            ((ftpGet 9 (-1) "/pub/hello".toList 0 exampleHello).2.m_size : Int) -
              resumeOffset exampleHello.world.config 0))) :=
  ⟨⟨by decide!, by decide!, by decide!⟩,
    ftpGet_stream_unchanged 9 (-1) "/pub/hello".toList 0 exampleHello
      (ftpGet 9 (-1) "/pub/hello".toList 0 exampleHello).2.trace (by decide!)
      (List.nil_append _).symm⟩

end KioFtps

namespace KioFtps

/-! ## `stat` never reports a cyclic link

The footprint of `stat` and of the functions it calls: none of them performs
the upcall `error(ERR_CYCLIC_LINK, ...)`. -/

/-- Sequencing within a footprint, when what the first computation returns
matters to the second. -/
theorem Within.within_bind_of {α β : Type} {Q : Prim → Prop} {R : α → Prop} {m : M α}
    {f : α → M β} (hm : Within Q m) (hr : Returns R m) (hf : ∀ a, R a → Within Q (f a)) :
    Within Q (m >>= f) := by
  constructor
  intro s
  rw [run_bind]
  have h1 := hm.run s
  have h2 := hr.run s
  cases hms : m s with
  | mk r s1 =>
    rw [hms] at h1 h2
    cases r with
    | ok a => exact StepsIn.steps_trans h1 ((hf a (h2 a rfl)).run s1)
    | error e => exact h1

/-- A value that is returned at once reaches what follows it. -/
theorem Within.within_pure_bind {α β : Type} {Q : Prim → Prop} {a : α} {f : α → M β}
    (h : Within Q (f a)) : Within Q ((pure a : M α) >>= f) :=
  ⟨fun s => h.run s⟩

theorem calm_error (code : KioError) (msg : Bytes) (h : code ≠ KioError.ERR_CYCLIC_LINK) :
    Within noCyclicLink (error code msg) :=
  Within.within_prim _ fun _ hp => h (Event.error.inj (Prim.emit.inj hp)).1

theorem calm_infoMessage (msg : Bytes) : Within noCyclicLink (infoMessage msg) :=
  Within.within_prim _ fun _ hp => nomatch hp

theorem calm_ftpResponse (iOffset : Int) : Within noCyclicLink (ftpResponse iOffset) := by
  unfold KioFtps.ftpResponse
  repeat' first
    | with_reducible exact Within.within_pure _
    | with_reducible exact Within.within_fault _
    | with_reducible exact Within.within_getFtp
    | ((with_reducible refine Within.within_prim _ ?_); (intro _ h; cases h))
    | with_reducible apply Within.within_bind
    | intro _
    | split

theorem calm_askSslErrors (errors : List Bytes) (doNotIgnore : Bool) :
    Within noCyclicLink (askSslErrors errors doNotIgnore) := by
  induction errors generalizing doNotIgnore with
  | nil => exact Within.within_pure _
  | cons e es ih =>
    unfold KioFtps.askSslErrors
    repeat' first
      | with_reducible exact Within.within_pure _
      | with_reducible exact Within.within_getFtp
      | ((with_reducible refine Within.within_prim _ ?_); (intro _ h; cases h))
      | with_reducible exact ih _
      | with_reducible apply Within.within_bind
      | intro _
      | split

set_option maxHeartbeats 4000000 in
theorem calm_ftpSendCmd_succ (n : Nat)
    (ihSend : ∀ cmd maxretries, Within noCyclicLink (ftpSendCmd n cmd maxretries))
    (ihClose : Within noCyclicLink (closeConnection n))
    (ihOpen : ∀ loginMode, Within noCyclicLink (ftpOpenConnection n loginMode))
    (cmd : Bytes) (maxretries : Int) :
    Within noCyclicLink (ftpSendCmd (n + 1) cmd maxretries) := by
  unfold KioFtps.ftpSendCmd
  repeat' first
    | with_reducible exact Within.within_pure _
    | with_reducible exact Within.within_fault _
    | with_reducible exact Within.within_getFtp
    | ((with_reducible refine Within.within_prim _ ?_); (intro _ h; cases h))
    | ((with_reducible refine calm_error _ _ ?_); first
        | decide
        | assumption
        | (intro hc; subst hc; contradiction))
    | with_reducible exact calm_infoMessage _
    | with_reducible exact calm_ftpResponse _
    | with_reducible exact calm_askSslErrors _ _
    | with_reducible exact ihSend _ _
    | with_reducible exact ihClose
    | with_reducible exact ihOpen _
    | with_reducible apply Within.within_pure_bind
    | with_reducible apply Within.within_bind
    | intro _
    | split
    | dsimp only

set_option maxHeartbeats 4000000 in
theorem calm_closeConnection_succ (n : Nat)
    (ihSend : ∀ cmd maxretries, Within noCyclicLink (ftpSendCmd n cmd maxretries))
    :
    Within noCyclicLink (closeConnection (n + 1)) := by
  unfold KioFtps.closeConnection
  repeat' first
    | with_reducible exact Within.within_pure _
    | with_reducible exact Within.within_fault _
    | with_reducible exact Within.within_getFtp
    | ((with_reducible refine Within.within_prim _ ?_); (intro _ h; cases h))
    | ((with_reducible refine calm_error _ _ ?_); first
        | decide
        | assumption
        | (intro hc; subst hc; contradiction))
    | with_reducible exact calm_infoMessage _
    | with_reducible exact calm_ftpResponse _
    | with_reducible exact calm_askSslErrors _ _
    | with_reducible exact ihSend _ _
    | with_reducible apply Within.within_pure_bind
    | with_reducible apply Within.within_bind
    | intro _
    | split
    | dsimp only

set_option maxHeartbeats 4000000 in
theorem calm_ftpOpenConnection_succ (n : Nat)
    (ihControl : ∀ host port ignoreSslErrors,
      Within noCyclicLink (ftpOpenControlConnection n host port ignoreSslErrors))
    (ihLogin : Within noCyclicLink (ftpLogin n))
    (loginMode : LoginMode) :
    Within noCyclicLink (ftpOpenConnection (n + 1) loginMode) := by
  unfold KioFtps.ftpOpenConnection
  repeat' first
    | with_reducible exact Within.within_pure _
    | with_reducible exact Within.within_fault _
    | with_reducible exact Within.within_getFtp
    | ((with_reducible refine Within.within_prim _ ?_); (intro _ h; cases h))
    | ((with_reducible refine calm_error _ _ ?_); first
        | decide
        | assumption
        | (intro hc; subst hc; contradiction))
    | with_reducible exact calm_infoMessage _
    | with_reducible exact calm_ftpResponse _
    | with_reducible exact calm_askSslErrors _ _
    | with_reducible exact ihControl _ _ _
    | with_reducible exact ihLogin
    | with_reducible apply Within.within_pure_bind
    | with_reducible apply Within.within_bind
    | intro _
    | split
    | dsimp only

set_option maxHeartbeats 4000000 in
theorem calm_ftpOpenControlConnection_succ (n : Nat)
    (ihSend : ∀ cmd maxretries, Within noCyclicLink (ftpSendCmd n cmd maxretries))
    (ihClose : Within noCyclicLink (closeConnection n))
    (ihControl : ∀ host port ignoreSslErrors,
      Within noCyclicLink (ftpOpenControlConnection n host port ignoreSslErrors))
    (host : Bytes) (port : Int) (ignoreSslErrors : Bool) :
    Within noCyclicLink (ftpOpenControlConnection (n + 1) host port ignoreSslErrors) := by
  unfold KioFtps.ftpOpenControlConnection
  repeat' first
    | with_reducible exact Within.within_pure _
    | with_reducible exact Within.within_fault _
    | with_reducible exact Within.within_getFtp
    | ((with_reducible refine Within.within_prim _ ?_); (intro _ h; cases h))
    | ((with_reducible refine calm_error _ _ ?_); first
        | decide
        | assumption
        | (intro hc; subst hc; contradiction))
    | with_reducible exact calm_infoMessage _
    | with_reducible exact calm_ftpResponse _
    | with_reducible exact calm_askSslErrors _ _
    | with_reducible exact ihSend _ _
    | with_reducible exact ihClose
    | with_reducible exact ihControl _ _ _
    | with_reducible apply Within.within_pure_bind
    | with_reducible apply Within.within_bind
    | intro _
    | split
    | dsimp only

set_option maxHeartbeats 4000000 in
theorem calm_ftpLogin_succ (n : Nat)
    (ihSend : ∀ cmd maxretries, Within noCyclicLink (ftpSendCmd n cmd maxretries))
    (ihLoop : ∀ user pass info failedAuth,
      Within noCyclicLink (ftpLoginLoop n user pass info failedAuth))
    (ihAuto : Within noCyclicLink (ftpAutoLoginMacro n))
    :
    Within noCyclicLink (ftpLogin (n + 1)) := by
  unfold KioFtps.ftpLogin
  repeat' first
    | with_reducible exact Within.within_pure _
    | with_reducible exact Within.within_fault _
    | with_reducible exact Within.within_getFtp
    | ((with_reducible refine Within.within_prim _ ?_); (intro _ h; cases h))
    | ((with_reducible refine calm_error _ _ ?_); first
        | decide
        | assumption
        | (intro hc; subst hc; contradiction))
    | with_reducible exact calm_infoMessage _
    | with_reducible exact calm_ftpResponse _
    | with_reducible exact calm_askSslErrors _ _
    | with_reducible exact ihSend _ _
    | with_reducible exact ihLoop _ _ _ _
    | with_reducible exact ihAuto
    | with_reducible apply Within.within_pure_bind
    | with_reducible apply Within.within_bind
    | intro _
    | split
    | dsimp only

set_option maxHeartbeats 4000000 in
theorem calm_ftpLoginLoop_succ (n : Nat)
    (ihAttempt : ∀ user pass info failedAuth,
      Within noCyclicLink (ftpLoginAttempt n user pass info failedAuth))
    (user pass : Bytes) (info : AuthInfo) (failedAuth : Int) :
    Within noCyclicLink (ftpLoginLoop (n + 1) user pass info failedAuth) := by
  unfold KioFtps.ftpLoginLoop
  repeat' first
    | with_reducible exact Within.within_pure _
    | with_reducible exact Within.within_fault _
    | with_reducible exact Within.within_getFtp
    | ((with_reducible refine Within.within_prim _ ?_); (intro _ h; cases h))
    | ((with_reducible refine calm_error _ _ ?_); first
        | decide
        | assumption
        | (intro hc; subst hc; contradiction))
    | with_reducible exact calm_infoMessage _
    | with_reducible exact calm_ftpResponse _
    | with_reducible exact calm_askSslErrors _ _
    | with_reducible exact ihAttempt _ _ _ _
    | with_reducible apply Within.within_pure_bind
    | with_reducible apply Within.within_bind
    | intro _
    | split
    | dsimp only

set_option maxHeartbeats 4000000 in
theorem calm_ftpLoginAttempt_succ (n : Nat)
    (ihSend : ∀ cmd maxretries, Within noCyclicLink (ftpSendCmd n cmd maxretries))
    (ihLoop : ∀ user pass info failedAuth,
      Within noCyclicLink (ftpLoginLoop n user pass info failedAuth))
    (user pass : Bytes) (info : AuthInfo) (failedAuth : Int) :
    Within noCyclicLink (ftpLoginAttempt (n + 1) user pass info failedAuth) := by
  unfold KioFtps.ftpLoginAttempt
  repeat' first
    | with_reducible exact Within.within_pure _
    | with_reducible exact Within.within_fault _
    | with_reducible exact Within.within_getFtp
    | ((with_reducible refine Within.within_prim _ ?_); (intro _ h; cases h))
    | ((with_reducible refine calm_error _ _ ?_); first
        | decide
        | assumption
        | (intro hc; subst hc; contradiction))
    | with_reducible exact calm_infoMessage _
    | with_reducible exact calm_ftpResponse _
    | with_reducible exact calm_askSslErrors _ _
    | with_reducible exact ihSend _ _
    | with_reducible exact ihLoop _ _ _ _
    | with_reducible apply Within.within_pure_bind
    | with_reducible apply Within.within_bind
    | intro _
    | split
    | dsimp only

set_option maxHeartbeats 4000000 in
theorem calm_ftpAutoLoginMacro_succ (n : Nat)
    (ihCwd : ∀ parts, Within noCyclicLink (ftpMacroCwd n parts))
    :
    Within noCyclicLink (ftpAutoLoginMacro (n + 1)) := by
  unfold KioFtps.ftpAutoLoginMacro
  repeat' first
    | with_reducible exact Within.within_pure _
    | with_reducible exact Within.within_fault _
    | with_reducible exact Within.within_getFtp
    | ((with_reducible refine Within.within_prim _ ?_); (intro _ h; cases h))
    | ((with_reducible refine calm_error _ _ ?_); first
        | decide
        | assumption
        | (intro hc; subst hc; contradiction))
    | with_reducible exact calm_infoMessage _
    | with_reducible exact calm_ftpResponse _
    | with_reducible exact calm_askSslErrors _ _
    | with_reducible exact ihCwd _
    | with_reducible apply Within.within_pure_bind
    | with_reducible apply Within.within_bind
    | intro _
    | split
    | dsimp only

set_option maxHeartbeats 4000000 in
theorem calm_ftpMacroCwd_succ (n : Nat)
    (ihCwd : ∀ parts, Within noCyclicLink (ftpMacroCwd n parts))
    (ihFolder : ∀ path bReportError, Within noCyclicLink (ftpFolder n path bReportError))
    (parts : List Bytes) :
    Within noCyclicLink (ftpMacroCwd (n + 1) parts) := by
  unfold KioFtps.ftpMacroCwd
  repeat' first
    | with_reducible exact Within.within_pure _
    | with_reducible exact Within.within_fault _
    | with_reducible exact Within.within_getFtp
    | ((with_reducible refine Within.within_prim _ ?_); (intro _ h; cases h))
    | ((with_reducible refine calm_error _ _ ?_); first
        | decide
        | assumption
        | (intro hc; subst hc; contradiction))
    | with_reducible exact calm_infoMessage _
    | with_reducible exact calm_ftpResponse _
    | with_reducible exact calm_askSslErrors _ _
    | with_reducible exact ihCwd _
    | with_reducible exact ihFolder _ _
    | with_reducible apply Within.within_pure_bind
    | with_reducible apply Within.within_bind
    | intro _
    | split
    | dsimp only

set_option maxHeartbeats 4000000 in
theorem calm_ftpFolder_succ (n : Nat)
    (ihSend : ∀ cmd maxretries, Within noCyclicLink (ftpSendCmd n cmd maxretries))
    (path : Bytes) (bReportError : Bool) :
    Within noCyclicLink (ftpFolder (n + 1) path bReportError) := by
  unfold KioFtps.ftpFolder
  repeat' first
    | with_reducible exact Within.within_pure _
    | with_reducible exact Within.within_fault _
    | with_reducible exact Within.within_getFtp
    | ((with_reducible refine Within.within_prim _ ?_); (intro _ h; cases h))
    | ((with_reducible refine calm_error _ _ ?_); first
        | decide
        | assumption
        | (intro hc; subst hc; contradiction))
    | with_reducible exact calm_infoMessage _
    | with_reducible exact calm_ftpResponse _
    | with_reducible exact calm_askSslErrors _ _
    | with_reducible exact ihSend _ _
    | with_reducible apply Within.within_pure_bind
    | with_reducible apply Within.within_bind
    | intro _
    | split
    | dsimp only

/-- The functions of the control connection never report a cyclic link. -/
theorem calm_control (fuel : Nat) :
    (∀ cmd maxretries, Within noCyclicLink (ftpSendCmd fuel cmd maxretries)) ∧
    Within noCyclicLink (closeConnection fuel) ∧
    (∀ loginMode, Within noCyclicLink (ftpOpenConnection fuel loginMode)) ∧
    (∀ host port ignoreSslErrors,
      Within noCyclicLink (ftpOpenControlConnection fuel host port ignoreSslErrors)) ∧
    Within noCyclicLink (ftpLogin fuel) ∧
    (∀ user pass info failedAuth,
      Within noCyclicLink (ftpLoginLoop fuel user pass info failedAuth)) ∧
    (∀ user pass info failedAuth,
      Within noCyclicLink (ftpLoginAttempt fuel user pass info failedAuth)) ∧
    Within noCyclicLink (ftpAutoLoginMacro fuel) ∧
    (∀ parts, Within noCyclicLink (ftpMacroCwd fuel parts)) ∧
    (∀ path bReportError, Within noCyclicLink (ftpFolder fuel path bReportError)) := by
  induction fuel with
  | zero =>
    refine ⟨fun _ _ => ?_, ?_, fun _ => ?_, fun _ _ _ => ?_, ?_, fun _ _ _ _ => ?_,
      fun _ _ _ _ => ?_, ?_, fun _ => ?_, fun _ _ => ?_⟩
    all_goals first
      | unfold ftpSendCmd
      | unfold closeConnection
      | unfold ftpOpenConnection
      | unfold ftpOpenControlConnection
      | unfold ftpLogin
      | unfold ftpLoginLoop
      | unfold ftpLoginAttempt
      | unfold ftpAutoLoginMacro
      | unfold ftpMacroCwd
      | unfold ftpFolder
    all_goals exact Within.within_fault _
  | succ n ih =>
    obtain ⟨ihSend, ihClose, ihOpen, ihControl, ihLogin, ihLoop, ihAttempt, ihAuto, ihCwd,
      ihFolder⟩ := ih
    exact ⟨fun cmd r => calm_ftpSendCmd_succ n ihSend ihClose ihOpen cmd r,
      calm_closeConnection_succ n ihSend,
      fun m => calm_ftpOpenConnection_succ n ihControl ihLogin m,
      fun h p i => calm_ftpOpenControlConnection_succ n ihSend ihClose ihControl h p i,
      calm_ftpLogin_succ n ihSend ihLoop ihAuto,
      fun u p i f => calm_ftpLoginLoop_succ n ihAttempt u p i f,
      fun u p i f => calm_ftpLoginAttempt_succ n ihSend ihLoop u p i f,
      calm_ftpAutoLoginMacro_succ n ihCwd,
      fun ps => calm_ftpMacroCwd_succ n ihCwd ihFolder ps,
      fun p b => calm_ftpFolder_succ n ihSend p b⟩

/-! ### The error codes the functions of the data connection return -/

theorem Returns.returns_pure_bind {α β : Type} {P : β → Prop} {a : α} {f : α → M β}
    (h : Returns P (f a)) : Returns P ((pure a : M α) >>= f) :=
  ⟨fun s => h.run s⟩

theorem otherCode_orElse {a b : Option KioError} (ha : otherCode a) (hb : otherCode b) :
    otherCode (a.orElse fun _ => b) := by
  cases a with
  | none => exact hb
  | some x => exact ha

set_option maxHeartbeats 4000000 in
theorem other_ftpOpenPASVDataConnection (fuel : Nat) :
    Returns otherCode (ftpOpenPASVDataConnection fuel) := by
  unfold KioFtps.ftpOpenPASVDataConnection
  repeat' first
    | with_reducible exact Returns.returns_fault _
    | ((with_reducible refine Returns.returns_pure _ ?_); first
        | assumption
        | (dsimp only [Sum.elim_inl, Sum.elim_inr, id]; assumption)
        | (intro h; cases h; done)
        | (split <;> (intro h; cases h; done))
        | exact otherCode_orElse (by assumption) (by assumption))
    | with_reducible apply Returns.returns_pure_bind
    | with_reducible apply Returns.returns_bind
    | intro _
    | split
    | dsimp only

set_option maxHeartbeats 4000000 in
theorem other_ftpOpenEPSVDataConnection (fuel : Nat) :
    Returns otherCode (ftpOpenEPSVDataConnection fuel) := by
  unfold KioFtps.ftpOpenEPSVDataConnection
  repeat' first
    | with_reducible exact Returns.returns_fault _
    | ((with_reducible refine Returns.returns_pure _ ?_); first
        | assumption
        | (dsimp only [Sum.elim_inl, Sum.elim_inr, id]; assumption)
        | (intro h; cases h; done)
        | (split <;> (intro h; cases h; done))
        | exact otherCode_orElse (by assumption) (by assumption))
    | with_reducible apply Returns.returns_pure_bind
    | with_reducible apply Returns.returns_bind
    | intro _
    | split
    | dsimp only

set_option maxHeartbeats 4000000 in
theorem other_ftpOpenPortDataConnection (fuel : Nat) :
    Returns otherCode (ftpOpenPortDataConnection fuel) := by
  unfold KioFtps.ftpOpenPortDataConnection
  repeat' first
    | with_reducible exact Returns.returns_fault _
    | ((with_reducible refine Returns.returns_pure _ ?_); first
        | assumption
        | (dsimp only [Sum.elim_inl, Sum.elim_inr, id]; assumption)
        | (intro h; cases h; done)
        | (split <;> (intro h; cases h; done))
        | exact otherCode_orElse (by assumption) (by assumption))
    | with_reducible apply Returns.returns_pure_bind
    | with_reducible apply Returns.returns_bind
    | intro _
    | split
    | dsimp only

set_option maxHeartbeats 4000000 in
theorem other_encryptDataChannel  :
    Returns otherCode (encryptDataChannel) := by
  unfold KioFtps.encryptDataChannel
  repeat' first
    | with_reducible exact Returns.returns_fault _
    | ((with_reducible refine Returns.returns_pure _ ?_); first
        | assumption
        | (dsimp only [Sum.elim_inl, Sum.elim_inr, id]; assumption)
        | (intro h; cases h; done)
        | (split <;> (intro h; cases h; done))
        | exact otherCode_orElse (by assumption) (by assumption))
    | with_reducible apply Returns.returns_pure_bind
    | with_reducible apply Returns.returns_bind
    | intro _
    | split
    | dsimp only

set_option maxHeartbeats 4000000 in
theorem other_ftpOpenPassiveModes (fuel : Nat) :
    Returns (fun r => otherCode (Sum.elim id id r)) (ftpOpenPassiveModes fuel) := by
  unfold KioFtps.ftpOpenPassiveModes
  repeat' first
    | with_reducible exact Returns.returns_fault _
    | ((with_reducible refine Returns.returns_pure _ ?_); first
        | assumption
        | (dsimp only [Sum.elim_inl, Sum.elim_inr, id]; assumption)
        | (intro h; cases h; done)
        | (split <;> (intro h; cases h; done))
        | exact otherCode_orElse (by assumption) (by assumption))
    | (with_reducible refine Returns.returns_bind_of (other_ftpOpenPASVDataConnection _) ?_)
    | (with_reducible refine Returns.returns_bind_of (other_ftpOpenEPSVDataConnection _) ?_)
    | with_reducible apply Returns.returns_pure_bind
    | with_reducible apply Returns.returns_bind
    | intro _
    | split
    | dsimp only

set_option maxHeartbeats 4000000 in
theorem other_ftpOpenPortFallback (fuel : Nat) (iErrCodePASV : Option KioError)
    (h : otherCode iErrCodePASV) :
    Returns otherCode (ftpOpenPortFallback fuel iErrCodePASV) := by
  unfold KioFtps.ftpOpenPortFallback
  repeat' first
    | with_reducible exact Returns.returns_fault _
    | ((with_reducible refine Returns.returns_pure _ ?_); first
        | assumption
        | (dsimp only [Sum.elim_inl, Sum.elim_inr, id]; assumption)
        | (intro h; cases h; done)
        | (split <;> (intro h; cases h; done))
        | exact otherCode_orElse (by assumption) (by assumption))
    | (with_reducible refine Returns.returns_bind_of (other_ftpOpenPortDataConnection _) ?_)
    | with_reducible apply Returns.returns_pure_bind
    | with_reducible apply Returns.returns_bind
    | intro _
    | split
    | dsimp only

set_option maxHeartbeats 4000000 in
theorem other_ftpOpenDataConnection (fuel : Nat) :
    Returns otherCode (ftpOpenDataConnection fuel) := by
  unfold KioFtps.ftpOpenDataConnection
  repeat' first
    | with_reducible exact Returns.returns_fault _
    | ((with_reducible refine Returns.returns_pure _ ?_); first
        | assumption
        | (dsimp only [Sum.elim_inl, Sum.elim_inr, id]; assumption)
        | (intro h; cases h; done)
        | (split <;> (intro h; cases h; done))
        | exact otherCode_orElse (by assumption) (by assumption))
    | (with_reducible refine Returns.returns_bind_of (other_ftpOpenPassiveModes _) ?_)
    | ((with_reducible refine other_ftpOpenPortFallback _ _ ?_); first | assumption | (intro h; cases h))
    | with_reducible apply Returns.returns_pure_bind
    | with_reducible apply Returns.returns_bind
    | intro _
    | split
    | dsimp only

/-! ### The footprint of the functions of a transfer -/

set_option maxHeartbeats 4000000 in
theorem calm_ftpDataMode (fuel : Nat) (cMode : Char) :
    Within noCyclicLink (ftpDataMode fuel cMode) := by
  unfold KioFtps.ftpDataMode
  repeat' first
    | with_reducible exact Within.within_pure _
    | with_reducible exact Within.within_fault _
    | with_reducible exact Within.within_getFtp
    | ((with_reducible refine Within.within_prim _ ?_); (intro _ h; cases h))
    | ((with_reducible refine calm_error _ _ ?_); first
        | decide
        | assumption
        | (intro hc; subst hc; contradiction)
        | (split <;> first | decide | assumption))
    | with_reducible exact calm_infoMessage _
    | with_reducible exact calm_ftpResponse _
    | with_reducible exact (calm_control _).1 _ _
    | with_reducible exact (calm_control _).2.2.1 _
    | with_reducible exact (calm_control _).2.2.2.2.2.2.2.2.2 _ _
    | with_reducible apply Within.within_pure_bind
    | with_reducible apply Within.within_bind
    | intro _
    | split
    | dsimp only

set_option maxHeartbeats 4000000 in
theorem calm_ftpSize (fuel : Nat) (path : Bytes) (mode : Char) :
    Within noCyclicLink (ftpSize fuel path mode) := by
  unfold KioFtps.ftpSize
  repeat' first
    | with_reducible exact Within.within_pure _
    | with_reducible exact Within.within_fault _
    | with_reducible exact Within.within_getFtp
    | ((with_reducible refine Within.within_prim _ ?_); (intro _ h; cases h))
    | ((with_reducible refine calm_error _ _ ?_); first
        | decide
        | assumption
        | (intro hc; subst hc; contradiction)
        | (split <;> first | decide | assumption))
    | with_reducible exact calm_infoMessage _
    | with_reducible exact calm_ftpResponse _
    | with_reducible exact (calm_control _).1 _ _
    | with_reducible exact (calm_control _).2.2.1 _
    | with_reducible exact (calm_control _).2.2.2.2.2.2.2.2.2 _ _
    | with_reducible exact calm_ftpDataMode _ _
    | with_reducible apply Within.within_pure_bind
    | with_reducible apply Within.within_bind
    | intro _
    | split
    | dsimp only

set_option maxHeartbeats 4000000 in
theorem calm_requestDataEncryption (fuel : Nat) :
    Within noCyclicLink (requestDataEncryption fuel) := by
  unfold KioFtps.requestDataEncryption
  repeat' first
    | with_reducible exact Within.within_pure _
    | with_reducible exact Within.within_fault _
    | with_reducible exact Within.within_getFtp
    | ((with_reducible refine Within.within_prim _ ?_); (intro _ h; cases h))
    | ((with_reducible refine calm_error _ _ ?_); first
        | decide
        | assumption
        | (intro hc; subst hc; contradiction)
        | (split <;> first | decide | assumption))
    | with_reducible exact calm_infoMessage _
    | with_reducible exact calm_ftpResponse _
    | with_reducible exact (calm_control _).1 _ _
    | with_reducible exact (calm_control _).2.2.1 _
    | with_reducible exact (calm_control _).2.2.2.2.2.2.2.2.2 _ _
    | with_reducible apply Within.within_pure_bind
    | with_reducible apply Within.within_bind
    | intro _
    | split
    | dsimp only

set_option maxHeartbeats 4000000 in
theorem calm_ftpOpenPASVDataConnection (fuel : Nat) :
    Within noCyclicLink (ftpOpenPASVDataConnection fuel) := by
  unfold KioFtps.ftpOpenPASVDataConnection
  repeat' first
    | with_reducible exact Within.within_pure _
    | with_reducible exact Within.within_fault _
    | with_reducible exact Within.within_getFtp
    | ((with_reducible refine Within.within_prim _ ?_); (intro _ h; cases h))
    | ((with_reducible refine calm_error _ _ ?_); first
        | decide
        | assumption
        | (intro hc; subst hc; contradiction)
        | (split <;> first | decide | assumption))
    | with_reducible exact calm_infoMessage _
    | with_reducible exact calm_ftpResponse _
    | with_reducible exact (calm_control _).1 _ _
    | with_reducible exact (calm_control _).2.2.1 _
    | with_reducible exact (calm_control _).2.2.2.2.2.2.2.2.2 _ _
    | with_reducible apply Within.within_pure_bind
    | with_reducible apply Within.within_bind
    | intro _
    | split
    | dsimp only

set_option maxHeartbeats 4000000 in
theorem calm_ftpOpenEPSVDataConnection (fuel : Nat) :
    Within noCyclicLink (ftpOpenEPSVDataConnection fuel) := by
  unfold KioFtps.ftpOpenEPSVDataConnection
  repeat' first
    | with_reducible exact Within.within_pure _
    | with_reducible exact Within.within_fault _
    | with_reducible exact Within.within_getFtp
    | ((with_reducible refine Within.within_prim _ ?_); (intro _ h; cases h))
    | ((with_reducible refine calm_error _ _ ?_); first
        | decide
        | assumption
        | (intro hc; subst hc; contradiction)
        | (split <;> first | decide | assumption))
    | with_reducible exact calm_infoMessage _
    | with_reducible exact calm_ftpResponse _
    | with_reducible exact (calm_control _).1 _ _
    | with_reducible exact (calm_control _).2.2.1 _
    | with_reducible exact (calm_control _).2.2.2.2.2.2.2.2.2 _ _
    | with_reducible apply Within.within_pure_bind
    | with_reducible apply Within.within_bind
    | intro _
    | split
    | dsimp only

set_option maxHeartbeats 4000000 in
theorem calm_ftpOpenPortDataConnection (fuel : Nat) :
    Within noCyclicLink (ftpOpenPortDataConnection fuel) := by
  unfold KioFtps.ftpOpenPortDataConnection
  repeat' first
    | with_reducible exact Within.within_pure _
    | with_reducible exact Within.within_fault _
    | with_reducible exact Within.within_getFtp
    | ((with_reducible refine Within.within_prim _ ?_); (intro _ h; cases h))
    | ((with_reducible refine calm_error _ _ ?_); first
        | decide
        | assumption
        | (intro hc; subst hc; contradiction)
        | (split <;> first | decide | assumption))
    | with_reducible exact calm_infoMessage _
    | with_reducible exact calm_ftpResponse _
    | with_reducible exact (calm_control _).1 _ _
    | with_reducible exact (calm_control _).2.2.1 _
    | with_reducible exact (calm_control _).2.2.2.2.2.2.2.2.2 _ _
    | with_reducible apply Within.within_pure_bind
    | with_reducible apply Within.within_bind
    | intro _
    | split
    | dsimp only

set_option maxHeartbeats 4000000 in
theorem calm_encryptDataChannel  :
    Within noCyclicLink (encryptDataChannel) := by
  unfold KioFtps.encryptDataChannel
  repeat' first
    | with_reducible exact Within.within_pure _
    | with_reducible exact Within.within_fault _
    | with_reducible exact Within.within_getFtp
    | ((with_reducible refine Within.within_prim _ ?_); (intro _ h; cases h))
    | ((with_reducible refine calm_error _ _ ?_); first
        | decide
        | assumption
        | (intro hc; subst hc; contradiction)
        | (split <;> first | decide | assumption))
    | with_reducible exact calm_infoMessage _
    | with_reducible exact calm_ftpResponse _
    | with_reducible exact (calm_control _).1 _ _
    | with_reducible exact (calm_control _).2.2.1 _
    | with_reducible exact (calm_control _).2.2.2.2.2.2.2.2.2 _ _
    | with_reducible apply Within.within_pure_bind
    | with_reducible apply Within.within_bind
    | intro _
    | split
    | dsimp only

set_option maxHeartbeats 4000000 in
theorem calm_ftpOpenPassiveModes (fuel : Nat) :
    Within noCyclicLink (ftpOpenPassiveModes fuel) := by
  unfold KioFtps.ftpOpenPassiveModes
  repeat' first
    | with_reducible exact Within.within_pure _
    | with_reducible exact Within.within_fault _
    | with_reducible exact Within.within_getFtp
    | ((with_reducible refine Within.within_prim _ ?_); (intro _ h; cases h))
    | ((with_reducible refine calm_error _ _ ?_); first
        | decide
        | assumption
        | (intro hc; subst hc; contradiction)
        | (split <;> first | decide | assumption))
    | with_reducible exact calm_infoMessage _
    | with_reducible exact calm_ftpResponse _
    | with_reducible exact (calm_control _).1 _ _
    | with_reducible exact (calm_control _).2.2.1 _
    | with_reducible exact (calm_control _).2.2.2.2.2.2.2.2.2 _ _
    | with_reducible exact calm_requestDataEncryption _
    | with_reducible exact calm_ftpOpenPASVDataConnection _
    | with_reducible exact calm_ftpOpenEPSVDataConnection _
    | with_reducible exact calm_ftpOpenPortDataConnection _
    | with_reducible apply Within.within_pure_bind
    | with_reducible apply Within.within_bind
    | intro _
    | split
    | dsimp only

set_option maxHeartbeats 4000000 in
theorem calm_ftpOpenPortFallback (fuel : Nat) (iErrCodePASV : Option KioError) :
    Within noCyclicLink (ftpOpenPortFallback fuel iErrCodePASV) := by
  unfold KioFtps.ftpOpenPortFallback
  repeat' first
    | with_reducible exact Within.within_pure _
    | with_reducible exact Within.within_fault _
    | with_reducible exact Within.within_getFtp
    | ((with_reducible refine Within.within_prim _ ?_); (intro _ h; cases h))
    | ((with_reducible refine calm_error _ _ ?_); first
        | decide
        | assumption
        | (intro hc; subst hc; contradiction)
        | (split <;> first | decide | assumption))
    | with_reducible exact calm_infoMessage _
    | with_reducible exact calm_ftpResponse _
    | with_reducible exact (calm_control _).1 _ _
    | with_reducible exact (calm_control _).2.2.1 _
    | with_reducible exact (calm_control _).2.2.2.2.2.2.2.2.2 _ _
    | with_reducible exact calm_requestDataEncryption _
    | with_reducible exact calm_ftpOpenPASVDataConnection _
    | with_reducible exact calm_ftpOpenEPSVDataConnection _
    | with_reducible exact calm_ftpOpenPortDataConnection _
    | with_reducible apply Within.within_pure_bind
    | with_reducible apply Within.within_bind
    | intro _
    | split
    | dsimp only

set_option maxHeartbeats 4000000 in
theorem calm_ftpOpenDataConnection (fuel : Nat) :
    Within noCyclicLink (ftpOpenDataConnection fuel) := by
  unfold KioFtps.ftpOpenDataConnection
  repeat' first
    | with_reducible exact Within.within_pure _
    | with_reducible exact Within.within_fault _
    | with_reducible exact Within.within_getFtp
    | ((with_reducible refine Within.within_prim _ ?_); (intro _ h; cases h))
    | ((with_reducible refine calm_error _ _ ?_); first
        | decide
        | assumption
        | (intro hc; subst hc; contradiction)
        | (split <;> first | decide | assumption))
    | with_reducible exact calm_infoMessage _
    | with_reducible exact calm_ftpResponse _
    | with_reducible exact (calm_control _).1 _ _
    | with_reducible exact (calm_control _).2.2.1 _
    | with_reducible exact (calm_control _).2.2.2.2.2.2.2.2.2 _ _
    | with_reducible exact calm_ftpOpenPassiveModes _
    | with_reducible exact calm_ftpOpenPortFallback _ _
    | with_reducible apply Within.within_pure_bind
    | with_reducible apply Within.within_bind
    | intro _
    | split
    | dsimp only

set_option maxHeartbeats 4000000 in
theorem calm_ftpOpenCommandRest (fuel : Nat) (path : Bytes) (offset : Int) :
    Within noCyclicLink (ftpOpenCommandRest fuel path offset) := by
  unfold KioFtps.ftpOpenCommandRest
  repeat' first
    | with_reducible exact Within.within_pure _
    | with_reducible exact Within.within_fault _
    | with_reducible exact Within.within_getFtp
    | ((with_reducible refine Within.within_prim _ ?_); (intro _ h; cases h))
    | ((with_reducible refine calm_error _ _ ?_); first
        | decide
        | assumption
        | (intro hc; subst hc; contradiction)
        | (split <;> first | decide | assumption))
    | with_reducible exact calm_infoMessage _
    | with_reducible exact calm_ftpResponse _
    | with_reducible exact (calm_control _).1 _ _
    | with_reducible exact (calm_control _).2.2.1 _
    | with_reducible exact (calm_control _).2.2.2.2.2.2.2.2.2 _ _
    | with_reducible apply Within.within_pure_bind
    | with_reducible apply Within.within_bind
    | intro _
    | split
    | dsimp only

set_option maxHeartbeats 4000000 in
theorem calm_ftpOpenCommandAccepted (command : Bytes) (offset : Int) (useDataEnc : Bool) :
    Within noCyclicLink (ftpOpenCommandAccepted command offset useDataEnc) := by
  unfold KioFtps.ftpOpenCommandAccepted
  repeat' first
    | with_reducible exact Within.within_pure _
    | with_reducible exact Within.within_fault _
    | with_reducible exact Within.within_getFtp
    | ((with_reducible refine Within.within_prim _ ?_); (intro _ h; cases h))
    | ((with_reducible refine calm_error _ _ ?_); first
        | decide
        | assumption
        | (intro hc; subst hc; contradiction)
        | (split <;> first | decide | assumption))
    | with_reducible exact calm_infoMessage _
    | with_reducible exact calm_ftpResponse _
    | with_reducible exact (calm_control _).1 _ _
    | with_reducible exact (calm_control _).2.2.1 _
    | with_reducible exact (calm_control _).2.2.2.2.2.2.2.2.2 _ _
    | (with_reducible refine Within.within_bind_of calm_encryptDataChannel other_encryptDataChannel ?_)
    | with_reducible apply Within.within_pure_bind
    | with_reducible apply Within.within_bind
    | intro _
    | split
    | dsimp only

set_option maxHeartbeats 4000000 in
theorem calm_ftpOpenCommandSend (fuel : Nat) (command path : Bytes) (errorcode : KioError)
    (offset : Int) (useDataEnc : Bool) (h : errorcode ≠ KioError.ERR_CYCLIC_LINK) :
    Within noCyclicLink (ftpOpenCommandSend fuel command path errorcode offset useDataEnc) := by
  unfold KioFtps.ftpOpenCommandSend
  repeat' first
    | with_reducible exact Within.within_pure _
    | with_reducible exact Within.within_fault _
    | with_reducible exact Within.within_getFtp
    | ((with_reducible refine Within.within_prim _ ?_); (intro _ h; cases h))
    | ((with_reducible refine calm_error _ _ ?_); first
        | decide
        | assumption
        | (intro hc; subst hc; contradiction)
        | (split <;> first | decide | assumption))
    | with_reducible exact calm_infoMessage _
    | with_reducible exact calm_ftpResponse _
    | with_reducible exact (calm_control _).1 _ _
    | with_reducible exact (calm_control _).2.2.1 _
    | with_reducible exact (calm_control _).2.2.2.2.2.2.2.2.2 _ _
    | with_reducible exact calm_ftpOpenCommandAccepted _ _ _
    | with_reducible apply Within.within_pure_bind
    | with_reducible apply Within.within_bind
    | intro _
    | split
    | dsimp only

set_option maxHeartbeats 4000000 in
theorem calm_ftpOpenCommand (fuel : Nat) (command path : Bytes) (mode : Char)
    (errorcode : KioError) (offset : Int) (h : errorcode ≠ KioError.ERR_CYCLIC_LINK) :
    Within noCyclicLink (ftpOpenCommand fuel command path mode errorcode offset) := by
  unfold KioFtps.ftpOpenCommand
  have hW := calm_ftpOpenDataConnection fuel
  have hR := other_ftpOpenDataConnection fuel
  repeat' first
    | with_reducible exact Within.within_pure _
    | with_reducible exact Within.within_fault _
    | with_reducible exact Within.within_getFtp
    | ((with_reducible refine Within.within_prim _ ?_); (intro _ h; cases h))
    | ((with_reducible refine calm_error _ _ ?_); first
        | decide
        | assumption
        | (intro hc; subst hc; contradiction)
        | (split <;> first | decide | assumption))
    | with_reducible exact calm_infoMessage _
    | with_reducible exact calm_ftpResponse _
    | with_reducible exact (calm_control _).1 _ _
    | with_reducible exact (calm_control _).2.2.1 _
    | with_reducible exact (calm_control _).2.2.2.2.2.2.2.2.2 _ _
    | with_reducible exact calm_ftpDataMode _ _
    | (with_reducible refine Within.within_bind_of hW hR ?_)
    | with_reducible exact calm_requestDataEncryption _
    | with_reducible exact calm_ftpOpenCommandRest _ _ _
    | with_reducible exact calm_ftpOpenCommandSend _ _ _ _ _ _ h
    | with_reducible apply Within.within_pure_bind
    | with_reducible apply Within.within_bind
    | intro _
    | split
    | dsimp only

set_option maxHeartbeats 4000000 in
theorem calm_ftpCloseCommand  :
    Within noCyclicLink (ftpCloseCommand) := by
  unfold KioFtps.ftpCloseCommand
  repeat' first
    | with_reducible exact Within.within_pure _
    | with_reducible exact Within.within_fault _
    | with_reducible exact Within.within_getFtp
    | ((with_reducible refine Within.within_prim _ ?_); (intro _ h; cases h))
    | ((with_reducible refine calm_error _ _ ?_); first
        | decide
        | assumption
        | (intro hc; subst hc; contradiction)
        | (split <;> first | decide | assumption))
    | with_reducible exact calm_infoMessage _
    | with_reducible exact calm_ftpResponse _
    | with_reducible exact (calm_control _).1 _ _
    | with_reducible exact (calm_control _).2.2.1 _
    | with_reducible exact (calm_control _).2.2.2.2.2.2.2.2.2 _ _
    | with_reducible apply Within.within_pure_bind
    | with_reducible apply Within.within_bind
    | intro _
    | split
    | dsimp only

set_option maxHeartbeats 4000000 in
theorem calm_ftpReadDir  :
    Within noCyclicLink (ftpReadDir) := by
  unfold KioFtps.ftpReadDir
  repeat' first
    | with_reducible exact Within.within_pure _
    | with_reducible exact Within.within_fault _
    | with_reducible exact Within.within_getFtp
    | ((with_reducible refine Within.within_prim _ ?_); (intro _ h; cases h))
    | ((with_reducible refine calm_error _ _ ?_); first
        | decide
        | assumption
        | (intro hc; subst hc; contradiction)
        | (split <;> first | decide | assumption))
    | with_reducible exact calm_infoMessage _
    | with_reducible exact calm_ftpResponse _
    | with_reducible exact (calm_control _).1 _ _
    | with_reducible exact (calm_control _).2.2.1 _
    | with_reducible exact (calm_control _).2.2.2.2.2.2.2.2.2 _ _
    | with_reducible apply Within.within_pure_bind
    | with_reducible apply Within.within_bind
    | intro _
    | split
    | dsimp only

set_option maxHeartbeats 4000000 in
theorem calm_ftpShortStatAnswer (filename : Bytes) (isDir : Bool) :
    Within noCyclicLink (ftpShortStatAnswer filename isDir) := by
  unfold KioFtps.ftpShortStatAnswer
  repeat' first
    | with_reducible exact Within.within_pure _
    | with_reducible exact Within.within_fault _
    | with_reducible exact Within.within_getFtp
    | ((with_reducible refine Within.within_prim _ ?_); (intro _ h; cases h))
    | ((with_reducible refine calm_error _ _ ?_); first
        | decide
        | assumption
        | (intro hc; subst hc; contradiction)
        | (split <;> first | decide | assumption))
    | with_reducible exact calm_infoMessage _
    | with_reducible exact calm_ftpResponse _
    | with_reducible exact (calm_control _).1 _ _
    | with_reducible exact (calm_control _).2.2.1 _
    | with_reducible exact (calm_control _).2.2.2.2.2.2.2.2.2 _ _
    | with_reducible apply Within.within_pure_bind
    | with_reducible apply Within.within_bind
    | intro _
    | split
    | dsimp only

set_option maxHeartbeats 4000000 in
theorem calm_ftpStatAnswerNotFound (path filename : Bytes) :
    Within noCyclicLink (ftpStatAnswerNotFound path filename) := by
  unfold KioFtps.ftpStatAnswerNotFound
  repeat' first
    | with_reducible exact Within.within_pure _
    | with_reducible exact Within.within_fault _
    | with_reducible exact Within.within_getFtp
    | ((with_reducible refine Within.within_prim _ ?_); (intro _ h; cases h))
    | ((with_reducible refine calm_error _ _ ?_); first
        | decide
        | assumption
        | (intro hc; subst hc; contradiction)
        | (split <;> first | decide | assumption))
    | with_reducible exact calm_infoMessage _
    | with_reducible exact calm_ftpResponse _
    | with_reducible exact (calm_control _).1 _ _
    | with_reducible exact (calm_control _).2.2.1 _
    | with_reducible exact (calm_control _).2.2.2.2.2.2.2.2.2 _ _
    | with_reducible exact calm_ftpShortStatAnswer _ _
    | with_reducible apply Within.within_pure_bind
    | with_reducible apply Within.within_bind
    | intro _
    | split
    | dsimp only

theorem calm_statLoop (fuel : Nat) (search filename : Bytes) (bFound : Bool) :
    Within noCyclicLink (statLoop fuel search filename bFound) := by
  induction fuel generalizing bFound with
  | zero =>
    unfold statLoop
    exact Within.within_fault _
  | succ n ih =>
    unfold statLoop
    repeat' first
      | with_reducible exact Within.within_pure _
      | with_reducible exact Within.within_fault _
      | ((with_reducible refine Within.within_prim _ ?_); (intro _ h; cases h))
      | with_reducible exact calm_ftpReadDir
      | with_reducible exact ih _
      | with_reducible apply Within.within_bind
      | intro _
      | split

set_option maxHeartbeats 4000000 in
/-- The footprint of `stat`: the test of `linkURL` after the loop is a test of
the empty URL, so the branch with `error(ERR_CYCLIC_LINK, ...)` and the
recursive call is never entered, and no function `stat` calls reports that
error. -/
theorem calm_stat (cleanPath : Bytes → Bytes) (fuel : Nat) (url : Bytes) :
    Within noCyclicLink (stat cleanPath fuel url) := by
  induction fuel generalizing url with
  | zero =>
    unfold stat
    exact Within.within_fault _
  | succ n ih =>
    unfold stat
    simp only [List.isEmpty_nil, Bool.not_true, Bool.false_eq_true, if_false]
    repeat' first
      | with_reducible exact Within.within_pure _
      | with_reducible exact Within.within_fault _
      | with_reducible exact Within.within_getFtp
      | ((with_reducible refine Within.within_prim _ ?_); (intro _ h; cases h))
      | ((with_reducible refine calm_error _ _ ?_); decide)
      | with_reducible exact (calm_control _).2.2.1 _
      | with_reducible exact (calm_control _).2.2.2.2.2.2.2.2.2 _ _
      | with_reducible exact calm_ftpSize _ _ _
      | with_reducible exact calm_ftpReadDir
      | with_reducible exact calm_ftpCloseCommand
      | with_reducible exact calm_ftpShortStatAnswer _ _
      | with_reducible exact calm_ftpStatAnswerNotFound _ _
      | with_reducible exact calm_ftpOpenCommand _ _ _ _ _ _ (by decide)
      | with_reducible exact calm_statLoop _ _ _ _
      | with_reducible apply Within.within_pure_bind
      | with_reducible apply Within.within_bind
      | intro _
      | split
      | dsimp only

/-- The events a footprint without `error(ERR_CYCLIC_LINK, ...)` adds. -/
theorem calm_events (p : Prim) (s : Ftp) (h : noCyclicLink p) :
    ∀ e ∈ Prim.events p s, ∀ msg, e ≠ Event.error KioError.ERR_CYCLIC_LINK msg := by
  intro e he msg hc
  subst hc
  cases p <;> simp only [Prim.events] at he <;>
    first
      | exact absurd he (List.not_mem_nil _)
      | exact h msg (congrArg Prim.emit (List.mem_singleton.mp he).symm)
      | (split at he <;>
          first
            | exact absurd he (List.not_mem_nil _)
            | exact nomatch (List.mem_singleton.mp he)
            | (split at he <;>
                first
                  | exact absurd he (List.not_mem_nil _)
                  | exact nomatch (List.mem_singleton.mp he)))
      | exact nomatch (List.mem_singleton.mp he)

/-- C26 (amended): `stat` never reports `ERR_CYCLIC_LINK`.  `linkURL` is
declared empty (line 1439) and its only assignments are inside `#if 0`, so the
test `!linkURL.isEmpty()` (line 1494) never holds: whatever the URL, the
session, the listing of the server and the result of `QDir::cleanPath`, no run
of `stat` adds the upcall `error(ERR_CYCLIC_LINK, ...)`, whether it returns or
stops. -/
theorem stat_never_reports_cyclic_link (cleanPath : Bytes → Bytes) (fuel : Nat) (url : Bytes)
    (s : Ftp) :
    Emits (fun e => ∀ msg, e ≠ Event.error KioError.ERR_CYCLIC_LINK msg) s
      (stat cleanPath fuel url s).2 :=
  StepsIn.emits calm_events ((calm_stat cleanPath fuel url).run s)

/-- C26 as stated fails: on a listing of `/pub/loop` that is a symbolic link
`loop -> /pub/loop`, pointing to the URL that is listed, `stat` emits the entry
and `finished`, and no error. -/
theorem stat_self_link_finished :
    (ftpReadDir { exampleCyclic with m_data := some (exampleData
        ["lrwxrwxrwx 1 root root 9 Nov 9 12:30 loop -> /pub/loop\r\n"]) }).1.toOption.join.map
      (fun de => (de.name, de.link)) = some ("loop".toList, "/pub/loop".toList) ∧
    (stat id 9 "/pub/loop".toList exampleCyclic).1 = Except.ok () ∧
    (stat id 9 "/pub/loop".toList exampleCyclic).2.trace =
      [Event.controlSend "cwd /pub/loop\r\n".toList,
       Event.controlReply 550 "550 not a directory\r\n".toList,
       Event.controlSend "cwd /pub\r\n".toList,
       Event.controlReply 250 "250 ok\r\n".toList,
       Event.controlSend "PASV\r\n".toList,
       Event.controlReply 227 "227 (192,0,2,7,6,245)\r\n".toList,
       Event.dataConnect exampleServer 1781,
       Event.controlSend "PBSZ 0\r\n".toList,
       Event.controlReply 200 "200 PBSZ=0\r\n".toList,
       Event.controlSend "PROT P\r\n".toList,
       Event.controlReply 200 "200 PROT P ok\r\n".toList,
       Event.controlSend "PBSZ 0\r\n".toList,
       Event.controlReply 200 "200 PBSZ=0\r\n".toList,
       Event.controlSend "PROT P\r\n".toList,
       Event.controlReply 200 "200 PROT P ok\r\n".toList,
       Event.controlSend "list loop\r\n".toList,
       Event.controlReply 150 "150 Opening\r\n".toList,
       Event.dataEncrypt true,
       Event.statEntry "loop".toList,
       Event.dataClose,
       Event.controlReply 226 "226 done\r\n".toList,
       Event.finished] := by
  refine ⟨by decide!, by decide!, by decide!⟩

end KioFtps
